import Mathlib

/-!
Verification development for the DEX disassembler (baksmali_cpp_pure).

A shallow embedding of the decoder and the smali emitter.  A `std::string` is a list of
characters (one per byte), a pointer into the file image is a function from an index to the
value stored there, and fixed-width machine integers are naturals reduced modulo `2^w`.
-/

set_option maxRecDepth 1000000
set_option maxHeartbeats 4000000

namespace Baksmali

/-- A std::string, one character per byte. -/
abbrev Str := List Char

/-- The double quote character. -/
def ch_dquote : Char := Char.ofNat 34
/-- The single quote character. -/
def ch_squote : Char := Char.ofNat 39
/-- The backslash character. -/
def ch_backslash : Char := Char.ofNat 92
/-- Carriage return. -/
def ch_cr : Char := Char.ofNat 13
/-- Line feed. -/
def ch_lf : Char := Char.ofNat 10
/-- Horizontal tab. -/
def ch_tab : Char := Char.ofNat 9

/-- Decimal text of an unsigned value, as std::to_string and the default stream output give. -/
def to_string (n : Nat) : Str := Nat.toDigits 10 n

/-- Decimal text of a signed value. -/
def to_string_int (i : Int) : Str :=
  if i < 0 then '-' :: Nat.toDigits 10 i.natAbs else Nat.toDigits 10 i.toNat

/-- Text written for an unsigned value after std::hex: lowercase, no prefix, no padding. -/
def hex (n : Nat) : Str := Nat.toDigits 16 n

/-- Value of a uint32_t holding the integer i. -/
def u32 (i : Int) : Nat := (i % 4294967296).toNat

/-- Value of a uint16_t holding the integer i. -/
def u16 (i : Int) : Nat := (i % 65536).toNat

/-- Reading of a byte as int8_t. -/
def int8 (b : Nat) : Int := if b % 256 < 128 then (b % 256 : Nat) else ((b % 256 : Nat) : Int) - 256

/-- Reading of a 16-bit unit as int16_t. -/
def int16 (w : Nat) : Int := if w % 65536 < 32768 then (w % 65536 : Nat) else ((w % 65536 : Nat) : Int) - 65536

/-- Reading of a 32-bit value as int32_t. -/
def int32 (w : Nat) : Int :=
  if w % 4294967296 < 2147483648 then (w % 4294967296 : Nat) else ((w % 4294967296 : Nat) : Int) - 4294967296

/-- Byte stored at index p of a byte image. -/
def read_u8 (m : Nat → Nat) (p : Nat) : Nat := m p % 256

/-- Little-endian uint16_t stored at byte index p. -/
def read_u16 (m : Nat → Nat) (p : Nat) : Nat := read_u8 m p + 256 * read_u8 m (p + 1)

/-- Little-endian uint32_t stored at byte index p. -/
def read_u32 (m : Nat → Nat) (p : Nat) : Nat := read_u16 m p + 65536 * read_u16 m (p + 2)

/-- Modelled from the spec: opcode of nop (dalvik_opcodes.hpp is absent; Dalvik bytecode format). -/
def OP_NOP : Nat := 0x00
/-- Modelled from the spec: opcode of move (dalvik_opcodes.hpp is absent; Dalvik bytecode format). -/
def OP_MOVE : Nat := 0x01
/-- Modelled from the spec: opcode of move/from16 (dalvik_opcodes.hpp is absent; Dalvik bytecode format). -/
def OP_MOVE_FROM16 : Nat := 0x02
/-- Modelled from the spec: opcode of move/16 (dalvik_opcodes.hpp is absent; Dalvik bytecode format). -/
def OP_MOVE_16 : Nat := 0x03
/-- Modelled from the spec: opcode of move-wide (dalvik_opcodes.hpp is absent; Dalvik bytecode format). -/
def OP_MOVE_WIDE : Nat := 0x04
/-- Modelled from the spec: opcode of move-wide/from16 (dalvik_opcodes.hpp is absent; Dalvik bytecode format). -/
def OP_MOVE_WIDE_FROM16 : Nat := 0x05
/-- Modelled from the spec: opcode of move-wide/16 (dalvik_opcodes.hpp is absent; Dalvik bytecode format). -/
def OP_MOVE_WIDE_16 : Nat := 0x06
/-- Modelled from the spec: opcode of move-object (dalvik_opcodes.hpp is absent; Dalvik bytecode format). -/
def OP_MOVE_OBJECT : Nat := 0x07
/-- Modelled from the spec: opcode of move-object/from16 (dalvik_opcodes.hpp is absent; Dalvik bytecode format). -/
def OP_MOVE_OBJECT_FROM16 : Nat := 0x08
/-- Modelled from the spec: opcode of move-object/16 (dalvik_opcodes.hpp is absent; Dalvik bytecode format). -/
def OP_MOVE_OBJECT_16 : Nat := 0x09
/-- Modelled from the spec: opcode of move-result (dalvik_opcodes.hpp is absent; Dalvik bytecode format). -/
def OP_MOVE_RESULT : Nat := 0x0a
/-- Modelled from the spec: opcode of move-result-wide (dalvik_opcodes.hpp is absent; Dalvik bytecode format). -/
def OP_MOVE_RESULT_WIDE : Nat := 0x0b
/-- Modelled from the spec: opcode of move-result-object (dalvik_opcodes.hpp is absent; Dalvik bytecode format). -/
def OP_MOVE_RESULT_OBJECT : Nat := 0x0c
/-- Modelled from the spec: opcode of move-exception (dalvik_opcodes.hpp is absent; Dalvik bytecode format). -/
def OP_MOVE_EXCEPTION : Nat := 0x0d
/-- Modelled from the spec: opcode of return-void (dalvik_opcodes.hpp is absent; Dalvik bytecode format). -/
def OP_RETURN_VOID : Nat := 0x0e
/-- Modelled from the spec: opcode of return (dalvik_opcodes.hpp is absent; Dalvik bytecode format). -/
def OP_RETURN : Nat := 0x0f
/-- Modelled from the spec: opcode of return-wide (dalvik_opcodes.hpp is absent; Dalvik bytecode format). -/
def OP_RETURN_WIDE : Nat := 0x10
/-- Modelled from the spec: opcode of return-object (dalvik_opcodes.hpp is absent; Dalvik bytecode format). -/
def OP_RETURN_OBJECT : Nat := 0x11
/-- Modelled from the spec: opcode of const/4 (dalvik_opcodes.hpp is absent; Dalvik bytecode format). -/
def OP_CONST_4 : Nat := 0x12
/-- Modelled from the spec: opcode of const/16 (dalvik_opcodes.hpp is absent; Dalvik bytecode format). -/
def OP_CONST_16 : Nat := 0x13
/-- Modelled from the spec: opcode of const (dalvik_opcodes.hpp is absent; Dalvik bytecode format). -/
def OP_CONST : Nat := 0x14
/-- Modelled from the spec: opcode of const/high16 (dalvik_opcodes.hpp is absent; Dalvik bytecode format). -/
def OP_CONST_HIGH16 : Nat := 0x15
/-- Modelled from the spec: opcode of const-wide/16 (dalvik_opcodes.hpp is absent; Dalvik bytecode format). -/
def OP_CONST_WIDE_16 : Nat := 0x16
/-- Modelled from the spec: opcode of const-wide/32 (dalvik_opcodes.hpp is absent; Dalvik bytecode format). -/
def OP_CONST_WIDE_32 : Nat := 0x17
/-- Modelled from the spec: opcode of const-wide (dalvik_opcodes.hpp is absent; Dalvik bytecode format). -/
def OP_CONST_WIDE : Nat := 0x18
/-- Modelled from the spec: opcode of const-wide/high16 (dalvik_opcodes.hpp is absent; Dalvik bytecode format). -/
def OP_CONST_WIDE_HIGH16 : Nat := 0x19
/-- Modelled from the spec: opcode of const-string (dalvik_opcodes.hpp is absent; Dalvik bytecode format). -/
def OP_CONST_STRING : Nat := 0x1a
/-- Modelled from the spec: opcode of const-string/jumbo (dalvik_opcodes.hpp is absent; Dalvik bytecode format). -/
def OP_CONST_STRING_JUMBO : Nat := 0x1b
/-- Modelled from the spec: opcode of const-class (dalvik_opcodes.hpp is absent; Dalvik bytecode format). -/
def OP_CONST_CLASS : Nat := 0x1c
/-- Modelled from the spec: opcode of monitor-enter (dalvik_opcodes.hpp is absent; Dalvik bytecode format). -/
def OP_MONITOR_ENTER : Nat := 0x1d
/-- Modelled from the spec: opcode of monitor-exit (dalvik_opcodes.hpp is absent; Dalvik bytecode format). -/
def OP_MONITOR_EXIT : Nat := 0x1e
/-- Modelled from the spec: opcode of check-cast (dalvik_opcodes.hpp is absent; Dalvik bytecode format). -/
def OP_CHECK_CAST : Nat := 0x1f
/-- Modelled from the spec: opcode of instance-of (dalvik_opcodes.hpp is absent; Dalvik bytecode format). -/
def OP_INSTANCE_OF : Nat := 0x20
/-- Modelled from the spec: opcode of array-length (dalvik_opcodes.hpp is absent; Dalvik bytecode format). -/
def OP_ARRAY_LENGTH : Nat := 0x21
/-- Modelled from the spec: opcode of new-instance (dalvik_opcodes.hpp is absent; Dalvik bytecode format). -/
def OP_NEW_INSTANCE : Nat := 0x22
/-- Modelled from the spec: opcode of new-array (dalvik_opcodes.hpp is absent; Dalvik bytecode format). -/
def OP_NEW_ARRAY : Nat := 0x23
/-- Modelled from the spec: opcode of filled-new-array (dalvik_opcodes.hpp is absent; Dalvik bytecode format). -/
def OP_FILLED_NEW_ARRAY : Nat := 0x24
/-- Modelled from the spec: opcode of filled-new-array/range (dalvik_opcodes.hpp is absent; Dalvik bytecode format). -/
def OP_FILLED_NEW_ARRAY_RANGE : Nat := 0x25
/-- Modelled from the spec: opcode of fill-array-data (dalvik_opcodes.hpp is absent; Dalvik bytecode format). -/
def OP_FILL_ARRAY_DATA : Nat := 0x26
/-- Modelled from the spec: opcode of throw (dalvik_opcodes.hpp is absent; Dalvik bytecode format). -/
def OP_THROW : Nat := 0x27
/-- Modelled from the spec: opcode of goto (dalvik_opcodes.hpp is absent; Dalvik bytecode format). -/
def OP_GOTO : Nat := 0x28
/-- Modelled from the spec: opcode of goto/16 (dalvik_opcodes.hpp is absent; Dalvik bytecode format). -/
def OP_GOTO_16 : Nat := 0x29
/-- Modelled from the spec: opcode of goto/32 (dalvik_opcodes.hpp is absent; Dalvik bytecode format). -/
def OP_GOTO_32 : Nat := 0x2a
/-- Modelled from the spec: opcode of packed-switch (dalvik_opcodes.hpp is absent; Dalvik bytecode format). -/
def OP_PACKED_SWITCH : Nat := 0x2b
/-- Modelled from the spec: opcode of sparse-switch (dalvik_opcodes.hpp is absent; Dalvik bytecode format). -/
def OP_SPARSE_SWITCH : Nat := 0x2c
/-- Modelled from the spec: opcode of cmpl-float (dalvik_opcodes.hpp is absent; Dalvik bytecode format). -/
def OP_CMPL_FLOAT : Nat := 0x2d
/-- Modelled from the spec: opcode of cmpg-float (dalvik_opcodes.hpp is absent; Dalvik bytecode format). -/
def OP_CMPG_FLOAT : Nat := 0x2e
/-- Modelled from the spec: opcode of cmpl-double (dalvik_opcodes.hpp is absent; Dalvik bytecode format). -/
def OP_CMPL_DOUBLE : Nat := 0x2f
/-- Modelled from the spec: opcode of cmpg-double (dalvik_opcodes.hpp is absent; Dalvik bytecode format). -/
def OP_CMPG_DOUBLE : Nat := 0x30
/-- Modelled from the spec: opcode of cmp-long (dalvik_opcodes.hpp is absent; Dalvik bytecode format). -/
def OP_CMP_LONG : Nat := 0x31
/-- Modelled from the spec: opcode of if-eq (dalvik_opcodes.hpp is absent; Dalvik bytecode format). -/
def OP_IF_EQ : Nat := 0x32
/-- Modelled from the spec: opcode of if-ne (dalvik_opcodes.hpp is absent; Dalvik bytecode format). -/
def OP_IF_NE : Nat := 0x33
/-- Modelled from the spec: opcode of if-lt (dalvik_opcodes.hpp is absent; Dalvik bytecode format). -/
def OP_IF_LT : Nat := 0x34
/-- Modelled from the spec: opcode of if-ge (dalvik_opcodes.hpp is absent; Dalvik bytecode format). -/
def OP_IF_GE : Nat := 0x35
/-- Modelled from the spec: opcode of if-gt (dalvik_opcodes.hpp is absent; Dalvik bytecode format). -/
def OP_IF_GT : Nat := 0x36
/-- Modelled from the spec: opcode of if-le (dalvik_opcodes.hpp is absent; Dalvik bytecode format). -/
def OP_IF_LE : Nat := 0x37
/-- Modelled from the spec: opcode of if-eqz (dalvik_opcodes.hpp is absent; Dalvik bytecode format). -/
def OP_IF_EQZ : Nat := 0x38
/-- Modelled from the spec: opcode of if-nez (dalvik_opcodes.hpp is absent; Dalvik bytecode format). -/
def OP_IF_NEZ : Nat := 0x39
/-- Modelled from the spec: opcode of if-ltz (dalvik_opcodes.hpp is absent; Dalvik bytecode format). -/
def OP_IF_LTZ : Nat := 0x3a
/-- Modelled from the spec: opcode of if-gez (dalvik_opcodes.hpp is absent; Dalvik bytecode format). -/
def OP_IF_GEZ : Nat := 0x3b
/-- Modelled from the spec: opcode of if-gtz (dalvik_opcodes.hpp is absent; Dalvik bytecode format). -/
def OP_IF_GTZ : Nat := 0x3c
/-- Modelled from the spec: opcode of if-lez (dalvik_opcodes.hpp is absent; Dalvik bytecode format). -/
def OP_IF_LEZ : Nat := 0x3d
/-- Modelled from the spec: opcode of aget (dalvik_opcodes.hpp is absent; Dalvik bytecode format). -/
def OP_AGET : Nat := 0x44
/-- Modelled from the spec: opcode of aget-wide (dalvik_opcodes.hpp is absent; Dalvik bytecode format). -/
def OP_AGET_WIDE : Nat := 0x45
/-- Modelled from the spec: opcode of aget-object (dalvik_opcodes.hpp is absent; Dalvik bytecode format). -/
def OP_AGET_OBJECT : Nat := 0x46
/-- Modelled from the spec: opcode of aget-boolean (dalvik_opcodes.hpp is absent; Dalvik bytecode format). -/
def OP_AGET_BOOLEAN : Nat := 0x47
/-- Modelled from the spec: opcode of aget-byte (dalvik_opcodes.hpp is absent; Dalvik bytecode format). -/
def OP_AGET_BYTE : Nat := 0x48
/-- Modelled from the spec: opcode of aget-char (dalvik_opcodes.hpp is absent; Dalvik bytecode format). -/
def OP_AGET_CHAR : Nat := 0x49
/-- Modelled from the spec: opcode of aget-short (dalvik_opcodes.hpp is absent; Dalvik bytecode format). -/
def OP_AGET_SHORT : Nat := 0x4a
/-- Modelled from the spec: opcode of aput (dalvik_opcodes.hpp is absent; Dalvik bytecode format). -/
def OP_APUT : Nat := 0x4b
/-- Modelled from the spec: opcode of aput-wide (dalvik_opcodes.hpp is absent; Dalvik bytecode format). -/
def OP_APUT_WIDE : Nat := 0x4c
/-- Modelled from the spec: opcode of aput-object (dalvik_opcodes.hpp is absent; Dalvik bytecode format). -/
def OP_APUT_OBJECT : Nat := 0x4d
/-- Modelled from the spec: opcode of aput-boolean (dalvik_opcodes.hpp is absent; Dalvik bytecode format). -/
def OP_APUT_BOOLEAN : Nat := 0x4e
/-- Modelled from the spec: opcode of aput-byte (dalvik_opcodes.hpp is absent; Dalvik bytecode format). -/
def OP_APUT_BYTE : Nat := 0x4f
/-- Modelled from the spec: opcode of aput-char (dalvik_opcodes.hpp is absent; Dalvik bytecode format). -/
def OP_APUT_CHAR : Nat := 0x50
/-- Modelled from the spec: opcode of aput-short (dalvik_opcodes.hpp is absent; Dalvik bytecode format). -/
def OP_APUT_SHORT : Nat := 0x51
/-- Modelled from the spec: opcode of iget (dalvik_opcodes.hpp is absent; Dalvik bytecode format). -/
def OP_IGET : Nat := 0x52
/-- Modelled from the spec: opcode of iget-wide (dalvik_opcodes.hpp is absent; Dalvik bytecode format). -/
def OP_IGET_WIDE : Nat := 0x53
/-- Modelled from the spec: opcode of iget-object (dalvik_opcodes.hpp is absent; Dalvik bytecode format). -/
def OP_IGET_OBJECT : Nat := 0x54
/-- Modelled from the spec: opcode of iget-boolean (dalvik_opcodes.hpp is absent; Dalvik bytecode format). -/
def OP_IGET_BOOLEAN : Nat := 0x55
/-- Modelled from the spec: opcode of iget-byte (dalvik_opcodes.hpp is absent; Dalvik bytecode format). -/
def OP_IGET_BYTE : Nat := 0x56
/-- Modelled from the spec: opcode of iget-char (dalvik_opcodes.hpp is absent; Dalvik bytecode format). -/
def OP_IGET_CHAR : Nat := 0x57
/-- Modelled from the spec: opcode of iget-short (dalvik_opcodes.hpp is absent; Dalvik bytecode format). -/
def OP_IGET_SHORT : Nat := 0x58
/-- Modelled from the spec: opcode of iput (dalvik_opcodes.hpp is absent; Dalvik bytecode format). -/
def OP_IPUT : Nat := 0x59
/-- Modelled from the spec: opcode of iput-wide (dalvik_opcodes.hpp is absent; Dalvik bytecode format). -/
def OP_IPUT_WIDE : Nat := 0x5a
/-- Modelled from the spec: opcode of iput-object (dalvik_opcodes.hpp is absent; Dalvik bytecode format). -/
def OP_IPUT_OBJECT : Nat := 0x5b
/-- Modelled from the spec: opcode of iput-boolean (dalvik_opcodes.hpp is absent; Dalvik bytecode format). -/
def OP_IPUT_BOOLEAN : Nat := 0x5c
/-- Modelled from the spec: opcode of iput-byte (dalvik_opcodes.hpp is absent; Dalvik bytecode format). -/
def OP_IPUT_BYTE : Nat := 0x5d
/-- Modelled from the spec: opcode of iput-char (dalvik_opcodes.hpp is absent; Dalvik bytecode format). -/
def OP_IPUT_CHAR : Nat := 0x5e
/-- Modelled from the spec: opcode of iput-short (dalvik_opcodes.hpp is absent; Dalvik bytecode format). -/
def OP_IPUT_SHORT : Nat := 0x5f
/-- Modelled from the spec: opcode of sget (dalvik_opcodes.hpp is absent; Dalvik bytecode format). -/
def OP_SGET : Nat := 0x60
/-- Modelled from the spec: opcode of sget-wide (dalvik_opcodes.hpp is absent; Dalvik bytecode format). -/
def OP_SGET_WIDE : Nat := 0x61
/-- Modelled from the spec: opcode of sget-object (dalvik_opcodes.hpp is absent; Dalvik bytecode format). -/
def OP_SGET_OBJECT : Nat := 0x62
/-- Modelled from the spec: opcode of sget-boolean (dalvik_opcodes.hpp is absent; Dalvik bytecode format). -/
def OP_SGET_BOOLEAN : Nat := 0x63
/-- Modelled from the spec: opcode of sget-byte (dalvik_opcodes.hpp is absent; Dalvik bytecode format). -/
def OP_SGET_BYTE : Nat := 0x64
/-- Modelled from the spec: opcode of sget-char (dalvik_opcodes.hpp is absent; Dalvik bytecode format). -/
def OP_SGET_CHAR : Nat := 0x65
/-- Modelled from the spec: opcode of sget-short (dalvik_opcodes.hpp is absent; Dalvik bytecode format). -/
def OP_SGET_SHORT : Nat := 0x66
/-- Modelled from the spec: opcode of sput (dalvik_opcodes.hpp is absent; Dalvik bytecode format). -/
def OP_SPUT : Nat := 0x67
/-- Modelled from the spec: opcode of sput-wide (dalvik_opcodes.hpp is absent; Dalvik bytecode format). -/
def OP_SPUT_WIDE : Nat := 0x68
/-- Modelled from the spec: opcode of sput-object (dalvik_opcodes.hpp is absent; Dalvik bytecode format). -/
def OP_SPUT_OBJECT : Nat := 0x69
/-- Modelled from the spec: opcode of sput-boolean (dalvik_opcodes.hpp is absent; Dalvik bytecode format). -/
def OP_SPUT_BOOLEAN : Nat := 0x6a
/-- Modelled from the spec: opcode of sput-byte (dalvik_opcodes.hpp is absent; Dalvik bytecode format). -/
def OP_SPUT_BYTE : Nat := 0x6b
/-- Modelled from the spec: opcode of sput-char (dalvik_opcodes.hpp is absent; Dalvik bytecode format). -/
def OP_SPUT_CHAR : Nat := 0x6c
/-- Modelled from the spec: opcode of sput-short (dalvik_opcodes.hpp is absent; Dalvik bytecode format). -/
def OP_SPUT_SHORT : Nat := 0x6d
/-- Modelled from the spec: opcode of invoke-virtual (dalvik_opcodes.hpp is absent; Dalvik bytecode format). -/
def OP_INVOKE_VIRTUAL : Nat := 0x6e
/-- Modelled from the spec: opcode of invoke-super (dalvik_opcodes.hpp is absent; Dalvik bytecode format). -/
def OP_INVOKE_SUPER : Nat := 0x6f
/-- Modelled from the spec: opcode of invoke-direct (dalvik_opcodes.hpp is absent; Dalvik bytecode format). -/
def OP_INVOKE_DIRECT : Nat := 0x70
/-- Modelled from the spec: opcode of invoke-static (dalvik_opcodes.hpp is absent; Dalvik bytecode format). -/
def OP_INVOKE_STATIC : Nat := 0x71
/-- Modelled from the spec: opcode of invoke-interface (dalvik_opcodes.hpp is absent; Dalvik bytecode format). -/
def OP_INVOKE_INTERFACE : Nat := 0x72
/-- Modelled from the spec: opcode of invoke-virtual/range (dalvik_opcodes.hpp is absent; Dalvik bytecode format). -/
def OP_INVOKE_VIRTUAL_RANGE : Nat := 0x74
/-- Modelled from the spec: opcode of invoke-super/range (dalvik_opcodes.hpp is absent; Dalvik bytecode format). -/
def OP_INVOKE_SUPER_RANGE : Nat := 0x75
/-- Modelled from the spec: opcode of invoke-direct/range (dalvik_opcodes.hpp is absent; Dalvik bytecode format). -/
def OP_INVOKE_DIRECT_RANGE : Nat := 0x76
/-- Modelled from the spec: opcode of invoke-static/range (dalvik_opcodes.hpp is absent; Dalvik bytecode format). -/
def OP_INVOKE_STATIC_RANGE : Nat := 0x77
/-- Modelled from the spec: opcode of invoke-interface/range (dalvik_opcodes.hpp is absent; Dalvik bytecode format). -/
def OP_INVOKE_INTERFACE_RANGE : Nat := 0x78
/-- Modelled from the spec: opcode of neg-int (dalvik_opcodes.hpp is absent; Dalvik bytecode format). -/
def OP_NEG_INT : Nat := 0x7b
/-- Modelled from the spec: opcode of not-int (dalvik_opcodes.hpp is absent; Dalvik bytecode format). -/
def OP_NOT_INT : Nat := 0x7c
/-- Modelled from the spec: opcode of neg-long (dalvik_opcodes.hpp is absent; Dalvik bytecode format). -/
def OP_NEG_LONG : Nat := 0x7d
/-- Modelled from the spec: opcode of not-long (dalvik_opcodes.hpp is absent; Dalvik bytecode format). -/
def OP_NOT_LONG : Nat := 0x7e
/-- Modelled from the spec: opcode of neg-float (dalvik_opcodes.hpp is absent; Dalvik bytecode format). -/
def OP_NEG_FLOAT : Nat := 0x7f
/-- Modelled from the spec: opcode of neg-double (dalvik_opcodes.hpp is absent; Dalvik bytecode format). -/
def OP_NEG_DOUBLE : Nat := 0x80
/-- Modelled from the spec: opcode of int-to-long (dalvik_opcodes.hpp is absent; Dalvik bytecode format). -/
def OP_INT_TO_LONG : Nat := 0x81
/-- Modelled from the spec: opcode of int-to-float (dalvik_opcodes.hpp is absent; Dalvik bytecode format). -/
def OP_INT_TO_FLOAT : Nat := 0x82
/-- Modelled from the spec: opcode of int-to-double (dalvik_opcodes.hpp is absent; Dalvik bytecode format). -/
def OP_INT_TO_DOUBLE : Nat := 0x83
/-- Modelled from the spec: opcode of long-to-int (dalvik_opcodes.hpp is absent; Dalvik bytecode format). -/
def OP_LONG_TO_INT : Nat := 0x84
/-- Modelled from the spec: opcode of long-to-float (dalvik_opcodes.hpp is absent; Dalvik bytecode format). -/
def OP_LONG_TO_FLOAT : Nat := 0x85
/-- Modelled from the spec: opcode of long-to-double (dalvik_opcodes.hpp is absent; Dalvik bytecode format). -/
def OP_LONG_TO_DOUBLE : Nat := 0x86
/-- Modelled from the spec: opcode of float-to-int (dalvik_opcodes.hpp is absent; Dalvik bytecode format). -/
def OP_FLOAT_TO_INT : Nat := 0x87
/-- Modelled from the spec: opcode of float-to-long (dalvik_opcodes.hpp is absent; Dalvik bytecode format). -/
def OP_FLOAT_TO_LONG : Nat := 0x88
/-- Modelled from the spec: opcode of float-to-double (dalvik_opcodes.hpp is absent; Dalvik bytecode format). -/
def OP_FLOAT_TO_DOUBLE : Nat := 0x89
/-- Modelled from the spec: opcode of double-to-int (dalvik_opcodes.hpp is absent; Dalvik bytecode format). -/
def OP_DOUBLE_TO_INT : Nat := 0x8a
/-- Modelled from the spec: opcode of double-to-long (dalvik_opcodes.hpp is absent; Dalvik bytecode format). -/
def OP_DOUBLE_TO_LONG : Nat := 0x8b
/-- Modelled from the spec: opcode of double-to-float (dalvik_opcodes.hpp is absent; Dalvik bytecode format). -/
def OP_DOUBLE_TO_FLOAT : Nat := 0x8c
/-- Modelled from the spec: opcode of int-to-byte (dalvik_opcodes.hpp is absent; Dalvik bytecode format). -/
def OP_INT_TO_BYTE : Nat := 0x8d
/-- Modelled from the spec: opcode of int-to-char (dalvik_opcodes.hpp is absent; Dalvik bytecode format). -/
def OP_INT_TO_CHAR : Nat := 0x8e
/-- Modelled from the spec: opcode of int-to-short (dalvik_opcodes.hpp is absent; Dalvik bytecode format). -/
def OP_INT_TO_SHORT : Nat := 0x8f
/-- Modelled from the spec: opcode of add-int (dalvik_opcodes.hpp is absent; Dalvik bytecode format). -/
def OP_ADD_INT : Nat := 0x90
/-- Modelled from the spec: opcode of sub-int (dalvik_opcodes.hpp is absent; Dalvik bytecode format). -/
def OP_SUB_INT : Nat := 0x91
/-- Modelled from the spec: opcode of mul-int (dalvik_opcodes.hpp is absent; Dalvik bytecode format). -/
def OP_MUL_INT : Nat := 0x92
/-- Modelled from the spec: opcode of div-int (dalvik_opcodes.hpp is absent; Dalvik bytecode format). -/
def OP_DIV_INT : Nat := 0x93
/-- Modelled from the spec: opcode of rem-int (dalvik_opcodes.hpp is absent; Dalvik bytecode format). -/
def OP_REM_INT : Nat := 0x94
/-- Modelled from the spec: opcode of and-int (dalvik_opcodes.hpp is absent; Dalvik bytecode format). -/
def OP_AND_INT : Nat := 0x95
/-- Modelled from the spec: opcode of or-int (dalvik_opcodes.hpp is absent; Dalvik bytecode format). -/
def OP_OR_INT : Nat := 0x96
/-- Modelled from the spec: opcode of xor-int (dalvik_opcodes.hpp is absent; Dalvik bytecode format). -/
def OP_XOR_INT : Nat := 0x97
/-- Modelled from the spec: opcode of shl-int (dalvik_opcodes.hpp is absent; Dalvik bytecode format). -/
def OP_SHL_INT : Nat := 0x98
/-- Modelled from the spec: opcode of shr-int (dalvik_opcodes.hpp is absent; Dalvik bytecode format). -/
def OP_SHR_INT : Nat := 0x99
/-- Modelled from the spec: opcode of ushr-int (dalvik_opcodes.hpp is absent; Dalvik bytecode format). -/
def OP_USHR_INT : Nat := 0x9a
/-- Modelled from the spec: opcode of add-long (dalvik_opcodes.hpp is absent; Dalvik bytecode format). -/
def OP_ADD_LONG : Nat := 0x9b
/-- Modelled from the spec: opcode of sub-long (dalvik_opcodes.hpp is absent; Dalvik bytecode format). -/
def OP_SUB_LONG : Nat := 0x9c
/-- Modelled from the spec: opcode of mul-long (dalvik_opcodes.hpp is absent; Dalvik bytecode format). -/
def OP_MUL_LONG : Nat := 0x9d
/-- Modelled from the spec: opcode of div-long (dalvik_opcodes.hpp is absent; Dalvik bytecode format). -/
def OP_DIV_LONG : Nat := 0x9e
/-- Modelled from the spec: opcode of rem-long (dalvik_opcodes.hpp is absent; Dalvik bytecode format). -/
def OP_REM_LONG : Nat := 0x9f
/-- Modelled from the spec: opcode of and-long (dalvik_opcodes.hpp is absent; Dalvik bytecode format). -/
def OP_AND_LONG : Nat := 0xa0
/-- Modelled from the spec: opcode of or-long (dalvik_opcodes.hpp is absent; Dalvik bytecode format). -/
def OP_OR_LONG : Nat := 0xa1
/-- Modelled from the spec: opcode of xor-long (dalvik_opcodes.hpp is absent; Dalvik bytecode format). -/
def OP_XOR_LONG : Nat := 0xa2
/-- Modelled from the spec: opcode of shl-long (dalvik_opcodes.hpp is absent; Dalvik bytecode format). -/
def OP_SHL_LONG : Nat := 0xa3
/-- Modelled from the spec: opcode of shr-long (dalvik_opcodes.hpp is absent; Dalvik bytecode format). -/
def OP_SHR_LONG : Nat := 0xa4
/-- Modelled from the spec: opcode of ushr-long (dalvik_opcodes.hpp is absent; Dalvik bytecode format). -/
def OP_USHR_LONG : Nat := 0xa5
/-- Modelled from the spec: opcode of add-float (dalvik_opcodes.hpp is absent; Dalvik bytecode format). -/
def OP_ADD_FLOAT : Nat := 0xa6
/-- Modelled from the spec: opcode of sub-float (dalvik_opcodes.hpp is absent; Dalvik bytecode format). -/
def OP_SUB_FLOAT : Nat := 0xa7
/-- Modelled from the spec: opcode of mul-float (dalvik_opcodes.hpp is absent; Dalvik bytecode format). -/
def OP_MUL_FLOAT : Nat := 0xa8
/-- Modelled from the spec: opcode of div-float (dalvik_opcodes.hpp is absent; Dalvik bytecode format). -/
def OP_DIV_FLOAT : Nat := 0xa9
/-- Modelled from the spec: opcode of rem-float (dalvik_opcodes.hpp is absent; Dalvik bytecode format). -/
def OP_REM_FLOAT : Nat := 0xaa
/-- Modelled from the spec: opcode of add-double (dalvik_opcodes.hpp is absent; Dalvik bytecode format). -/
def OP_ADD_DOUBLE : Nat := 0xab
/-- Modelled from the spec: opcode of sub-double (dalvik_opcodes.hpp is absent; Dalvik bytecode format). -/
def OP_SUB_DOUBLE : Nat := 0xac
/-- Modelled from the spec: opcode of mul-double (dalvik_opcodes.hpp is absent; Dalvik bytecode format). -/
def OP_MUL_DOUBLE : Nat := 0xad
/-- Modelled from the spec: opcode of div-double (dalvik_opcodes.hpp is absent; Dalvik bytecode format). -/
def OP_DIV_DOUBLE : Nat := 0xae
/-- Modelled from the spec: opcode of rem-double (dalvik_opcodes.hpp is absent; Dalvik bytecode format). -/
def OP_REM_DOUBLE : Nat := 0xaf
/-- Modelled from the spec: opcode of add-int/2addr (dalvik_opcodes.hpp is absent; Dalvik bytecode format). -/
def OP_ADD_INT_2ADDR : Nat := 0xb0
/-- Modelled from the spec: opcode of sub-int/2addr (dalvik_opcodes.hpp is absent; Dalvik bytecode format). -/
def OP_SUB_INT_2ADDR : Nat := 0xb1
/-- Modelled from the spec: opcode of mul-int/2addr (dalvik_opcodes.hpp is absent; Dalvik bytecode format). -/
def OP_MUL_INT_2ADDR : Nat := 0xb2
/-- Modelled from the spec: opcode of div-int/2addr (dalvik_opcodes.hpp is absent; Dalvik bytecode format). -/
def OP_DIV_INT_2ADDR : Nat := 0xb3
/-- Modelled from the spec: opcode of rem-int/2addr (dalvik_opcodes.hpp is absent; Dalvik bytecode format). -/
def OP_REM_INT_2ADDR : Nat := 0xb4
/-- Modelled from the spec: opcode of and-int/2addr (dalvik_opcodes.hpp is absent; Dalvik bytecode format). -/
def OP_AND_INT_2ADDR : Nat := 0xb5
/-- Modelled from the spec: opcode of or-int/2addr (dalvik_opcodes.hpp is absent; Dalvik bytecode format). -/
def OP_OR_INT_2ADDR : Nat := 0xb6
/-- Modelled from the spec: opcode of xor-int/2addr (dalvik_opcodes.hpp is absent; Dalvik bytecode format). -/
def OP_XOR_INT_2ADDR : Nat := 0xb7
/-- Modelled from the spec: opcode of shl-int/2addr (dalvik_opcodes.hpp is absent; Dalvik bytecode format). -/
def OP_SHL_INT_2ADDR : Nat := 0xb8
/-- Modelled from the spec: opcode of shr-int/2addr (dalvik_opcodes.hpp is absent; Dalvik bytecode format). -/
def OP_SHR_INT_2ADDR : Nat := 0xb9
/-- Modelled from the spec: opcode of ushr-int/2addr (dalvik_opcodes.hpp is absent; Dalvik bytecode format). -/
def OP_USHR_INT_2ADDR : Nat := 0xba
/-- Modelled from the spec: opcode of add-long/2addr (dalvik_opcodes.hpp is absent; Dalvik bytecode format). -/
def OP_ADD_LONG_2ADDR : Nat := 0xbb
/-- Modelled from the spec: opcode of sub-long/2addr (dalvik_opcodes.hpp is absent; Dalvik bytecode format). -/
def OP_SUB_LONG_2ADDR : Nat := 0xbc
/-- Modelled from the spec: opcode of mul-long/2addr (dalvik_opcodes.hpp is absent; Dalvik bytecode format). -/
def OP_MUL_LONG_2ADDR : Nat := 0xbd
/-- Modelled from the spec: opcode of div-long/2addr (dalvik_opcodes.hpp is absent; Dalvik bytecode format). -/
def OP_DIV_LONG_2ADDR : Nat := 0xbe
/-- Modelled from the spec: opcode of rem-long/2addr (dalvik_opcodes.hpp is absent; Dalvik bytecode format). -/
def OP_REM_LONG_2ADDR : Nat := 0xbf
/-- Modelled from the spec: opcode of and-long/2addr (dalvik_opcodes.hpp is absent; Dalvik bytecode format). -/
def OP_AND_LONG_2ADDR : Nat := 0xc0
/-- Modelled from the spec: opcode of or-long/2addr (dalvik_opcodes.hpp is absent; Dalvik bytecode format). -/
def OP_OR_LONG_2ADDR : Nat := 0xc1
/-- Modelled from the spec: opcode of xor-long/2addr (dalvik_opcodes.hpp is absent; Dalvik bytecode format). -/
def OP_XOR_LONG_2ADDR : Nat := 0xc2
/-- Modelled from the spec: opcode of shl-long/2addr (dalvik_opcodes.hpp is absent; Dalvik bytecode format). -/
def OP_SHL_LONG_2ADDR : Nat := 0xc3
/-- Modelled from the spec: opcode of shr-long/2addr (dalvik_opcodes.hpp is absent; Dalvik bytecode format). -/
def OP_SHR_LONG_2ADDR : Nat := 0xc4
/-- Modelled from the spec: opcode of ushr-long/2addr (dalvik_opcodes.hpp is absent; Dalvik bytecode format). -/
def OP_USHR_LONG_2ADDR : Nat := 0xc5
/-- Modelled from the spec: opcode of add-float/2addr (dalvik_opcodes.hpp is absent; Dalvik bytecode format). -/
def OP_ADD_FLOAT_2ADDR : Nat := 0xc6
/-- Modelled from the spec: opcode of sub-float/2addr (dalvik_opcodes.hpp is absent; Dalvik bytecode format). -/
def OP_SUB_FLOAT_2ADDR : Nat := 0xc7
/-- Modelled from the spec: opcode of mul-float/2addr (dalvik_opcodes.hpp is absent; Dalvik bytecode format). -/
def OP_MUL_FLOAT_2ADDR : Nat := 0xc8
/-- Modelled from the spec: opcode of div-float/2addr (dalvik_opcodes.hpp is absent; Dalvik bytecode format). -/
def OP_DIV_FLOAT_2ADDR : Nat := 0xc9
/-- Modelled from the spec: opcode of rem-float/2addr (dalvik_opcodes.hpp is absent; Dalvik bytecode format). -/
def OP_REM_FLOAT_2ADDR : Nat := 0xca
/-- Modelled from the spec: opcode of add-double/2addr (dalvik_opcodes.hpp is absent; Dalvik bytecode format). -/
def OP_ADD_DOUBLE_2ADDR : Nat := 0xcb
/-- Modelled from the spec: opcode of sub-double/2addr (dalvik_opcodes.hpp is absent; Dalvik bytecode format). -/
def OP_SUB_DOUBLE_2ADDR : Nat := 0xcc
/-- Modelled from the spec: opcode of mul-double/2addr (dalvik_opcodes.hpp is absent; Dalvik bytecode format). -/
def OP_MUL_DOUBLE_2ADDR : Nat := 0xcd
/-- Modelled from the spec: opcode of div-double/2addr (dalvik_opcodes.hpp is absent; Dalvik bytecode format). -/
def OP_DIV_DOUBLE_2ADDR : Nat := 0xce
/-- Modelled from the spec: opcode of rem-double/2addr (dalvik_opcodes.hpp is absent; Dalvik bytecode format). -/
def OP_REM_DOUBLE_2ADDR : Nat := 0xcf
/-- Modelled from the spec: opcode of add-int/lit16 (dalvik_opcodes.hpp is absent; Dalvik bytecode format). -/
def OP_ADD_INT_LIT16 : Nat := 0xd0
/-- Modelled from the spec: opcode of rsub-int (dalvik_opcodes.hpp is absent; Dalvik bytecode format). -/
def OP_RSUB_INT : Nat := 0xd1
/-- Modelled from the spec: opcode of mul-int/lit16 (dalvik_opcodes.hpp is absent; Dalvik bytecode format). -/
def OP_MUL_INT_LIT16 : Nat := 0xd2
/-- Modelled from the spec: opcode of div-int/lit16 (dalvik_opcodes.hpp is absent; Dalvik bytecode format). -/
def OP_DIV_INT_LIT16 : Nat := 0xd3
/-- Modelled from the spec: opcode of rem-int/lit16 (dalvik_opcodes.hpp is absent; Dalvik bytecode format). -/
def OP_REM_INT_LIT16 : Nat := 0xd4
/-- Modelled from the spec: opcode of and-int/lit16 (dalvik_opcodes.hpp is absent; Dalvik bytecode format). -/
def OP_AND_INT_LIT16 : Nat := 0xd5
/-- Modelled from the spec: opcode of or-int/lit16 (dalvik_opcodes.hpp is absent; Dalvik bytecode format). -/
def OP_OR_INT_LIT16 : Nat := 0xd6
/-- Modelled from the spec: opcode of xor-int/lit16 (dalvik_opcodes.hpp is absent; Dalvik bytecode format). -/
def OP_XOR_INT_LIT16 : Nat := 0xd7
/-- Modelled from the spec: opcode of add-int/lit8 (dalvik_opcodes.hpp is absent; Dalvik bytecode format). -/
def OP_ADD_INT_LIT8 : Nat := 0xd8
/-- Modelled from the spec: opcode of rsub-int/lit8 (dalvik_opcodes.hpp is absent; Dalvik bytecode format). -/
def OP_RSUB_INT_LIT8 : Nat := 0xd9
/-- Modelled from the spec: opcode of mul-int/lit8 (dalvik_opcodes.hpp is absent; Dalvik bytecode format). -/
def OP_MUL_INT_LIT8 : Nat := 0xda
/-- Modelled from the spec: opcode of div-int/lit8 (dalvik_opcodes.hpp is absent; Dalvik bytecode format). -/
def OP_DIV_INT_LIT8 : Nat := 0xdb
/-- Modelled from the spec: opcode of rem-int/lit8 (dalvik_opcodes.hpp is absent; Dalvik bytecode format). -/
def OP_REM_INT_LIT8 : Nat := 0xdc
/-- Modelled from the spec: opcode of and-int/lit8 (dalvik_opcodes.hpp is absent; Dalvik bytecode format). -/
def OP_AND_INT_LIT8 : Nat := 0xdd
/-- Modelled from the spec: opcode of or-int/lit8 (dalvik_opcodes.hpp is absent; Dalvik bytecode format). -/
def OP_OR_INT_LIT8 : Nat := 0xde
/-- Modelled from the spec: opcode of xor-int/lit8 (dalvik_opcodes.hpp is absent; Dalvik bytecode format). -/
def OP_XOR_INT_LIT8 : Nat := 0xdf
/-- Modelled from the spec: opcode of shl-int/lit8 (dalvik_opcodes.hpp is absent; Dalvik bytecode format). -/
def OP_SHL_INT_LIT8 : Nat := 0xe0
/-- Modelled from the spec: opcode of shr-int/lit8 (dalvik_opcodes.hpp is absent; Dalvik bytecode format). -/
def OP_SHR_INT_LIT8 : Nat := 0xe1
/-- Modelled from the spec: opcode of ushr-int/lit8 (dalvik_opcodes.hpp is absent; Dalvik bytecode format). -/
def OP_USHR_INT_LIT8 : Nat := 0xe2

/-- The table opcode_names_ of dalvik_opcodes.cpp. -/
def opcode_names_ : List (Nat × List Char) := [
  (OP_NOP, "nop".toList), (OP_MOVE, "move".toList), (OP_MOVE_FROM16, "move/from16".toList),
  (OP_MOVE_16, "move/16".toList), (OP_MOVE_WIDE, "move-wide".toList), (OP_MOVE_WIDE_FROM16, "move-wide/from16".toList),
  (OP_MOVE_WIDE_16, "move-wide/16".toList), (OP_MOVE_OBJECT, "move-object".toList), (OP_MOVE_OBJECT_FROM16, "move-object/from16".toList),
  (OP_MOVE_OBJECT_16, "move-object/16".toList), (OP_MOVE_RESULT, "move-result".toList), (OP_MOVE_RESULT_WIDE, "move-result-wide".toList),
  (OP_MOVE_RESULT_OBJECT, "move-result-object".toList), (OP_MOVE_EXCEPTION, "move-exception".toList), (OP_RETURN_VOID, "return-void".toList),
  (OP_RETURN, "return".toList), (OP_RETURN_WIDE, "return-wide".toList), (OP_RETURN_OBJECT, "return-object".toList),
  (OP_CONST_4, "const/4".toList), (OP_CONST_16, "const/16".toList), (OP_CONST, "const".toList),
  (OP_CONST_HIGH16, "const/high16".toList), (OP_CONST_WIDE_16, "const-wide/16".toList), (OP_CONST_WIDE_32, "const-wide/32".toList),
  (OP_CONST_WIDE, "const-wide".toList), (OP_CONST_WIDE_HIGH16, "const-wide/high16".toList), (OP_CONST_STRING, "const-string".toList),
  (OP_CONST_STRING_JUMBO, "const-string/jumbo".toList), (OP_CONST_CLASS, "const-class".toList), (OP_MONITOR_ENTER, "monitor-enter".toList),
  (OP_MONITOR_EXIT, "monitor-exit".toList), (OP_CHECK_CAST, "check-cast".toList), (OP_INSTANCE_OF, "instance-of".toList),
  (OP_ARRAY_LENGTH, "array-length".toList), (OP_NEW_INSTANCE, "new-instance".toList), (OP_NEW_ARRAY, "new-array".toList),
  (OP_FILLED_NEW_ARRAY, "filled-new-array".toList), (OP_FILLED_NEW_ARRAY_RANGE, "filled-new-array/range".toList), (OP_FILL_ARRAY_DATA, "fill-array-data".toList),
  (OP_THROW, "throw".toList), (OP_GOTO, "goto".toList), (OP_GOTO_16, "goto/16".toList),
  (OP_GOTO_32, "goto/32".toList), (OP_PACKED_SWITCH, "packed-switch".toList), (OP_SPARSE_SWITCH, "sparse-switch".toList),
  (OP_CMPL_FLOAT, "cmpl-float".toList), (OP_CMPG_FLOAT, "cmpg-float".toList), (OP_CMPL_DOUBLE, "cmpl-double".toList),
  (OP_CMPG_DOUBLE, "cmpg-double".toList), (OP_CMP_LONG, "cmp-long".toList), (OP_IF_EQ, "if-eq".toList),
  (OP_IF_NE, "if-ne".toList), (OP_IF_LT, "if-lt".toList), (OP_IF_GE, "if-ge".toList),
  (OP_IF_GT, "if-gt".toList), (OP_IF_LE, "if-le".toList), (OP_IF_EQZ, "if-eqz".toList),
  (OP_IF_NEZ, "if-nez".toList), (OP_IF_LTZ, "if-ltz".toList), (OP_IF_GEZ, "if-gez".toList),
  (OP_IF_GTZ, "if-gtz".toList), (OP_IF_LEZ, "if-lez".toList), (OP_AGET, "aget".toList),
  (OP_AGET_WIDE, "aget-wide".toList), (OP_AGET_OBJECT, "aget-object".toList), (OP_AGET_BOOLEAN, "aget-boolean".toList),
  (OP_AGET_BYTE, "aget-byte".toList), (OP_AGET_CHAR, "aget-char".toList), (OP_AGET_SHORT, "aget-short".toList),
  (OP_APUT, "aput".toList), (OP_APUT_WIDE, "aput-wide".toList), (OP_APUT_OBJECT, "aput-object".toList),
  (OP_APUT_BOOLEAN, "aput-boolean".toList), (OP_APUT_BYTE, "aput-byte".toList), (OP_APUT_CHAR, "aput-char".toList),
  (OP_APUT_SHORT, "aput-short".toList), (OP_IGET, "iget".toList), (OP_IGET_WIDE, "iget-wide".toList),
  (OP_IGET_OBJECT, "iget-object".toList), (OP_IGET_BOOLEAN, "iget-boolean".toList), (OP_IGET_BYTE, "iget-byte".toList),
  (OP_IGET_CHAR, "iget-char".toList), (OP_IGET_SHORT, "iget-short".toList), (OP_IPUT, "iput".toList),
  (OP_IPUT_WIDE, "iput-wide".toList), (OP_IPUT_OBJECT, "iput-object".toList), (OP_IPUT_BOOLEAN, "iput-boolean".toList),
  (OP_IPUT_BYTE, "iput-byte".toList), (OP_IPUT_CHAR, "iput-char".toList), (OP_IPUT_SHORT, "iput-short".toList),
  (OP_SGET, "sget".toList), (OP_SGET_WIDE, "sget-wide".toList), (OP_SGET_OBJECT, "sget-object".toList),
  (OP_SGET_BOOLEAN, "sget-boolean".toList), (OP_SGET_BYTE, "sget-byte".toList), (OP_SGET_CHAR, "sget-char".toList),
  (OP_SGET_SHORT, "sget-short".toList), (OP_SPUT, "sput".toList), (OP_SPUT_WIDE, "sput-wide".toList),
  (OP_SPUT_OBJECT, "sput-object".toList), (OP_SPUT_BOOLEAN, "sput-boolean".toList), (OP_SPUT_BYTE, "sput-byte".toList),
  (OP_SPUT_CHAR, "sput-char".toList), (OP_SPUT_SHORT, "sput-short".toList), (OP_INVOKE_VIRTUAL, "invoke-virtual".toList),
  (OP_INVOKE_SUPER, "invoke-super".toList), (OP_INVOKE_DIRECT, "invoke-direct".toList), (OP_INVOKE_STATIC, "invoke-static".toList),
  (OP_INVOKE_INTERFACE, "invoke-interface".toList), (OP_INVOKE_VIRTUAL_RANGE, "invoke-virtual/range".toList), (OP_INVOKE_SUPER_RANGE, "invoke-super/range".toList),
  (OP_INVOKE_DIRECT_RANGE, "invoke-direct/range".toList), (OP_INVOKE_STATIC_RANGE, "invoke-static/range".toList), (OP_INVOKE_INTERFACE_RANGE, "invoke-interface/range".toList),
  (OP_NEG_INT, "neg-int".toList), (OP_NOT_INT, "not-int".toList), (OP_NEG_LONG, "neg-long".toList),
  (OP_NOT_LONG, "not-long".toList), (OP_NEG_FLOAT, "neg-float".toList), (OP_NEG_DOUBLE, "neg-double".toList),
  (OP_INT_TO_LONG, "int-to-long".toList), (OP_INT_TO_FLOAT, "int-to-float".toList), (OP_INT_TO_DOUBLE, "int-to-double".toList),
  (OP_LONG_TO_INT, "long-to-int".toList), (OP_LONG_TO_FLOAT, "long-to-float".toList), (OP_LONG_TO_DOUBLE, "long-to-double".toList),
  (OP_FLOAT_TO_INT, "float-to-int".toList), (OP_FLOAT_TO_LONG, "float-to-long".toList), (OP_FLOAT_TO_DOUBLE, "float-to-double".toList),
  (OP_DOUBLE_TO_INT, "double-to-int".toList), (OP_DOUBLE_TO_LONG, "double-to-long".toList), (OP_DOUBLE_TO_FLOAT, "double-to-float".toList),
  (OP_INT_TO_BYTE, "int-to-byte".toList), (OP_INT_TO_CHAR, "int-to-char".toList), (OP_INT_TO_SHORT, "int-to-short".toList),
  (OP_ADD_INT, "add-int".toList), (OP_SUB_INT, "sub-int".toList), (OP_MUL_INT, "mul-int".toList),
  (OP_DIV_INT, "div-int".toList), (OP_REM_INT, "rem-int".toList), (OP_AND_INT, "and-int".toList),
  (OP_OR_INT, "or-int".toList), (OP_XOR_INT, "xor-int".toList), (OP_SHL_INT, "shl-int".toList),
  (OP_SHR_INT, "shr-int".toList), (OP_USHR_INT, "ushr-int".toList), (OP_ADD_LONG, "add-long".toList),
  (OP_SUB_LONG, "sub-long".toList), (OP_MUL_LONG, "mul-long".toList), (OP_DIV_LONG, "div-long".toList),
  (OP_REM_LONG, "rem-long".toList), (OP_AND_LONG, "and-long".toList), (OP_OR_LONG, "or-long".toList),
  (OP_XOR_LONG, "xor-long".toList), (OP_SHL_LONG, "shl-long".toList), (OP_SHR_LONG, "shr-long".toList),
  (OP_USHR_LONG, "ushr-long".toList), (OP_ADD_FLOAT, "add-float".toList), (OP_SUB_FLOAT, "sub-float".toList),
  (OP_MUL_FLOAT, "mul-float".toList), (OP_DIV_FLOAT, "div-float".toList), (OP_REM_FLOAT, "rem-float".toList),
  (OP_ADD_DOUBLE, "add-double".toList), (OP_SUB_DOUBLE, "sub-double".toList), (OP_MUL_DOUBLE, "mul-double".toList),
  (OP_DIV_DOUBLE, "div-double".toList), (OP_REM_DOUBLE, "rem-double".toList), (OP_ADD_INT_2ADDR, "add-int/2addr".toList),
  (OP_SUB_INT_2ADDR, "sub-int/2addr".toList), (OP_MUL_INT_2ADDR, "mul-int/2addr".toList), (OP_DIV_INT_2ADDR, "div-int/2addr".toList),
  (OP_REM_INT_2ADDR, "rem-int/2addr".toList), (OP_AND_INT_2ADDR, "and-int/2addr".toList), (OP_OR_INT_2ADDR, "or-int/2addr".toList),
  (OP_XOR_INT_2ADDR, "xor-int/2addr".toList), (OP_SHL_INT_2ADDR, "shl-int/2addr".toList), (OP_SHR_INT_2ADDR, "shr-int/2addr".toList),
  (OP_USHR_INT_2ADDR, "ushr-int/2addr".toList), (OP_ADD_LONG_2ADDR, "add-long/2addr".toList), (OP_SUB_LONG_2ADDR, "sub-long/2addr".toList),
  (OP_MUL_LONG_2ADDR, "mul-long/2addr".toList), (OP_DIV_LONG_2ADDR, "div-long/2addr".toList), (OP_REM_LONG_2ADDR, "rem-long/2addr".toList),
  (OP_AND_LONG_2ADDR, "and-long/2addr".toList), (OP_OR_LONG_2ADDR, "or-long/2addr".toList), (OP_XOR_LONG_2ADDR, "xor-long/2addr".toList),
  (OP_SHL_LONG_2ADDR, "shl-long/2addr".toList), (OP_SHR_LONG_2ADDR, "shr-long/2addr".toList), (OP_USHR_LONG_2ADDR, "ushr-long/2addr".toList),
  (OP_ADD_FLOAT_2ADDR, "add-float/2addr".toList), (OP_SUB_FLOAT_2ADDR, "sub-float/2addr".toList), (OP_MUL_FLOAT_2ADDR, "mul-float/2addr".toList),
  (OP_DIV_FLOAT_2ADDR, "div-float/2addr".toList), (OP_REM_FLOAT_2ADDR, "rem-float/2addr".toList), (OP_ADD_DOUBLE_2ADDR, "add-double/2addr".toList),
  (OP_SUB_DOUBLE_2ADDR, "sub-double/2addr".toList), (OP_MUL_DOUBLE_2ADDR, "mul-double/2addr".toList), (OP_DIV_DOUBLE_2ADDR, "div-double/2addr".toList),
  (OP_REM_DOUBLE_2ADDR, "rem-double/2addr".toList), (OP_ADD_INT_LIT16, "add-int/lit16".toList), (OP_RSUB_INT, "rsub-int".toList),
  (OP_MUL_INT_LIT16, "mul-int/lit16".toList), (OP_DIV_INT_LIT16, "div-int/lit16".toList), (OP_REM_INT_LIT16, "rem-int/lit16".toList),
  (OP_AND_INT_LIT16, "and-int/lit16".toList), (OP_OR_INT_LIT16, "or-int/lit16".toList), (OP_XOR_INT_LIT16, "xor-int/lit16".toList),
  (OP_ADD_INT_LIT8, "add-int/lit8".toList), (OP_RSUB_INT_LIT8, "rsub-int/lit8".toList), (OP_MUL_INT_LIT8, "mul-int/lit8".toList),
  (OP_DIV_INT_LIT8, "div-int/lit8".toList), (OP_REM_INT_LIT8, "rem-int/lit8".toList), (OP_AND_INT_LIT8, "and-int/lit8".toList),
  (OP_OR_INT_LIT8, "or-int/lit8".toList), (OP_XOR_INT_LIT8, "xor-int/lit8".toList), (OP_SHL_INT_LIT8, "shl-int/lit8".toList),
  (OP_SHR_INT_LIT8, "shr-int/lit8".toList), (OP_USHR_INT_LIT8, "ushr-int/lit8".toList)]

/-- The table instruction_widths_ of dalvik_opcodes.cpp. -/
def instruction_widths_ : List (Nat × Nat) := [
  (OP_NOP, 1), (OP_MOVE, 1), (OP_MOVE_FROM16, 2), (OP_MOVE_16, 3),
  (OP_MOVE_WIDE, 1), (OP_MOVE_WIDE_FROM16, 2), (OP_MOVE_WIDE_16, 3), (OP_MOVE_OBJECT, 1),
  (OP_MOVE_OBJECT_FROM16, 2), (OP_MOVE_OBJECT_16, 3), (OP_MOVE_RESULT, 1), (OP_MOVE_RESULT_WIDE, 1),
  (OP_MOVE_RESULT_OBJECT, 1), (OP_MOVE_EXCEPTION, 1), (OP_RETURN_VOID, 1), (OP_RETURN, 1),
  (OP_RETURN_WIDE, 1), (OP_RETURN_OBJECT, 1), (OP_CONST_4, 1), (OP_CONST_16, 2),
  (OP_CONST, 3), (OP_CONST_HIGH16, 2), (OP_CONST_WIDE_16, 2), (OP_CONST_WIDE_32, 3),
  (OP_CONST_WIDE, 5), (OP_CONST_WIDE_HIGH16, 2), (OP_CONST_STRING, 2), (OP_CONST_STRING_JUMBO, 3),
  (OP_CONST_CLASS, 2), (OP_MONITOR_ENTER, 1), (OP_MONITOR_EXIT, 1), (OP_CHECK_CAST, 2),
  (OP_INSTANCE_OF, 2), (OP_ARRAY_LENGTH, 1), (OP_NEW_INSTANCE, 2), (OP_NEW_ARRAY, 2),
  (OP_FILLED_NEW_ARRAY, 3), (OP_FILLED_NEW_ARRAY_RANGE, 3), (OP_FILL_ARRAY_DATA, 3), (OP_THROW, 1),
  (OP_GOTO, 1), (OP_GOTO_16, 2), (OP_GOTO_32, 3), (OP_PACKED_SWITCH, 3),
  (OP_SPARSE_SWITCH, 3), (OP_CMPL_FLOAT, 2), (OP_CMPG_FLOAT, 2), (OP_CMPL_DOUBLE, 2),
  (OP_CMPG_DOUBLE, 2), (OP_CMP_LONG, 2), (OP_IF_EQ, 2), (OP_IF_NE, 2),
  (OP_IF_LT, 2), (OP_IF_GE, 2), (OP_IF_GT, 2), (OP_IF_LE, 2),
  (OP_IF_EQZ, 2), (OP_IF_NEZ, 2), (OP_IF_LTZ, 2), (OP_IF_GEZ, 2),
  (OP_IF_GTZ, 2), (OP_IF_LEZ, 2), (OP_AGET, 2), (OP_AGET_WIDE, 2),
  (OP_AGET_OBJECT, 2), (OP_AGET_BOOLEAN, 2), (OP_AGET_BYTE, 2), (OP_AGET_CHAR, 2),
  (OP_AGET_SHORT, 2), (OP_APUT, 2), (OP_APUT_WIDE, 2), (OP_APUT_OBJECT, 2),
  (OP_APUT_BOOLEAN, 2), (OP_APUT_BYTE, 2), (OP_APUT_CHAR, 2), (OP_APUT_SHORT, 2),
  (OP_IGET, 2), (OP_IGET_WIDE, 2), (OP_IGET_OBJECT, 2), (OP_IGET_BOOLEAN, 2),
  (OP_IGET_BYTE, 2), (OP_IGET_CHAR, 2), (OP_IGET_SHORT, 2), (OP_IPUT, 2),
  (OP_IPUT_WIDE, 2), (OP_IPUT_OBJECT, 2), (OP_IPUT_BOOLEAN, 2), (OP_IPUT_BYTE, 2),
  (OP_IPUT_CHAR, 2), (OP_IPUT_SHORT, 2), (OP_SGET, 2), (OP_SGET_WIDE, 2),
  (OP_SGET_OBJECT, 2), (OP_SGET_BOOLEAN, 2), (OP_SGET_BYTE, 2), (OP_SGET_CHAR, 2),
  (OP_SGET_SHORT, 2), (OP_SPUT, 2), (OP_SPUT_WIDE, 2), (OP_SPUT_OBJECT, 2),
  (OP_SPUT_BOOLEAN, 2), (OP_SPUT_BYTE, 2), (OP_SPUT_CHAR, 2), (OP_SPUT_SHORT, 2),
  (OP_INVOKE_VIRTUAL, 3), (OP_INVOKE_SUPER, 3), (OP_INVOKE_DIRECT, 3), (OP_INVOKE_STATIC, 3),
  (OP_INVOKE_INTERFACE, 3), (OP_INVOKE_VIRTUAL_RANGE, 3), (OP_INVOKE_SUPER_RANGE, 3), (OP_INVOKE_DIRECT_RANGE, 3),
  (OP_INVOKE_STATIC_RANGE, 3), (OP_INVOKE_INTERFACE_RANGE, 3), (OP_NEG_INT, 1), (OP_NOT_INT, 1),
  (OP_NEG_LONG, 1), (OP_NOT_LONG, 1), (OP_NEG_FLOAT, 1), (OP_NEG_DOUBLE, 1),
  (OP_INT_TO_LONG, 1), (OP_INT_TO_FLOAT, 1), (OP_INT_TO_DOUBLE, 1), (OP_LONG_TO_INT, 1),
  (OP_LONG_TO_FLOAT, 1), (OP_LONG_TO_DOUBLE, 1), (OP_FLOAT_TO_INT, 1), (OP_FLOAT_TO_LONG, 1),
  (OP_FLOAT_TO_DOUBLE, 1), (OP_DOUBLE_TO_INT, 1), (OP_DOUBLE_TO_LONG, 1), (OP_DOUBLE_TO_FLOAT, 1),
  (OP_INT_TO_BYTE, 1), (OP_INT_TO_CHAR, 1), (OP_INT_TO_SHORT, 1), (OP_ADD_INT, 2),
  (OP_SUB_INT, 2), (OP_MUL_INT, 2), (OP_DIV_INT, 2), (OP_REM_INT, 2),
  (OP_AND_INT, 2), (OP_OR_INT, 2), (OP_XOR_INT, 2), (OP_SHL_INT, 2),
  (OP_SHR_INT, 2), (OP_USHR_INT, 2), (OP_ADD_LONG, 2), (OP_SUB_LONG, 2),
  (OP_MUL_LONG, 2), (OP_DIV_LONG, 2), (OP_REM_LONG, 2), (OP_AND_LONG, 2),
  (OP_OR_LONG, 2), (OP_XOR_LONG, 2), (OP_SHL_LONG, 2), (OP_SHR_LONG, 2),
  (OP_USHR_LONG, 2), (OP_ADD_FLOAT, 2), (OP_SUB_FLOAT, 2), (OP_MUL_FLOAT, 2),
  (OP_DIV_FLOAT, 2), (OP_REM_FLOAT, 2), (OP_ADD_DOUBLE, 2), (OP_SUB_DOUBLE, 2),
  (OP_MUL_DOUBLE, 2), (OP_DIV_DOUBLE, 2), (OP_REM_DOUBLE, 2), (OP_ADD_INT_2ADDR, 1),
  (OP_SUB_INT_2ADDR, 1), (OP_MUL_INT_2ADDR, 1), (OP_DIV_INT_2ADDR, 1), (OP_REM_INT_2ADDR, 1),
  (OP_AND_INT_2ADDR, 1), (OP_OR_INT_2ADDR, 1), (OP_XOR_INT_2ADDR, 1), (OP_SHL_INT_2ADDR, 1),
  (OP_SHR_INT_2ADDR, 1), (OP_USHR_INT_2ADDR, 1), (OP_ADD_LONG_2ADDR, 1), (OP_SUB_LONG_2ADDR, 1),
  (OP_MUL_LONG_2ADDR, 1), (OP_DIV_LONG_2ADDR, 1), (OP_REM_LONG_2ADDR, 1), (OP_AND_LONG_2ADDR, 1),
  (OP_OR_LONG_2ADDR, 1), (OP_XOR_LONG_2ADDR, 1), (OP_SHL_LONG_2ADDR, 1), (OP_SHR_LONG_2ADDR, 1),
  (OP_USHR_LONG_2ADDR, 1), (OP_ADD_FLOAT_2ADDR, 1), (OP_SUB_FLOAT_2ADDR, 1), (OP_MUL_FLOAT_2ADDR, 1),
  (OP_DIV_FLOAT_2ADDR, 1), (OP_REM_FLOAT_2ADDR, 1), (OP_ADD_DOUBLE_2ADDR, 1), (OP_SUB_DOUBLE_2ADDR, 1),
  (OP_MUL_DOUBLE_2ADDR, 1), (OP_DIV_DOUBLE_2ADDR, 1), (OP_REM_DOUBLE_2ADDR, 1), (OP_ADD_INT_LIT16, 2),
  (OP_RSUB_INT, 2), (OP_MUL_INT_LIT16, 2), (OP_DIV_INT_LIT16, 2), (OP_REM_INT_LIT16, 2),
  (OP_AND_INT_LIT16, 2), (OP_OR_INT_LIT16, 2), (OP_XOR_INT_LIT16, 2), (OP_ADD_INT_LIT8, 2),
  (OP_RSUB_INT_LIT8, 2), (OP_MUL_INT_LIT8, 2), (OP_DIV_INT_LIT8, 2), (OP_REM_INT_LIT8, 2),
  (OP_AND_INT_LIT8, 2), (OP_OR_INT_LIT8, 2), (OP_XOR_INT_LIT8, 2), (OP_SHL_INT_LIT8, 2),
  (OP_SHR_INT_LIT8, 2), (OP_USHR_INT_LIT8, 2)]

/-- The fixed header of a DEX file (struct DexHeader). -/
structure DexHeader where
  magic : List Nat
  checksum : Nat
  signature : List Nat
  file_size : Nat
  header_size : Nat
  endian_tag : Nat
  link_size : Nat
  link_off : Nat
  map_off : Nat
  string_ids_size : Nat
  string_ids_off : Nat
  type_ids_size : Nat
  type_ids_off : Nat
  proto_ids_size : Nat
  proto_ids_off : Nat
  field_ids_size : Nat
  field_ids_off : Nat
  method_ids_size : Nat
  method_ids_off : Nat
  class_defs_size : Nat
  class_defs_off : Nat
  data_size : Nat
  data_off : Nat

/-- The state of class DexFile that decoding and rendering use: the file image `file_data_`
(byte at each index, `file_data_size` bytes long), the header and the decoded pools. -/
structure DexFile where
  file_data_ : Nat → Nat
  file_data_size : Nat
  header_ : DexHeader
  strings_ : List Str
  type_names_ : List Str
  method_names_ : List Str
  field_names_ : List Str
  proto_signatures_ : List Str

/-- DexFile::get_string. -/
def get_string (dex : DexFile) (string_idx : Nat) : Str :=
  if string_idx ≥ dex.strings_.length then [] else dex.strings_.getD string_idx []

/-- DexFile::get_type_name. -/
def get_type_name (dex : DexFile) (type_idx : Nat) : Str :=
  if type_idx ≥ dex.type_names_.length then [] else dex.type_names_.getD type_idx []

/-- DexFile::get_method_reference: class, `->`, name and proto signature of a method id
(class_idx and proto_idx are uint16_t at bytes 0 and 2, name_idx a uint32_t at byte 4). -/
def get_method_reference (dex : DexFile) (method_idx : Nat) : Str :=
  if method_idx ≥ dex.header_.method_ids_size then []
  else
    let method_data := dex.header_.method_ids_off + method_idx * 8
    let class_idx := read_u16 dex.file_data_ method_data
    let proto_idx := read_u16 dex.file_data_ (method_data + 2)
    let name_idx := read_u32 dex.file_data_ (method_data + 4)
    (if class_idx < dex.type_names_.length then dex.type_names_.getD class_idx [] else [])
      ++ "->".toList
      ++ (if name_idx < dex.strings_.length then dex.strings_.getD name_idx [] else [])
      ++ (if proto_idx < dex.proto_signatures_.length then dex.proto_signatures_.getD proto_idx [] else [])

/-- DexFile::get_field_reference: class, `->`, name, `:` and type of a field id
(class_idx and type_idx are uint16_t at bytes 0 and 2, name_idx a uint32_t at byte 4). -/
def get_field_reference (dex : DexFile) (field_idx : Nat) : Str :=
  if field_idx ≥ dex.header_.field_ids_size then []
  else
    let field_data := dex.header_.field_ids_off + field_idx * 8
    let class_idx := read_u16 dex.file_data_ field_data
    let type_idx := read_u16 dex.file_data_ (field_data + 2)
    let name_idx := read_u32 dex.file_data_ (field_data + 4)
    (if class_idx < dex.type_names_.length then dex.type_names_.getD class_idx [] else [])
      ++ "->".toList
      ++ (if name_idx < dex.strings_.length then dex.strings_.getD name_idx [] else [])
      ++ ":".toList
      ++ (if type_idx < dex.type_names_.length then dex.type_names_.getD type_idx [] else [])

/-- The test of the escaping loops for a hexadecimal digit. -/
def is_hex_digit (c : Char) : Bool :=
  (decide ('0' ≤ c) && decide (c ≤ '9')) || (decide ('a' ≤ c) && decide (c ≤ 'f')) ||
    (decide ('A' ≤ c) && decide (c ≤ 'F'))

/-- The test `str[i + 1] == 'u' && i + 5 < str.size()` followed by the check of the four
characters `str[i + 2 .. i + 5]`, on the characters `rest` that follow index i. -/
def is_unicode_escape (rest : Str) : Bool :=
  decide (rest.head? = some 'u') && decide (5 ≤ rest.length) && ((rest.drop 1).take 4).all is_hex_digit

/-- The loop of escape_string_for_smali in dalvik_opcodes.cpp, on the characters from index i on.
Every iteration consumes at least one character, so `fuel` at least the number of characters
left is enough.  The switch has the cases double quote, single quote and backslash only: the
tab case sits inside the line comment that follows the backslash case. -/
def escape_string_for_smali_loop : Nat → Str → Str
  | 0, _ => []
  | _ + 1, [] => []
  | fuel + 1, c :: rest =>
    if c = ch_cr then
      if rest.head? = some ch_lf then
        [ch_backslash, 'r', ch_backslash, 'n'] ++ escape_string_for_smali_loop fuel (rest.drop 1)
      else [ch_backslash, 'r'] ++ escape_string_for_smali_loop fuel rest
    else if c = ch_lf then [ch_backslash, 'n'] ++ escape_string_for_smali_loop fuel rest
    else if c = ch_backslash ∧ is_unicode_escape rest = true then
      [ch_backslash, 'u'] ++ (rest.drop 1).take 4 ++ escape_string_for_smali_loop fuel (rest.drop 5)
    else if c = ch_dquote then [ch_backslash, ch_dquote] ++ escape_string_for_smali_loop fuel rest
    else if c = ch_squote then [ch_backslash, ch_squote] ++ escape_string_for_smali_loop fuel rest
    else if c = ch_backslash then [ch_backslash, ch_backslash] ++ escape_string_for_smali_loop fuel rest
    else c :: escape_string_for_smali_loop fuel rest

/-- The static escape_string_for_smali of dalvik_opcodes.cpp. -/
def escape_string_for_smali (str : Str) : Str := escape_string_for_smali_loop str.length str

/-- DalvikInstructionParser::get_opcode_name. -/
def get_opcode_name (opcode : Nat) : Str :=
  match opcode_names_.lookup opcode with
  | some name => name
  | none => "unknown-".toList ++ hex opcode

/-- DalvikInstructionParser::get_instruction_width. -/
def get_instruction_width (opcode : Nat) : Nat :=
  match instruction_widths_.lookup opcode with
  | some w => w
  | none => 1

/-- Register of argument slot i of a 35c invoke: nibbles C, D, E, F of unit 2, then G. -/
def invoke_arg_reg (args vG i : Nat) : Nat :=
  if i = 0 then args &&& 0xF
  else if i = 1 then (args >>> 4) &&& 0xF
  else if i = 2 then (args >>> 8) &&& 0xF
  else if i = 3 then (args >>> 12) &&& 0xF
  else if i = 4 then vG
  else 0

/-- The argument loops of the invoke cases: `count` slots separated by `, `. -/
def invoke_args (count : Nat) (slot : Nat → Str) : Str :=
  ((List.range count).map (fun i => (if i > 0 then ", ".toList else []) ++ slot i)).flatten

/-- Text `vA, vB` of the two register nibbles in the high byte of unit 0 (format 12x). -/
def regs_12x (insn0 : Nat) : Str :=
  " v".toList ++ to_string ((insn0 >>> 8) &&& 0xF) ++ ", v".toList ++ to_string ((insn0 >>> 12) &&& 0xF)

/-- Text `vAA, vBB, vCC` of format 23x. -/
def regs_23x (insn0 insn1 : Nat) : Str :=
  " v".toList ++ to_string ((insn0 >>> 8) &&& 0xFF) ++ ", v".toList ++ to_string (insn1 &&& 0xFF) ++
    ", v".toList ++ to_string ((insn1 >>> 8) &&& 0xFF)

/-- DalvikInstructionParser::format_instruction; `insn` is the pointer to the first code unit of
the instruction (`insn i` is the unit i places further) and `address` the value the caller
passes as the address. -/
def format_instruction (dex : DexFile) (insn : Nat → Nat) (address : Nat) : Str :=
  let insn0 := insn 0 % 65536
  let insn1 := insn 1 % 65536
  let insn2 := insn 2 % 65536
  let opcode := insn0 &&& 0xFF
  let vAA := (insn0 >>> 8) &&& 0xFF
  let wide := insn1 ||| (insn2 <<< 16)
  get_opcode_name opcode ++
  (if opcode = OP_CONST_STRING then
    " v".toList ++ to_string vAA ++ ", ".toList ++ [ch_dquote] ++
      escape_string_for_smali (get_string dex insn1) ++ [ch_dquote]
  else if opcode = OP_NEW_INSTANCE ∨ opcode = OP_CHECK_CAST then
    " v".toList ++ to_string vAA ++ ", ".toList ++ get_type_name dex insn1
  else if opcode ∈ [OP_INVOKE_DIRECT, OP_INVOKE_VIRTUAL, OP_INVOKE_SUPER, OP_INVOKE_STATIC,
      OP_INVOKE_INTERFACE] then
    let count := (insn0 >>> 12) &&& 0x0F
    let vG := (insn0 >>> 8) &&& 0x0F
    " \x7b".toList ++ invoke_args count (fun i => 'v' :: to_string (invoke_arg_reg insn2 vG i)) ++
      "\x7d, ".toList ++ get_method_reference dex insn1
  else if opcode = OP_MOVE ∨ opcode = OP_MOVE_OBJECT then regs_12x insn0
  else if opcode ∈ [OP_MOVE_RESULT, OP_MOVE_RESULT_WIDE, OP_MOVE_RESULT_OBJECT, OP_MOVE_EXCEPTION,
      OP_THROW] then
    " v".toList ++ to_string vAA
  else if opcode = OP_NOP then []
  else if opcode = OP_FILL_ARRAY_DATA then
    " v".toList ++ to_string vAA ++ ", :array_".toList ++ hex (u32 ((address : Int) + int16 insn1))
  else if opcode = OP_RETURN_VOID then []
  else if opcode ∈ [OP_RETURN, OP_RETURN_WIDE, OP_RETURN_OBJECT] then " v".toList ++ to_string vAA
  else if opcode = OP_CONST_4 then
    let nibble := (insn0 >>> 12) &&& 0xF
    let literal : Int := if nibble &&& 0x8 ≠ 0 then int8 (nibble ||| 0xF0) else int8 nibble
    " v".toList ++ to_string ((insn0 >>> 8) &&& 0xF) ++ ", 0x".toList ++ hex (u32 literal)
  else if opcode = OP_CONST_16 then
    " v".toList ++ to_string vAA ++ ", 0x".toList ++ hex (u16 (int16 insn1))
  else if opcode = OP_CONST then
    " v".toList ++ to_string vAA ++ ", 0x".toList ++ hex (u32 (int32 wide))
  else if opcode = OP_CONST_HIGH16 then
    " v".toList ++ to_string vAA ++ ", 0x".toList ++ hex (u32 ((insn1 : Int) * 65536))
  else if opcode ∈ [OP_IGET, OP_IGET_WIDE, OP_IGET_OBJECT, OP_IGET_BOOLEAN, OP_IGET_BYTE,
      OP_IGET_CHAR, OP_IGET_SHORT, OP_IPUT, OP_IPUT_WIDE, OP_IPUT_OBJECT, OP_IPUT_BOOLEAN,
      OP_IPUT_BYTE, OP_IPUT_CHAR, OP_IPUT_SHORT] then
    regs_12x insn0 ++ ", ".toList ++ get_field_reference dex insn1
  else if opcode ∈ [OP_SGET, OP_SGET_WIDE, OP_SGET_OBJECT, OP_SGET_BOOLEAN, OP_SGET_BYTE,
      OP_SGET_CHAR, OP_SGET_SHORT, OP_SPUT, OP_SPUT_WIDE, OP_SPUT_OBJECT, OP_SPUT_BOOLEAN,
      OP_SPUT_BYTE, OP_SPUT_CHAR, OP_SPUT_SHORT] then
    " v".toList ++ to_string vAA ++ ", ".toList ++ get_field_reference dex insn1
  else if opcode ∈ [OP_ADD_INT, OP_SUB_INT, OP_MUL_INT, OP_DIV_INT, OP_REM_INT, OP_AND_INT,
      OP_OR_INT, OP_XOR_INT] then
    regs_23x insn0 insn1
  else if opcode ∈ [OP_ADD_INT_2ADDR, OP_SUB_INT_2ADDR, OP_MUL_INT_2ADDR, OP_DIV_INT_2ADDR,
      OP_REM_INT_2ADDR, OP_AND_INT_2ADDR, OP_OR_INT_2ADDR, OP_XOR_INT_2ADDR] then
    regs_12x insn0
  else if opcode = OP_GOTO then
    " :cond_".toList ++ hex (u32 (((address / 2 : Nat) : Int) + int8 ((insn0 >>> 8) &&& 0xFF)))
  else if opcode = OP_GOTO_16 then
    " :cond_".toList ++ hex (u32 (((address / 2 : Nat) : Int) + int16 insn1))
  else if opcode = OP_GOTO_32 then
    " :cond_".toList ++ hex (u32 (((address / 2 : Nat) : Int) + int32 wide))
  else if opcode ∈ [OP_IF_EQ, OP_IF_NE, OP_IF_LT, OP_IF_GE, OP_IF_GT, OP_IF_LE] then
    regs_12x insn0 ++ ", :cond_".toList ++ hex (u32 (((address / 2 : Nat) : Int) + int16 insn1))
  else if opcode ∈ [OP_IF_EQZ, OP_IF_NEZ, OP_IF_LTZ, OP_IF_GEZ, OP_IF_GTZ, OP_IF_LEZ] then
    " v".toList ++ to_string vAA ++ ", :cond_".toList ++
      hex (u32 (((address / 2 : Nat) : Int) + int16 insn1))
  else if opcode = OP_AGET ∨ opcode = OP_APUT ∨ opcode = OP_AGET_OBJECT ∨ opcode = OP_APUT_OBJECT then
    regs_23x insn0 insn1
  else if opcode = OP_NEW_ARRAY ∨ opcode = OP_INSTANCE_OF then
    regs_12x insn0 ++ ", ".toList ++ get_type_name dex insn1
  else if opcode = OP_PACKED_SWITCH then
    " v".toList ++ to_string vAA ++ ", :pswitch_data_".toList ++
      hex (u32 (((address / 2 : Nat) : Int) + int32 wide))
  else if opcode = OP_SPARSE_SWITCH then
    " v".toList ++ to_string vAA ++ ", :sswitch_data_".toList ++
      hex (u32 (((address / 2 : Nat) : Int) + int32 wide))
  else if opcode ∈ [OP_INVOKE_VIRTUAL_RANGE, OP_INVOKE_SUPER_RANGE, OP_INVOKE_DIRECT_RANGE,
      OP_INVOKE_STATIC_RANGE, OP_INVOKE_INTERFACE_RANGE] then
    " \x7b".toList ++ invoke_args vAA (fun i => 'v' :: to_string (insn2 + i)) ++
      "\x7d, ".toList ++ get_method_reference dex insn1
  else if opcode = OP_CONST_CLASS then
    " v".toList ++ to_string vAA ++ ", Ljava/lang/Class;".toList
  else if opcode = OP_ARRAY_LENGTH ∨ opcode ∈ [OP_INT_TO_BYTE, OP_INT_TO_CHAR, OP_INT_TO_SHORT] then
    regs_12x insn0
  else if opcode ∈ [OP_ADD_INT_LIT8, OP_RSUB_INT_LIT8, OP_MUL_INT_LIT8, OP_DIV_INT_LIT8,
      OP_REM_INT_LIT8, OP_AND_INT_LIT8, OP_OR_INT_LIT8, OP_XOR_INT_LIT8, OP_SHL_INT_LIT8,
      OP_SHR_INT_LIT8, OP_USHR_INT_LIT8] then
    " v".toList ++ to_string vAA ++ ", v".toList ++ to_string (insn1 &&& 0xFF) ++ ", 0x".toList ++
      hex (u32 (int8 (insn1 >>> 8)))
  else if opcode = OP_MONITOR_ENTER ∨ opcode = OP_MONITOR_EXIT then " v".toList ++ to_string vAA
  else " ; unknown opcode 0x".toList ++ hex opcode)

/-- A decoded instruction (struct DexInstruction). -/
structure DexInstruction where
  opcode : Nat
  operands : List Nat
  address : Nat
  mnemonic : Str
  deriving DecidableEq

/-- The while loop of DexFile::parse_instructions from the state `offset`; `insns` is the pointer
to the code units.  `offset` is a uint32_t, so `offset + i` and `offset += width` are reduced
modulo 2^32.  The loop has no bound of its own: the result is `none` when `fuel` iterations do
not end it. -/
def parse_instructions_loop (dex : DexFile) (insns : Nat → Nat) (insns_size : Nat) :
    Nat → Nat → Option (List DexInstruction)
  | 0, offset => if offset < insns_size then none else some []
  | fuel + 1, offset =>
    if offset < insns_size then
      let opcode := (insns offset % 65536) &&& 0xFF
      let width := get_instruction_width opcode
      let operands := ((List.range width).takeWhile
        (fun i => decide ((offset + i) % 4294967296 < insns_size))).map
        (fun i => insns (offset + i) % 65536)
      let mnemonic := format_instruction dex (fun i => insns (offset + i)) offset
      let instruction : DexInstruction :=
        { opcode := opcode, operands := operands, address := offset, mnemonic := mnemonic }
      (parse_instructions_loop dex insns insns_size fuel ((offset + width) % 4294967296)).map
        (fun instructions => instruction :: instructions)
    else some []

/-- DexFile::parse_instructions: the loop from offset 0.  A run that ends visits every value of
the 32-bit offset at most once, so 2^32 iterations are enough for every run that ends. -/
def parse_instructions (dex : DexFile) (insns : Nat → Nat) (insns_size : Nat) :
    Option (List DexInstruction) :=
  parse_instructions_loop dex insns insns_size 4294967296 0


/-- A pointer to the listed values: index i holds the i-th value, every other index holds 0. -/
def image (l : List Nat) : Nat → Nat := fun i => l.getD i 0

/-- A header with every field zero. -/
def empty_header : DexHeader :=
  { magic := [], checksum := 0, signature := [], file_size := 0, header_size := 0, endian_tag := 0,
    link_size := 0, link_off := 0, map_off := 0, string_ids_size := 0, string_ids_off := 0,
    type_ids_size := 0, type_ids_off := 0, proto_ids_size := 0, proto_ids_off := 0,
    field_ids_size := 0, field_ids_off := 0, method_ids_size := 0, method_ids_off := 0,
    class_defs_size := 0, class_defs_off := 0, data_size := 0, data_off := 0 }

/-- A file state whose string pool is `strings` and whose other pools are empty. -/
def dex_with_strings (strings : List Str) : DexFile :=
  { file_data_ := fun _ => 0, file_data_size := 0, header_ := empty_header, strings_ := strings,
    type_names_ := [], method_names_ := [], field_names_ := [], proto_signatures_ := [] }

/-- Sixteen nop units followed by `if-eqz v1, +8` (units 0x0138, 0x0008): the branch is at
code-unit address 0x10. -/
def branch_at_0x10 : Nat → Nat := image (List.replicate 16 0 ++ [0x0138, 0x0008])

/-- Table width of an instruction. -/
def DexInstruction.width (i : DexInstruction) : Nat := get_instruction_width i.opcode

/-- Sum of the table widths of a list of instructions. -/
def total_width (l : List DexInstruction) : Nat := (l.map DexInstruction.width).sum

/-- Number of code units stored in the operand lists of a list of instructions. -/
def stored_units (l : List DexInstruction) : Nat := (l.map (fun i => i.operands.length)).sum

/-- The shape of the list that the loop of parse_instructions builds from the state `offset`:
every instruction starts below `insns_size` at the offset reached so far, stores the units of
its width that lie below `insns_size`, and advances the offset by its table width. -/
def Decoded (insns_size : Nat) : Nat → List DexInstruction → Prop
  | offset, [] => insns_size ≤ offset
  | offset, i :: rest =>
    offset < insns_size ∧ i.address = offset ∧
      i.operands.length = min i.width (insns_size - offset) ∧
      Decoded insns_size (offset + i.width) rest

/-- The code units of a method that fills a two-byte array: `fill-array-data v0, +4`, `return-void`,
and at address 4 the array-data payload (ident 0x0300, element width 1, two elements, data bytes
0x13 0x00); nine code units in all. -/
def array_data_method : Nat → Nat :=
  image [0x0026, 0x0004, 0x0000, 0x000e, 0x0300, 0x0001, 0x0002, 0x0000, 0x0013]

/-- The three code units of `add-int v0, v1, v2` followed by `return v0`. -/
def add_and_return : Nat → Nat := image [0x0090, 0x0201, 0x000f]

/-! Class model and the smali writer (class_definition.cpp) -/

/-- Access flag ACC_PUBLIC of dex_file.hpp. -/
def ACC_PUBLIC : Nat := 0x1
/-- Access flag ACC_PRIVATE. -/
def ACC_PRIVATE : Nat := 0x2
/-- Access flag ACC_PROTECTED. -/
def ACC_PROTECTED : Nat := 0x4
/-- Access flag ACC_STATIC. -/
def ACC_STATIC : Nat := 0x8
/-- Access flag ACC_FINAL. -/
def ACC_FINAL : Nat := 0x10
/-- Access flag ACC_SYNCHRONIZED. -/
def ACC_SYNCHRONIZED : Nat := 0x20
/-- Access flag ACC_VOLATILE. -/
def ACC_VOLATILE : Nat := 0x40
/-- Access flag ACC_BRIDGE. -/
def ACC_BRIDGE : Nat := 0x40
/-- Access flag ACC_TRANSIENT. -/
def ACC_TRANSIENT : Nat := 0x80
/-- Access flag ACC_VARARGS. -/
def ACC_VARARGS : Nat := 0x80
/-- Access flag ACC_NATIVE. -/
def ACC_NATIVE : Nat := 0x100
/-- Access flag ACC_INTERFACE. -/
def ACC_INTERFACE : Nat := 0x200
/-- Access flag ACC_ABSTRACT. -/
def ACC_ABSTRACT : Nat := 0x400
/-- Access flag ACC_STRICT. -/
def ACC_STRICT : Nat := 0x800
/-- Access flag ACC_SYNTHETIC. -/
def ACC_SYNTHETIC : Nat := 0x1000
/-- Access flag ACC_ANNOTATION. -/
def ACC_ANNOTATION : Nat := 0x2000
/-- Access flag ACC_ENUM. -/
def ACC_ENUM : Nat := 0x4000
/-- Access flag ACC_CONSTRUCTOR. -/
def ACC_CONSTRUCTOR : Nat := 0x10000
/-- Access flag ACC_DECLARED_SYNCHRONIZED. -/
def ACC_DECLARED_SYNCHRONIZED : Nat := 0x20000

/-- The statement `if (access_flags & FLAG) output << word;`: the word when the bit is set. -/
def flag_word (access_flags flag : Nat) (word : String) : Str :=
  if access_flags &&& flag ≠ 0 then word.toList else []

/-- A debug item (struct DebugItem and its derived structs), tagged by its variant. -/
inductive DebugItem where
  | StartLocal (address register_num : Nat) (name type_descriptor signature : Str)
  | EndLocal (address register_num : Nat) (name type_descriptor signature : Str)
  | LineNumber (address line_number : Nat)
  | RestartLocal (address register_num : Nat) (name type_descriptor signature : Str)
  | PrologueEnd (address : Nat)
  | EpilogueBegin (address : Nat)
  | SetSourceFile (address : Nat) (source_file : Str)
  deriving DecidableEq

/-- The field `address` of a debug item. -/
def DebugItem.address : DebugItem → Nat
  | .StartLocal a _ _ _ _ => a
  | .EndLocal a _ _ _ _ => a
  | .LineNumber a _ => a
  | .RestartLocal a _ _ _ _ => a
  | .PrologueEnd a => a
  | .EpilogueBegin a => a
  | .SetSourceFile a _ => a

/-- An annotation (struct DexAnnotation). -/
structure DexAnnotation where
  type : Str
  visibility : Nat
  elements : List (Str × Str)
  deriving DecidableEq

/-- Parsed code of a method (struct DexCode). -/
structure DexCode where
  registers_size : Nat
  ins_size : Nat
  outs_size : Nat
  tries_size : Nat
  debug_info_off : Nat
  insns_size : Nat
  instructions : List DexInstruction
  debug_items : List DebugItem

/-- A method of a class (struct DexMethod); `code` is absent for a null pointer. -/
structure DexMethod where
  method_idx : Nat
  access_flags : Nat
  code : Option DexCode
  name : Str
  signature : Str
  class_name : Str
  annotations : List DexAnnotation

/-- A field of a class (struct DexField). -/
structure DexField where
  field_idx : Nat
  access_flags : Nat
  name : Str
  type : Str
  class_name : Str
  initial_value : Str
  annotations : List DexAnnotation

/-- A class (struct DexClass). -/
structure DexClass where
  class_idx : Nat
  access_flags : Nat
  class_name : Str
  superclass_name : Str
  interfaces : List Str
  source_file : Str
  static_fields : List DexField
  instance_fields : List DexField
  direct_methods : List DexMethod
  virtual_methods : List DexMethod
  annotations : List DexAnnotation

/-- DalvikInstructionParser::is_parameter_register; the register and the two sizes are held in
uint8_t variables. -/
def is_parameter_register (reg : Nat) (method : DexMethod) : Bool :=
  match method.code with
  | none => false
  | some code =>
    let param_count := code.ins_size % 256
    let total_regs := code.registers_size % 256
    let param_start := (total_regs + 256 - param_count) % 256
    decide (reg % 256 ≥ param_start)

/-- DalvikInstructionParser::format_register with a non-null method. -/
def format_register (reg : Nat) (method : DexMethod) : Str :=
  let reg := reg % 256
  let param_count := match method.code with | some code => code.ins_size % 256 | none => 0
  let total_regs := match method.code with | some code => code.registers_size % 256 | none => 0
  let param_start := (total_regs + 256 - param_count) % 256
  if is_parameter_register reg method = true ∧ reg ≥ param_start then
    'p' :: to_string ((reg + 256 - param_start) % 256)
  else 'v' :: to_string reg

/-- std::isalnum in the C locale, or an underscore. -/
def is_word_char (c : Char) : Bool := c.isAlphanum || c == '_'

/-- std::string::find(pattern, pos): the first index at or after pos where pattern occurs. -/
def str_find (s pattern : Str) (pos : Nat) : Option Nat :=
  ((List.range (s.length + 1 - pos)).map (fun k => pos + k)).find?
    (fun p => decide (p + pattern.length ≤ s.length) && (s.drop p).take pattern.length == pattern)

/-- The while loop of reformat_registers_for_method that replaces the complete occurrences of
old_reg by new_reg, from position pos.  Every iteration advances pos by at least two and the
text never grows, so `fuel` equal to the length of the text is enough. -/
def replace_register : Nat → Str → Str → Str → Nat → Str
  | 0, _, _, result, _ => result
  | fuel + 1, old_reg, new_reg, result, pos =>
    match str_find result old_reg pos with
    | none => result
    | some pos =>
      let before_ok := !(decide (pos > 0) && is_word_char (result.getD (pos - 1) ' '))
      let after_ok := !(decide (pos + old_reg.length < result.length) &&
        is_word_char (result.getD (pos + old_reg.length) ' '))
      if before_ok && after_ok then
        replace_register fuel old_reg new_reg
          (result.take pos ++ new_reg ++ result.drop (pos + old_reg.length)) (pos + new_reg.length)
      else replace_register fuel old_reg new_reg result (pos + old_reg.length)

/-- DalvikInstructionParser::reformat_registers_for_method: the loop runs over the registers 15
down to 0; param_start is a uint16_t. -/
def reformat_registers_for_method (instruction : Str) (registers_size ins_size : Nat) : Str :=
  if ins_size = 0 ∨ registers_size = 0 then instruction
  else
    let param_start := u16 ((registers_size : Int) - (ins_size : Int))
    (List.range 16).reverse.foldl (fun result reg =>
      if reg ≥ param_start ∧ reg < registers_size then
        replace_register result.length ('v' :: to_string reg)
          ('p' :: to_string (u16 ((reg : Int) - (param_start : Int)))) result 0
      else result) instruction

/-- ClassDefinition::write_local_info_to_stream. -/
def write_local_info_to_stream (name type signature : Str) : Str :=
  (if name.isEmpty = false then [ch_dquote] ++ name ++ [ch_dquote] else "null".toList) ++ ":".toList ++
    (if type.isEmpty = false then type else "V".toList) ++
    (if signature.isEmpty = false then ", ".toList ++ [ch_dquote] ++ signature ++ [ch_dquote] else [])

/-- The local struct MethodItem of write_method_code. -/
structure MethodItem where
  address : Nat
  sort_order : Int
  text : Str
  register_num : Int
  deriving DecidableEq

/-- The comparison lambda that write_method_code hands to std::sort. -/
def method_item_less (a b : MethodItem) : Bool :=
  if a.address ≠ b.address then decide (a.address < b.address)
  else if a.sort_order ≠ b.sort_order then decide (a.sort_order < b.sort_order)
  else if a.sort_order = -1 ∧ a.register_num ≠ -1 ∧ b.register_num ≠ -1 then
    decide (a.register_num < b.register_num)
  else false

/-- The inner loop of an insertion (`__unguarded_linear_insert` of libstdc++), on the sorted part
in reverse order: val moves left past every element it compares less than. -/
def unguarded_linear_insert {α : Type} (comp : α → α → Bool) (val : α) : List α → List α
  | [] => [val]
  | next :: before => if comp val next then next :: unguarded_linear_insert comp val before
      else val :: next :: before

/-- One step of `__insertion_sort` of libstdc++: an element less than the first one goes to the
front, any other element is inserted from the right. -/
def insertion_step {α : Type} (comp : α → α → Bool) (sorted : List α) (val : α) : List α :=
  match sorted with
  | [] => [val]
  | first :: _ =>
    if comp val first then val :: sorted
    else (unguarded_linear_insert comp val sorted.reverse).reverse

/-- std::sort as libstdc++ runs it on a range of at most 16 elements: `__insertion_sort`.
(std::sort is library code; for longer ranges libstdc++ partitions first, which this definition
does not follow.) -/
def std_sort {α : Type} (comp : α → α → Bool) (l : List α) : List α :=
  l.foldl (insertion_step comp) []

/-- The items that write_method_code pushes for the instructions: the instruction with sort
order 100 and, except after the last one, a blank item with sort order 101. -/
def instruction_items (code : DexCode) : List MethodItem :=
  ((List.range code.instructions.length).zip code.instructions).flatMap (fun p =>
    let formatted_instruction :=
      reformat_registers_for_method p.2.mnemonic code.registers_size code.ins_size
    [{ address := p.2.address, sort_order := 100, text := "    ".toList ++ formatted_instruction,
       register_num := -1 }] ++
    (if p.1 ≠ code.instructions.length - 1 then
      [{ address := p.2.address, sort_order := 101, text := [], register_num := -1 }]
     else []))

/-- The optional `, ` or `    # ` part with the local info of a local item. -/
def local_info_suffix (sep : String) (name type signature : Str) : Str :=
  if name.isEmpty = false ∨ type.isEmpty = false ∨ signature.isEmpty = false then
    sep.toList ++ write_local_info_to_stream name type signature
  else []

/-- The item that write_method_code pushes for one debug item; the register number of an
END_LOCAL item is converted from uint32_t to int. -/
def debug_method_item (method : DexMethod) : DebugItem → MethodItem
  | .StartLocal address register_num name type signature =>
    { address := address, sort_order := -1, register_num := -1,
      text := "    .local ".toList ++ format_register register_num method ++
        local_info_suffix ", " name type signature }
  | .EndLocal address register_num name type signature =>
    { address := address, sort_order := -1, register_num := int32 register_num,
      text := "    .end local ".toList ++ format_register register_num method ++
        local_info_suffix "    # " name type signature }
  | .LineNumber address line_number =>
    { address := address, sort_order := -2, register_num := -1,
      text := "    .line ".toList ++
        to_string (if line_number > 10000 then line_number % 1000 + 1 else line_number) }
  | .RestartLocal address register_num name type signature =>
    { address := address, sort_order := -1, register_num := -1,
      text := "    .restart local ".toList ++ format_register register_num method ++
        local_info_suffix ", " name type signature }
  | .PrologueEnd address =>
    { address := address, sort_order := -4, register_num := -1, text := "    .prologue".toList }
  | .EpilogueBegin address =>
    { address := address, sort_order := -4, register_num := -1, text := "    .epilogue".toList }
  | .SetSourceFile address source_file =>
    { address := address, sort_order := -3, register_num := -1,
      text := "    .source ".toList ++ [ch_dquote] ++ source_file ++ [ch_dquote] }

/-- The sorted item list of write_method_code when debug items are written. -/
def sorted_method_items (method : DexMethod) (code : DexCode) : List MethodItem :=
  std_sort method_item_less (instruction_items code ++ code.debug_items.map (debug_method_item method))

/-- ClassDefinition::write_method_code: the text appended to the output; `debug_info` is
options_.debug_info. -/
def write_method_code (debug_info : Bool) (method : DexMethod) : Str :=
  match method.code with
  | none => []
  | some code =>
    "    .registers ".toList ++ to_string code.registers_size ++ "\n".toList ++
    (if debug_info = true ∧ code.debug_items.isEmpty = false then
      "\n".toList ++ ((sorted_method_items method code).map (fun item => item.text ++ "\n".toList)).flatten
    else
      "\n".toList ++
      (((List.range code.instructions.length).zip code.instructions).map (fun p =>
        "    ".toList ++
          reformat_registers_for_method p.2.mnemonic code.registers_size code.ins_size ++
          "\n".toList ++
          (if p.1 ≠ code.instructions.length - 1 then "\n".toList else []))).flatten)

/-- ClassDefinition::write_annotations: the class annotations section. -/
def write_annotations (class_def : DexClass) : Str :=
  if class_def.annotations.isEmpty = false then
    "\n\n# annotations\n".toList ++
    (class_def.annotations.map (fun annotation =>
      let visibility_str :=
        if annotation.visibility = 0 then "build"
        else if annotation.visibility = 1 then "runtime"
        else if annotation.visibility = 2 then "system"
        else "runtime"
      ".annotation ".toList ++ visibility_str.toList ++ " ".toList ++ annotation.type ++ "\n".toList ++
      ( annotation.elements.map (fun element =>
        "    ".toList ++ element.1 ++ " = ".toList ++ element.2 ++ "\n".toList)).flatten ++
      ".end annotation\n".toList)).flatten
  else []

/-- The access-flag words of ClassDefinition::write_class_header, in the order of its
statements. -/
def class_access_flags (access_flags : Nat) : Str :=
  flag_word access_flags ACC_PUBLIC "public " ++
  flag_word access_flags ACC_PRIVATE "private " ++
  flag_word access_flags ACC_PROTECTED "protected " ++
  flag_word access_flags ACC_STATIC "static " ++
  flag_word access_flags ACC_FINAL "final " ++
  flag_word access_flags ACC_INTERFACE "interface " ++
  flag_word access_flags ACC_ABSTRACT "abstract " ++
  flag_word access_flags ACC_ANNOTATION "annotation " ++
  flag_word access_flags ACC_ENUM "enum " ++
  flag_word access_flags ACC_SYNTHETIC "synthetic "

/-- ClassDefinition::write_class_header. -/
def write_class_header (class_def : DexClass) : Str :=
  ".class ".toList ++ class_access_flags class_def.access_flags ++
  class_def.class_name ++ "\n".toList ++
  (if class_def.superclass_name.isEmpty = false then
    ".super ".toList ++ class_def.superclass_name ++ "\n".toList else []) ++
  (if class_def.source_file.isEmpty = false then
    ".source ".toList ++ [ch_dquote] ++ class_def.source_file ++ [ch_dquote] ++ "\n".toList
   else []) ++
  (if class_def.interfaces.isEmpty = false then
    "\n\n# interfaces\n".toList ++
    (class_def.interfaces.map (fun interface => ".implements ".toList ++ interface ++ "\n".toList)).flatten
   else []) ++
  write_annotations class_def

/-- The body shared by ClassDefinition::write_field_annotations and write_method_annotations. -/
def write_member_annotations (annotations : List DexAnnotation) : Str :=
  (annotations.map (fun annotation =>
    "    .annotation system ".toList ++ annotation.type ++ "\n".toList ++
    (if annotation.elements.isEmpty = false then
      "        value = \x7b\n".toList ++
      (((List.range annotation.elements.length).zip annotation.elements).map (fun p =>
        "            ".toList ++ p.2.2 ++
        (if p.1 < annotation.elements.length - 1 then ",".toList else []) ++ "\n".toList)).flatten ++
      "        \x7d\n".toList
     else []) ++
    "    .end annotation\n".toList)).flatten

/-- The access-flag words of ClassDefinition::write_static_fields. -/
def static_field_access_flags (access_flags : Nat) : Str :=
  flag_word access_flags ACC_PUBLIC "public " ++
  flag_word access_flags ACC_PRIVATE "private " ++
  flag_word access_flags ACC_PROTECTED "protected " ++
  flag_word access_flags ACC_STATIC "static " ++
  flag_word access_flags ACC_FINAL "final " ++
  flag_word access_flags ACC_VOLATILE "volatile " ++
  flag_word access_flags ACC_TRANSIENT "transient " ++
  flag_word access_flags ACC_SYNTHETIC "synthetic " ++
  flag_word access_flags ACC_ENUM "enum "

/-- ClassDefinition::write_static_fields. -/
def write_static_fields (class_def : DexClass) : Str :=
  (class_def.static_fields.map (fun field =>
    ".field ".toList ++ static_field_access_flags field.access_flags ++
    field.name ++ ":".toList ++ field.type ++
    (if field.initial_value.isEmpty = false then " = ".toList ++ field.initial_value else []) ++
    "\n".toList ++
    (if field.annotations.isEmpty = false then write_member_annotations field.annotations else []) ++
    "\n".toList)).flatten

/-- The access-flag words of ClassDefinition::write_instance_fields. -/
def instance_field_access_flags (access_flags : Nat) : Str :=
  flag_word access_flags ACC_PUBLIC "public " ++
  flag_word access_flags ACC_PRIVATE "private " ++
  flag_word access_flags ACC_PROTECTED "protected " ++
  flag_word access_flags ACC_FINAL "final " ++
  flag_word access_flags ACC_VOLATILE "volatile " ++
  flag_word access_flags ACC_TRANSIENT "transient " ++
  flag_word access_flags ACC_SYNTHETIC "synthetic " ++
  flag_word access_flags ACC_ENUM "enum "

/-- ClassDefinition::write_instance_fields. -/
def write_instance_fields (class_def : DexClass) : Str :=
  (class_def.instance_fields.map (fun field =>
    ".field ".toList ++ instance_field_access_flags field.access_flags ++
    field.name ++ ":".toList ++ field.type ++ "\n".toList ++
    (if field.annotations.isEmpty = false then write_member_annotations field.annotations else []) ++
    "\n".toList)).flatten

/-- The access-flag words of ClassDefinition::write_direct_methods. -/
def direct_method_access_flags (access_flags : Nat) : Str :=
  flag_word access_flags ACC_PUBLIC "public " ++
  flag_word access_flags ACC_PRIVATE "private " ++
  flag_word access_flags ACC_PROTECTED "protected " ++
  flag_word access_flags ACC_STATIC "static " ++
  flag_word access_flags ACC_FINAL "final " ++
  flag_word access_flags ACC_SYNCHRONIZED "synchronized " ++
  flag_word access_flags ACC_BRIDGE "bridge " ++
  flag_word access_flags ACC_VARARGS "varargs " ++
  flag_word access_flags ACC_NATIVE "native " ++
  flag_word access_flags ACC_ABSTRACT "abstract " ++
  flag_word access_flags ACC_STRICT "strict " ++
  flag_word access_flags ACC_SYNTHETIC "synthetic " ++
  flag_word access_flags ACC_CONSTRUCTOR "constructor "

/-- ClassDefinition::write_direct_methods. -/
def write_direct_methods (debug_info : Bool) (class_def : DexClass) : Str :=
  (class_def.direct_methods.map (fun method =>
    ".method ".toList ++ direct_method_access_flags method.access_flags ++
    method.name ++ method.signature ++ "\n".toList ++
    write_member_annotations method.annotations ++
    write_method_code debug_info method ++
    ".end method\n\n".toList)).flatten

/-- The access-flag words of ClassDefinition::write_virtual_methods. -/
def virtual_method_access_flags (access_flags : Nat) : Str :=
  flag_word access_flags ACC_PUBLIC "public " ++
  flag_word access_flags ACC_PRIVATE "private " ++
  flag_word access_flags ACC_PROTECTED "protected " ++
  flag_word access_flags ACC_FINAL "final " ++
  flag_word access_flags ACC_SYNCHRONIZED "synchronized " ++
  flag_word access_flags ACC_BRIDGE "bridge " ++
  flag_word access_flags ACC_VARARGS "varargs " ++
  flag_word access_flags ACC_NATIVE "native " ++
  flag_word access_flags ACC_ABSTRACT "abstract " ++
  flag_word access_flags ACC_STRICT "strict " ++
  flag_word access_flags ACC_SYNTHETIC "synthetic "

/-- ClassDefinition::write_virtual_methods. -/
def write_virtual_methods (debug_info : Bool) (class_def : DexClass) : Str :=
  (class_def.virtual_methods.map (fun method =>
    ".method ".toList ++ virtual_method_access_flags method.access_flags ++
    method.name ++ method.signature ++ "\n".toList ++
    write_member_annotations method.annotations ++
    write_method_code debug_info method ++
    ".end method\n\n".toList)).flatten

/-- ClassDefinition::write_to: the whole text of a class. -/
def write_to (debug_info : Bool) (class_def : DexClass) : Str :=
  write_class_header class_def ++
  (if class_def.static_fields.isEmpty = false then
    "\n\n# static fields\n".toList ++ write_static_fields class_def else []) ++
  (if class_def.instance_fields.isEmpty = false then
    "\n\n# instance fields\n".toList ++ write_instance_fields class_def else []) ++
  (if class_def.direct_methods.isEmpty = false then
    "\n\n# direct methods\n".toList ++ write_direct_methods debug_info class_def else []) ++
  (if class_def.virtual_methods.isEmpty = false then
    "\n\n# virtual methods\n".toList ++ write_virtual_methods debug_info class_def else [])

/-- A class with the given name and access flags, no superclass, no source file and no
members. -/
def bare_class (class_name : Str) (access_flags : Nat) : DexClass :=
  { class_idx := 0, access_flags := access_flags, class_name := class_name, superclass_name := [],
    interfaces := [], source_file := [], static_fields := [], instance_fields := [],
    direct_methods := [], virtual_methods := [], annotations := [] }

/-- The code of a method of 20 registers, 2 of them incoming, whose only instruction is
`return v18` (unit 0x120f), without debug items. -/
def code_returning_v18 : DexCode :=
  { registers_size := 20, ins_size := 2, outs_size := 0, tries_size := 0, debug_info_off := 0,
    insns_size := 1, debug_items := [],
    instructions := (parse_instructions (dex_with_strings []) (image [0x120f]) 1).getD [] }

/-- A method `run()V` with the code `code_returning_v18`. -/
def method_returning_v18 : DexMethod :=
  { method_idx := 0, access_flags := ACC_PUBLIC, name := "run".toList, signature := "()V".toList,
    class_name := [], annotations := [], code := some code_returning_v18 }

/-- The code of a method of 8 registers whose only instruction is `return-void` and whose debug
stream ends the locals of v1 and v5, starts a local in v2 and ends the local of v3, all at
address 0. -/
def code_with_locals : DexCode :=
  { registers_size := 8, ins_size := 0, outs_size := 0, tries_size := 0, debug_info_off := 1,
    insns_size := 1,
    instructions := (parse_instructions (dex_with_strings []) (image [0x000e]) 1).getD [],
    debug_items := [.EndLocal 0 1 [] [] [], .EndLocal 0 5 [] [] [],
      .StartLocal 0 2 "i".toList "I".toList [], .EndLocal 0 3 [] [] []] }

/-- A method `run()V` with the code `code_with_locals`. -/
def method_with_locals : DexMethod :=
  { method_idx := 0, access_flags := ACC_PUBLIC, name := "run".toList, signature := "()V".toList,
    class_name := [], annotations := [], code := some code_with_locals }

/-! Encoded values and the string pool (dex_file.cpp) -/

/-- The do-while loop of decode_uleb128 from the state (ptr, result, shift); the result is a
uint32_t.  The loop has no bound of its own: the result is `none` when `fuel` bytes all carry
the continuation bit.  From the sixth byte on the shift is 35 or more, which C++ leaves
undefined; such a byte adds nothing to the value here. -/
def decode_uleb128_loop (m : Nat → Nat) : Nat → Nat → Nat → Nat → Option (Nat × Nat)
  | 0, _, _, _ => none
  | fuel + 1, ptr, result, shift =>
    let byte := read_u8 m ptr
    let result := (result ||| ((byte &&& 0x7F) <<< shift)) % 4294967296
    if byte &&& 0x80 ≠ 0 then decode_uleb128_loop m fuel (ptr + 1) result (shift + 7)
    else some (result, ptr + 1)

/-- The function decode_uleb128: the decoded value and the advanced pointer.  A run that ends
reads fewer than 2^64 bytes. -/
def decode_uleb128 (m : Nat → Nat) (ptr : Nat) : Option (Nat × Nat) :=
  decode_uleb128_loop m 18446744073709551616 ptr 0 0

/-- The loops `for (i = 0; i <= value_arg; ++i) value |= cast(*ptr++) << (i * 8)` of
parse_encoded_value: `cast` gives the bit pattern of the converted byte and `modulus` is 2^w for
the w-bit variable `value`.  Bits shifted past the variable are dropped. -/
def read_value_bytes (m : Nat → Nat) (ptr value_arg : Nat) (cast : Nat → Nat) (modulus : Nat) : Nat :=
  (List.range (value_arg + 1)).foldl
    (fun value i => (value ||| (cast (read_u8 m (ptr + i)) <<< (i * 8))) % modulus) 0

/-- The sign extension `if (value_arg < limit && (value & (1 << (7 + value_arg * 8))))
value |= ~((1 << (8 + value_arg * 8)) - 1)` on the bit pattern of a variable of 2^w = modulus. -/
def sign_extend_value (value value_arg limit modulus : Nat) : Nat :=
  if value_arg < limit ∧ value &&& (1 <<< (7 + value_arg * 8)) ≠ 0 then
    value ||| (modulus - 2 ^ (8 + value_arg * 8))
  else value

/-- Reading of a 64-bit pattern as int64_t. -/
def int64 (w : Nat) : Int :=
  if w % 18446744073709551616 < 9223372036854775808 then (w % 18446744073709551616 : Nat)
  else ((w % 18446744073709551616 : Nat) : Int) - 18446744073709551616

/-- The escaping loop of the VALUE_STRING case of parse_encoded_value, on the characters from
index i on.  Every iteration consumes at least one character, so `fuel` at least the number of
characters left is enough. -/
def encoded_string_escape_loop : Nat → Str → Str
  | 0, _ => []
  | _ + 1, [] => []
  | fuel + 1, ch :: rest =>
    if ch = ch_cr then
      if rest.head? = some ch_lf then
        [ch_backslash, 'r', ch_backslash, 'n'] ++ encoded_string_escape_loop fuel (rest.drop 1)
      else [ch_backslash, 'r'] ++ encoded_string_escape_loop fuel rest
    else if ch = ch_lf then [ch_backslash, 'n'] ++ encoded_string_escape_loop fuel rest
    else if ch = ch_tab then [ch_backslash, 't'] ++ encoded_string_escape_loop fuel rest
    else if ch = ch_backslash ∧ is_unicode_escape rest = true then
      [ch_backslash, 'u'] ++ (rest.drop 1).take 4 ++ encoded_string_escape_loop fuel (rest.drop 5)
    else if ch = ch_dquote then [ch_backslash, ch_dquote] ++ encoded_string_escape_loop fuel rest
    else if ch = ch_squote then [ch_backslash, ch_squote] ++ encoded_string_escape_loop fuel rest
    else if ch = ch_backslash then [ch_backslash, ch_backslash] ++ encoded_string_escape_loop fuel rest
    else ch :: encoded_string_escape_loop fuel rest

/-- The escaped text of the VALUE_STRING case for the pool string str. -/
def encoded_string_escape (str : Str) : Str := encoded_string_escape_loop str.length str

mutual
/-- DexFile::parse_encoded_value at the pointer ptr into the image m: the rendered text and the
advanced pointer.  Every call, nested ones included, uses one unit of `fuel`; the result is
`none` when the fuel does not cover the nesting of the value or a ULEB128 read does not end. -/
def parse_encoded_value (dex : DexFile) (m : Nat → Nat) : Nat → Nat → Option (Str × Nat)
  | 0, _ => none
  | fuel + 1, ptr =>
    let value_arg := ((read_u8 m ptr) &&& 0xe0) >>> 5
    let value_type := (read_u8 m ptr) &&& 0x1f
    let ptr := ptr + 1
    if value_type = 0x17 then
      let string_idx := read_value_bytes m ptr value_arg id 4294967296
      if string_idx < dex.strings_.length then
        some ([ch_dquote] ++ encoded_string_escape (dex.strings_.getD string_idx []) ++ [ch_dquote],
          ptr + value_arg + 1)
      else some ([ch_dquote, ch_dquote], ptr + value_arg + 1)
    else if value_type = 0x00 then
      let value := read_value_bytes m ptr value_arg (fun b => u32 (int8 b)) 256
      some (to_string_int (int8 value) ++ "t".toList, ptr + value_arg + 1)
    else if value_type = 0x02 then
      let value := read_value_bytes m ptr value_arg id 65536
      let value := sign_extend_value value value_arg 1 4294967296 % 65536
      some (to_string_int (int16 value) ++ "s".toList, ptr + value_arg + 1)
    else if value_type = 0x03 then
      let value := read_value_bytes m ptr value_arg id 65536
      some (to_string value, ptr + value_arg + 1)
    else if value_type = 0x04 then
      let value := read_value_bytes m ptr value_arg id 4294967296
      let value := sign_extend_value value value_arg 3 4294967296 % 4294967296
      some ("0x".toList ++ hex value, ptr + value_arg + 1)
    else if value_type = 0x06 then
      let value := read_value_bytes m ptr value_arg id 18446744073709551616
      let value := sign_extend_value value value_arg 7 18446744073709551616 % 18446744073709551616
      some (to_string_int (int64 value) ++ "L".toList, ptr + value_arg + 1)
    else if value_type = 0x18 then
      let type_idx := read_value_bytes m ptr value_arg id 4294967296
      if type_idx < dex.type_names_.length then
        some (dex.type_names_.getD type_idx [], ptr + value_arg + 1)
      else some ("UnknownType@".toList ++ to_string type_idx, ptr + value_arg + 1)
    else if value_type = 0x1b then
      let field_idx := read_value_bytes m ptr value_arg id 4294967296
      some (".enum ".toList ++ get_field_reference dex field_idx, ptr + value_arg + 1)
    else if value_type = 0x1c then
      match decode_uleb128 m ptr with
      | none => none
      | some (size, ptr) =>
        if size = 0 then some ("\x7b\x7d".toList, ptr)
        else
          match parse_encoded_array_items dex m fuel size 0 ptr with
          | none => none
          | some (items, ptr) => some ("\x7b\n".toList ++ items ++ "    \x7d".toList, ptr)
    else if value_type = 0x1e then some ("null".toList, ptr)
    else if value_type = 0x1f then
      some ((if value_arg = 1 then "true" else "false").toList, ptr)
    else some ([ch_dquote, ch_dquote], ptr + value_arg + 1)
/-- The for loop of the VALUE_ARRAY case of parse_encoded_value from element i on: the text
appended to the result and the advanced pointer. -/
def parse_encoded_array_items (dex : DexFile) (m : Nat → Nat) :
    Nat → Nat → Nat → Nat → Option (Str × Nat)
  | 0, _, _, _ => none
  | fuel + 1, size, i, ptr =>
    if i < size then
      match parse_encoded_value dex m fuel ptr with
      | none => none
      | some (value, ptr) =>
        match parse_encoded_array_items dex m fuel size (i + 1) ptr with
        | none => none
        | some (items, ptr) =>
          some ("        ".toList ++ value ++ (if i < size - 1 then ",".toList else []) ++
            "\n".toList ++ items, ptr)
    else some ([], ptr)
end

/-- The text `snprintf(escape, sizeof(escape), "\\u%04x", value)` writes for a value below
2^16: backslash, u, and the hexadecimal digits padded with zeros to four. -/
def unicode_escape (value : Nat) : Str :=
  [ch_backslash, 'u'] ++ List.replicate (4 - (hex value).length) '0' ++ hex value

/-- The conversion loop of DexFile::parse_string_ids over the bytes of one string, from index j
on (`c :: rest` are the bytes `str_start[j ..]`, so `remaining` is their number).  Every
iteration consumes at least one byte, so `fuel` at least the number of bytes left is enough. -/
def parse_string_ids_convert_loop : Nat → List Nat → Str
  | 0, _ => []
  | _ + 1, [] => []
  | fuel + 1, c0 :: rest =>
    let c := c0 % 256
    if c < 0x80 then Char.ofNat c :: parse_string_ids_convert_loop fuel rest
    else
      let remaining := rest.length + 1
      let next := fun k => rest.getD k 0 % 256
      if c &&& 0xE0 = 0xC0 ∧ remaining ≥ 2 then
        unicode_escape ((((c &&& 0x1F) <<< 6) ||| (next 0 &&& 0x3F)) &&& 0xFFFF) ++
          parse_string_ids_convert_loop fuel (rest.drop 1)
      else if c &&& 0xF0 = 0xE0 ∧ remaining ≥ 3 then
        unicode_escape ((((c &&& 0x0F) <<< 12) ||| ((next 0 &&& 0x3F) <<< 6) |||
            (next 1 &&& 0x3F)) &&& 0xFFFF) ++
          parse_string_ids_convert_loop fuel (rest.drop 2)
      else if c &&& 0xF8 = 0xF0 ∧ remaining ≥ 4 then
        unicode_escape ((((c &&& 0x07) <<< 18) ||| ((next 0 &&& 0x3F) <<< 12) |||
            ((next 1 &&& 0x3F) <<< 6) ||| (next 2 &&& 0x3F)) &&& 0xFFFF) ++
          parse_string_ids_convert_loop fuel (rest.drop 3)
      else unicode_escape (c &&& 0xFFFF) ++ parse_string_ids_convert_loop fuel rest

/-- The string that DexFile::parse_string_ids stores for the string-data bytes `str`. -/
def parse_string_ids_convert (str : List Nat) : Str := parse_string_ids_convert_loop str.length str

/-! Specification-side definitions, written from the words of the specification -/

/-- Specification: a hexadecimal digit, of either case. -/
def spec_is_hex (c : Char) : Bool := c ∈ "0123456789abcdefABCDEF".toList

/-- Specification: the text begins with `u` and four hexadecimal digits. -/
def spec_begins_u_escape : Str → Bool
  | u :: a :: b :: c :: d :: _ =>
    u == 'u' && spec_is_hex a && spec_is_hex b && spec_is_hex c && spec_is_hex d
  | _ => false

/-- Specification: the escape E of one character: CR, LF, TAB, the two quotes and the backslash
become a backslash and a letter or the character, every other character stays. -/
def spec_escape_char (c : Char) : Str :=
  if c = ch_cr then [ch_backslash, 'r']
  else if c = ch_lf then [ch_backslash, 'n']
  else if c = ch_tab then [ch_backslash, 't']
  else if c = ch_dquote then [ch_backslash, ch_dquote]
  else if c = ch_squote then [ch_backslash, ch_squote]
  else if c = ch_backslash then [ch_backslash, ch_backslash]
  else [c]

/-- Specification: the escape E of a text; `copy` counts the characters of a `\uXXXX` sequence
still to be copied unchanged. -/
def spec_escape_aux : Nat → Str → Str
  | _, [] => []
  | copy + 1, c :: rest => c :: spec_escape_aux copy rest
  | 0, c :: rest =>
    if c = ch_backslash ∧ spec_begins_u_escape rest = true then c :: spec_escape_aux 5 rest
    else spec_escape_char c ++ spec_escape_aux 0 rest

/-- Specification: the escape E of string literals: every character is escaped on its own,
except that a backslash that begins `\uXXXX` is copied with the five characters after it. -/
def spec_escape (s : Str) : Str := spec_escape_aux 0 s

/-- Specification: the inverse escaping rules; `escaped` tells that the previous character was
an unconsumed backslash.  Backslash followed by r, n, t, a quote or a backslash gives the single
character; a backslash followed by anything else (as in `\uXXXX`) is left as it is. -/
def spec_unescape_aux : Bool → Str → Str
  | false, [] => []
  | true, [] => [ch_backslash]
  | false, c :: rest =>
    if c = ch_backslash then spec_unescape_aux true rest else c :: spec_unescape_aux false rest
  | true, c :: rest =>
    (if c = 'r' then [ch_cr]
     else if c = 'n' then [ch_lf]
     else if c = 't' then [ch_tab]
     else if c = ch_dquote then [ch_dquote]
     else if c = ch_squote then [ch_squote]
     else if c = ch_backslash then [ch_backslash]
     else [ch_backslash, c]) ++ spec_unescape_aux false rest

/-- Specification: the inverse of the escape E. -/
def spec_unescape (s : Str) : Str := spec_unescape_aux false s

/-- Specification: a unit of UTF-8 text, given by the payload bits of its bytes: one byte below
0x80, or a two-, three- or four-byte sequence. -/
inductive Utf8Unit where
  | ascii (b : Nat)
  | two (a b : Nat)
  | three (a b c : Nat)
  | four (a b c d : Nat)

/-- Specification: the payload of every byte fits its field (5, 4 or 3 bits in the lead byte, 6
bits in a continuation byte). -/
def Utf8Unit.WellFormed : Utf8Unit → Prop
  | .ascii b => b < 0x80
  | .two a b => a < 32 ∧ b < 64
  | .three a b c => a < 16 ∧ b < 64 ∧ c < 64
  | .four a b c d => a < 8 ∧ b < 64 ∧ c < 64 ∧ d < 64

/-- Specification: the bytes of a unit: lead byte 110xxxxx, 1110xxxx or 11110xxx followed by
continuation bytes 10xxxxxx. -/
def Utf8Unit.bytes : Utf8Unit → List Nat
  | .ascii b => [b]
  | .two a b => [0xC0 + a, 0x80 + b]
  | .three a b c => [0xE0 + a, 0x80 + b, 0x80 + c]
  | .four a b c d => [0xF0 + a, 0x80 + b, 0x80 + c, 0x80 + d]

/-- Specification: the code point that a unit encodes. -/
def Utf8Unit.code_point : Utf8Unit → Nat
  | .ascii b => b
  | .two a b => a * 64 + b
  | .three a b c => a * 4096 + b * 64 + c
  | .four a b c d => a * 262144 + b * 4096 + c * 64 + d

/-- Specification: the lowercase hexadecimal digit of a value below 16. -/
def spec_hex_digit (d : Nat) : Char := "0123456789abcdef".toList.getD d '0'

/-- Specification: the text of a unit in a pool string: the byte itself below 0x80, otherwise
`\u` and the four lowercase hexadecimal digits of the low 16 bits of the code point. -/
def Utf8Unit.rendered : Utf8Unit → Str
  | .ascii b => [Char.ofNat b]
  | u =>
    let low := u.code_point % 65536
    [ch_backslash, 'u', spec_hex_digit (low / 4096), spec_hex_digit (low / 256 % 16),
      spec_hex_digit (low / 16 % 16), spec_hex_digit (low % 16)]

/-- The string-data bytes 68 c3 a9 6c 6c 6f as units: h, é (payload bits 00011 and 101001),
l, l, o. -/
def hello_units : List Utf8Unit :=
  [.ascii 0x68, .two 3 0x29, .ascii 0x6c, .ascii 0x6c, .ascii 0x6f]

/-- Decision of well-formedness. -/
instance Utf8Unit.decidableWellFormed (u : Utf8Unit) : Decidable u.WellFormed := by
  cases u <;> unfold Utf8Unit.WellFormed <;> infer_instance

/-- A pool string with a tab, a CR LF pair, an escape sequence backslash u00e9, a lone
backslash and both quotes. -/
def tricky_string : Str :=
  ['a', ch_tab, 'b', ch_cr, ch_lf, ch_backslash, 'u', '0', '0', 'e', '9', ch_backslash,
    ch_dquote, ch_squote]

/-! The header and the id pools (dex_file.cpp, dex_file.hpp).  The `reserve` calls of the
parsers, and with them the exhaustion of memory, are not followed. -/

/-- The constant DEX_FILE_MAGIC_V035: the characters d, e, x, line feed, 0, 3, 5 and NUL. -/
def DEX_FILE_MAGIC_V035 : List Nat := ['d', 'e', 'x', ch_lf, '0', '3', '5', Char.ofNat 0].map Char.toNat

/-- The constant DEX_FILE_MAGIC_V037. -/
def DEX_FILE_MAGIC_V037 : List Nat := ['d', 'e', 'x', ch_lf, '0', '3', '7', Char.ofNat 0].map Char.toNat

/-- The constant DEX_FILE_MAGIC_V038. -/
def DEX_FILE_MAGIC_V038 : List Nat := ['d', 'e', 'x', ch_lf, '0', '3', '8', Char.ofNat 0].map Char.toNat

/-- The constant DEX_FILE_MAGIC_V039. -/
def DEX_FILE_MAGIC_V039 : List Nat := ['d', 'e', 'x', ch_lf, '0', '3', '9', Char.ofNat 0].map Char.toNat

/-- The value of sizeof(DexHeader): 8 + 4 + 20 bytes and twenty uint32_t fields, packed. -/
def sizeof_DexHeader : Nat := 112

/-- The struct DexHeader that `memcpy` fills from the first sizeof(DexHeader) bytes at `m`. -/
def read_header (m : Nat → Nat) : DexHeader :=
  { magic := (List.range 8).map (fun i => read_u8 m i), checksum := read_u32 m 8,
    signature := (List.range 20).map (fun i => read_u8 m (12 + i)), file_size := read_u32 m 32,
    header_size := read_u32 m 36, endian_tag := read_u32 m 40, link_size := read_u32 m 44,
    link_off := read_u32 m 48, map_off := read_u32 m 52, string_ids_size := read_u32 m 56,
    string_ids_off := read_u32 m 60, type_ids_size := read_u32 m 64,
    type_ids_off := read_u32 m 68, proto_ids_size := read_u32 m 72,
    proto_ids_off := read_u32 m 76, field_ids_size := read_u32 m 80,
    field_ids_off := read_u32 m 84, method_ids_size := read_u32 m 88,
    method_ids_off := read_u32 m 92, class_defs_size := read_u32 m 96,
    class_defs_off := read_u32 m 100, data_size := read_u32 m 104, data_off := read_u32 m 108 }

/-- DexFile::parse_header: the returned flag and the state afterwards (the header is stored as
soon as the file is long enough, whatever the later checks say). -/
def parse_header (dex : DexFile) : Bool × DexFile :=
  if dex.file_data_size < sizeof_DexHeader then (false, dex)
  else
    let header := read_header dex.file_data_
    let dex := { dex with header_ := header }
    if header.magic ≠ DEX_FILE_MAGIC_V035 ∧ header.magic ≠ DEX_FILE_MAGIC_V037 ∧
        header.magic ≠ DEX_FILE_MAGIC_V038 ∧ header.magic ≠ DEX_FILE_MAGIC_V039 then (false, dex)
    else if header.file_size ≠ dex.file_data_size then (false, dex)
    else if header.header_size ≠ sizeof_DexHeader then (false, dex)
    else (true, dex)

/-- The library function strnlen on the bytes at `s`: the number of bytes before the first NUL,
at most `maxlen`. -/
def strnlen (m : Nat → Nat) (s : Nat) : Nat → Nat
  | 0 => 0
  | maxlen + 1 => if read_u8 m s = 0 then 0 else strnlen m (s + 1) maxlen + 1

/-- The for loop of DexFile::parse_string_ids from index i with `n` iterations left; `strings`
is strings_ so far.  The result is the returned flag with strings_, or `none` when a
decode_uleb128 call does not come back. -/
def parse_string_ids_loop (dex : DexFile) : Nat → Nat → List Str → Option (Bool × List Str)
  | 0, _, strings => some (true, strings)
  | n + 1, i, strings =>
    if dex.header_.string_ids_off + (i + 1) * 4 > dex.file_data_size then some (false, strings)
    else
      let string_data_off := read_u32 dex.file_data_ (dex.header_.string_ids_off + i * 4)
      if string_data_off ≥ dex.file_data_size then some (false, strings)
      else
        match decode_uleb128 dex.file_data_ string_data_off with
        | none => none
        | some (_, str_start) =>
          let max_len := (dex.file_data_size + 18446744073709551616 - str_start) %
            18446744073709551616
          let str_len := strnlen dex.file_data_ str_start max_len
          if str_start + str_len ≥ dex.file_data_size then some (false, strings)
          else
            let str := parse_string_ids_convert
              ((List.range str_len).map (fun j => read_u8 dex.file_data_ (str_start + j)))
            parse_string_ids_loop dex n (i + 1) (strings ++ [str])

/-- DexFile::parse_string_ids: the returned flag and the state afterwards. -/
def parse_string_ids (dex : DexFile) : Option (Bool × DexFile) :=
  if dex.header_.string_ids_size = 0 then some (true, dex)
  else
    (parse_string_ids_loop dex dex.header_.string_ids_size 0 dex.strings_).map
      (fun r => (r.1, { dex with strings_ := r.2 }))

/-- The for loop of DexFile::parse_type_ids from index i with `n` iterations left. -/
def parse_type_ids_loop (dex : DexFile) : Nat → Nat → List Str → Bool × List Str
  | 0, _, type_names => (true, type_names)
  | n + 1, i, type_names =>
    if dex.header_.type_ids_off + (i + 1) * 4 > dex.file_data_size then (false, type_names)
    else
      let descriptor_idx := read_u32 dex.file_data_ (dex.header_.type_ids_off + i * 4)
      if descriptor_idx ≥ dex.strings_.length then (false, type_names)
      else parse_type_ids_loop dex n (i + 1) (type_names ++ [dex.strings_.getD descriptor_idx []])

/-- DexFile::parse_type_ids: the returned flag and the state afterwards. -/
def parse_type_ids (dex : DexFile) : Bool × DexFile :=
  if dex.header_.type_ids_size = 0 then (true, dex)
  else
    let r := parse_type_ids_loop dex dex.header_.type_ids_size 0 dex.type_names_
    (r.1, { dex with type_names_ := r.2 })

/-- The signature that one iteration of the loop of DexFile::parse_proto_ids builds for the
proto id with index i: the parameter types of the type list at parameters_off between
parentheses, then the return type.  No offset or index of the file is compared with the
file size. -/
def proto_signature (dex : DexFile) (i : Nat) : Str :=
  let proto_id := dex.header_.proto_ids_off + i * 12
  let return_type_idx := read_u32 dex.file_data_ (proto_id + 4)
  let parameters_off := read_u32 dex.file_data_ (proto_id + 8)
  "(".toList ++
    (if parameters_off ≠ 0 then
      let param_count := read_u32 dex.file_data_ parameters_off
      ((List.range param_count).map (fun j =>
        let type_idx := read_u16 dex.file_data_ (parameters_off + 4 + 2 * j)
        if type_idx < dex.type_names_.length then dex.type_names_.getD type_idx []
        else [])).flatten
    else []) ++
    ")".toList ++
    (if return_type_idx < dex.type_names_.length then dex.type_names_.getD return_type_idx []
    else [])

/-- DexFile::parse_proto_ids: the returned flag (always true) and the state afterwards. -/
def parse_proto_ids (dex : DexFile) : Bool × DexFile :=
  if dex.header_.proto_ids_size = 0 then (true, dex)
  else
    (true, { dex with proto_signatures_ := dex.proto_signatures_ ++
      (List.range dex.header_.proto_ids_size).map (proto_signature dex) })

/-- The for loop of DexFile::parse_field_ids from index i with `n` iterations left (name_idx is
the uint32_t at byte 4 of the 8-byte DexFieldId). -/
def parse_field_ids_loop (dex : DexFile) : Nat → Nat → List Str → Bool × List Str
  | 0, _, field_names => (true, field_names)
  | n + 1, i, field_names =>
    let name_idx := read_u32 dex.file_data_ (dex.header_.field_ids_off + i * 8 + 4)
    if name_idx ≥ dex.strings_.length then (false, field_names)
    else parse_field_ids_loop dex n (i + 1) (field_names ++ [dex.strings_.getD name_idx []])

/-- DexFile::parse_field_ids: the returned flag and the state afterwards. -/
def parse_field_ids (dex : DexFile) : Bool × DexFile :=
  if dex.header_.field_ids_size = 0 then (true, dex)
  else
    let r := parse_field_ids_loop dex dex.header_.field_ids_size 0 dex.field_names_
    (r.1, { dex with field_names_ := r.2 })

/-- The for loop of DexFile::parse_method_ids from index i with `n` iterations left (name_idx
is the uint32_t at byte 4 of the 8-byte DexMethodId). -/
def parse_method_ids_loop (dex : DexFile) : Nat → Nat → List Str → Bool × List Str
  | 0, _, method_names => (true, method_names)
  | n + 1, i, method_names =>
    let name_idx := read_u32 dex.file_data_ (dex.header_.method_ids_off + i * 8 + 4)
    if name_idx ≥ dex.strings_.length then (false, method_names)
    else parse_method_ids_loop dex n (i + 1) (method_names ++ [dex.strings_.getD name_idx []])

/-- DexFile::parse_method_ids: the returned flag and the state afterwards. -/
def parse_method_ids (dex : DexFile) : Bool × DexFile :=
  if dex.header_.method_ids_size = 0 then (true, dex)
  else
    let r := parse_method_ids_loop dex dex.header_.method_ids_size 0 dex.method_names_
    (r.1, { dex with method_names_ := r.2 })

/-- A freshly constructed DexFile holding the `size` bytes at `file_data`: the pools are empty
and the header is not read yet. -/
def new_dex_file (file_data : Nat → Nat) (size : Nat) : DexFile :=
  { file_data_ := file_data, file_data_size := size, header_ := empty_header, strings_ := [],
    type_names_ := [], method_names_ := [], field_names_ := [], proto_signatures_ := [] }

/-- The bytes of a header of a file of `file_size` bytes with a pool of one string id at 0x70,
one type id at 0x74, `proto_ids_size` proto ids at `proto_ids_off` and `class_defs_size` class
defs at `class_defs_off`. -/
def small_header (file_size proto_ids_size proto_ids_off class_defs_size class_defs_off : Nat) :
    List Nat :=
  [0x64, 0x65, 0x78, 0x0a, 0x30, 0x33, 0x35, 0x00] ++ List.replicate 24 0 ++
  [file_size, 0, 0, 0, 0x70, 0, 0, 0, 0x78, 0x56, 0x34, 0x12] ++ List.replicate 12 0 ++
  [1, 0, 0, 0, 0x70, 0, 0, 0, 1, 0, 0, 0, 0x74, 0, 0, 0] ++
  [proto_ids_size, 0, 0, 0, proto_ids_off, 0, 0, 0] ++ List.replicate 16 0 ++
  [class_defs_size, 0, 0, 0, class_defs_off, 0, 0, 0] ++ List.replicate 8 0

/-- The pools of the small files: the string id at 0x70 points to the string data `01 56 00`
(the text V) at 0x78, and the type id at 0x74 names string 0. -/
def small_pools : List Nat := [0x78, 0, 0, 0, 0, 0, 0, 0, 0x01, 0x56, 0x00, 0x00]

/-- The 0x7c bytes of a file whose header passes validation and announces one proto id at
offset 0x7c, which is the end of the file. -/
def proto_past_end_bytes : List Nat := small_header 0x7c 1 0x7c 0 0 ++ small_pools

/-- A memory that holds the file `proto_past_end_bytes` and zero bytes after it. -/
def proto_past_end_a : Nat → Nat := image proto_past_end_bytes

/-- A memory that holds the file `proto_past_end_bytes` and, after the file, the byte 5 at
index 0x80. -/
def proto_past_end_b : Nat → Nat := image (proto_past_end_bytes ++ [0, 0, 0, 0, 5, 0, 0, 0])

/-- The 0x9c bytes of a file whose header passes validation, with one type in the type pool
and one class def at 0x7c: class_idx 7, access flags 1, no superclass, no source file, and
the offsets of interfaces, annotations, class data and static values all zero. -/
def bad_class_idx_bytes : List Nat :=
  small_header 0x9c 0 0 1 0x7c ++ small_pools ++
  [7, 0, 0, 0, 1, 0, 0, 0, 0xff, 0xff, 0xff, 0xff, 0, 0, 0, 0, 0xff, 0xff, 0xff, 0xff] ++
  List.replicate 12 0

/-! The case labels of format_instruction (dalvik_opcodes.cpp) -/

/-- The opcodes that have a case label in the switch of format_instruction; every other opcode
byte takes the default branch. -/
def handled_opcodes : List Nat :=
  [OP_CONST_STRING, OP_NEW_INSTANCE, OP_CHECK_CAST,
   OP_INVOKE_DIRECT, OP_INVOKE_VIRTUAL, OP_INVOKE_SUPER, OP_INVOKE_STATIC, OP_INVOKE_INTERFACE,
   OP_MOVE, OP_MOVE_OBJECT,
   OP_MOVE_RESULT, OP_MOVE_RESULT_WIDE, OP_MOVE_RESULT_OBJECT, OP_MOVE_EXCEPTION, OP_THROW,
   OP_NOP, OP_FILL_ARRAY_DATA, OP_RETURN_VOID, OP_RETURN, OP_RETURN_WIDE, OP_RETURN_OBJECT,
   OP_CONST_4, OP_CONST_16, OP_CONST, OP_CONST_HIGH16,
   OP_IGET, OP_IGET_WIDE, OP_IGET_OBJECT, OP_IGET_BOOLEAN, OP_IGET_BYTE, OP_IGET_CHAR,
   OP_IGET_SHORT, OP_IPUT, OP_IPUT_WIDE, OP_IPUT_OBJECT, OP_IPUT_BOOLEAN, OP_IPUT_BYTE,
   OP_IPUT_CHAR, OP_IPUT_SHORT,
   OP_SGET, OP_SGET_WIDE, OP_SGET_OBJECT, OP_SGET_BOOLEAN, OP_SGET_BYTE, OP_SGET_CHAR,
   OP_SGET_SHORT, OP_SPUT, OP_SPUT_WIDE, OP_SPUT_OBJECT, OP_SPUT_BOOLEAN, OP_SPUT_BYTE,
   OP_SPUT_CHAR, OP_SPUT_SHORT,
   OP_ADD_INT, OP_SUB_INT, OP_MUL_INT, OP_DIV_INT, OP_REM_INT, OP_AND_INT, OP_OR_INT, OP_XOR_INT,
   OP_ADD_INT_2ADDR, OP_SUB_INT_2ADDR, OP_MUL_INT_2ADDR, OP_DIV_INT_2ADDR, OP_REM_INT_2ADDR,
   OP_AND_INT_2ADDR, OP_OR_INT_2ADDR, OP_XOR_INT_2ADDR,
   OP_GOTO, OP_GOTO_16, OP_GOTO_32,
   OP_IF_EQ, OP_IF_NE, OP_IF_LT, OP_IF_GE, OP_IF_GT, OP_IF_LE,
   OP_IF_EQZ, OP_IF_NEZ, OP_IF_LTZ, OP_IF_GEZ, OP_IF_GTZ, OP_IF_LEZ,
   OP_AGET, OP_APUT, OP_AGET_OBJECT, OP_APUT_OBJECT, OP_NEW_ARRAY, OP_INSTANCE_OF,
   OP_PACKED_SWITCH, OP_SPARSE_SWITCH,
   OP_INVOKE_VIRTUAL_RANGE, OP_INVOKE_SUPER_RANGE, OP_INVOKE_DIRECT_RANGE,
   OP_INVOKE_STATIC_RANGE, OP_INVOKE_INTERFACE_RANGE,
   OP_CONST_CLASS, OP_ARRAY_LENGTH, OP_INT_TO_BYTE, OP_INT_TO_CHAR, OP_INT_TO_SHORT,
   OP_ADD_INT_LIT8, OP_RSUB_INT_LIT8, OP_MUL_INT_LIT8, OP_DIV_INT_LIT8, OP_REM_INT_LIT8,
   OP_AND_INT_LIT8, OP_OR_INT_LIT8, OP_XOR_INT_LIT8, OP_SHL_INT_LIT8, OP_SHR_INT_LIT8,
   OP_USHR_INT_LIT8, OP_MONITOR_ENTER, OP_MONITOR_EXIT]

/-- A pointer to the three code units `unit0`, `unit1` and `unit2`. -/
def three_units (unit0 unit1 unit2 : Nat) : Nat → Nat := image [unit0, unit1, unit2]

/-- A file state with one method id (class 0, proto 0, name 1) at offset 0, which resolves to
`Lfoo;->bar()V`. -/
def dex_with_method : DexFile :=
  { file_data_ := image [0, 0, 0, 0, 1, 0, 0, 0], file_data_size := 8,
    header_ := { empty_header with method_ids_size := 1, method_ids_off := 0 },
    strings_ := ["x".toList, "bar".toList], type_names_ := ["Lfoo;".toList], method_names_ := [],
    field_names_ := [], proto_signatures_ := ["()V".toList] }

/-- Specification: the five register nibbles of a 35c instruction in argument order, C, D, E
and F from unit 2 (lowest nibble first), then G from bits 8..11 of unit 0. -/
def spec_35c_registers (unit0 unit2 : Nat) : List Nat :=
  [unit2 &&& 0xF, (unit2 >>> 4) &&& 0xF, (unit2 >>> 8) &&& 0xF, (unit2 >>> 12) &&& 0xF,
    (unit0 >>> 8) &&& 0xF]

/-- Specification: a brace list of registers, `v` and the decimal number of each, separated by
a comma and a blank. -/
def spec_register_list (regs : List Nat) : Str :=
  "\x7b".toList ++ List.intercalate ", ".toList (regs.map (fun r => 'v' :: to_string r)) ++
    "\x7d".toList

/-! Class data, code items and debug info (dex_file.cpp) -/

/-- The for loop of DexFile::parse_encoded_fields with `n` iterations left: the pointer, the
running field_idx (a uint32_t) and the vector `fields`.  The function returns true whenever it
returns; the result is `none` when a decode_uleb128 call does not come back. -/
def parse_encoded_fields_loop (dex : DexFile) :
    Nat → Nat → Nat → List DexField → Option (List DexField × Nat)
  | 0, ptr, _, fields => some (fields, ptr)
  | n + 1, ptr, field_idx, fields =>
    (decode_uleb128 dex.file_data_ ptr).bind fun diff =>
    (decode_uleb128 dex.file_data_ diff.2).bind fun flags =>
    let field_idx := (field_idx + diff.1) % 4294967296
    let field_data := dex.header_.field_ids_off + field_idx * 8
    let class_idx := read_u16 dex.file_data_ field_data
    let type_idx := read_u16 dex.file_data_ (field_data + 2)
    let name_idx := read_u32 dex.file_data_ (field_data + 4)
    let known := field_idx < dex.header_.field_ids_size
    let field : DexField :=
      { field_idx := field_idx, access_flags := flags.1,
        name := if known ∧ name_idx < dex.strings_.length then dex.strings_.getD name_idx []
          else [],
        type := if known ∧ type_idx < dex.type_names_.length then dex.type_names_.getD type_idx []
          else [],
        class_name := if known ∧ class_idx < dex.type_names_.length then
          dex.type_names_.getD class_idx [] else [],
        initial_value := [], annotations := [] }
    parse_encoded_fields_loop dex n flags.2 field_idx (fields ++ [field])

/-- DexFile::parse_encoded_fields: the vector `fields` and the pointer afterwards. -/
def parse_encoded_fields (dex : DexFile) (ptr count : Nat) (fields : List DexField) :
    Option (List DexField × Nat) :=
  parse_encoded_fields_loop dex count ptr 0 fields

/-- The lookup `(idx != 0 && idx <= pool.size()) ? pool[idx - 1] : ""` that parse_debug_info
makes for the names, types and signatures of its operands. -/
def pool_entry_p1 (pool : List Str) (idx : Nat) : Str :=
  if idx ≠ 0 ∧ idx ≤ pool.length then pool.getD (idx - 1) [] else []

/-- The for loop of parse_debug_info that reads the parameter names, with `n` iterations
left. -/
def parse_debug_parameter_names (dex : DexFile) : Nat → Nat → List Str → Option (List Str × Nat)
  | 0, ptr, parameter_names => some (parameter_names, ptr)
  | n + 1, ptr, parameter_names =>
    (decode_uleb128 dex.file_data_ ptr).bind fun name =>
    parse_debug_parameter_names dex n name.2
      (parameter_names ++ [pool_entry_p1 dex.strings_ name.1])

/-- The while loop of the lambda parse_parameter_types of parse_debug_info, on the characters
of proto from `index` on.  Every iteration consumes a character, so `fuel` equal to the number
of characters is enough. -/
def parse_parameter_types_loop : Nat → Str → List Str
  | 0, _ => []
  | _ + 1, [] => []
  | fuel + 1, c :: rest =>
    if c = ')' then []
    else
      let brackets := (c :: rest).takeWhile (fun x => x == '[')
      let after := (c :: rest).dropWhile (fun x => x == '[')
      match after with
      | [] => []
      | t :: tail =>
        if t = 'L' then
          match str_find after [';'] 0 with
          | none => []
          | some semi =>
            (brackets ++ after.take (semi + 1)) ::
              parse_parameter_types_loop fuel (after.drop (semi + 1))
        else (brackets ++ [t]) :: parse_parameter_types_loop fuel tail

/-- The lambda parse_parameter_types of parse_debug_info: the parameter type descriptors of a
proto signature. -/
def parse_parameter_types (proto : Str) : List Str :=
  if proto.isEmpty then []
  else
    match str_find proto ['('] 0 with
    | none => []
    | some paren_pos => parse_parameter_types_loop proto.length (proto.drop (paren_pos + 1))

/-- The enum LocalKind of parse_debug_info. -/
inductive LocalKind where
  | NONE
  | START
  | END
  | RESTART
  deriving DecidableEq

/-- The struct LocalState of parse_debug_info. -/
structure LocalState where
  name : Str
  type_descriptor : Str
  signature : Str
  kind : LocalKind
  deriving DecidableEq

/-- The variable empty_state of parse_debug_info. -/
def empty_state : LocalState :=
  { name := [], type_descriptor := [], signature := [], kind := LocalKind.NONE }

/-- The statements of parse_debug_info that put `this` into locals[0] for a method that is not
static: the table and parameter_index afterwards. -/
def seed_this (register_count : Nat) (method_context : Option DexMethod)
    (locals : List LocalState) : List LocalState × Nat :=
  match method_context with
  | none => (locals, 0)
  | some method =>
    if method.access_flags &&& ACC_STATIC = 0 then
      let this_state : LocalState :=
        { name := "this".toList, type_descriptor := method.class_name, signature := [],
          kind := LocalKind.START }
      (if 0 < register_count then locals.set 0 this_state else locals, 1)
    else (locals, 0)

/-- The for loop of parse_debug_info over parameter_types: the state is the table,
parameter_index and param_name_index. -/
def seed_parameters (register_count : Nat) (parameter_names : List Str) :
    List Str → List LocalState × Nat × Nat → List LocalState × Nat × Nat
  | [], state => state
  | type :: types, (locals, parameter_index, param_name_index) =>
    let param_state : LocalState :=
      { name := if param_name_index < parameter_names.length then
          parameter_names.getD param_name_index [] else [],
        type_descriptor := type, signature := [], kind := LocalKind.START }
    seed_parameters register_count parameter_names types
      (if parameter_index < register_count then locals.set parameter_index param_state
        else locals, parameter_index + 1, param_name_index + 1)

/-- The loop `while (--parameter_index > -1)` of parse_debug_info that moves the seeded
entries to the last registers; the first argument is the value of parameter_index before the
decrement, local_index is an int. -/
def shift_parameters_loop (register_count : Nat) : Nat → Int → List LocalState → List LocalState
  | 0, _, locals => locals
  | parameter_index + 1, local_index, locals =>
    let current := locals.getD parameter_index empty_state
    let is_wide := current.type_descriptor = "J".toList ∨ current.type_descriptor = "D".toList
    let local_index := if is_wide then local_index - 1 else local_index
    if is_wide ∧ local_index = (parameter_index : Int) then locals
    else
      let locals :=
        if 0 ≤ local_index ∧ local_index < (register_count : Int) then
          locals.set local_index.toNat current
        else locals
      shift_parameters_loop register_count parameter_index (local_index - 1)
        (locals.set parameter_index empty_state)

/-- The table `locals` of parse_debug_info when its main loop starts. -/
def initial_locals (register_count : Nat) (method_context : Option DexMethod)
    (parameter_names : List Str) : List LocalState :=
  let parameter_types :=
    match method_context with
    | none => []
    | some method => parse_parameter_types method.signature
  let seeded := seed_this register_count method_context
    (List.replicate register_count empty_state)
  let state := seed_parameters register_count parameter_names parameter_types
    (seeded.1, seeded.2, 0)
  if state.2.1 < register_count then
    shift_parameters_loop register_count state.2.1 ((register_count : Int) - 1) state.1
  else state.1

/-- The main loop `while (ptr < end)` of parse_debug_info: the state is the pointer, address (a
uint32_t), line (an int32_t, whose additions are taken modulo 2^32), the table of locals and
code.debug_items.  Every iteration reads at least one byte below `file_end`, so `fuel` equal to
the file size covers every run; the result is `none` when a decode_uleb128 call does not come
back. -/
def parse_debug_info_loop (dex : DexFile) (file_end : Nat) :
    Nat → Nat → Nat → Int → List LocalState → List DebugItem → Option (List DebugItem)
  | 0, ptr, _, _, _, debug_items => if ptr < file_end then none else some debug_items
  | fuel + 1, ptr, address, line, locals, debug_items =>
    if ptr < file_end then
      let opcode := read_u8 dex.file_data_ ptr
      let ptr := ptr + 1
      if opcode = 0x00 then some debug_items
      else if opcode = 0x01 then
        (decode_uleb128 dex.file_data_ ptr).bind fun addr_diff =>
        parse_debug_info_loop dex file_end fuel addr_diff.2
          ((address + addr_diff.1) % 4294967296) line locals debug_items
      else if opcode = 0x02 then
        (decode_uleb128 dex.file_data_ ptr).bind fun line_diff =>
        parse_debug_info_loop dex file_end fuel line_diff.2 address
          (int32 (u32 (line + int32 line_diff.1))) locals debug_items
      else if opcode = 0x03 then
        (decode_uleb128 dex.file_data_ ptr).bind fun register_num =>
        (decode_uleb128 dex.file_data_ register_num.2).bind fun name_idx =>
        (decode_uleb128 dex.file_data_ name_idx.2).bind fun type_idx =>
        let name := pool_entry_p1 dex.strings_ name_idx.1
        let type := pool_entry_p1 dex.type_names_ type_idx.1
        let locals :=
          if register_num.1 < locals.length then
            locals.set register_num.1
              { name := name, type_descriptor := type, signature := [], kind := LocalKind.START }
          else locals
        parse_debug_info_loop dex file_end fuel type_idx.2 address line locals
          (debug_items ++ [DebugItem.StartLocal address register_num.1 name type []])
      else if opcode = 0x04 then
        (decode_uleb128 dex.file_data_ ptr).bind fun register_num =>
        (decode_uleb128 dex.file_data_ register_num.2).bind fun name_idx =>
        (decode_uleb128 dex.file_data_ name_idx.2).bind fun type_idx =>
        (decode_uleb128 dex.file_data_ type_idx.2).bind fun sig_idx =>
        let name := pool_entry_p1 dex.strings_ name_idx.1
        let type := pool_entry_p1 dex.type_names_ type_idx.1
        let signature := pool_entry_p1 dex.strings_ sig_idx.1
        let locals :=
          if register_num.1 < locals.length then
            locals.set register_num.1
              { name := name, type_descriptor := type, signature := signature,
                kind := LocalKind.START }
          else locals
        parse_debug_info_loop dex file_end fuel sig_idx.2 address line locals
          (debug_items ++ [DebugItem.StartLocal address register_num.1 name type signature])
      else if opcode = 0x05 then
        (decode_uleb128 dex.file_data_ ptr).bind fun register_num =>
        let previous_state :=
          if register_num.1 < locals.length then locals.getD register_num.1 empty_state
          else empty_state
        let replace_entry := register_num.1 < locals.length ∧
          (locals.getD register_num.1 empty_state).kind ≠ LocalKind.END
        let comment_state := if replace_entry then previous_state else empty_state
        let locals :=
          if replace_entry ∧ register_num.1 < locals.length then
            locals.set register_num.1 { previous_state with kind := LocalKind.END }
          else locals
        parse_debug_info_loop dex file_end fuel register_num.2 address line locals
          (debug_items ++ [DebugItem.EndLocal address register_num.1 comment_state.name
            comment_state.type_descriptor comment_state.signature])
      else if opcode = 0x06 then
        (decode_uleb128 dex.file_data_ ptr).bind fun register_num =>
        let restart_state :=
          if register_num.1 < locals.length then locals.getD register_num.1 empty_state
          else empty_state
        let locals :=
          if register_num.1 < locals.length then
            locals.set register_num.1 { restart_state with kind := LocalKind.RESTART }
          else locals
        parse_debug_info_loop dex file_end fuel register_num.2 address line locals
          (debug_items ++ [DebugItem.RestartLocal address register_num.1 restart_state.name
            restart_state.type_descriptor restart_state.signature])
      else if opcode = 0x07 then
        parse_debug_info_loop dex file_end fuel ptr address line locals
          (debug_items ++ [DebugItem.PrologueEnd address])
      else if opcode = 0x08 then
        parse_debug_info_loop dex file_end fuel ptr address line locals
          (debug_items ++ [DebugItem.EpilogueBegin address])
      else if opcode = 0x09 then
        (decode_uleb128 dex.file_data_ ptr).bind fun file_name_idx =>
        parse_debug_info_loop dex file_end fuel file_name_idx.2 address line locals
          (if file_name_idx.1 ≠ 0 ∧ file_name_idx.1 ≤ dex.strings_.length then
            debug_items ++
              [DebugItem.SetSourceFile address (dex.strings_.getD (file_name_idx.1 - 1) [])]
          else debug_items)
      else
        let adjusted_opcode := opcode - 0x0a
        let line_diff : Int := ((adjusted_opcode % 15 : Nat) : Int) - 4
        let addr_diff := adjusted_opcode / 15
        let line := int32 (u32 (line + line_diff))
        let address := (address + addr_diff) % 4294967296
        parse_debug_info_loop dex file_end fuel ptr address line locals
          (if 0 ≤ line ∧ line < 65536 then
            debug_items ++ [DebugItem.LineNumber address line.toNat]
          else debug_items)
    else some debug_items

/-- DexFile::parse_debug_info: the code with the debug items that the function appends. -/
def parse_debug_info (dex : DexFile) (debug_info_off : Nat) (code : DexCode)
    (method_context : Option DexMethod) : Option DexCode :=
  if debug_info_off ≥ dex.file_data_size then some code
  else
    (decode_uleb128 dex.file_data_ debug_info_off).bind fun line_start =>
    (decode_uleb128 dex.file_data_ line_start.2).bind fun parameters_size =>
    (parse_debug_parameter_names dex parameters_size.1 parameters_size.2 []).bind fun names =>
    let locals := initial_locals code.registers_size method_context names.1
    (parse_debug_info_loop dex dex.file_data_size dex.file_data_size names.2 0
      (int32 line_start.1) locals code.debug_items).map
      fun debug_items => { code with debug_items := debug_items }

/-- DexFile::parse_code_item: the code, or `none` inside for a null pointer.  The outer `none`
stands for a call that does not come back. -/
def parse_code_item (dex : DexFile) (code_off : Nat) (method_context : Option DexMethod) :
    Option (Option DexCode) :=
  if code_off ≥ dex.file_data_size then some none
  else
    let insns_size := read_u32 dex.file_data_ (code_off + 12)
    let debug_info_off := read_u32 dex.file_data_ (code_off + 8)
    (if insns_size > 0 then
      parse_instructions dex (fun i => read_u16 dex.file_data_ (code_off + 16 + 2 * i)) insns_size
    else some []).bind fun instructions =>
    let code : DexCode :=
      { registers_size := read_u16 dex.file_data_ code_off,
        ins_size := read_u16 dex.file_data_ (code_off + 2),
        outs_size := read_u16 dex.file_data_ (code_off + 4),
        tries_size := read_u16 dex.file_data_ (code_off + 6),
        debug_info_off := debug_info_off, insns_size := insns_size,
        instructions := instructions, debug_items := [] }
    (if debug_info_off ≠ 0 then parse_debug_info dex debug_info_off code method_context
    else some code).map some

/-- The for loop of DexFile::parse_encoded_methods with `n` iterations left: the pointer, the
running method_idx (a uint32_t) and the vector `methods`.  The function returns true whenever
it returns. -/
def parse_encoded_methods_loop (dex : DexFile) :
    Nat → Nat → Nat → List DexMethod → Option (List DexMethod × Nat)
  | 0, ptr, _, methods => some (methods, ptr)
  | n + 1, ptr, method_idx, methods =>
    (decode_uleb128 dex.file_data_ ptr).bind fun diff =>
    (decode_uleb128 dex.file_data_ diff.2).bind fun flags =>
    (decode_uleb128 dex.file_data_ flags.2).bind fun code_off =>
    let method_idx := (method_idx + diff.1) % 4294967296
    let method_data := dex.header_.method_ids_off + method_idx * 8
    let class_idx := read_u16 dex.file_data_ method_data
    let proto_idx := read_u16 dex.file_data_ (method_data + 2)
    let name_idx := read_u32 dex.file_data_ (method_data + 4)
    let known := method_idx < dex.header_.method_ids_size
    let method : DexMethod :=
      { method_idx := method_idx, access_flags := flags.1, code := none,
        name := if known ∧ name_idx < dex.strings_.length then dex.strings_.getD name_idx []
          else [],
        signature :=
          if known then
            if proto_idx < dex.proto_signatures_.length then
              dex.proto_signatures_.getD proto_idx []
            else "()V".toList
          else [],
        class_name := if known ∧ class_idx < dex.type_names_.length then
          dex.type_names_.getD class_idx [] else [],
        annotations := [] }
    (if code_off.1 ≠ 0 ∧ code_off.1 < dex.file_data_size then
      parse_code_item dex code_off.1 (some method)
    else some none).bind fun code =>
    parse_encoded_methods_loop dex n code_off.2 method_idx (methods ++ [{ method with code := code }])

/-- DexFile::parse_encoded_methods: the vector `methods` and the pointer afterwards. -/
def parse_encoded_methods (dex : DexFile) (ptr count : Nat) (methods : List DexMethod) :
    Option (List DexMethod × Nat) :=
  parse_encoded_methods_loop dex count ptr 0 methods

/-- DexFile::parse_interfaces: the returned flag and the class afterwards. -/
def parse_interfaces (dex : DexFile) (interfaces_off : Nat) (dex_class : DexClass) :
    Bool × DexClass :=
  if interfaces_off ≥ dex.file_data_size then (false, dex_class)
  else
    let size := read_u32 dex.file_data_ interfaces_off
    (true, { dex_class with interfaces := dex_class.interfaces ++
      (List.range size).filterMap (fun i =>
        let type_idx := read_u16 dex.file_data_ (interfaces_off + 4 + 2 * i)
        if type_idx < dex.type_names_.length then some (dex.type_names_.getD type_idx [])
        else none) })

/-- DexFile::parse_class_data: the returned flag and the class afterwards. -/
def parse_class_data (dex : DexFile) (class_data_off : Nat) (dex_class : DexClass) :
    Option (Bool × DexClass) :=
  if class_data_off ≥ dex.file_data_size then some (false, dex_class)
  else
    (decode_uleb128 dex.file_data_ class_data_off).bind fun static_fields_size =>
    (decode_uleb128 dex.file_data_ static_fields_size.2).bind fun instance_fields_size =>
    (decode_uleb128 dex.file_data_ instance_fields_size.2).bind fun direct_methods_size =>
    (decode_uleb128 dex.file_data_ direct_methods_size.2).bind fun virtual_methods_size =>
    (parse_encoded_fields dex virtual_methods_size.2 static_fields_size.1
      dex_class.static_fields).bind fun static_fields =>
    (parse_encoded_fields dex static_fields.2 instance_fields_size.1
      dex_class.instance_fields).bind fun instance_fields =>
    (parse_encoded_methods dex instance_fields.2 direct_methods_size.1
      dex_class.direct_methods).bind fun direct_methods =>
    (parse_encoded_methods dex direct_methods.2 virtual_methods_size.1
      dex_class.virtual_methods).bind fun virtual_methods =>
    some (true,
      { dex_class with
        static_fields := static_fields.1, instance_fields := instance_fields.1,
        direct_methods := direct_methods.1, virtual_methods := virtual_methods.1 })

/-! Annotations, static values and class definitions (dex_file.cpp) -/

/-- The element loop of DexFile::parse_encoded_annotation with `n` iterations left: the
elements and the pointer afterwards. -/
def parse_encoded_annotation_elements (dex : DexFile) :
    Nat → Nat → List (Str × Str) → Option (List (Str × Str) × Nat)
  | 0, ptr, elements => some (elements, ptr)
  | n + 1, ptr, elements =>
    (decode_uleb128 dex.file_data_ ptr).bind fun name_idx =>
    (parse_encoded_value dex dex.file_data_ 18446744073709551616 name_idx.2).bind fun value =>
    let element_name :=
      if name_idx.1 < dex.strings_.length then dex.strings_.getD name_idx.1 [] else []
    parse_encoded_annotation_elements dex n value.2 (elements ++ [(element_name, value.1)])

/-- DexFile::parse_encoded_annotation: the annotation and the pointer afterwards (the function
returns true whenever it returns). -/
def parse_encoded_annotation (dex : DexFile) (ptr : Nat) ( annotation : DexAnnotation) :
    Option ( DexAnnotation × Nat) :=
  (decode_uleb128 dex.file_data_ ptr).bind fun type_idx =>
  (decode_uleb128 dex.file_data_ type_idx.2).bind fun size =>
  (parse_encoded_annotation_elements dex size.1 size.2 annotation.elements).map fun r =>
    ({ type := if type_idx.1 < dex.type_names_.length then dex.type_names_.getD type_idx.1 []
        else annotation.type,
       visibility := annotation.visibility, elements := r.1 }, r.2)

/-- DexFile::parse_annotation_item: the returned flag and the annotation afterwards. -/
def parse_annotation_item (dex : DexFile) ( annotation_off : Nat) ( annotation : DexAnnotation) :
    Option (Bool × DexAnnotation) :=
  if annotation_off ≥ dex.file_data_size then some (false, annotation)
  else
    ( parse_encoded_annotation dex (annotation_off + 1)
      { annotation with visibility := read_u8 dex.file_data_ annotation_off }).map
      fun r => (true, r.1)

/-- The for loop of DexFile::parse_annotation_set from entry i with `n` iterations left;
`entries` points to the first DexAnnotationOffItem.  A local DexAnnotation starts with an
empty type and no elements; its visibility is not initialised and is always assigned before
the annotation is stored. -/
def parse_annotation_set_loop (dex : DexFile) (entries : Nat) :
    Nat → Nat → List DexAnnotation → Option (List DexAnnotation)
  | 0, _, annotations => some annotations
  | n + 1, i, annotations =>
    (parse_annotation_item dex (read_u32 dex.file_data_ (entries + 4 * i))
      { type := [], visibility := 0, elements := [] }).bind fun r =>
    parse_annotation_set_loop dex entries n (i + 1)
      (if r.1 then annotations ++ [r.2] else annotations)

/-- DexFile::parse_annotation_set: the returned flag and the vector afterwards. -/
def parse_annotation_set (dex : DexFile) (annotations_off : Nat)
    (annotations : List DexAnnotation) : Option (Bool × List DexAnnotation) :=
  if annotations_off ≥ dex.file_data_size then some (false, annotations)
  else
    (parse_annotation_set_loop dex (annotations_off + 4)
      (read_u32 dex.file_data_ annotations_off) 0 annotations).map fun r => (true, r)

/-- DexFile::parse_field_annotations: the field afterwards (the returned flag is not used by
the caller). -/
def parse_field_annotations (dex : DexFile) (annotations_off : Nat) (field : DexField) :
    Option DexField :=
  (parse_annotation_set dex annotations_off field.annotations).map
    fun r => { field with annotations := r.2 }

/-- DexFile::parse_method_annotations: the method afterwards (the returned flag is not used by
the caller). -/
def parse_method_annotations (dex : DexFile) (annotations_off : Nat) (method : DexMethod) :
    Option DexMethod :=
  (parse_annotation_set dex annotations_off method.annotations).map
    fun r => { method with annotations := r.2 }

/-- The loop `for (auto& x : v) if (p(x)) { f(x); break; }` of parse_annotations_directory:
f changes the first element that p holds for. -/
def update_first {α : Type} (p : α → Bool) (f : α → Option α) : List α → Option (List α)
  | [] => some []
  | x :: rest =>
    if p x then (f x).map (fun y => y :: rest)
    else (update_first p f rest).map (fun r => x :: r)

/-- The loop of parse_annotations_directory over the DexFieldAnnotation entries at `entries`,
from entry i with `n` iterations left: the static and the instance fields afterwards. -/
def parse_annotations_directory_fields (dex : DexFile) (entries : Nat) :
    Nat → Nat → List DexField × List DexField → Option (List DexField × List DexField)
  | 0, _, fields => some fields
  | n + 1, i, fields =>
    let field_idx := read_u32 dex.file_data_ (entries + 8 * i)
    let annotations_off := read_u32 dex.file_data_ (entries + 8 * i + 4)
    (update_first (fun field => field.field_idx == field_idx)
      (parse_field_annotations dex annotations_off) fields.1).bind fun static_fields =>
    (update_first (fun field => field.field_idx == field_idx)
      (parse_field_annotations dex annotations_off) fields.2).bind fun instance_fields =>
    parse_annotations_directory_fields dex entries n (i + 1) (static_fields, instance_fields)

/-- The loop of parse_annotations_directory over the DexMethodAnnotation entries at `entries`,
from entry i with `n` iterations left: the direct and the virtual methods afterwards. -/
def parse_annotations_directory_methods (dex : DexFile) (entries : Nat) :
    Nat → Nat → List DexMethod × List DexMethod → Option (List DexMethod × List DexMethod)
  | 0, _, methods => some methods
  | n + 1, i, methods =>
    let method_idx := read_u32 dex.file_data_ (entries + 8 * i)
    let annotations_off := read_u32 dex.file_data_ (entries + 8 * i + 4)
    (update_first (fun method => method.method_idx == method_idx)
      (parse_method_annotations dex annotations_off) methods.1).bind fun direct_methods =>
    (update_first (fun method => method.method_idx == method_idx)
      (parse_method_annotations dex annotations_off) methods.2).bind fun virtual_methods =>
    parse_annotations_directory_methods dex entries n (i + 1) (direct_methods, virtual_methods)

/-- DexFile::parse_annotations_directory: the returned flag and the class afterwards. -/
def parse_annotations_directory (dex : DexFile) (annotations_off : Nat) (dex_class : DexClass) :
    Option (Bool × DexClass) :=
  if annotations_off ≥ dex.file_data_size then some (false, dex_class)
  else
    let class_annotations_off := read_u32 dex.file_data_ annotations_off
    let fields_size := read_u32 dex.file_data_ (annotations_off + 4)
    let annotated_methods_size := read_u32 dex.file_data_ (annotations_off + 8)
    (if class_annotations_off ≠ 0 then
      (parse_annotation_set dex class_annotations_off dex_class.annotations).map Prod.snd
    else some dex_class.annotations).bind fun class_annotations =>
    (parse_annotations_directory_fields dex (annotations_off + 16) fields_size 0
      (dex_class.static_fields, dex_class.instance_fields)).bind fun fields =>
    (parse_annotations_directory_methods dex (annotations_off + 16 + 8 * fields_size)
      annotated_methods_size 0 (dex_class.direct_methods, dex_class.virtual_methods)).bind
      fun methods =>
    some (true,
      { dex_class with
        annotations := class_annotations, static_fields := fields.1,
        instance_fields := fields.2, direct_methods := methods.1,
        virtual_methods := methods.2 })

/-- The for loop of DexFile::parse_static_values from value i on, over the static fields from
index i on, with `n` = size - i values left: the fields from index i on afterwards. -/
def parse_static_values_loop (dex : DexFile) :
    Nat → Nat → List DexField → Option (List DexField)
  | 0, _, fields => some fields
  | _ + 1, _, [] => some []
  | n + 1, ptr, field :: fields =>
    (parse_encoded_value dex dex.file_data_ 18446744073709551616 ptr).bind fun value =>
    (parse_static_values_loop dex n value.2 fields).map fun rest =>
      (if field.access_flags &&& ACC_STATIC ≠ 0 then { field with initial_value := value.1 }
        else field) :: rest

/-- DexFile::parse_static_values: the returned flag and the class afterwards. -/
def parse_static_values (dex : DexFile) (static_values_off : Nat) (dex_class : DexClass) :
    Option (Bool × DexClass) :=
  if static_values_off ≥ dex.file_data_size then some (false, dex_class)
  else
    (decode_uleb128 dex.file_data_ static_values_off).bind fun size =>
    (parse_static_values_loop dex size.1 size.2 dex_class.static_fields).map
      fun static_fields => (true, { dex_class with static_fields := static_fields })

/-- The removal `if (length > 2 && name[0] == 'L' && name.back() == ';') name =
name.substr(1, length - 2)` of add_member_classes_annotation. -/
def strip_descriptor (name : Str) : Str :=
  if name.length > 2 ∧ name.head? = some 'L' ∧ name.getLast? = some ';' then
    (name.drop 1).take (name.length - 2)
  else name

/-- std::string::rfind(c): the last index that holds c. -/
def str_rfind (s : Str) (c : Char) : Option Nat :=
  (List.range s.length).reverse.find? (fun i => s[i]? == some c)

/-- The comparison `a < b` of std::string: lexicographic on the character codes. -/
def str_less : Str → Str → Bool
  | _, [] => false
  | [], _ :: _ => true
  | a :: as, b :: bs =>
    if a.toNat < b.toNat then true
    else if b.toNat < a.toNat then false
    else str_less as bs

/-- std::stoi on a non-empty string of decimal digits: the value, or `none` for the exception
std::out_of_range that it throws when the value does not fit an int. -/
def stoi (digits : Str) : Option Int :=
  let value : Nat := digits.foldl (fun acc c => acc * 10 + (c.toNat - 48)) 0
  if value > 2147483647 then none else some (value : Int)

/-- The suffix of the comparison lambda: the text after the `$` at pos, without a trailing
semicolon. -/
def member_suffix (a : Str) (pos : Nat) : Str :=
  let suffix := a.drop (pos + 1)
  if suffix.getLast? = some ';' then suffix.dropLast else suffix

/-- The comparison lambda that add_member_classes_annotation passes to std::sort; `none` stands
for an exception thrown by std::stoi. -/
def member_class_less (a b : Str) : Option Bool :=
  match str_rfind a '$', str_rfind b '$' with
  | some pos_a, some pos_b =>
    let suffix_a := member_suffix a pos_a
    let suffix_b := member_suffix b pos_b
    let is_numeric_a := suffix_a.isEmpty = false ∧ suffix_a.all Char.isDigit = true
    let is_numeric_b := suffix_b.isEmpty = false ∧ suffix_b.all Char.isDigit = true
    if is_numeric_a ∧ is_numeric_b then
      (stoi suffix_a).bind fun value_a => (stoi suffix_b).map fun value_b =>
        decide (value_a < value_b)
    else if is_numeric_a ∧ ¬is_numeric_b then some true
    else if ¬is_numeric_a ∧ is_numeric_b then some false
    else some (str_less suffix_a suffix_b)
  | _, _ => some (str_less a b)

/-- The inner loop of an insertion (`__unguarded_linear_insert` of libstdc++) with a comparison
that can throw, on the sorted part in reverse order. -/
def unguarded_linear_insert_throwing {α : Type} (comp : α → α → Option Bool) (val : α) :
    List α → Option (List α)
  | [] => some [val]
  | next :: before =>
    (comp val next).bind fun less =>
      if less then (unguarded_linear_insert_throwing comp val before).map (fun r => next :: r)
      else some (val :: next :: before)

/-- One step of `__insertion_sort` of libstdc++ with a comparison that can throw. -/
def insertion_step_throwing {α : Type} (comp : α → α → Option Bool) (sorted : List α) (val : α) :
    Option (List α) :=
  match sorted with
  | [] => some [val]
  | first :: _ =>
    (comp val first).bind fun less =>
      if less then some (val :: sorted)
      else (unguarded_linear_insert_throwing comp val sorted.reverse).map List.reverse

/-- std::sort as libstdc++ runs it on a range of at most 16 elements, with a comparison that
can throw: `none` when the comparison throws.  (For longer ranges libstdc++ partitions first,
which this definition does not follow.) -/
def std_sort_throwing {α : Type} (comp : α → α → Option Bool) (l : List α) : Option (List α) :=
  l.foldl (fun sorted val => sorted.bind fun s => insertion_step_throwing comp s val) (some [])

/-- DexFile::add_member_classes_annotation for one class; `classes_` is the vector of the file,
of which only the class names are read, and `visibility` is the value that the field
`visibility` of the local DexAnnotation holds, which the function never assigns. -/
def add_member_classes_annotation (classes_ : List DexClass) (visibility : Nat)
    (dex_class : DexClass) : Option DexClass :=
  let base_name := strip_descriptor dex_class.class_name
  let member_classes := classes_.filterMap (fun other_class =>
    let other_name := strip_descriptor other_class.class_name
    if str_find other_name (base_name ++ ['$']) 0 = some 0 ∧ other_name ≠ base_name then
      some ("L".toList ++ other_name ++ ";".toList)
    else none)
  if member_classes.isEmpty = false then
    (std_sort_throwing member_class_less member_classes).map fun sorted =>
      { dex_class with
        annotations := dex_class.annotations ++
          [{ type := "Ldalvik/annotation/MemberClasses;".toList, visibility := visibility,
             elements := sorted.map (fun member => ([], member)) }] }
  else some dex_class

/-- The loop `for (auto& dex_class : classes_) add_member_classes_annotation(dex_class)` of
parse_class_defs from the class with index k on.  The calls change annotations only, so the
class names that they read are those of `classes_` before the loop. -/
def add_member_classes_annotations (classes_ : List DexClass) (visibility : Nat → Nat) :
    Nat → List DexClass → Option (List DexClass)
  | _, [] => some []
  | k, dex_class :: rest =>
    ( add_member_classes_annotation classes_ (visibility k) dex_class).bind fun first =>
    (add_member_classes_annotations classes_ visibility (k + 1) rest).map fun r => first :: r

/-- The class that one iteration of the first loop of DexFile::parse_class_defs builds from
the 32-byte DexClassDef with index i.  The flags that parse_interfaces, parse_class_data,
parse_annotations_directory and parse_static_values return are not looked at. -/
def parse_class_def (dex : DexFile) (i : Nat) : Option DexClass :=
  let class_def := dex.header_.class_defs_off + i * 32
  let class_idx := read_u32 dex.file_data_ class_def
  let superclass_idx := read_u32 dex.file_data_ (class_def + 8)
  let interfaces_off := read_u32 dex.file_data_ (class_def + 12)
  let source_file_idx := read_u32 dex.file_data_ (class_def + 16)
  let annotations_off := read_u32 dex.file_data_ (class_def + 20)
  let class_data_off := read_u32 dex.file_data_ (class_def + 24)
  let static_values_off := read_u32 dex.file_data_ (class_def + 28)
  let dex_class : DexClass :=
    { class_idx := class_idx, access_flags := read_u32 dex.file_data_ (class_def + 4),
      class_name :=
        if class_idx < dex.type_names_.length then dex.type_names_.getD class_idx [] else [],
      superclass_name :=
        if superclass_idx ≠ 0xFFFFFFFF ∧ superclass_idx < dex.type_names_.length then
          dex.type_names_.getD superclass_idx []
        else [],
      interfaces := [],
      source_file :=
        if source_file_idx ≠ 0xFFFFFFFF ∧ source_file_idx < dex.strings_.length then
          dex.strings_.getD source_file_idx []
        else [],
      static_fields := [], instance_fields := [], direct_methods := [], virtual_methods := [],
      annotations := [] }
  let dex_class :=
    if interfaces_off ≠ 0 then (parse_interfaces dex interfaces_off dex_class).2 else dex_class
  (if class_data_off ≠ 0 then (parse_class_data dex class_data_off dex_class).map Prod.snd
    else some dex_class).bind fun dex_class =>
  (if annotations_off ≠ 0 then
      (parse_annotations_directory dex annotations_off dex_class).map Prod.snd
    else some dex_class).bind fun dex_class =>
  if static_values_off ≠ 0 then (parse_static_values dex static_values_off dex_class).map Prod.snd
  else some dex_class

/-- The first for loop of DexFile::parse_class_defs from index i with `n` iterations left. -/
def parse_class_defs_loop (dex : DexFile) : Nat → Nat → List DexClass → Option (List DexClass)
  | 0, _, classes_ => some classes_
  | n + 1, i, classes_ =>
    (parse_class_def dex i).bind fun dex_class =>
    parse_class_defs_loop dex n (i + 1) (classes_ ++ [dex_class])

/-- DexFile::parse_class_defs: the returned flag and the vector classes_ afterwards, or `none`
when the call does not come back (a read that does not end, or an exception).  `visibility k`
is the value of the unassigned visibility field in the call of add_member_classes_annotation
for the class with index k. -/
def parse_class_defs (dex : DexFile) (visibility : Nat → Nat) (classes_ : List DexClass) :
    Option (Bool × List DexClass) :=
  if dex.header_.class_defs_size = 0 then some (true, classes_)
  else
    (parse_class_defs_loop dex dex.header_.class_defs_size 0 classes_).bind fun classes_ =>
    (add_member_classes_annotations classes_ visibility 0 classes_).map fun r => (true, r)

/-- DexFile::open from the point where the file has been read into `file_data`: the file state
and its classes, `none` inside for the null pointer that a failed step gives, and `none`
outside when a step does not come back. -/
def DexFile.open (file_data : Nat → Nat) (size : Nat) (visibility : Nat → Nat) :
    Option (Option (DexFile × List DexClass)) :=
  let header := parse_header (new_dex_file file_data size)
  if header.1 = false then some none
  else
    (parse_string_ids header.2).bind fun strings =>
    if strings.1 = false then some none
    else
      let types := parse_type_ids strings.2
      if types.1 = false then some none
      else
        let protos := parse_proto_ids types.2
        if protos.1 = false then some none
        else
          let fields := parse_field_ids protos.2
          if fields.1 = false then some none
          else
            let methods := parse_method_ids fields.2
            if methods.1 = false then some none
            else
              (parse_class_defs methods.2 visibility []).map fun classes =>
                if classes.1 = false then none else some (methods.2, classes.2)

/-- The index and the name of a class. -/
def class_key (c : DexClass) : Nat × Str := (c.class_idx, c.class_name)

/-- The index and the name that the first statements of an iteration of parse_class_defs give
the class of the class def with index i: class_idx, and the type name at class_idx when
class_idx is below the size of the type pool, the empty name otherwise. -/
def class_def_key (dex : DexFile) (i : Nat) : Nat × Str :=
  (read_u32 dex.file_data_ (dex.header_.class_defs_off + i * 32),
    if read_u32 dex.file_data_ (dex.header_.class_defs_off + i * 32) < dex.type_names_.length
    then dex.type_names_.getD (read_u32 dex.file_data_ (dex.header_.class_defs_off + i * 32)) []
    else [])

/-- The file state that DexFile::open has reached for `bad_class_idx_bytes` when it calls
parse_class_defs: the header and the pools are read. -/
def bad_class_idx_state : DexFile :=
  { new_dex_file (image bad_class_idx_bytes) 0x9c with
    header_ := read_header (image bad_class_idx_bytes),
    strings_ := ["V".toList], type_names_ := ["V".toList] }

/-! Output file names (baksmali.cpp) -/

/-- The constant std::filesystem::path::preferred_separator, on a POSIX system. -/
def preferred_separator : Char := '/'

/-- Baksmali::get_output_filename: the descriptor without its `L` and `;`, every `/` replaced
by the preferred separator, with the extension `.smali`. -/
def get_output_filename (class_descriptor : Str) : Str :=
  let filename :=
    if class_descriptor.length > 2 ∧ class_descriptor.head? = some 'L' ∧
        class_descriptor.getLast? = some ';' then
      (class_descriptor.drop 1).take (class_descriptor.length - 2)
    else class_descriptor
  filename.map (fun c => if c = '/' then preferred_separator else c) ++ ".smali".toList

/-- The library function tolower in the C locale. -/
def tolower (c : Char) : Char :=
  if 'A'.toNat ≤ c.toNat ∧ c.toNat ≤ 'Z'.toNat then Char.ofNat (c.toNat + 32) else c

/-- Baksmali::get_unique_output_filename: the returned name and the map filename_counters_
afterwards.  The map is a function from keys to the stored int, `none` for an absent key; the
increment of the int is taken modulo 2^32. -/
def get_unique_output_filename (filename_counters_ : Str → Option Int) (class_descriptor : Str) :
    Str × (Str → Option Int) :=
  let base_filename := get_output_filename class_descriptor
  let lowercase_filename := base_filename.map tolower
  match filename_counters_ lowercase_filename with
  | none =>
    (base_filename, fun key => if key = lowercase_filename then some 0 else filename_counters_ key)
  | some counter =>
    let counter := int32 (u32 (counter + 1))
    let name_without_ext := base_filename.take (base_filename.length - 6)
    (name_without_ext ++ ".".toList ++ to_string_int counter ++ ".smali".toList,
      fun key => if key = lowercase_filename then some counter else filename_counters_ key)

/-- The names that successive calls of get_unique_output_filename return for the descriptors
of `class_descriptors`, in this order, starting from the map `filename_counters_`. -/
def unique_output_filenames (filename_counters_ : Str → Option Int) : List Str → List Str
  | [] => []
  | class_descriptor :: rest =>
    let r := get_unique_output_filename filename_counters_ class_descriptor
    r.1 :: unique_output_filenames r.2 rest

/-- Specification: the base name with `.k` inserted before its extension `.smali`. -/
def spec_suffixed_name (base_filename : Str) (k : Nat) : Str :=
  base_filename.take (base_filename.length - ".smali".length) ++ ".".toList ++ Nat.toDigits 10 k ++
    ".smali".toList

/-- Specification: the number of descriptors among `earlier` whose lower-cased file name is
that of `class_descriptor`. -/
def spec_earlier_collisions (earlier : List Str) (class_descriptor : Str) : Nat :=
  earlier.countP (fun e =>
    (get_output_filename e).map tolower == (get_output_filename class_descriptor).map tolower)

/-- Specification: the section of write_to with the given header line, present exactly when
there are members. -/
def spec_section {α : Type} (header : String) (members : List α) (body : Str) : Str :=
  if members.isEmpty then [] else "\n\n".toList ++ header.toList ++ "\n".toList ++ body

/-- A public class `Lempty/C;` with the superclass `Ljava/lang/Object;` and no members. -/
def empty_class : DexClass :=
  { bare_class "Lempty/C;".toList ACC_PUBLIC with superclass_name := "Ljava/lang/Object;".toList }

/-! Example inputs of the debug-info state machine and of encoded values -/

/-- A file state that holds the listed bytes, with the string pool `x`, `I` and the type pool
`I`. -/
def debug_dex (bytes : List Nat) : DexFile :=
  { new_dex_file (image bytes) bytes.length with
    strings_ := ["x".toList, "I".toList], type_names_ := ["I".toList] }

/-- A code item of `registers_size` registers without instructions and debug items. -/
def blank_code (registers_size : Nat) : DexCode :=
  { registers_size := registers_size, ins_size := 0, outs_size := 0, tries_size := 0,
    debug_info_off := 1, insns_size := 0, instructions := [], debug_items := [] }

/-- A debug stream at offset 1: line_start 10, no parameter names, ADVANCE_LINE with the
operand byte 7f, the special opcode 0x0e (line + 0, address + 0), END_SEQUENCE. -/
def advance_line_stream : List Nat := [0xff, 0x0a, 0x00, 0x02, 0x7f, 0x0e, 0x00]

/-- A debug stream at offset 1: line_start 1, no parameter names, START_LOCAL v0 with name 1
(`x`) and type 1 (`I`), END_LOCAL v0 twice, RESTART_LOCAL v0, END_SEQUENCE. -/
def end_local_stream : List Nat :=
  [0xff, 0x01, 0x00, 0x03, 0x00, 0x01, 0x01, 0x05, 0x00, 0x05, 0x00, 0x06, 0x00, 0x00]

/-- The table entry of a started local with the name `x` and the type `I`. -/
def local_x : LocalState :=
  { name := "x".toList, type_descriptor := "I".toList, signature := [], kind := LocalKind.START }

/-! Specification-side definitions for encoded values, written from the words of the
specification -/

/-- Specification: the unsigned number that the bytes of a payload spell in little-endian
order. -/
def spec_little_endian : List Nat → Nat
  | [] => 0
  | b :: rest => b + 256 * spec_little_endian rest

/-- Specification: the payload as a little-endian number, sign-extended from the top bit of
its last byte. -/
def spec_sign_extended (payload : List Nat) : Int :=
  if 128 ≤ payload.getLast?.getD 0 then
    (spec_little_endian payload : Int) - (256 ^ payload.length : Nat)
  else spec_little_endian payload

/-- Specification: the width in bytes of the encoded-value types BYTE (0x00), SHORT (0x02),
INT (0x04) and LONG (0x06). -/
def spec_width (value_type : Nat) : Nat :=
  if value_type = 0x00 then 1 else if value_type = 0x02 then 2 else if value_type = 0x04 then 4
  else 8

/-- Specification: the text of a BYTE, SHORT, INT or LONG value: the decimal number with the
letter t, s or L, and for INT `0x` with the lowercase hexadecimal digits of the 32-bit
two's-complement pattern. -/
def spec_numeric_text (value_type : Nat) (payload : List Nat) : Str :=
  if value_type = 0x00 then to_string_int (spec_sign_extended payload) ++ "t".toList
  else if value_type = 0x02 then to_string_int (spec_sign_extended payload) ++ "s".toList
  else if value_type = 0x06 then to_string_int (spec_sign_extended payload) ++ "L".toList
  else "0x".toList ++ Nat.toDigits 16 ((spec_sign_extended payload % 4294967296).toNat)

/-- Specification: the renderings of `n` encoded values that follow each other from ptr, each
as parse_encoded_value renders it, and the pointer after the last one. -/
def spec_render_values (dex : DexFile) (m : Nat → Nat) (fuel : Nat) :
    Nat → Nat → Option (List Str × Nat)
  | 0, ptr => some ([], ptr)
  | n + 1, ptr =>
    (parse_encoded_value dex m fuel ptr).bind fun value =>
    (spec_render_values dex m fuel n value.2).map fun rest => (value.1 :: rest.1, rest.2)

/-- Specification: the lines of the elements of an array: eight blanks, the element, a comma
unless it is the last element, and a newline. -/
def spec_array_lines : List Str → Str
  | [] => []
  | [element] => "        ".toList ++ element ++ "\n".toList
  | element :: rest => "        ".toList ++ element ++ ",\n".toList ++ spec_array_lines rest

/-- Specification: the text of an array with at least one element: an opening brace and a
newline, the lines of the elements, four blanks and the closing brace. -/
def spec_array_text (elements : List Str) : Str :=
  "\x7b\n".toList ++ spec_array_lines elements ++ "    \x7d".toList

/-- A field `f:I` with the given access flags, without an initial value. -/
def field_with_flags (access_flags : Nat) : DexField :=
  { field_idx := 0, access_flags := access_flags, name := "f".toList, type := "I".toList,
    class_name := [], initial_value := [], annotations := [] }

/-- A class without a name whose static field list holds the given fields. -/
def class_with_static_fields (fields : List DexField) : DexClass :=
  { bare_class [] 0 with static_fields := fields }

/-- An encoded array at offset 1 with the single value BYTE 5. -/
def one_byte_array : List Nat := [0xff, 0x01, 0x00, 0x05]

/-- Specification: a static field after parse_static_values, for its index i in the list, the
size of the array and the renderings of the array values: a field below the size whose
access flags contain ACC_STATIC holds the rendering of value i, any other field is as it
was. -/
def spec_static_field (size : Nat) (values : List Str) (i : Nat) (field : DexField) : DexField :=
  if i < size ∧ field.access_flags &&& ACC_STATIC ≠ 0 then
    { field with initial_value := values.getD i [] }
  else field

/-- Specification: the pointer after `k` ULEB128 numbers. -/
def spec_skip_uleb128 (m : Nat → Nat) : Nat → Nat → Option Nat
  | 0, ptr => some ptr
  | k + 1, ptr => (decode_uleb128 m ptr).bind fun number => spec_skip_uleb128 m k number.2

/-- Specification: the index differences of a list of `count` encoded records, each record
being the ULEB128 index difference followed by `others` further ULEB128 numbers (the access
flags of a field; the access flags and the code offset of a method), and the pointer after
the list. -/
def spec_index_diffs (m : Nat → Nat) (others : Nat) : Nat → Nat → Option (List Nat × Nat)
  | 0, ptr => some ([], ptr)
  | count + 1, ptr =>
    (decode_uleb128 m ptr).bind fun diff =>
    (spec_skip_uleb128 m others diff.2).bind fun after =>
    (spec_index_diffs m others count after).map fun rest => (diff.1 :: rest.1, rest.2)

/-- Specification: the pool indices of the records of one list: record k has the sum of the
first k + 1 index differences, held in a uint32_t. -/
def spec_running_indices (diffs : List Nat) : List Nat :=
  (List.range diffs.length).map (fun k => (diffs.take (k + 1)).sum % 4294967296)

/-- Specification: the index differences of the four lists of a class_data_item at `off`:
four ULEB128 sizes, then the static fields, the instance fields, the direct methods and the
virtual methods. -/
def spec_class_data_diffs (m : Nat → Nat) (off : Nat) :
    Option (List Nat × List Nat × List Nat × List Nat) :=
  (decode_uleb128 m off).bind fun static_fields_size =>
  (decode_uleb128 m static_fields_size.2).bind fun instance_fields_size =>
  (decode_uleb128 m instance_fields_size.2).bind fun direct_methods_size =>
  (decode_uleb128 m direct_methods_size.2).bind fun virtual_methods_size =>
  (spec_index_diffs m 1 static_fields_size.1 virtual_methods_size.2).bind fun static_fields =>
  (spec_index_diffs m 1 instance_fields_size.1 static_fields.2).bind fun instance_fields =>
  (spec_index_diffs m 2 direct_methods_size.1 instance_fields.2).bind fun direct_methods =>
  (spec_index_diffs m 2 virtual_methods_size.1 direct_methods.2).bind fun virtual_methods =>
  some (static_fields.1, instance_fields.1, direct_methods.1, virtual_methods.1)

/-- A class_data_item at offset 1: two static fields with the index differences 3 and 2, one
instance field with the difference 1, one direct method with the difference 4 and two virtual
methods with the differences 1 and 6; every access flag is 1 and no method has code. -/
def class_data_bytes : List Nat :=
  [0xff, 2, 1, 1, 2, 3, 1, 2, 1, 1, 1, 4, 1, 0, 1, 1, 0, 6, 1, 0]

/-- Specification: the names of the member classes of a class, in the order of the file: the
classes whose name, without `L` and `;`, is the name of the class followed by `$` and a
suffix. -/
def spec_member_classes (classes_ : List DexClass) (dex_class : DexClass) : List Str :=
  ((classes_.map (fun other_class => strip_descriptor other_class.class_name)).filter
    (fun other_name =>
      (strip_descriptor dex_class.class_name ++ ['$']).isPrefixOf other_name)).map
    (fun other_name => "L".toList ++ other_name ++ ";".toList)

/-- Specification: the suffix of a member class: the text after the last `$` of its name,
without a `;` at the end. -/
def spec_suffix (name : Str) : Str :=
  let after := (name.reverse.takeWhile (fun c => c != '$')).reverse
  if after.getLast? = some ';' then after.dropLast else after

/-- Specification: a numeric suffix is a non-empty text of decimal digits. -/
def spec_is_numeric (suffix : Str) : Bool :=
  !suffix.isEmpty && suffix.all Char.isDigit

/-- Specification: the number that a text of decimal digits stands for. -/
def spec_value (suffix : Str) : Nat :=
  suffix.foldl (fun value c => 10 * value + (c.toNat - '0'.toNat)) 0

/-- Specification: the three kinds of suffix of the ordering rule: 0 for a numeric suffix, 1
for an alphabetic one (letters only), 2 for a mixed one. -/
def spec_suffix_kind (suffix : Str) : Nat :=
  if spec_is_numeric suffix then 0
  else if suffix.all Char.isAlpha then 1
  else 2

/-- Specification: the order in which the member classes are listed: a numeric suffix comes
before every other suffix, two numeric suffixes are in the order of their numbers, two other
suffixes are in lexicographic order. -/
def spec_member_before (a b : Str) : Bool :=
  if spec_is_numeric (spec_suffix a) then
    if spec_is_numeric (spec_suffix b) then
      decide (spec_value (spec_suffix a) < spec_value (spec_suffix b))
    else true
  else if spec_is_numeric (spec_suffix b) then false
  else str_less (spec_suffix a) (spec_suffix b)

/-- The elements of the last annotation of a class. -/
def last_annotation_values (dex_class : DexClass) : Option (Str × List Str) :=
  dex_class.annotations.getLast?.map fun last =>
    (last.type, last.elements.map (fun element => element.2))

/-- The classes of the example of the specification: `Lpkg/A;` and three member classes, the
member classes not in the order of the listing. -/
def member_example : List DexClass :=
  [bare_class "Lpkg/A$Inner;".toList 0, bare_class "Lpkg/A$2;".toList 0,
    bare_class "Lpkg/A;".toList 0, bare_class "Lpkg/A$1;".toList 0]

/-- The classes of the example of the specification in the order in which it names them. -/
def member_example_in_order : List DexClass :=
  [bare_class "Lpkg/A;".toList 0, bare_class "Lpkg/A$1;".toList 0,
    bare_class "Lpkg/A$2;".toList 0, bare_class "Lpkg/A$Inner;".toList 0]

/-- A class `LA;` with a member class of alphabetic suffix `b` and one of mixed suffix `a1`. -/
def mixed_example : List DexClass :=
  [bare_class "LA;".toList 0, bare_class "LA$b;".toList 0, bare_class "LA$a1;".toList 0]

/-! Specification-side definitions and example inputs for the writer and the decoder -/

/-- Specification: the number that a `.line` directive shows for the raw line number. -/
def spec_shown_line (line_number : Nat) : Nat :=
  if line_number ≤ 10000 then line_number else line_number % 1000 + 1

/-- The code of a method of one register whose only instruction is `return-void` and whose
debug items are the line numbers 12345 and 10000 at address 0. -/
def code_with_lines : DexCode :=
  { registers_size := 1, ins_size := 0, outs_size := 0, tries_size := 0, debug_info_off := 1,
    insns_size := 1,
    instructions := (parse_instructions (dex_with_strings []) (image [0x000e]) 1).getD [],
    debug_items := [.LineNumber 0 12345, .LineNumber 0 10000] }

/-- A method `run()V` with the given access flags and code, without annotations. -/
def method_with_code (access_flags : Nat) (code : DexCode) : DexMethod :=
  { method_idx := 0, access_flags := access_flags, name := "run".toList,
    signature := "()V".toList, class_name := "Lfoo;".toList, annotations := [],
    code := some code }

/-- A file state with the type pool `Ljava/lang/String;`, `I`, the string pool `v1` and one
field id (class 0, type 1, name 0) at offset 0, which resolves to
`Ljava/lang/String;->v1:I`. -/
def dex_with_field : DexFile :=
  { file_data_ := image [0, 0, 1, 0, 0, 0, 0, 0], file_data_size := 8,
    header_ := { empty_header with field_ids_size := 1, field_ids_off := 0 },
    strings_ := ["v1".toList], type_names_ := ["Ljava/lang/String;".toList, "I".toList],
    method_names_ := [], field_names_ := [], proto_signatures_ := [] }

/-- Specification: the words of the method flags in the order of the canonical vocabulary,
each with its bit. -/
def spec_method_vocabulary : List (String × Nat) :=
  [("public", 0x1), ("private", 0x2), ("protected", 0x4), ("static", 0x8), ("final", 0x10),
    ("synchronized", 0x20), ("bridge", 0x40), ("varargs", 0x80), ("native", 0x100),
    ("abstract", 0x400), ("strict", 0x800), ("synthetic", 0x1000), ("constructor", 0x10000),
    ("declared-synchronized", 0x20000)]

/-- Specification: the words of a vocabulary whose bit is set in the access flags. -/
def spec_written_words (vocabulary : List (String × Nat)) (access_flags : Nat) : List String :=
  (vocabulary.filter (fun entry => access_flags &&& entry.2 != 0)).map (fun entry => entry.1)

/-- Specification: the text of the flag words of a header: every written word followed by a
blank. -/
def spec_flag_text (vocabulary : List (String × Nat)) (access_flags : Nat) : Str :=
  ((spec_written_words vocabulary access_flags).map (fun word => word.toList ++ [' '])).flatten

/-- The words that write_direct_methods knows: the canonical vocabulary without
`declared-synchronized`. -/
def direct_method_vocabulary : List (String × Nat) :=
  spec_method_vocabulary.filter (fun entry => entry.1 != "declared-synchronized")

/-- The words that write_virtual_methods knows: the canonical vocabulary without `static`,
`constructor` and `declared-synchronized`. -/
def virtual_method_vocabulary : List (String × Nat) :=
  spec_method_vocabulary.filter (fun entry =>
    entry.1 != "static" && entry.1 != "constructor" && entry.1 != "declared-synchronized")

/-- A class `Lfoo;` with the given direct and virtual methods. -/
def class_with_methods (direct_methods virtual_methods : List DexMethod) : DexClass :=
  { bare_class "Lfoo;".toList ACC_PUBLIC with
    direct_methods := direct_methods, virtual_methods := virtual_methods }

/-- A class `LA;` with the member classes `LA$1;` and `LA$2147483648;`, whose suffix is one
more than the largest int. -/
def long_suffix_example : List DexClass :=
  [bare_class "LA;".toList 0, bare_class "LA$1;".toList 0,
    bare_class "LA$2147483648;".toList 0]

/-- A class `LA;` with the member classes `LA$1;` and `LA$2147483647;`. -/
def largest_suffix_example : List DexClass :=
  [bare_class "LA;".toList 0, bare_class "LA$1;".toList 0,
    bare_class "LA$2147483647;".toList 0]

/-- The code of a method of two registers, the last of them the incoming one, with the
instructions `sget v0, field@0`, `const-string v0, string@0` and `return-void`. -/
def code_reading_v1 : DexCode :=
  { registers_size := 2, ins_size := 1, outs_size := 0, tries_size := 0, debug_info_off := 0,
    insns_size := 5, debug_items := [],
    instructions :=
      (parse_instructions dex_with_field (image [0x0060, 0, 0x001a, 0, 0x000e]) 5).getD [] }

/-- Specification: a lowercase hexadecimal digit. -/
def spec_is_lower_hex (c : Char) : Bool := c ∈ "0123456789abcdef".toList

/-- Specification: an escape of the string pool: a backslash, `u` and four lowercase
hexadecimal digits. -/
def spec_u_escape : Str → Bool
  | [b, u, d1, d2, d3, d4] =>
    b == ch_backslash && u == 'u' && spec_is_lower_hex d1 && spec_is_lower_hex d2 &&
      spec_is_lower_hex d3 && spec_is_lower_hex d4
  | _ => false

/-- Specification: a piece of a string of the pool: one character below 0x80 or an escape. -/
def spec_pool_piece (piece : Str) : Bool :=
  (piece.length == 1 && piece.all (fun c => decide (c.toNat < 0x80))) || spec_u_escape piece

/-- A file state with one string id at offset 0 that points to the string data at offset 4:
the length 3 and the bytes 41 80 c3 a9, an `A`, a stray continuation byte and a two-byte
sequence, then the terminator. -/
def dex_with_raw_string : DexFile :=
  { new_dex_file (image [4, 0, 0, 0, 3, 0x41, 0x80, 0xc3, 0xa9, 0]) 10 with
    header_ := { empty_header with string_ids_size := 1, string_ids_off := 0 } }

/-- Specification: the sort order of a debug item: PrologueEnd and EpilogueBegin -4,
SetSourceFile -3, LineNumber -2, StartLocal, EndLocal and RestartLocal -1. -/
def spec_sort_order : DebugItem → Int
  | .PrologueEnd _ => -4
  | .EpilogueBegin _ => -4
  | .SetSourceFile _ _ => -3
  | .LineNumber _ _ => -2
  | .StartLocal _ _ _ _ _ => -1
  | .EndLocal _ _ _ _ _ => -1
  | .RestartLocal _ _ _ _ _ => -1

/-- Specification: the item of an instruction: sort order 100 and the text of the instruction
after four blanks. -/
def spec_instruction_item (code : DexCode) (instruction : DexInstruction) : MethodItem :=
  { address := instruction.address, sort_order := 100,
    text := "    ".toList ++
      reformat_registers_for_method instruction.mnemonic code.registers_size code.ins_size,
    register_num := -1 }

/-- Specification: the blank line after an instruction: sort order 101 and an empty text. -/
def spec_blank_item (instruction : DexInstruction) : MethodItem :=
  { address := instruction.address, sort_order := 101, text := [], register_num := -1 }

/-- Specification: the instructions in their order, each except the last immediately followed
by its blank line. -/
def spec_merged_instructions (code : DexCode) : List DexInstruction → List MethodItem
  | [] => []
  | [last] => [spec_instruction_item code last]
  | instruction :: next :: rest =>
    spec_instruction_item code instruction :: spec_blank_item instruction ::
      spec_merged_instructions code (next :: rest)

/-- Specification: the order of the merged method body: by address, then by sort order. -/
def spec_item_le (a b : MethodItem) : Prop :=
  a.address < b.address ∨ (a.address = b.address ∧ a.sort_order ≤ b.sort_order)

/-- Specification: an item that lies before another one in every merged body: a lower
address, or the same address and a lower sort order. -/
def spec_item_before (a b : MethodItem) : Prop :=
  a.address < b.address ∨ (a.address = b.address ∧ a.sort_order < b.sort_order)

instance spec_item_le_decidable (a b : MethodItem) : Decidable (spec_item_le a b) := by
  unfold spec_item_le
  infer_instance

instance spec_item_before_decidable (a b : MethodItem) : Decidable (spec_item_before a b) := by
  unfold spec_item_before
  infer_instance

/-- The code of a method of three registers with the instructions `add-int v0, v1, v2` at
address 0 and `return v0` at address 2, a line number at address 0 and, at address 2, a
local, a line number, a source file and the end of the prologue, in this order. -/
def code_with_debug_items : DexCode :=
  { registers_size := 3, ins_size := 0, outs_size := 0, tries_size := 0, debug_info_off := 1,
    insns_size := 3,
    instructions := (parse_instructions (dex_with_strings []) add_and_return 3).getD [],
    debug_items := [.StartLocal 2 0 "i".toList "I".toList [], .LineNumber 2 20000,
      .SetSourceFile 2 "A.java".toList, .LineNumber 0 7, .PrologueEnd 2] }

/-- Specification: a type that takes two registers: `J` or `D`. -/
def spec_is_wide (type : Str) : Bool := type == "J".toList || type == "D".toList

/-- Specification: the number of registers of a shadow entry: two for a wide type, one for
every other type. -/
def spec_entry_words (entry : LocalState) : Nat :=
  if spec_is_wide entry.type_descriptor then 2 else 1

/-- Specification: the number of argument words of a method: one for `this` when the method is
not static, two for each `J` or `D` parameter and one for every other parameter. -/
def spec_argument_words (method : DexMethod) : Nat :=
  (if method.access_flags &&& ACC_STATIC = 0 then 1 else 0) +
    ((parse_parameter_types method.signature).map
      (fun type => if spec_is_wide type then 2 else 1)).sum

/-- Specification: the shadow entry of a started local without a signature. -/
def spec_started (name type : Str) : LocalState :=
  { name := name, type_descriptor := type, signature := [], kind := LocalKind.START }

/-- Specification: the shadow entries of the parameters with the indices `start`, `start + 1`,
... of the parameter names. -/
def spec_named_entries (parameter_names : List Str) : Nat → List Str → List LocalState
  | _, [] => []
  | start, type :: types =>
    spec_started (parameter_names.getD start []) type ::
      spec_named_entries parameter_names (start + 1) types

/-- Specification: the shadow entries of a method in the order of the arguments: `this` with
the class of the method when the method is not static, then each parameter with its name of
the debug stream, or no name when the stream has none for it. -/
def spec_parameter_entries (method : DexMethod) (parameter_names : List Str) :
    List LocalState :=
  (if method.access_flags &&& ACC_STATIC = 0 then
    [spec_started "this".toList method.class_name] else []) ++
  spec_named_entries parameter_names 0 (parse_parameter_types method.signature)

/-- Specification: the number of argument words before entry k. -/
def spec_words_before (entries : List LocalState) (k : Nat) : Nat :=
  ((entries.take k).map spec_entry_words).sum

/-- Specification: the registers of the arguments: every entry, a wide one followed by an
empty register. -/
def spec_register_blocks (entries : List LocalState) : List LocalState :=
  entries.flatMap (fun entry => entry :: List.replicate (spec_entry_words entry - 1) empty_state)

/-- A method `run` of the class `class_name` with the given access flags and signature,
without code. -/
def method_of_class (class_name : Str) (access_flags : Nat) (signature : String) : DexMethod :=
  { method_idx := 0, access_flags := access_flags, name := "run".toList,
    signature := signature.toList, class_name := class_name, annotations := [], code := none }

/-! The flag writer of the formatter (formatter/baksmali_writer.cpp) -/

/-- BaksmaliWriter::write_access_flags, the writer that BaksmaliWriter::write_method calls for
the header of a method: one test for each of the 19 constants of AccessFlags, in the order of
the enum, `declared-synchronized` last.  The parameter is_class is not read. -/
def write_access_flags (flags : Nat) : Str :=
  flag_word flags ACC_PUBLIC "public " ++
  flag_word flags ACC_PRIVATE "private " ++
  flag_word flags ACC_PROTECTED "protected " ++
  flag_word flags ACC_STATIC "static " ++
  flag_word flags ACC_FINAL "final " ++
  flag_word flags ACC_SYNCHRONIZED "synchronized " ++
  flag_word flags ACC_VOLATILE "volatile " ++
  flag_word flags ACC_BRIDGE "bridge " ++
  flag_word flags ACC_TRANSIENT "transient " ++
  flag_word flags ACC_VARARGS "varargs " ++
  flag_word flags ACC_NATIVE "native " ++
  flag_word flags ACC_INTERFACE "interface " ++
  flag_word flags ACC_ABSTRACT "abstract " ++
  flag_word flags ACC_STRICT "strict " ++
  flag_word flags ACC_SYNTHETIC "synthetic " ++
  flag_word flags ACC_ANNOTATION "annotation " ++
  flag_word flags ACC_ENUM "enum " ++
  flag_word flags ACC_CONSTRUCTOR "constructor " ++
  flag_word flags ACC_DECLARED_SYNCHRONIZED "declared-synchronized "

/-! Theorems -/

theorem mem_of_lookup {β : Type} (a : Nat) (b : β) :
    ∀ l : List (Nat × β), l.lookup a = some b → (a, b) ∈ l := by
  intro l
  induction l with
  | nil => intro h; simp [List.lookup] at h
  | cons p rest ih =>
    obtain ⟨k, v⟩ := p
    intro h
    by_cases hk : a = k
    · subst hk
      simp [List.lookup] at h
      subst h
      exact List.mem_cons_self _ _
    · have hb : (a == k) = false := by simpa using hk
      simp [List.lookup, hb] at h
      exact List.mem_cons_of_mem _ (ih h)

theorem instruction_widths_bounds : ∀ p ∈ instruction_widths_, 1 ≤ p.2 ∧ p.2 ≤ 5 := by
  decide

theorem get_instruction_width_bounds (opcode : Nat) :
    1 ≤ get_instruction_width opcode ∧ get_instruction_width opcode ≤ 5 := by
  unfold get_instruction_width
  cases h : instruction_widths_.lookup opcode with
  | none => simp
  | some w => exact instruction_widths_bounds (opcode, w) (mem_of_lookup opcode w _ h)

theorem takeWhile_range'_length (a b : Nat) :
    ∀ n s, a + s + n ≤ 4294967296 →
      ((List.range' s n).takeWhile (fun i => decide ((a + i) % 4294967296 < b))).length =
        min n (b - a - s) := by
  intro n
  induction n with
  | zero => intro s _; simp
  | succ n ih =>
    intro s hs
    have hmod : (a + s) % 4294967296 = a + s := Nat.mod_eq_of_lt (by omega)
    rw [List.range'_succ, List.takeWhile_cons, hmod]
    by_cases h : a + s < b
    · simp only [h, decide_True, if_true, List.length_cons, ih (s + 1) (by omega)]
      omega
    · simp only [h, decide_False, Bool.false_eq_true, if_false, List.length_nil]
      omega

theorem operands_length (a b n : Nat) (h : a + n ≤ 4294967296) :
    ((List.range n).takeWhile (fun i => decide ((a + i) % 4294967296 < b))).length =
      min n (b - a) := by
  rw [List.range_eq_range', takeWhile_range'_length a b n 0 (by omega)]
  simp

theorem parse_instructions_loop_decoded (dex : DexFile) (insns : Nat → Nat) (insns_size : Nat)
    (hsz : insns_size + 4 < 4294967296) :
    ∀ fuel offset, insns_size ≤ offset + fuel →
      ∃ l, parse_instructions_loop dex insns insns_size fuel offset = some l ∧
        Decoded insns_size offset l := by
  intro fuel
  induction fuel with
  | zero =>
    intro offset h
    refine ⟨[], ?_, ?_⟩
    · have : ¬ offset < insns_size := by omega
      simp [parse_instructions_loop, this]
    · simp only [Decoded]; omega
  | succ fuel ih =>
    intro offset h
    by_cases hlt : offset < insns_size
    · have hw := get_instruction_width_bounds ((insns offset % 65536) &&& 0xFF)
      have hmod : (offset + get_instruction_width ((insns offset % 65536) &&& 0xFF)) % 4294967296
          = offset + get_instruction_width ((insns offset % 65536) &&& 0xFF) :=
        Nat.mod_eq_of_lt (by omega)
      obtain ⟨l, hl, hd⟩ := ih (offset + get_instruction_width ((insns offset % 65536) &&& 0xFF))
        (by omega)
      simp only [parse_instructions_loop, hlt, if_true, hmod, hl, Option.map_some']
      refine ⟨_, rfl, ?_⟩
      have hops := operands_length offset insns_size
        (get_instruction_width ((insns offset % 65536) &&& 0xFF)) (by omega)
      simp only [Decoded, DexInstruction.width, List.length_map]
      exact ⟨hlt, trivial, hops, hd⟩
    · refine ⟨[], ?_, ?_⟩
      · simp [parse_instructions_loop, hlt]
      · simp only [Decoded]; omega

theorem parse_instructions_decoded (dex : DexFile) (insns : Nat → Nat) (insns_size : Nat)
    (hsz : insns_size + 4 < 4294967296) :
    ∃ l, parse_instructions dex insns insns_size = some l ∧ Decoded insns_size 0 l :=
  parse_instructions_loop_decoded dex insns insns_size hsz 4294967296 0 (by omega)

theorem total_width_cons (i : DexInstruction) (l : List DexInstruction) :
    total_width (i :: l) = i.width + total_width l := by
  simp [total_width]

theorem total_width_append (l₁ l₂ : List DexInstruction) :
    total_width (l₁ ++ l₂) = total_width l₁ + total_width l₂ := by
  simp [total_width]

theorem decoded_address (insns_size : Nat) :
    ∀ (l : List DexInstruction) (offset : Nat), Decoded insns_size offset l →
      ∀ k x, l[k]? = some x → x.address = offset + total_width (l.take k) := by
  intro l
  induction l with
  | nil => intro offset _ k x hx; simp at hx
  | cons i rest ih =>
    intro offset hd k x hx
    obtain ⟨_, haddr, _, hrest⟩ := hd
    cases k with
    | zero =>
      simp at hx
      subst hx
      simp [total_width, haddr]
    | succ k =>
      simp only [List.getElem?_cons_succ] at hx
      rw [ih _ hrest k x hx, List.take_succ_cons, total_width_cons]
      omega

theorem decoded_next_address (insns_size : Nat) (l : List DexInstruction) (offset : Nat)
    (hd : Decoded insns_size offset l) (k : Nat) (a b : DexInstruction)
    (ha : l[k]? = some a) (hb : l[k + 1]? = some b) : b.address = a.address + a.width := by
  rw [decoded_address insns_size l offset hd k a ha,
    decoded_address insns_size l offset hd (k + 1) b hb, List.take_succ, ha, total_width_append]
  simp [total_width]
  omega

theorem decoded_stored_units (insns_size : Nat) :
    ∀ (l : List DexInstruction) (offset : Nat), Decoded insns_size offset l →
      stored_units l = insns_size - offset := by
  intro l
  induction l with
  | nil => intro offset hd; simp only [Decoded] at hd; simp [stored_units]; omega
  | cons i rest ih =>
    intro offset hd
    obtain ⟨hlt, _, hops, hrest⟩ := hd
    have h := ih _ hrest
    simp only [stored_units, List.map_cons, List.sum_cons] at h ⊢
    rw [h, hops]
    omega

theorem decoded_total_width (insns_size : Nat) :
    ∀ (l : List DexInstruction) (offset : Nat), Decoded insns_size offset l →
      max offset insns_size ≤ offset + total_width l ∧
        offset + total_width l ≤ max offset (insns_size + 4) := by
  intro l
  induction l with
  | nil => intro offset hd; simp only [Decoded] at hd; simp [total_width]; omega
  | cons i rest ih =>
    intro offset hd
    obtain ⟨hlt, _, _, hrest⟩ := hd
    have h := ih _ hrest
    have hw := get_instruction_width_bounds i.opcode
    rw [total_width_cons]
    simp only [DexInstruction.width] at h ⊢
    omega

theorem decoded_last (insns_size : Nat) :
    ∀ (l : List DexInstruction) (offset : Nat), Decoded insns_size offset l →
      ∀ last, l.getLast? = some last →
        last.address < insns_size ∧ offset + total_width l = last.address + last.width := by
  intro l
  induction l with
  | nil => intro offset _ last hl; simp at hl
  | cons i rest ih =>
    intro offset hd last hl
    obtain ⟨hlt, haddr, _, hrest⟩ := hd
    cases rest with
    | nil =>
      simp at hl
      subst hl
      simp [total_width, haddr, hlt]
    | cons j rest2 =>
      rw [List.getLast?_cons_cons] at hl
      have h := ih _ hrest last hl
      rw [total_width_cons]
      omega

/-- C1 (code defect): parse_instructions passes the code-unit address to format_instruction, which
halves it before adding the offset.  For `if-eqz v1, +8` decoded at code-unit address 0x10 the
code renders `if-eqz v1, :cond_10`, not the `if-eqz v1, :cond_18` of address plus offset; the
same holds for `if-eq v1, v2, +8` and `goto +8` at that address. -/
theorem C1_branch_label_halves_the_address :
    (parse_instructions (dex_with_strings []) branch_at_0x10 18).bind (fun l => l[16]?) =
      some { opcode := 0x38, operands := [0x0138, 0x0008], address := 0x10,
             mnemonic := "if-eqz v1, :cond_10".toList } ∧
    format_instruction (dex_with_strings []) (image [0x0138, 0x0008]) 0x10 ≠
      "if-eqz v1, :cond_18".toList ∧
    format_instruction (dex_with_strings []) (image [0x2132, 0x0008]) 0x10 =
      "if-eq v1, v2, :cond_10".toList ∧
    format_instruction (dex_with_strings []) (image [0x0828]) 0x10 = "goto :cond_10".toList := by
  decide

/-- C3: for every code-unit buffer of fewer than 2^32 - 4 units (every buffer of a DEX file, whose
size is a 32-bit byte count) parse_instructions returns a list whose first instruction has
address 0 and in which every later instruction's address is the previous instruction's address
plus the table width of the previous opcode; every address is the sum of the widths of the
instructions before it. -/
theorem C3_addresses_follow_widths (dex : DexFile) (insns : Nat → Nat) (insns_size : Nat)
    (hsz : insns_size + 4 < 4294967296) :
    ∃ l, parse_instructions dex insns insns_size = some l ∧
      (∀ first, l[0]? = some first → first.address = 0) ∧
      (∀ k a b, l[k]? = some a → l[k + 1]? = some b →
        b.address = a.address + get_instruction_width a.opcode) ∧
      (∀ k x, l[k]? = some x → x.address = total_width (l.take k)) := by
  obtain ⟨l, hl, hd⟩ := parse_instructions_decoded dex insns insns_size hsz
  refine ⟨l, hl, ?_, ?_, ?_⟩
  · intro first h
    have := decoded_address insns_size l 0 hd 0 first h
    simpa [total_width] using this
  · intro k a b ha hb
    exact decoded_next_address insns_size l 0 hd k a b ha hb
  · intro k x h
    have := decoded_address insns_size l 0 hd k x h
    simpa using this

/-- Witness of C3 on the buffer `add-int v0, v1, v2; return v0`. -/
theorem C3_addresses_follow_widths_witness :
    ∃ l, parse_instructions (dex_with_strings []) add_and_return 3 = some l ∧
      (∀ first, l[0]? = some first → first.address = 0) ∧
      (∀ k a b, l[k]? = some a → l[k + 1]? = some b →
        b.address = a.address + get_instruction_width a.opcode) ∧
      (∀ k x, l[k]? = some x → x.address = total_width (l.take k)) :=
  C3_addresses_follow_widths (dex_with_strings []) add_and_return 3 (by decide)

/-- C4 (counterexample): in the nine-unit method `array_data_method` the last unit, a data unit of
the array payload, is decoded as `const/16`, whose width 2 extends past the end of the buffer;
the widths sum to 10, so no result of parse_instructions has widths summing to insns_size = 9. -/
theorem C4_widths_can_exceed_insns_size :
    (parse_instructions (dex_with_strings []) array_data_method 9).map
        (fun l => (l.map (fun i => (i.address, i.width)), total_width l)) =
      some ([(0, 3), (3, 1), (4, 1), (5, 1), (6, 2), (8, 2)], 10) ∧
    ¬ ∃ l, parse_instructions (dex_with_strings []) array_data_method 9 = some l ∧
        total_width l = 9 := by
  have h : (parse_instructions (dex_with_strings []) array_data_method 9).map
        (fun l => (l.map (fun i => (i.address, i.width)), total_width l)) =
      some ([(0, 3), (3, 1), (4, 1), (5, 1), (6, 2), (8, 2)], 10) := by decide
  refine ⟨h, ?_⟩
  rintro ⟨l, hl, ht⟩
  rw [hl] at h
  simp only [Option.map_some', Option.some.injEq, Prod.mk.injEq] at h
  omega

/-- C4 (amended): for every code item of fewer than 2^32 - 4 units, the code units stored in the
operand lists of the decoded instructions number exactly insns_size; the table widths sum to at
least insns_size and at most insns_size + 4, the last instruction starts below insns_size and
the sum of the widths is where it ends, so the widths sum to exactly insns_size if and only if
the last instruction does not extend past the end of the buffer. -/
theorem C4_widths_cover_insns_size (dex : DexFile) (insns : Nat → Nat) (insns_size : Nat)
    (hsz : insns_size + 4 < 4294967296) :
    ∃ l, parse_instructions dex insns insns_size = some l ∧
      stored_units l = insns_size ∧
      insns_size ≤ total_width l ∧ total_width l ≤ insns_size + 4 ∧
      (∀ last, l.getLast? = some last →
        last.address < insns_size ∧ total_width l = last.address + last.width) ∧
      (total_width l = insns_size ↔
        ∀ last, l.getLast? = some last → last.address + last.width ≤ insns_size) := by
  obtain ⟨l, hl, hd⟩ := parse_instructions_decoded dex insns insns_size hsz
  have hs := decoded_stored_units insns_size l 0 hd
  have ht := decoded_total_width insns_size l 0 hd
  have hlast := decoded_last insns_size l 0 hd
  refine ⟨l, hl, by omega, by omega, by omega, ?_, ?_⟩
  · intro last h
    have := hlast last h
    omega
  · constructor
    · intro heq last h
      have := hlast last h
      omega
    · intro hfit
      cases hl2 : l.getLast? with
      | none =>
        have hnil : l = [] := List.getLast?_eq_none_iff.mp hl2
        subst hnil
        simp only [Decoded] at hd
        simp [total_width]
        omega
      | some last =>
        have h1 := hlast last hl2
        have h2 := hfit last hl2
        omega

/-- Witness of the amended C4 on the buffer `add-int v0, v1, v2; return v0`. -/
theorem C4_widths_cover_insns_size_witness :
    ∃ l, parse_instructions (dex_with_strings []) add_and_return 3 = some l ∧
      stored_units l = 3 ∧
      3 ≤ total_width l ∧ total_width l ≤ 3 + 4 ∧
      (∀ last, l.getLast? = some last →
        last.address < 3 ∧ total_width l = last.address + last.width) ∧
      (total_width l = 3 ↔
        ∀ last, l.getLast? = some last → last.address + last.width ≤ 3) :=
  C4_widths_cover_insns_size (dex_with_strings []) add_and_return 3 (by decide)

/-- C8 (code defect): the switch of escape_string_for_smali in dalvik_opcodes.cpp has no tab case
(the case is swallowed by the line comment before it), so a tab of the pool string reaches the
const-string operand unescaped: for the pool string a, TAB, b the operand is the quoted text
a, TAB, b and not a, backslash, t, b. -/
theorem C8_const_string_leaves_tab_unescaped :
    escape_string_for_smali ['a', ch_tab, 'b'] = ['a', ch_tab, 'b'] ∧
    escape_string_for_smali ['a', ch_tab, 'b'] ≠ ['a', ch_backslash, 't', 'b'] ∧
    (parse_instructions (dex_with_strings [['a', ch_tab, 'b']]) (image [0x001a, 0x0000]) 2).map
        (fun l => l.map (fun i => i.mnemonic)) =
      some ["const-string v0, ".toList ++ [ch_dquote, 'a', ch_tab, 'b', ch_dquote]] := by
  decide

/-- C2 (code defect): reformat_registers_for_method only visits the registers 15 down to 0.  With
registers_size = 3 and ins_size = 2, `move v0, v2` becomes `move v0, p1`; but in a method of 20
registers with 2 incoming ones the decoded `return v18` keeps `v18`, although register 18 is the
first parameter register and format_register names it `p0`. -/
theorem C2_registers_above_15_keep_their_v_name :
    reformat_registers_for_method "move v0, v2".toList 3 2 = "move v0, p1".toList ∧
    format_instruction (dex_with_strings []) (image [0x120f]) 0 = "return v18".toList ∧
    reformat_registers_for_method "return v18".toList 20 2 = "return v18".toList ∧
    reformat_registers_for_method "return v18".toList 20 2 ≠ "return p0".toList ∧
    format_register 18 method_returning_v18 = "p0".toList ∧
    write_method_code true method_returning_v18 =
      "    .registers 20\n\n    return v18\n".toList := by
  decide

/-- C5 (code defect): the comparison handed to std::sort orders END_LOCAL items by register only
against other END_LOCAL items, so an END_LOCAL item and a START_LOCAL item of the same address
are unordered both ways while two END_LOCAL items are ordered: being unordered is not
transitive.  For the debug items end v1, end v5, start v2, end v3 at address 0 the sorted body
keeps `.end local v5` before `.end local v3`. -/
theorem C5_end_locals_stay_out_of_register_order :
    (method_item_less (debug_method_item method_with_locals (.EndLocal 0 5 [] [] []))
        (debug_method_item method_with_locals (.StartLocal 0 2 "i".toList "I".toList [])) = false ∧
     method_item_less (debug_method_item method_with_locals (.StartLocal 0 2 "i".toList "I".toList []))
        (debug_method_item method_with_locals (.EndLocal 0 5 [] [] [])) = false ∧
     method_item_less (debug_method_item method_with_locals (.StartLocal 0 2 "i".toList "I".toList []))
        (debug_method_item method_with_locals (.EndLocal 0 3 [] [] [])) = false ∧
     method_item_less (debug_method_item method_with_locals (.EndLocal 0 3 [] [] []))
        (debug_method_item method_with_locals (.StartLocal 0 2 "i".toList "I".toList [])) = false ∧
     method_item_less (debug_method_item method_with_locals (.EndLocal 0 3 [] [] []))
        (debug_method_item method_with_locals (.EndLocal 0 5 [] [] [])) = true) ∧
    (sorted_method_items method_with_locals code_with_locals).map
        (fun item => (item.address, item.sort_order, item.register_num, item.text)) =
      [(0, -1, 1, "    .end local v1".toList),
       (0, -1, 5, "    .end local v5".toList),
       (0, -1, -1, "    .local v2, ".toList ++ [ch_dquote, 'i', ch_dquote] ++ ":I".toList),
       (0, -1, 3, "    .end local v3".toList),
       (0, 100, -1, "    return-void".toList)] := by
  decide

/-- C6 (code defect): write_class_header tests ACC_SYNTHETIC after ACC_ANNOTATION and ACC_ENUM.
A public final synthetic enum class gets the header `.class public final enum synthetic`, with
`enum` before `synthetic`, against the canonical order that the field header follows
(`synthetic enum`). -/
theorem C6_class_header_writes_enum_before_synthetic :
    write_class_header (bare_class "Lpkg/E;".toList 0x5011) =
      ".class public final enum synthetic Lpkg/E;\n".toList ∧
    class_access_flags (ACC_SYNTHETIC ||| ACC_ANNOTATION ||| ACC_ENUM) =
      "annotation enum synthetic ".toList ∧
    static_field_access_flags 0x5019 = "public static final synthetic enum ".toList := by
  decide

theorem char_le_iff (a b : Char) : a ≤ b ↔ a.toNat ≤ b.toNat := by
  rfl

theorem is_hex_digit_small : ∀ n < 128, is_hex_digit (Char.ofNat n) = spec_is_hex (Char.ofNat n) := by
  decide

theorem spec_hex_chars_small : ∀ c ∈ "0123456789abcdefABCDEF".toList, c.toNat < 128 := by
  decide

theorem is_hex_digit_eq_spec (c : Char) : is_hex_digit c = spec_is_hex c := by
  by_cases h : c.toNat < 128
  · have := is_hex_digit_small c.toNat h
    simpa using this
  · have h1 : is_hex_digit c = false := by
      simp only [is_hex_digit, char_le_iff]
      have h9 : ('9' : Char).toNat = 57 := by decide
      have hf : ('f' : Char).toNat = 102 := by decide
      have hF : ('F' : Char).toNat = 70 := by decide
      simp only [h9, hf, hF, Bool.or_eq_false_iff, Bool.and_eq_false_iff, decide_eq_false_iff_not]
      omega
    have h2 : spec_is_hex c = false := by
      simp only [spec_is_hex, decide_eq_false_iff_not]
      intro hmem
      exact h (spec_hex_chars_small c hmem)
    rw [h1, h2]

theorem is_hex_digit_ne_backslash (c : Char) (h : is_hex_digit c = true) : c ≠ ch_backslash := by
  intro hc
  subst hc
  revert h
  decide

theorem is_unicode_escape_eq_spec (rest : Str) :
    is_unicode_escape rest = spec_begins_u_escape rest := by
  rcases rest with _ | ⟨u, _ | ⟨a, _ | ⟨b, _ | ⟨c, _ | ⟨d, tail⟩⟩⟩⟩⟩ <;>
    simp [is_unicode_escape, spec_begins_u_escape, is_hex_digit_eq_spec, Bool.and_assoc]
  by_cases hu : u = 'u' <;> simp [hu]

theorem is_unicode_escape_cases (rest : Str) (h : is_unicode_escape rest = true) :
    ∃ a b c d tail, rest = 'u' :: a :: b :: c :: d :: tail ∧ is_hex_digit a = true ∧
      is_hex_digit b = true ∧ is_hex_digit c = true ∧ is_hex_digit d = true := by
  rcases rest with _ | ⟨u, _ | ⟨a, _ | ⟨b, _ | ⟨c, _ | ⟨d, tail⟩⟩⟩⟩⟩ <;>
    simp [is_unicode_escape] at h
  obtain ⟨hu, ha, hb, hc, hd⟩ := h
  exact ⟨a, b, c, d, tail, by rw [hu], ha, hb, hc, hd⟩

theorem char_ne_facts :
    ch_cr ≠ ch_lf ∧ ch_cr ≠ ch_tab ∧ ch_cr ≠ ch_dquote ∧ ch_cr ≠ ch_squote ∧
    ch_cr ≠ ch_backslash ∧ ch_cr ≠ ('r' : Char) ∧ ch_cr ≠ ('n' : Char) ∧ ch_cr ≠ ('t' : Char) ∧
    ch_cr ≠ ('u' : Char) ∧ ch_lf ≠ ch_cr ∧ ch_lf ≠ ch_tab ∧ ch_lf ≠ ch_dquote ∧
    ch_lf ≠ ch_squote ∧ ch_lf ≠ ch_backslash ∧ ch_lf ≠ ('r' : Char) ∧ ch_lf ≠ ('n' : Char) ∧
    ch_lf ≠ ('t' : Char) ∧ ch_lf ≠ ('u' : Char) ∧ ch_tab ≠ ch_cr ∧ ch_tab ≠ ch_lf ∧
    ch_tab ≠ ch_dquote ∧ ch_tab ≠ ch_squote ∧ ch_tab ≠ ch_backslash ∧ ch_tab ≠ ('r' : Char) ∧
    ch_tab ≠ ('n' : Char) ∧ ch_tab ≠ ('t' : Char) ∧ ch_tab ≠ ('u' : Char) ∧ ch_dquote ≠ ch_cr ∧
    ch_dquote ≠ ch_lf ∧ ch_dquote ≠ ch_tab ∧ ch_dquote ≠ ch_squote ∧ ch_dquote ≠ ch_backslash ∧
    ch_dquote ≠ ('r' : Char) ∧ ch_dquote ≠ ('n' : Char) ∧ ch_dquote ≠ ('t' : Char) ∧
    ch_dquote ≠ ('u' : Char) ∧ ch_squote ≠ ch_cr ∧ ch_squote ≠ ch_lf ∧ ch_squote ≠ ch_tab ∧
    ch_squote ≠ ch_dquote ∧ ch_squote ≠ ch_backslash ∧ ch_squote ≠ ('r' : Char) ∧
    ch_squote ≠ ('n' : Char) ∧ ch_squote ≠ ('t' : Char) ∧ ch_squote ≠ ('u' : Char) ∧
    ch_backslash ≠ ch_cr ∧ ch_backslash ≠ ch_lf ∧ ch_backslash ≠ ch_tab ∧
    ch_backslash ≠ ch_dquote ∧ ch_backslash ≠ ch_squote ∧ ch_backslash ≠ ('r' : Char) ∧
    ch_backslash ≠ ('n' : Char) ∧ ch_backslash ≠ ('t' : Char) ∧ ch_backslash ≠ ('u' : Char) ∧
    ('r' : Char) ≠ ch_cr ∧ ('r' : Char) ≠ ch_lf ∧ ('r' : Char) ≠ ch_tab ∧
    ('r' : Char) ≠ ch_dquote ∧ ('r' : Char) ≠ ch_squote ∧ ('r' : Char) ≠ ch_backslash ∧
    ('r' : Char) ≠ ('n' : Char) ∧ ('r' : Char) ≠ ('t' : Char) ∧ ('r' : Char) ≠ ('u' : Char) ∧
    ('n' : Char) ≠ ch_cr ∧ ('n' : Char) ≠ ch_lf ∧ ('n' : Char) ≠ ch_tab ∧
    ('n' : Char) ≠ ch_dquote ∧ ('n' : Char) ≠ ch_squote ∧ ('n' : Char) ≠ ch_backslash ∧
    ('n' : Char) ≠ ('r' : Char) ∧ ('n' : Char) ≠ ('t' : Char) ∧ ('n' : Char) ≠ ('u' : Char) ∧
    ('t' : Char) ≠ ch_cr ∧ ('t' : Char) ≠ ch_lf ∧ ('t' : Char) ≠ ch_tab ∧
    ('t' : Char) ≠ ch_dquote ∧ ('t' : Char) ≠ ch_squote ∧ ('t' : Char) ≠ ch_backslash ∧
    ('t' : Char) ≠ ('r' : Char) ∧ ('t' : Char) ≠ ('n' : Char) ∧ ('t' : Char) ≠ ('u' : Char) ∧
    ('u' : Char) ≠ ch_cr ∧ ('u' : Char) ≠ ch_lf ∧ ('u' : Char) ≠ ch_tab ∧
    ('u' : Char) ≠ ch_dquote ∧ ('u' : Char) ≠ ch_squote ∧ ('u' : Char) ≠ ch_backslash ∧
    ('u' : Char) ≠ ('r' : Char) ∧ ('u' : Char) ≠ ('n' : Char) ∧ ('u' : Char) ≠ ('t' : Char) := by
  repeat' apply And.intro
  all_goals decide

theorem encoded_string_escape_loop_eq_spec :
    ∀ fuel s, s.length ≤ fuel → encoded_string_escape_loop fuel s = spec_escape_aux 0 s := by
  intro fuel
  induction fuel with
  | zero =>
    intro s h
    have hs : s = [] := List.eq_nil_of_length_eq_zero (by omega)
    subst hs
    simp [encoded_string_escape_loop, spec_escape_aux]
  | succ f ih =>
    intro s h
    cases s with
    | nil => simp [encoded_string_escape_loop, spec_escape_aux]
    | cons c rest =>
      have hrest : rest.length ≤ f := by simpa using h
      simp only [encoded_string_escape_loop]
      by_cases hcr : c = ch_cr
      · subst hcr
        by_cases hlf : rest.head? = some ch_lf
        · cases rest with
          | nil => simp at hlf
          | cons x tail =>
            simp only [List.head?_cons, Option.some.injEq] at hlf
            subst hlf
            have htail : tail.length ≤ f := by simp at hrest; omega
            simp [spec_escape_aux, spec_escape_char, char_ne_facts, ih tail htail]
        · simp [spec_escape_aux, spec_escape_char, char_ne_facts, hlf, ih rest hrest]
      by_cases hlf : c = ch_lf
      · subst hlf
        simp [spec_escape_aux, spec_escape_char, char_ne_facts, ih rest hrest]
      by_cases htab : c = ch_tab
      · subst htab
        simp [spec_escape_aux, spec_escape_char, char_ne_facts, ih rest hrest]
      by_cases hbs : c = ch_backslash
      · subst hbs
        by_cases hu : is_unicode_escape rest = true
        · obtain ⟨a, b, c, d, tail, hrw, -, -, -, -⟩ := is_unicode_escape_cases rest hu
          have hu2 : spec_begins_u_escape rest = true := by rw [← is_unicode_escape_eq_spec]; exact hu
          have htail : tail.length ≤ f := by rw [hrw] at hrest; simp at hrest; omega
          simp only [hcr, hlf, htab, hu, hu2, if_false, and_self, if_true, spec_escape_aux]
          subst hrw
          simp [spec_escape_aux, ih tail htail]
        · have hu2 : ¬ spec_begins_u_escape rest = true := by
            rw [← is_unicode_escape_eq_spec]; exact hu
          simp [spec_escape_aux, spec_escape_char, char_ne_facts, hu, hu2, ih rest hrest]
      by_cases hdq : c = ch_dquote
      · subst hdq
        simp [spec_escape_aux, spec_escape_char, char_ne_facts, ih rest hrest]
      by_cases hsq : c = ch_squote
      · subst hsq
        simp [spec_escape_aux, spec_escape_char, char_ne_facts, ih rest hrest]
      simp [spec_escape_aux, spec_escape_char, hcr, hlf, htab, hbs, hdq, hsq, ih rest hrest]

theorem spec_unescape_escape_loop :
    ∀ fuel s, s.length ≤ fuel →
      spec_unescape_aux false (encoded_string_escape_loop fuel s) = s := by
  intro fuel
  induction fuel with
  | zero =>
    intro s h
    have hs : s = [] := List.eq_nil_of_length_eq_zero (by omega)
    subst hs
    simp [encoded_string_escape_loop, spec_unescape_aux]
  | succ f ih =>
    intro s h
    cases s with
    | nil => simp [encoded_string_escape_loop, spec_unescape_aux]
    | cons c rest =>
      have hrest : rest.length ≤ f := by simpa using h
      simp only [encoded_string_escape_loop]
      by_cases hcr : c = ch_cr
      · subst hcr
        by_cases hlf : rest.head? = some ch_lf
        · cases rest with
          | nil => simp at hlf
          | cons x tail =>
            simp only [List.head?_cons, Option.some.injEq] at hlf
            subst hlf
            have htail : tail.length ≤ f := by simp at hrest; omega
            simp [spec_unescape_aux, char_ne_facts, ih tail htail]
        · simp [spec_unescape_aux, char_ne_facts, hlf, ih rest hrest]
      by_cases hlf : c = ch_lf
      · subst hlf
        simp [spec_unescape_aux, char_ne_facts, ih rest hrest]
      by_cases htab : c = ch_tab
      · subst htab
        simp [spec_unescape_aux, char_ne_facts, ih rest hrest]
      by_cases hbs : c = ch_backslash
      · subst hbs
        by_cases hu : is_unicode_escape rest = true
        · obtain ⟨a, b, c, d, tail, hrw, ha, hb, hc, hd⟩ := is_unicode_escape_cases rest hu
          have htail : tail.length ≤ f := by rw [hrw] at hrest; simp at hrest; omega
          simp only [hcr, hlf, htab, hu, if_false, and_self, if_true]
          subst hrw
          have ha2 := is_hex_digit_ne_backslash a ha
          have hb2 := is_hex_digit_ne_backslash b hb
          have hc2 := is_hex_digit_ne_backslash c hc
          have hd2 := is_hex_digit_ne_backslash d hd
          simp [spec_unescape_aux, char_ne_facts, ha2, hb2, hc2, hd2, ih tail htail]
        · simp [spec_unescape_aux, char_ne_facts, hu, ih rest hrest]
      by_cases hdq : c = ch_dquote
      · subst hdq
        simp [spec_unescape_aux, char_ne_facts, ih rest hrest]
      by_cases hsq : c = ch_squote
      · subst hsq
        simp [spec_unescape_aux, char_ne_facts, ih rest hrest]
      simp [spec_unescape_aux, hcr, hlf, htab, hbs, hdq, hsq, ih rest hrest]

theorem toDigitsCore_step (fuel n : Nat) (ds : List Char) :
    Nat.toDigitsCore 16 (fuel + 1) n ds =
      if n / 16 = 0 then Nat.digitChar (n % 16) :: ds
      else Nat.toDigitsCore 16 fuel (n / 16) (Nat.digitChar (n % 16) :: ds) := by
  simp [Nat.toDigitsCore]

theorem toDigitsCore_one (f n : Nat) (ds : List Char) (h : n < 16) :
    Nat.toDigitsCore 16 (f + 1) n ds = Nat.digitChar n :: ds := by
  have e1 : n / 16 = 0 := by omega
  have e2 : n % 16 = n := by omega
  rw [toDigitsCore_step, if_pos e1, e2]

theorem toDigitsCore_two (f n : Nat) (ds : List Char) (h16 : 16 ≤ n) (h : n < 256) :
    Nat.toDigitsCore 16 (f + 2) n ds = Nat.digitChar (n / 16) :: Nat.digitChar (n % 16) :: ds := by
  have e1 : ¬ n / 16 = 0 := by omega
  rw [toDigitsCore_step, if_neg e1, toDigitsCore_one f (n / 16) _ (by omega)]

theorem toDigitsCore_three (f n : Nat) (ds : List Char) (h256 : 256 ≤ n) (h : n < 4096) :
    Nat.toDigitsCore 16 (f + 3) n ds =
      Nat.digitChar (n / 256) :: Nat.digitChar (n / 16 % 16) :: Nat.digitChar (n % 16) :: ds := by
  have e1 : ¬ n / 16 = 0 := by omega
  have e2 : n / 16 / 16 = n / 256 := by omega
  rw [toDigitsCore_step, if_neg e1, toDigitsCore_two f (n / 16) _ (by omega) (by omega), e2]

theorem toDigitsCore_four (f n : Nat) (ds : List Char) (h4096 : 4096 ≤ n) (h : n < 65536) :
    Nat.toDigitsCore 16 (f + 4) n ds =
      Nat.digitChar (n / 4096) :: Nat.digitChar (n / 256 % 16) :: Nat.digitChar (n / 16 % 16) ::
        Nat.digitChar (n % 16) :: ds := by
  have e1 : ¬ n / 16 = 0 := by omega
  have e2 : n / 16 / 256 = n / 4096 := by omega
  have e3 : n / 16 / 16 % 16 = n / 256 % 16 := by omega
  rw [toDigitsCore_step, if_neg e1, toDigitsCore_three f (n / 16) _ (by omega) (by omega), e2, e3]

theorem digitChar_eq_spec : ∀ d < 16, Nat.digitChar d = spec_hex_digit d := by
  decide

theorem unicode_escape_digits (n : Nat) (h : n < 65536) :
    unicode_escape n = [ch_backslash, 'u', spec_hex_digit (n / 4096), spec_hex_digit (n / 256 % 16),
      spec_hex_digit (n / 16 % 16), spec_hex_digit (n % 16)] := by
  have z : spec_hex_digit 0 = '0' := by decide
  simp only [unicode_escape, hex, Nat.toDigits]
  by_cases h1 : n < 16
  · have e1 : n / 16 % 16 = 0 := by omega
    have e2 : n / 256 % 16 = 0 := by omega
    have e3 : n / 4096 = 0 := by omega
    have e4 : n % 16 = n := by omega
    rw [toDigitsCore_one n n [] h1, digitChar_eq_spec n h1, e1, e2, e3, e4, z]
    rfl
  by_cases h2 : n < 256
  · obtain ⟨f, hf⟩ : ∃ f, n + 1 = f + 2 := ⟨n - 1, by omega⟩
    have e2 : n / 256 % 16 = 0 := by omega
    have e3 : n / 4096 = 0 := by omega
    have e4 : n / 16 % 16 = n / 16 := by omega
    rw [hf, toDigitsCore_two f n [] (by omega) h2, digitChar_eq_spec (n / 16) (by omega),
      digitChar_eq_spec (n % 16) (by omega), e2, e3, e4, z]
    rfl
  by_cases h3 : n < 4096
  · obtain ⟨f, hf⟩ : ∃ f, n + 1 = f + 3 := ⟨n - 2, by omega⟩
    have e2 : n / 256 % 16 = n / 256 := by omega
    have e3 : n / 4096 = 0 := by omega
    rw [hf, toDigitsCore_three f n [] (by omega) h3, digitChar_eq_spec (n / 256) (by omega),
      digitChar_eq_spec (n / 16 % 16) (by omega), digitChar_eq_spec (n % 16) (by omega), e2, e3, z]
    rfl
  · obtain ⟨f, hf⟩ : ∃ f, n + 1 = f + 4 := ⟨n - 3, by omega⟩
    rw [hf, toDigitsCore_four f n [] (by omega) h, digitChar_eq_spec (n / 4096) (by omega),
      digitChar_eq_spec (n / 256 % 16) (by omega), digitChar_eq_spec (n / 16 % 16) (by omega),
      digitChar_eq_spec (n % 16) (by omega)]
    rfl

theorem lead2_facts : ∀ a < 32, (0xC0 + a) % 256 = 0xC0 + a ∧ ¬ (0xC0 + a < 0x80) ∧
    (0xC0 + a) &&& 0xE0 = 0xC0 ∧ (0xC0 + a) &&& 0x1F = a := by
  decide

theorem lead3_facts : ∀ a < 16, (0xE0 + a) % 256 = 0xE0 + a ∧ ¬ (0xE0 + a < 0x80) ∧
    ¬ ((0xE0 + a) &&& 0xE0 = 0xC0) ∧ (0xE0 + a) &&& 0xF0 = 0xE0 ∧ (0xE0 + a) &&& 0x0F = a := by
  decide

theorem lead4_facts : ∀ a < 8, (0xF0 + a) % 256 = 0xF0 + a ∧ ¬ (0xF0 + a < 0x80) ∧
    ¬ ((0xF0 + a) &&& 0xE0 = 0xC0) ∧ ¬ ((0xF0 + a) &&& 0xF0 = 0xE0) ∧
    (0xF0 + a) &&& 0xF8 = 0xF0 ∧ (0xF0 + a) &&& 0x07 = a := by
  decide

theorem continuation_facts : ∀ b < 64, (0x80 + b) % 256 &&& 0x3F = b := by
  decide

theorem or_eq_add (k q c : Nat) (hc : c < 2 ^ k) : (2 ^ k * q) ||| c = 2 ^ k * q + c :=
  (Nat.mul_add_lt_is_or hc q).symm

theorem code_point_two (a b : Nat) (hb : b < 64) : (a <<< 6) ||| b = a * 64 + b := by
  have h := or_eq_add 6 a b (by omega)
  rw [Nat.shiftLeft_eq, Nat.mul_comm]
  rw [h]

theorem code_point_three (a b c : Nat) (hb : b < 64) (hc : c < 64) :
    (a <<< 12) ||| (b <<< 6) ||| c = a * 4096 + b * 64 + c := by
  have h1 := or_eq_add 12 a (b * 2 ^ 6) (by omega)
  have h2 := or_eq_add 6 (a * 64 + b) c (by omega)
  have e1 : a * 2 ^ 12 = 2 ^ 12 * a := Nat.mul_comm _ _
  have e2 : 2 ^ 12 * a + b * 2 ^ 6 = 2 ^ 6 * (a * 64 + b) := by omega
  rw [Nat.shiftLeft_eq, Nat.shiftLeft_eq, e1, h1, e2, h2]
  omega

theorem code_point_four (a b c d : Nat) (hb : b < 64) (hc : c < 64) (hd : d < 64) :
    (a <<< 18) ||| (b <<< 12) ||| (c <<< 6) ||| d = a * 262144 + b * 4096 + c * 64 + d := by
  have h1 := or_eq_add 18 a (b * 2 ^ 12) (by omega)
  have h2 := or_eq_add 12 (a * 64 + b) (c * 2 ^ 6) (by omega)
  have h3 := or_eq_add 6 (a * 4096 + b * 64 + c) d (by omega)
  have e1 : a * 2 ^ 18 = 2 ^ 18 * a := Nat.mul_comm _ _
  have e2 : 2 ^ 18 * a + b * 2 ^ 12 = 2 ^ 12 * (a * 64 + b) := by omega
  have e3 : 2 ^ 12 * (a * 64 + b) + c * 2 ^ 6 = 2 ^ 6 * (a * 4096 + b * 64 + c) := by omega
  rw [Nat.shiftLeft_eq, Nat.shiftLeft_eq, Nat.shiftLeft_eq, e1, h1, e2, h2, e3, h3]
  omega

theorem and_ffff (x : Nat) : x &&& 0xFFFF = x % 65536 :=
  Nat.and_pow_two_sub_one_eq_mod x 16

theorem convert_unit (f : Nat) (u : Utf8Unit) (rest : List Nat) (hu : u.WellFormed) :
    parse_string_ids_convert_loop (f + 1) (u.bytes ++ rest) =
      u.rendered ++ parse_string_ids_convert_loop f rest := by
  cases u with
  | ascii b =>
    have hb : b < 0x80 := hu
    have hmod : b % 256 = b := by omega
    simp [Utf8Unit.bytes, Utf8Unit.rendered, parse_string_ids_convert_loop, hmod, hb]
  | two a b =>
    obtain ⟨ha, hb⟩ := hu
    obtain ⟨l1, l2, l3, l4⟩ := lead2_facts a ha
    have c1 := continuation_facts b hb
    have hlt : (a * 64 + b) % 65536 < 65536 := Nat.mod_lt _ (by omega)
    simp only [Utf8Unit.bytes, Utf8Unit.rendered, Utf8Unit.code_point, List.cons_append,
      List.nil_append]
    simp only [parse_string_ids_convert_loop, l1, l2, l3, l4, if_false, List.length_cons,
      List.getD_cons_zero, c1, code_point_two a b hb, and_ffff, unicode_escape_digits _ hlt,
      List.drop_succ_cons, List.drop_zero]
    simp
  | three a b c =>
    obtain ⟨ha, hb, hc⟩ := hu
    obtain ⟨l1, l2, l3, l4, l5⟩ := lead3_facts a ha
    have c1 := continuation_facts b hb
    have c2 := continuation_facts c hc
    have hlt : (a * 4096 + b * 64 + c) % 65536 < 65536 := Nat.mod_lt _ (by omega)
    simp only [Utf8Unit.bytes, Utf8Unit.rendered, Utf8Unit.code_point, List.cons_append,
      List.nil_append]
    simp only [parse_string_ids_convert_loop, l1, l2, l3, l4, l5, if_false,
      List.length_cons, List.getD_cons_zero, List.getD_cons_succ, c1, c2,
      code_point_three a b c hb hc, and_ffff, unicode_escape_digits _ hlt,
      List.drop_succ_cons, List.drop_zero, false_and]
    simp
  | four a b c d =>
    obtain ⟨ha, hb, hc, hd⟩ := hu
    obtain ⟨l1, l2, l3, l4, l5, l6⟩ := lead4_facts a ha
    have c1 := continuation_facts b hb
    have c2 := continuation_facts c hc
    have c3 := continuation_facts d hd
    have hlt : (a * 262144 + b * 4096 + c * 64 + d) % 65536 < 65536 := Nat.mod_lt _ (by omega)
    simp only [Utf8Unit.bytes, Utf8Unit.rendered, Utf8Unit.code_point, List.cons_append,
      List.nil_append]
    simp only [parse_string_ids_convert_loop, l1, l2, l3, l4, l5, l6, if_false,
      List.length_cons, List.getD_cons_zero, List.getD_cons_succ, c1, c2, c3,
      code_point_four a b c d hb hc hd, and_ffff, unicode_escape_digits _ hlt,
      List.drop_succ_cons, List.drop_zero, false_and]
    simp

theorem unit_bytes_length_pos (u : Utf8Unit) : 1 ≤ u.bytes.length := by
  cases u <;> simp [Utf8Unit.bytes]

theorem convert_loop_nil (fuel : Nat) : parse_string_ids_convert_loop fuel [] = [] := by
  cases fuel <;> simp [parse_string_ids_convert_loop]

theorem convert_loop_fuel :
    ∀ (f1 f2 : Nat) (s : List Nat), s.length ≤ f1 → s.length ≤ f2 →
      parse_string_ids_convert_loop f1 s = parse_string_ids_convert_loop f2 s := by
  intro f1
  induction f1 with
  | zero =>
    intro f2 s h1 _
    have hs : s = [] := List.eq_nil_of_length_eq_zero (by omega)
    subst hs
    simp [convert_loop_nil]
  | succ f ih =>
    intro f2 s h1 h2
    cases s with
    | nil => simp [convert_loop_nil]
    | cons c0 rest =>
      simp only [List.length_cons] at h1 h2
      obtain ⟨g, hg⟩ : ∃ g, f2 = g + 1 := ⟨f2 - 1, by omega⟩
      subst hg
      have e0 := ih g rest (by omega) (by omega)
      have e1 := ih g (rest.drop 1) (by simp; omega) (by simp; omega)
      have e2 := ih g (rest.drop 2) (by simp; omega) (by simp; omega)
      have e3 := ih g (rest.drop 3) (by simp; omega) (by simp; omega)
      simp only [parse_string_ids_convert_loop, e0, e1, e2, e3]

theorem convert_units :
    ∀ (units : List Utf8Unit) (rest : List Nat) (fuel : Nat), (∀ u ∈ units, u.WellFormed) →
      (units.flatMap Utf8Unit.bytes ++ rest).length ≤ fuel →
      parse_string_ids_convert_loop fuel (units.flatMap Utf8Unit.bytes ++ rest) =
        units.flatMap Utf8Unit.rendered ++ parse_string_ids_convert_loop rest.length rest := by
  intro units
  induction units with
  | nil =>
    intro rest fuel _ hlen
    simp only [List.flatMap_nil, List.nil_append] at hlen ⊢
    exact convert_loop_fuel fuel rest.length rest hlen (Nat.le_refl _)
  | cons u us ih =>
    intro rest fuel hwf hlen
    have hpos := unit_bytes_length_pos u
    simp only [List.flatMap_cons, List.length_append, List.append_assoc] at hlen ⊢
    obtain ⟨f, hf⟩ : ∃ f, fuel = f + 1 := ⟨fuel - 1, by omega⟩
    subst hf
    rw [convert_unit f u _ (hwf u (List.mem_cons_self _ _)),
      ih rest f (fun v hv => hwf v (List.mem_cons_of_mem _ hv))
        (by simp only [List.length_append]; omega)]

theorem getD_of_getElem? {α : Type} (l : List α) (i : Nat) (a d : α) (h : l[i]? = some a) :
    i < l.length ∧ l.getD i d = a := by
  have hlt : i < l.length := by
    by_contra hge
    rw [List.getElem?_eq_none (by omega)] at h
    exact Option.noConfusion h
  refine ⟨hlt, ?_⟩
  rw [List.getD_eq_getElem?_getD, h]
  rfl

theorem parse_encoded_value_string (dex : DexFile) (m : Nat → Nat) (fuel ptr : Nat) (s : Str)
    (htype : read_u8 m ptr &&& 0x1f = 0x17)
    (hs : dex.strings_[read_value_bytes m (ptr + 1) ((read_u8 m ptr &&& 0xe0) >>> 5) id
      4294967296]? = some s) :
    parse_encoded_value dex m (fuel + 1) ptr =
      some ([ch_dquote] ++ encoded_string_escape s ++ [ch_dquote],
        ptr + 1 + ((read_u8 m ptr &&& 0xe0) >>> 5) + 1) := by
  obtain ⟨hlt, hget⟩ := getD_of_getElem? dex.strings_ _ s [] hs
  simp only [parse_encoded_value, htype, if_true, hlt, hget]

/-- C7: for every pool string s, an encoded value of type STRING whose index names s is rendered
by parse_encoded_value as a quote, a body and a quote, and the inverse escaping rules applied to
the body give s again. -/
theorem C7_unescaping_the_encoded_string_gives_it_back (dex : DexFile) (m : Nat → Nat)
    (fuel ptr : Nat) (s : Str) (htype : read_u8 m ptr &&& 0x1f = 0x17)
    (hs : dex.strings_[read_value_bytes m (ptr + 1) ((read_u8 m ptr &&& 0xe0) >>> 5) id
      4294967296]? = some s) :
    ∃ body, parse_encoded_value dex m (fuel + 1) ptr =
        some ([ch_dquote] ++ body ++ [ch_dquote], ptr + 1 + ((read_u8 m ptr &&& 0xe0) >>> 5) + 1) ∧
      spec_unescape body = s :=
  ⟨encoded_string_escape s, parse_encoded_value_string dex m fuel ptr s htype hs,
    spec_unescape_escape_loop s.length s (Nat.le_refl _)⟩

/-- Witness of C7: the encoded value 17 00 over a pool whose string 0 holds a tab, a CR LF pair,
an escape sequence backslash u00e9, a lone backslash and both quotes. -/
theorem C7_unescaping_the_encoded_string_gives_it_back_witness :
    ∃ body, parse_encoded_value (dex_with_strings [tricky_string]) (image [0x17, 0x00]) (0 + 1) 0 =
        some ([ch_dquote] ++ body ++ [ch_dquote],
          0 + 1 + ((read_u8 (image [0x17, 0x00]) 0 &&& 0xe0) >>> 5) + 1) ∧
      spec_unescape body = tricky_string :=
  C7_unescaping_the_encoded_string_gives_it_back (dex_with_strings [tricky_string])
    (image [0x17, 0x00]) 0 0 tricky_string (by decide) (by decide)

/-- C9: for every in-range string index, an encoded value of type 0x17 renders as a double quote,
E(s), a double quote, where E is the escape of the specification (CR, LF, TAB, both quotes and
the backslash escaped, `\u` plus four hexadecimal digits copied unchanged); the pointer advances
past the type byte and the value_arg + 1 index bytes. -/
theorem C9_encoded_string_is_the_quoted_escape (dex : DexFile) (m : Nat → Nat)
    (fuel ptr : Nat) (s : Str) (htype : read_u8 m ptr &&& 0x1f = 0x17)
    (hs : dex.strings_[read_value_bytes m (ptr + 1) ((read_u8 m ptr &&& 0xe0) >>> 5) id
      4294967296]? = some s) :
    parse_encoded_value dex m (fuel + 1) ptr =
      some ([ch_dquote] ++ spec_escape s ++ [ch_dquote],
        ptr + 1 + ((read_u8 m ptr &&& 0xe0) >>> 5) + 1) := by
  rw [parse_encoded_value_string dex m fuel ptr s htype hs, encoded_string_escape,
    encoded_string_escape_loop_eq_spec s.length s (Nat.le_refl _), spec_escape]

/-- Witness of C9 on the same encoded value: the rendered text is the quoted escape of the pool
string, spelled out character by character. -/
theorem C9_encoded_string_is_the_quoted_escape_witness :
    parse_encoded_value (dex_with_strings [tricky_string]) (image [0x17, 0x00]) (0 + 1) 0 =
        some ([ch_dquote] ++ spec_escape tricky_string ++ [ch_dquote],
          0 + 1 + ((read_u8 (image [0x17, 0x00]) 0 &&& 0xe0) >>> 5) + 1) ∧
      spec_escape tricky_string =
        [ 'a', ch_backslash, 't', 'b', ch_backslash, 'r', ch_backslash, 'n',
          ch_backslash, 'u', '0', '0', 'e', '9', ch_backslash, ch_backslash,
          ch_backslash, ch_dquote, ch_backslash, ch_squote ] :=
  ⟨C9_encoded_string_is_the_quoted_escape (dex_with_strings [tricky_string])
    (image [0x17, 0x00]) 0 0 tricky_string (by decide) (by decide), by decide⟩

/-- C10: the string that parse_string_ids stores for string-data bytes that begin with bytes
below 0x80 and well-formed two-, three- and four-byte sequences, whatever bytes follow them, begins
with each such byte unchanged and, for each such sequence, `\u` and the four lowercase
hexadecimal digits of the low 16 bits of its code point; the bytes that follow are converted as
they would be on their own. -/
theorem C10_well_formed_utf8_becomes_u_escapes (units : List Utf8Unit) (rest : List Nat)
    (h : ∀ u ∈ units, u.WellFormed) :
    parse_string_ids_convert (units.flatMap Utf8Unit.bytes ++ rest) =
      units.flatMap Utf8Unit.rendered ++ parse_string_ids_convert rest :=
  convert_units units rest _ h (Nat.le_refl _)

/-- Witness of C10: the bytes 68 c3 a9 6c 6c 6f are stored as h, backslash, u00e9, llo. -/
theorem C10_well_formed_utf8_becomes_u_escapes_witness :
    (∀ u ∈ hello_units, u.WellFormed) ∧
    hello_units.flatMap Utf8Unit.bytes ++ [] = [0x68, 0xc3, 0xa9, 0x6c, 0x6c, 0x6f] ∧
    hello_units.flatMap Utf8Unit.rendered ++ parse_string_ids_convert [] =
      ['h', ch_backslash, 'u', '0', '0', 'e', '9', 'l', 'l', 'o'] ∧
    parse_string_ids_convert (hello_units.flatMap Utf8Unit.bytes ++ []) =
      hello_units.flatMap Utf8Unit.rendered ++ parse_string_ids_convert [] :=
  ⟨by decide, by decide, by decide,
    C10_well_formed_utf8_becomes_u_escapes hello_units [] (by decide)⟩

/-! The string pool on malformed UTF-8, and ULEB128 (dex_file.cpp) -/

/-- C11 (code defect): the conversion loop of parse_string_ids never looks at the bytes after a
lead byte.  The bytes c3 41 (a two-byte lead followed by the letter A, not a continuation byte)
are stored as the single escape backslash u00c1, not as backslash u00c3 followed by A; likewise
e2 41 42 43 swallows 41 and 42.  A stray continuation byte (80 41) and a lead byte cut off by
the end of the string (41 e2 82) are emitted byte by byte. -/
theorem C11_lead_byte_swallows_the_bytes_after_it :
    parse_string_ids_convert [0xC3, 0x41] = [ch_backslash, 'u', '0', '0', 'c', '1'] ∧
    parse_string_ids_convert [0xC3, 0x41] ≠ [ch_backslash, 'u', '0', '0', 'c', '3', 'A'] ∧
    parse_string_ids_convert [0xE2, 0x41, 0x42, 0x43] =
      [ch_backslash, 'u', '2', '0', '4', '2', 'C'] ∧
    parse_string_ids_convert [0x80, 0x41] = [ch_backslash, 'u', '0', '0', '8', '0', 'A'] ∧
    parse_string_ids_convert [0x41, 0xE2, 0x82] =
      ['A', ch_backslash, 'u', '0', '0', 'e', '2', ch_backslash, 'u', '0', '0', '8', '2'] := by
  refine ⟨?_, ?_, ?_, ?_, ?_⟩ <;> decide

theorem lor_eq_add_of_lt (result x shift : Nat) (h : result < 2 ^ shift) :
    result ||| (x <<< shift) = result + x * 2 ^ shift := by
  rw [Nat.shiftLeft_eq, Nat.lor_comm, Nat.mul_comm, or_eq_add shift x result h]
  omega

theorem and_7f_lt (b : Nat) : b &&& 0x7F < 128 := by
  have := @Nat.and_le_right b 0x7F
  omega

/-- The loop of decode_uleb128 while the shift stays below 32: after n bytes with the
continuation bit and one without, the result has gained the low seven bits of each byte at
its place, and the pointer has moved by n + 1. -/
theorem decode_uleb128_loop_value (m : Nat → Nat) :
    ∀ (n fuel ptr result shift : Nat), n < fuel → result < 2 ^ shift → shift + 7 * n ≤ 28 →
      (∀ i < n, read_u8 m (ptr + i) &&& 0x80 ≠ 0) → read_u8 m (ptr + n) &&& 0x80 = 0 →
      decode_uleb128_loop m fuel ptr result shift =
        some ((result + ((List.range (n + 1)).map
          (fun i => (read_u8 m (ptr + i) &&& 0x7F) * 2 ^ (shift + 7 * i))).sum) % 4294967296,
          ptr + n + 1) := by
  intro n
  induction n with
  | zero =>
    intro fuel ptr result shift hf hr _ _ hend
    obtain ⟨f, rfl⟩ : ∃ f, fuel = f + 1 := ⟨fuel - 1, by omega⟩
    simp only [Nat.add_zero] at hend
    simp [decode_uleb128_loop, hend, lor_eq_add_of_lt _ _ _ hr, List.range_succ]
  | succ n ih =>
    intro fuel ptr result shift hf hr hs hcont hend
    obtain ⟨f, rfl⟩ : ∃ f, fuel = f + 1 := ⟨fuel - 1, by omega⟩
    have h0 : read_u8 m ptr &&& 0x80 ≠ 0 := by simpa using hcont 0 (by omega)
    have hx := and_7f_lt (read_u8 m ptr)
    have hpow : (2 : Nat) ^ (shift + 7) = 2 ^ shift * 128 := by rw [Nat.pow_add]
    have hle : (2 : Nat) ^ (shift + 7) ≤ 2 ^ 28 := Nat.pow_le_pow_right (by omega) (by omega)
    have hmul : (read_u8 m ptr &&& 0x7F) * 2 ^ shift ≤ 127 * 2 ^ shift :=
      Nat.mul_le_mul_right _ (by omega)
    have hnew : result + (read_u8 m ptr &&& 0x7F) * 2 ^ shift < 2 ^ (shift + 7) := by omega
    have hmod : (result + (read_u8 m ptr &&& 0x7F) * 2 ^ shift) % 4294967296 =
        result + (read_u8 m ptr &&& 0x7F) * 2 ^ shift := Nat.mod_eq_of_lt (by omega)
    have hrec := ih f (ptr + 1) (result + (read_u8 m ptr &&& 0x7F) * 2 ^ shift) (shift + 7)
      (by omega) hnew (by omega)
      (fun i hi => by
        have := hcont (i + 1) (by omega)
        rwa [show ptr + (i + 1) = ptr + 1 + i by omega] at this)
      (by rwa [show ptr + (n + 1) = ptr + 1 + n by omega] at hend)
    simp only [decode_uleb128_loop, lor_eq_add_of_lt _ _ _ hr, hmod, h0, ne_eq, not_false_eq_true,
      if_true, hrec]
    rw [List.range_succ_eq_map (n + 1), List.map_cons, List.sum_cons, List.map_map]
    have hfun : ((fun i => (read_u8 m (ptr + i) &&& 0x7F) * 2 ^ (shift + 7 * i)) ∘ Nat.succ) =
        (fun i => (read_u8 m (ptr + 1 + i) &&& 0x7F) * 2 ^ (shift + 7 + 7 * i)) := by
      funext i
      simp only [Function.comp, Nat.succ_eq_add_one]
      rw [show ptr + (i + 1) = ptr + 1 + i by omega,
        show shift + 7 * (i + 1) = shift + 7 + 7 * i by omega]
    rw [hfun]
    simp only [Nat.add_zero, Nat.mul_zero]
    congr 2
    · omega
    · omega

/-- The loop of decode_uleb128 ends at the first byte without the continuation bit, however
far away it is: the pointer has then moved past that byte. -/
theorem decode_uleb128_loop_ends (m : Nat → Nat) :
    ∀ (n fuel ptr result shift : Nat), n < fuel →
      (∀ i < n, read_u8 m (ptr + i) &&& 0x80 ≠ 0) → read_u8 m (ptr + n) &&& 0x80 = 0 →
      ∃ value, decode_uleb128_loop m fuel ptr result shift = some (value, ptr + n + 1) := by
  intro n
  induction n with
  | zero =>
    intro fuel ptr result shift hf _ hend
    obtain ⟨f, rfl⟩ : ∃ f, fuel = f + 1 := ⟨fuel - 1, by omega⟩
    simp only [Nat.add_zero] at hend
    exact ⟨(result ||| ((read_u8 m ptr &&& 0x7F) <<< shift)) % 4294967296,
      by simp [decode_uleb128_loop, hend]⟩
  | succ n ih =>
    intro fuel ptr result shift hf hcont hend
    obtain ⟨f, rfl⟩ : ∃ f, fuel = f + 1 := ⟨fuel - 1, by omega⟩
    have h0 : read_u8 m ptr &&& 0x80 ≠ 0 := by simpa using hcont 0 (by omega)
    obtain ⟨value, hv⟩ := ih f (ptr + 1)
      ((result ||| ((read_u8 m ptr &&& 0x7F) <<< shift)) % 4294967296) (shift + 7) (by omega)
      (fun i hi => by
        have := hcont (i + 1) (by omega)
        rwa [show ptr + (i + 1) = ptr + 1 + i by omega] at this)
      (by rwa [show ptr + (n + 1) = ptr + 1 + n by omega] at hend)
    refine ⟨value, ?_⟩
    simp only [decode_uleb128_loop, h0, ne_eq, not_false_eq_true, if_true, hv]
    congr 2
    omega

/-- C13: for bytes b0..bk at the pointer with k at most 4, where b0..b(k-1) carry the high bit
and bk does not, decode_uleb128 returns the sum of (bi and 0x7f) * 2^(7i) modulo 2^32 and
leaves the pointer k + 1 bytes further. -/
theorem C13_uleb128_value_and_advance (m : Nat → Nat) (ptr k : Nat) (hk : k ≤ 4)
    (hcont : ∀ i < k, read_u8 m (ptr + i) &&& 0x80 ≠ 0)
    (hend : read_u8 m (ptr + k) &&& 0x80 = 0) :
    decode_uleb128 m ptr =
      some (((List.range (k + 1)).map
        (fun i => (read_u8 m (ptr + i) &&& 0x7F) * 2 ^ (7 * i))).sum % 4294967296,
        ptr + k + 1) := by
  have h := decode_uleb128_loop_value m k 18446744073709551616 ptr 0 0 (by omega) (by simp)
    (by omega) hcont hend
  simpa [decode_uleb128] using h

/-- Witness of C13: the three bytes e5 8e 26 decode to 624485 and move the pointer by 3. -/
theorem C13_uleb128_value_and_advance_witness :
    2 ≤ 4 ∧ (∀ i < 2, read_u8 (image [0xE5, 0x8E, 0x26]) (0 + i) &&& 0x80 ≠ 0) ∧
    read_u8 (image [0xE5, 0x8E, 0x26]) (0 + 2) &&& 0x80 = 0 ∧
    ((List.range (2 + 1)).map
      (fun i => (read_u8 (image [0xE5, 0x8E, 0x26]) (0 + i) &&& 0x7F) * 2 ^ (7 * i))).sum
        % 4294967296 = 624485 ∧
    decode_uleb128 (image [0xE5, 0x8E, 0x26]) 0 =
      some (((List.range (2 + 1)).map
        (fun i => (read_u8 (image [0xE5, 0x8E, 0x26]) (0 + i) &&& 0x7F) * 2 ^ (7 * i))).sum
          % 4294967296, 0 + 2 + 1) :=
  ⟨by decide, by decide, by decide, by decide,
    C13_uleb128_value_and_advance (image [0xE5, 0x8E, 0x26]) 0 2 (by decide) (by decide)
      (by decide)⟩

/-- C14, the claim fails: on the six bytes 80 80 80 80 80 01 the fifth byte still carries the
continuation bit, yet decode_uleb128 returns normally after reading a sixth byte (the pointer
ends at 6); on nine bytes with the continuation bit followed by 00 it reads all ten. -/
theorem C14_sixth_byte_is_read :
    (decode_uleb128 (image [0x80, 0x80, 0x80, 0x80, 0x80, 0x01]) 0).map Prod.snd = some 6 ∧
    (decode_uleb128 (image [0x80, 0x80, 0xff, 0xff, 0xff, 0xff, 0xff, 0xff, 0xff, 0x00]) 0).map
      Prod.snd = some 10 := by
  refine ⟨?_, ?_⟩ <;> decide

/-- C14 as the code has it: decode_uleb128 has no limit and no failure.  It reads on until the
first byte without the continuation bit, wherever that byte is (n bytes further, n below 2^64),
and returns a value with the pointer just past that byte. -/
theorem C14_uleb128_reads_to_the_first_terminator (m : Nat → Nat) (ptr n : Nat)
    (hn : n < 18446744073709551616)
    (hcont : ∀ i < n, read_u8 m (ptr + i) &&& 0x80 ≠ 0)
    (hend : read_u8 m (ptr + n) &&& 0x80 = 0) :
    ∃ value, decode_uleb128 m ptr = some (value, ptr + n + 1) :=
  decode_uleb128_loop_ends m n 18446744073709551616 ptr 0 0 hn hcont hend

/-- Witness of C14: seven bytes with the continuation bit and then 01 are all read. -/
theorem C14_uleb128_reads_to_the_first_terminator_witness :
    7 < 18446744073709551616 ∧
    (∀ i < 7, read_u8 (image [0x80, 0x80, 0x80, 0x80, 0x80, 0x80, 0x80, 0x01]) (0 + i)
      &&& 0x80 ≠ 0) ∧
    read_u8 (image [0x80, 0x80, 0x80, 0x80, 0x80, 0x80, 0x80, 0x01]) (0 + 7) &&& 0x80 = 0 ∧
    ∃ value, decode_uleb128 (image [0x80, 0x80, 0x80, 0x80, 0x80, 0x80, 0x80, 0x01]) 0 =
      some (value, 0 + 7 + 1) :=
  ⟨by decide, by decide, by decide,
    C14_uleb128_reads_to_the_first_terminator
      (image [0x80, 0x80, 0x80, 0x80, 0x80, 0x80, 0x80, 0x01]) 0 7 (by decide) (by decide)
      (by decide)⟩

/-! The header check (dex_file.cpp) -/

theorem magic_bytes :
    DEX_FILE_MAGIC_V035 = [0x64, 0x65, 0x78, 0x0a, 0x30, 0x33, 0x35, 0x00] ∧
    DEX_FILE_MAGIC_V037 = [0x64, 0x65, 0x78, 0x0a, 0x30, 0x33, 0x37, 0x00] ∧
    DEX_FILE_MAGIC_V038 = [0x64, 0x65, 0x78, 0x0a, 0x30, 0x33, 0x38, 0x00] ∧
    DEX_FILE_MAGIC_V039 = [0x64, 0x65, 0x78, 0x0a, 0x30, 0x33, 0x39, 0x00] := by
  refine ⟨?_, ?_, ?_, ?_⟩ <;> decide

/-- C15: parse_header returns true exactly when the file has at least 0x70 bytes, its first
eight bytes are dex, line feed, 035, 037, 038 or 039, NUL, the uint32 at byte 32 (file_size)
equals the number of bytes of the file, and the uint32 at byte 36 (header_size) is 0x70. -/
theorem C15_parse_header_accepts_exactly_the_valid_headers (dex : DexFile) :
    (parse_header dex).1 = true ↔
      0x70 ≤ dex.file_data_size ∧
      (List.range 8).map (fun i => read_u8 dex.file_data_ i) ∈
        [[0x64, 0x65, 0x78, 0x0a, 0x30, 0x33, 0x35, 0x00],
         [0x64, 0x65, 0x78, 0x0a, 0x30, 0x33, 0x37, 0x00],
         [0x64, 0x65, 0x78, 0x0a, 0x30, 0x33, 0x38, 0x00],
         [0x64, 0x65, 0x78, 0x0a, 0x30, 0x33, 0x39, 0x00]] ∧
      read_u32 dex.file_data_ 32 = dex.file_data_size ∧
      read_u32 dex.file_data_ 36 = 0x70 := by
  obtain ⟨h35, h37, h38, h39⟩ := magic_bytes
  simp only [parse_header, read_header, sizeof_DexHeader, h35, h37, h38, h39, List.mem_cons,
    List.mem_singleton, List.mem_nil_iff, or_false]
  by_cases hsize : dex.file_data_size < 112
  · simp only [hsize, if_true]
    constructor
    · intro h; cases h
    · rintro ⟨h, -⟩; omega
  · simp only [hsize, if_false]
    split_ifs with hmagic hfile hhdr
    · constructor
      · intro h; cases h
      · rintro ⟨-, h, -⟩; tauto
    · constructor
      · intro h; cases h
      · rintro ⟨-, -, h, -⟩; exact absurd h hfile
    · constructor
      · intro h; cases h
      · rintro ⟨-, -, -, h⟩; exact absurd h hhdr
    · constructor
      · intro _
        refine ⟨by omega, ?_, not_not.mp hfile, not_not.mp hhdr⟩
        tauto
      · intro _; rfl

/-! The switch of format_instruction (dalvik_opcodes.cpp) -/

/-- An opcode without a case label takes the default branch of format_instruction: the text
is the name and the unknown-opcode comment. -/
theorem format_instruction_default (dex : DexFile) (insn : Nat → Nat) (address : Nat)
    (h : (insn 0 % 65536) &&& 0xFF ∉ handled_opcodes) :
    format_instruction dex insn address =
      get_opcode_name ((insn 0 % 65536) &&& 0xFF) ++ " ; unknown opcode 0x".toList ++
        hex ((insn 0 % 65536) &&& 0xFF) := by
  simp only [handled_opcodes, List.mem_cons, not_or, List.mem_nil_iff, not_false_eq_true,
    and_true] at h
  simp only [format_instruction, List.mem_cons, List.mem_nil_iff, or_false, h, false_or,
    or_self, if_false, List.append_assoc]

theorem operand_prefixes :
    " v".toList = [' ', 'v'] ∧ " \x7b".toList = [' ', Char.ofNat 123] ∧
    " :cond_".toList = [' ', ':', 'c', 'o', 'n', 'd', '_'] ∧
    " ; unknown opcode 0x".toList = ' ' :: ';' :: " unknown opcode 0x".toList := by
  refine ⟨?_, ?_, ?_, ?_⟩ <;> rfl

theorem ite_ne_of_branches {c : Prop} [Decidable c] (a b t : Str) (ha : c → a ≠ t)
    (hb : ¬c → b ≠ t) : (if c then a else b) ≠ t := by
  by_cases h : c
  · rw [if_pos h]; exact ha h
  · rw [if_neg h]; exact hb h

/-- An opcode with a case label gets the operands of its case: the text is not the name
followed by the unknown-opcode comment. -/
theorem format_instruction_handled (dex : DexFile) (insn : Nat → Nat) (address : Nat)
    (hmem : (insn 0 % 65536) &&& 0xFF ∈ handled_opcodes) :
    format_instruction dex insn address ≠
      get_opcode_name ((insn 0 % 65536) &&& 0xFF) ++ " ; unknown opcode 0x".toList ++
        hex ((insn 0 % 65536) &&& 0xFF) := by
  obtain ⟨hv, hb, hc, hu⟩ := operand_prefixes
  simp only [format_instruction, regs_12x, regs_23x, List.append_assoc, ne_eq,
    List.append_cancel_left_eq, hv, hb, hc, hu, List.cons_append, List.nil_append]
  repeat (refine ite_ne_of_branches _ _ _ (fun _ => by simp) (fun _ => ?_))
  exfalso
  simp only [handled_opcodes] at hmem
  simp only [List.mem_cons, List.mem_nil_iff, or_false, not_or] at *
  simp only [*, or_self] at hmem

/-- Every opcode with a case label has a name in the opcode table. -/
theorem handled_opcodes_in_table : ∀ o ∈ handled_opcodes, opcode_names_.lookup o ≠ none := by
  decide

/-- An opcode byte without a name in the opcode table has no entry of another width. -/
theorem width_of_absent_opcode :
    ∀ o < 256, opcode_names_.lookup o = none → get_instruction_width o = 1 := by
  decide

/-- C17, the claim fails: shl-int (0x98) and cmp-long (0x31) have names in the opcode table,
yet their text is the name followed by the unknown-opcode comment, not three registers. -/
theorem C17_shl_int_and_cmp_long_get_the_unknown_comment :
    opcode_names_.lookup 0x98 = some "shl-int".toList ∧
    format_instruction (dex_with_strings []) (three_units 0x0198 0x0302 0) 0 =
      "shl-int ; unknown opcode 0x98".toList ∧
    opcode_names_.lookup 0x31 = some "cmp-long".toList ∧
    format_instruction (dex_with_strings []) (three_units 0x0131 0x0302 0) 0 =
      "cmp-long ; unknown opcode 0x31".toList := by
  refine ⟨?_, ?_, ?_, ?_⟩ <;> decide

/-- C17 as the code has it: the text is the name followed by the unknown-opcode comment
exactly when the opcode has no case label in the switch of format_instruction; 103 of the
218 opcodes of the opcode table have none. -/
theorem C17_unknown_comment_exactly_without_case_label (dex : DexFile) (insn : Nat → Nat)
    (address : Nat) :
    (format_instruction dex insn address =
      get_opcode_name ((insn 0 % 65536) &&& 0xFF) ++ " ; unknown opcode 0x".toList ++
        hex ((insn 0 % 65536) &&& 0xFF) ↔ (insn 0 % 65536) &&& 0xFF ∉ handled_opcodes) ∧
    opcode_names_.length = 218 ∧
    ((opcode_names_.map Prod.fst).filter (fun o => decide (o ∉ handled_opcodes))).length = 103 := by
  refine ⟨⟨fun heq hmem => format_instruction_handled dex insn address hmem heq,
    format_instruction_default dex insn address⟩, by decide, by decide⟩

/-- C18: for an opcode byte without a name in the opcode table, the width is 1 and the text is
unknown- and the opcode in hexadecimal, followed by the comment with the same hexadecimal
digits (lowercase, no padding: the digits of Nat.toDigits 16). -/
theorem C18_absent_opcode_has_width_1_and_unknown_text (dex : DexFile) (insn : Nat → Nat)
    (address : Nat) (h : opcode_names_.lookup ((insn 0 % 65536) &&& 0xFF) = none) :
    get_instruction_width ((insn 0 % 65536) &&& 0xFF) = 1 ∧
    format_instruction dex insn address =
      "unknown-".toList ++ Nat.toDigits 16 ((insn 0 % 65536) &&& 0xFF) ++
        " ; unknown opcode 0x".toList ++ Nat.toDigits 16 ((insn 0 % 65536) &&& 0xFF) := by
  have hlt : (insn 0 % 65536) &&& 0xFF < 256 := by
    have := @Nat.and_le_right (insn 0 % 65536) 0xFF
    omega
  refine ⟨width_of_absent_opcode _ hlt h, ?_⟩
  rw [format_instruction_default dex insn address
    (fun hmem => handled_opcodes_in_table _ hmem h)]
  simp only [get_opcode_name, h, hex]

/-- Witness of C18: the opcode byte 0x3e has no name; its text is
`unknown-3e ; unknown opcode 0x3e`. -/
theorem C18_absent_opcode_has_width_1_and_unknown_text_witness :
    opcode_names_.lookup ((three_units 0x003e 0 0 0 % 65536) &&& 0xFF) = none ∧
    "unknown-".toList ++ Nat.toDigits 16 ((three_units 0x003e 0 0 0 % 65536) &&& 0xFF) ++
        " ; unknown opcode 0x".toList ++
        Nat.toDigits 16 ((three_units 0x003e 0 0 0 % 65536) &&& 0xFF) =
      "unknown-3e ; unknown opcode 0x3e".toList ∧
    get_instruction_width ((three_units 0x003e 0 0 0 % 65536) &&& 0xFF) = 1 ∧
    format_instruction (dex_with_strings []) (three_units 0x003e 0 0) 0 =
      "unknown-".toList ++ Nat.toDigits 16 ((three_units 0x003e 0 0 0 % 65536) &&& 0xFF) ++
        " ; unknown opcode 0x".toList ++
        Nat.toDigits 16 ((three_units 0x003e 0 0 0 % 65536) &&& 0xFF) :=
  ⟨by decide, by decide,
    C18_absent_opcode_has_width_1_and_unknown_text (dex_with_strings []) (three_units 0x003e 0 0)
      0 (by decide)⟩

/-! The invoke cases of format_instruction (dalvik_opcodes.cpp) -/

theorem intercalate_cons_eq (sep : Str) :
    ∀ (l : List Str) (a : Str),
      List.intercalate sep (a :: l) = a ++ (l.map (fun x => sep ++ x)).flatten := by
  intro l
  induction l with
  | nil => intro a; simp [List.intercalate]
  | cons b l ih =>
    intro a
    have h := ih b
    simp only [List.intercalate, List.intersperse, List.flatten_cons, List.map_cons] at h ⊢
    rw [h]
    simp

/-- The argument loop of the invoke cases writes its slots joined by a comma and a blank. -/
theorem invoke_args_eq_intercalate (count : Nat) (slot : Nat → Str) :
    invoke_args count slot = List.intercalate ", ".toList ((List.range count).map slot) := by
  cases count with
  | zero => simp [invoke_args, List.intercalate]
  | succ n =>
    rw [List.range_succ_eq_map, List.map_cons, intercalate_cons_eq]
    simp only [invoke_args, List.range_succ_eq_map n, List.map_cons, List.flatten_cons,
      List.map_map]
    have hfun : ((fun i => (if i > 0 then ", ".toList else []) ++ slot i) ∘ Nat.succ) =
        ((fun x => ", ".toList ++ x) ∘ slot ∘ Nat.succ) := by
      funext i
      simp [Function.comp]
    rw [hfun]
    simp

/-- The registers of the slots of a 35c invoke: nibbles C, D, E, F, then G, then zeros. -/
theorem invoke_arg_regs (args vG count : Nat) (h : count < 16) :
    (List.range count).map (invoke_arg_reg args vG) =
      ([args &&& 0xF, (args >>> 4) &&& 0xF, (args >>> 8) &&& 0xF, (args >>> 12) &&& 0xF, vG] ++
        List.replicate 10 0).take count := by
  interval_cases count <;> rfl

theorem ite_neg_eq {c : Prop} [Decidable c] {a b t : Str} (hc : ¬c) (hb : b = t) :
    (if c then a else b) = t := by
  rw [if_neg hc]; exact hb

theorem ite_pos_eq {c : Prop} [Decidable c] {a b t : Str} (hc : c) (ha : a = t) :
    (if c then a else b) = t := by
  rw [if_pos hc]; exact ha

/-- C19: a 35c invoke with count nibble A is written as the name, a brace list of A registers,
a comma and the method reference of unit 1.  The registers are the first A of C, D, E, F, G
followed by zeros; for A up to 5 they are the first A of C, D, E, F, G. -/
theorem C19_invoke_35c_lists_its_count_of_registers (dex : DexFile) (insn : Nat → Nat)
    (address : Nat)
    (h : (insn 0 % 65536) &&& 0xFF ∈ [OP_INVOKE_VIRTUAL, OP_INVOKE_SUPER, OP_INVOKE_DIRECT,
      OP_INVOKE_STATIC, OP_INVOKE_INTERFACE]) :
    ((spec_35c_registers (insn 0 % 65536) (insn 2 % 65536) ++ List.replicate 10 0).take
      (((insn 0 % 65536) >>> 12) &&& 0xF)).length = ((insn 0 % 65536) >>> 12) &&& 0xF ∧
    (((insn 0 % 65536) >>> 12) &&& 0xF ≤ 5 →
      (spec_35c_registers (insn 0 % 65536) (insn 2 % 65536) ++ List.replicate 10 0).take
        (((insn 0 % 65536) >>> 12) &&& 0xF) =
      (spec_35c_registers (insn 0 % 65536) (insn 2 % 65536)).take
        (((insn 0 % 65536) >>> 12) &&& 0xF)) ∧
    format_instruction dex insn address =
      get_opcode_name ((insn 0 % 65536) &&& 0xFF) ++ " ".toList ++
        spec_register_list
          ((spec_35c_registers (insn 0 % 65536) (insn 2 % 65536) ++ List.replicate 10 0).take
            (((insn 0 % 65536) >>> 12) &&& 0xF)) ++
        ", ".toList ++ get_method_reference dex (insn 1 % 65536) := by
  have hA : ((insn 0 % 65536) >>> 12) &&& 0xF < 16 := by
    have := @Nat.and_le_right ((insn 0 % 65536) >>> 12) 0xF
    omega
  refine ⟨?_, ?_, ?_⟩
  · rw [List.length_take]
    simp only [spec_35c_registers, List.length_append, List.length_cons, List.length_nil,
      List.length_replicate]
    omega
  · intro h5
    exact List.take_append_of_le_length (by simpa [spec_35c_registers] using h5)
  · have hregs := invoke_arg_regs (insn 2 % 65536) (((insn 0 % 65536) >>> 8) &&& 0xF) _ hA
    simp only [List.mem_cons, List.mem_nil_iff, or_false] at h
    simp only [spec_register_list, spec_35c_registers, ← hregs, List.map_map]
    rcases h with h | h | h | h | h
    all_goals
      simp only [format_instruction, h, invoke_args_eq_intercalate, List.append_assoc,
        List.append_cancel_left_eq]
      repeat (refine ite_neg_eq (by decide) ?_)
      refine ite_pos_eq (by decide) ?_
      rfl

/-- Witness of C19: invoke-virtual with count 3, unit 2 = 0x4321 and method 0 is written
`invoke-virtual {v1, v2, v3}, Lfoo;->bar()V`. -/
theorem C19_invoke_35c_lists_its_count_of_registers_witness :
    (three_units 0x306e 0 0x4321 0 % 65536) &&& 0xFF ∈ [OP_INVOKE_VIRTUAL, OP_INVOKE_SUPER,
      OP_INVOKE_DIRECT, OP_INVOKE_STATIC, OP_INVOKE_INTERFACE] ∧
    (spec_35c_registers (three_units 0x306e 0 0x4321 0 % 65536)
      (three_units 0x306e 0 0x4321 2 % 65536) ++ List.replicate 10 0).take
        (((three_units 0x306e 0 0x4321 0 % 65536) >>> 12) &&& 0xF) = [1, 2, 3] ∧
    get_opcode_name ((three_units 0x306e 0 0x4321 0 % 65536) &&& 0xFF) ++ " ".toList ++
        spec_register_list
          ((spec_35c_registers (three_units 0x306e 0 0x4321 0 % 65536)
            (three_units 0x306e 0 0x4321 2 % 65536) ++ List.replicate 10 0).take
            (((three_units 0x306e 0 0x4321 0 % 65536) >>> 12) &&& 0xF)) ++
        ", ".toList ++
        get_method_reference dex_with_method (three_units 0x306e 0 0x4321 1 % 65536) =
      "invoke-virtual \x7bv1, v2, v3\x7d, Lfoo;->bar()V".toList ∧
    format_instruction dex_with_method (three_units 0x306e 0 0x4321) 0 =
      get_opcode_name ((three_units 0x306e 0 0x4321 0 % 65536) &&& 0xFF) ++ " ".toList ++
        spec_register_list
          ((spec_35c_registers (three_units 0x306e 0 0x4321 0 % 65536)
            (three_units 0x306e 0 0x4321 2 % 65536) ++ List.replicate 10 0).take
            (((three_units 0x306e 0 0x4321 0 % 65536) >>> 12) &&& 0xF)) ++
        ", ".toList ++
        get_method_reference dex_with_method (three_units 0x306e 0 0x4321 1 % 65536) :=
  ⟨by decide, by decide, by decide,
    (C19_invoke_35c_lists_its_count_of_registers dex_with_method (three_units 0x306e 0 0x4321) 0
      (by decide)).2.2⟩

/-- C20: a 3rc invoke with count N (high byte of unit 0) and first register F (unit 2) is
written as the name, the brace list of the N registers F, F+1, ..., F+N-1, a comma and the
method reference of unit 1. -/
theorem C20_invoke_range_lists_consecutive_registers (dex : DexFile) (insn : Nat → Nat)
    (address : Nat)
    (h : (insn 0 % 65536) &&& 0xFF ∈ [OP_INVOKE_VIRTUAL_RANGE, OP_INVOKE_SUPER_RANGE,
      OP_INVOKE_DIRECT_RANGE, OP_INVOKE_STATIC_RANGE, OP_INVOKE_INTERFACE_RANGE]) :
    format_instruction dex insn address =
      get_opcode_name ((insn 0 % 65536) &&& 0xFF) ++ " ".toList ++
        spec_register_list
          ((List.range (((insn 0 % 65536) >>> 8) &&& 0xFF)).map (fun i => insn 2 % 65536 + i)) ++
        ", ".toList ++ get_method_reference dex (insn 1 % 65536) := by
  simp only [List.mem_cons, List.mem_nil_iff, or_false] at h
  simp only [spec_register_list, List.map_map]
  rcases h with h | h | h | h | h
  all_goals
    simp only [format_instruction, h, invoke_args_eq_intercalate, List.append_assoc,
      List.append_cancel_left_eq]
    repeat (refine ite_neg_eq (by decide) ?_)
    refine ite_pos_eq (by decide) ?_
    rfl

/-- Witness of C20: invoke-virtual/range with count 5 and first register 4 is written
`invoke-virtual/range {v4, v5, v6, v7, v8}, Lfoo;->bar()V`. -/
theorem C20_invoke_range_lists_consecutive_registers_witness :
    (three_units 0x0574 0 4 0 % 65536) &&& 0xFF ∈ [OP_INVOKE_VIRTUAL_RANGE,
      OP_INVOKE_SUPER_RANGE, OP_INVOKE_DIRECT_RANGE, OP_INVOKE_STATIC_RANGE,
      OP_INVOKE_INTERFACE_RANGE] ∧
    get_opcode_name ((three_units 0x0574 0 4 0 % 65536) &&& 0xFF) ++ " ".toList ++
        spec_register_list
          ((List.range (((three_units 0x0574 0 4 0 % 65536) >>> 8) &&& 0xFF)).map
            (fun i => three_units 0x0574 0 4 2 % 65536 + i)) ++
        ", ".toList ++ get_method_reference dex_with_method (three_units 0x0574 0 4 1 % 65536) =
      "invoke-virtual/range \x7bv4, v5, v6, v7, v8\x7d, Lfoo;->bar()V".toList ∧
    format_instruction dex_with_method (three_units 0x0574 0 4) 0 =
      get_opcode_name ((three_units 0x0574 0 4 0 % 65536) &&& 0xFF) ++ " ".toList ++
        spec_register_list
          ((List.range (((three_units 0x0574 0 4 0 % 65536) >>> 8) &&& 0xFF)).map
            (fun i => three_units 0x0574 0 4 2 % 65536 + i)) ++
        ", ".toList ++ get_method_reference dex_with_method (three_units 0x0574 0 4 1 % 65536) :=
  ⟨by decide, by decide,
    C20_invoke_range_lists_consecutive_registers dex_with_method (three_units 0x0574 0 4) 0
      (by decide)⟩

/-! Reads past the end of the file (dex_file.cpp) -/

/-- C12 (code defect): parse_proto_ids reads past the end of the file.  The 0x7c bytes of
`proto_past_end_bytes` pass parse_header and announce one proto id at offset 0x7c, the end of
the file.  Two memories that hold the same 0x7c bytes and differ only at index 0x80 give
different proto signatures, `()V` and `()`: the result depends on a byte that is not part of
the file, and no step reports a failure. -/
theorem C12_proto_ids_are_read_past_the_end_of_the_file :
    proto_past_end_bytes.length = 0x7c ∧
    (∀ i < 0x7c, proto_past_end_a i = proto_past_end_b i) ∧
    proto_past_end_a 0x80 = 0 ∧ proto_past_end_b 0x80 = 5 ∧
    (parse_header (new_dex_file proto_past_end_a 0x7c)).1 = true ∧
    (parse_header (new_dex_file proto_past_end_b 0x7c)).1 = true ∧
    (DexFile.open proto_past_end_a 0x7c (fun _ => 0)).map
      (Option.map (fun r => r.1.proto_signatures_)) = some (some ["()V".toList]) ∧
    (DexFile.open proto_past_end_b 0x7c (fun _ => 0)).map
      (Option.map (fun r => r.1.proto_signatures_)) = some (some ["()".toList]) := by
  refine ⟨?_, ?_, ?_, ?_, ?_, ?_, ?_, ?_⟩ <;> decide

/-! Class definitions with a class index outside the type pool (dex_file.cpp) -/

theorem parse_interfaces_key (dex : DexFile) (off : Nat) (c : DexClass) :
    class_key (parse_interfaces dex off c).2 = class_key c := by
  unfold parse_interfaces
  split_ifs <;> rfl

theorem parse_class_data_key (dex : DexFile) (off : Nat) (c : DexClass) (r : Bool × DexClass)
    (h : parse_class_data dex off c = some r) : class_key r.2 = class_key c := by
  unfold parse_class_data at h
  split_ifs at h
  · simp only [Option.some.injEq] at h
    rw [← h]
  · simp only [Option.bind_eq_some] at h
    obtain ⟨_, _, _, _, _, _, _, _, _, _, _, _, _, _, _, _, h⟩ := h
    simp only [Option.some.injEq] at h
    rw [← h]
    rfl

theorem parse_annotations_directory_key (dex : DexFile) (off : Nat) (c : DexClass)
    (r : Bool × DexClass) (h : parse_annotations_directory dex off c = some r) :
    class_key r.2 = class_key c := by
  unfold parse_annotations_directory at h
  split_ifs at h
  · simp only [Option.some.injEq] at h
    rw [← h]
  · simp only [Option.bind_eq_some] at h
    obtain ⟨_, _, _, _, _, _, h⟩ := h
    simp only [Option.some.injEq] at h
    rw [← h]
    rfl

theorem parse_static_values_key (dex : DexFile) (off : Nat) (c : DexClass)
    (r : Bool × DexClass) (h : parse_static_values dex off c = some r) :
    class_key r.2 = class_key c := by
  unfold parse_static_values at h
  split_ifs at h
  · simp only [Option.some.injEq] at h
    rw [← h]
  · simp only [Option.bind_eq_some, Option.map_eq_some'] at h
    obtain ⟨_, _, _, _, h⟩ := h
    rw [← h]
    rfl

/-- The index and the name that an iteration of the first loop of parse_class_defs gives the
class of the class def with index i: the sub-parsers leave them as the first statements set
them. -/
theorem parse_class_def_key (dex : DexFile) (i : Nat) (c : DexClass)
    (h : parse_class_def dex i = some c) :
    class_key c = class_def_key dex i := by
  unfold parse_class_def at h
  unfold class_def_key
  simp only [Option.bind_eq_some] at h
  obtain ⟨c2, h2, c3, h3, h4⟩ := h
  have k4 : class_key c = class_key c3 := by
    split_ifs at h4
    · simp only [Option.map_eq_some'] at h4
      obtain ⟨r, hr, rfl⟩ := h4
      exact parse_static_values_key _ _ _ _ hr
    · simp only [Option.some.injEq] at h4
      rw [h4]
  have k3 : class_key c3 = class_key c2 := by
    split_ifs at h3
    · simp only [Option.map_eq_some'] at h3
      obtain ⟨r, hr, rfl⟩ := h3
      exact parse_annotations_directory_key _ _ _ _ hr
    · simp only [Option.some.injEq] at h3
      rw [h3]
  rw [k4, k3]
  split_ifs at h2
  all_goals first
    | (simp only [Option.map_eq_some'] at h2
       obtain ⟨r, hr, rfl⟩ := h2
       rw [parse_class_data_key _ _ _ _ hr]
       first | rw [parse_interfaces_key] | skip
       first | rfl | simp [class_key, *])
    | (simp only [Option.some.injEq] at h2
       rw [← h2]
       first | rw [parse_interfaces_key] | skip
       first | rfl | simp [class_key, *])

theorem parse_class_defs_loop_keys (dex : DexFile) :
    ∀ (n i : Nat) (classes_ r : List DexClass),
      parse_class_defs_loop dex n i classes_ = some r →
      r.map class_key =
        classes_.map class_key ++ (List.range n).map (fun j => class_def_key dex (i + j)) := by
  intro n
  induction n with
  | zero =>
    intro i classes_ r h
    simp only [parse_class_defs_loop, Option.some.injEq] at h
    simp [h]
  | succ n ih =>
    intro i classes_ r h
    simp only [parse_class_defs_loop, Option.bind_eq_some] at h
    obtain ⟨c, hc, h⟩ := h
    rw [ih (i + 1) _ r h, List.range_succ_eq_map, List.map_cons, List.map_map, List.map_append,
      List.map_cons, List.map_nil, parse_class_def_key dex i c hc, List.append_assoc]
    simp only [List.singleton_append, Nat.add_zero, List.cons.injEq, true_and,
      List.append_cancel_left_eq]
    apply List.map_congr_left
    intro j _
    simp only [Function.comp, Nat.succ_eq_add_one]
    rw [show i + 1 + j = i + (j + 1) by omega]

theorem add_member_classes_annotation_key (classes_ : List DexClass) (visibility : Nat)
    (c r : DexClass) (h : add_member_classes_annotation classes_ visibility c = some r) :
    class_key r = class_key c := by
  unfold add_member_classes_annotation at h
  simp only at h
  split_ifs at h
  · simp only [Option.map_eq_some'] at h
    obtain ⟨_, _, h⟩ := h
    rw [← h]
    rfl
  · simp only [Option.some.injEq] at h
    rw [h]

theorem add_member_classes_annotations_keys (classes_ : List DexClass) (visibility : Nat → Nat) :
    ∀ (l : List DexClass) (k : Nat) (r : List DexClass),
      add_member_classes_annotations classes_ visibility k l = some r →
      r.map class_key = l.map class_key := by
  intro l
  induction l with
  | nil =>
    intro k r h
    simp only [add_member_classes_annotations, Option.some.injEq] at h
    rw [← h]
  | cons c rest ih =>
    intro k r h
    simp only [add_member_classes_annotations, Option.bind_eq_some, Option.map_eq_some'] at h
    obtain ⟨first, hfirst, r2, hr2, rfl⟩ := h
    rw [List.map_cons, List.map_cons, ih (k + 1) r2 hr2,
      add_member_classes_annotation_key _ _ _ _ hfirst]

/-- The function parse_class_defs has no failing return: whenever it returns, the flag is true
and the classes carry, in order, the indices and names of the class defs. -/
theorem parse_class_defs_keys (dex : DexFile) (visibility : Nat → Nat) (r : Bool × List DexClass)
    (h : parse_class_defs dex visibility [] = some r) :
    r.1 = true ∧
      r.2.map class_key = (List.range dex.header_.class_defs_size).map (class_def_key dex) := by
  unfold parse_class_defs at h
  split_ifs at h with h0
  · simp only [Option.some.injEq] at h
    rw [← h, h0]
    exact ⟨rfl, rfl⟩
  · simp only [Option.bind_eq_some, Option.map_eq_some'] at h
    obtain ⟨cs, hcs, r2, hr2, rfl⟩ := h
    refine ⟨rfl, ?_⟩
    rw [add_member_classes_annotations_keys _ _ _ _ _ hr2,
      parse_class_defs_loop_keys dex _ 0 [] cs hcs]
    simp

theorem add_member_classes_annotation_single (visibility : Nat) (c : DexClass) :
    add_member_classes_annotation [c] visibility c = some c := by
  simp [ add_member_classes_annotation]

/-- C16, the claim fails: the file `bad_class_idx_bytes` has one type in its type pool and a
class def with class_idx 7.  Every step of DexFile::open returns true on it, and the class
list holds one class with index 7 and the empty name. -/
theorem C16_class_idx_outside_the_pool_is_accepted :
    (DexFile.open (image bad_class_idx_bytes) 0x9c (fun _ => 0)).map
      (Option.map (fun r => (r.1.type_names_.length, r.2.map class_key))) =
      some (some (1, [(7, [])])) := by
  decide

/-- C16 as the code has it: parse_class_defs has no failing return.  Whenever it returns, the
flag is true and there is one class for each class def; a class def whose class_idx is not
below the size of the type pool gives a class with that index and the empty name.  For a file
state with a single class def without interfaces, annotations, class data and static values
the function does return, whatever class_idx is. -/
theorem C16_parse_class_defs_never_reports_a_bad_class_idx (dex : DexFile)
    (visibility : Nat → Nat) :
    (∀ r, parse_class_defs dex visibility [] = some r →
      r.1 = true ∧ r.2.length = dex.header_.class_defs_size ∧
      ∀ i < dex.header_.class_defs_size,
        dex.type_names_.length ≤ read_u32 dex.file_data_ (dex.header_.class_defs_off + i * 32) →
        (r.2.map class_key)[i]? =
          some (read_u32 dex.file_data_ (dex.header_.class_defs_off + i * 32), [])) ∧
    (dex.header_.class_defs_size = 1 →
      read_u32 dex.file_data_ (dex.header_.class_defs_off + 12) = 0 →
      read_u32 dex.file_data_ (dex.header_.class_defs_off + 20) = 0 →
      read_u32 dex.file_data_ (dex.header_.class_defs_off + 24) = 0 →
      read_u32 dex.file_data_ (dex.header_.class_defs_off + 28) = 0 →
      ∃ c, parse_class_defs dex visibility [] = some (true, [c]) ∧
        class_key c = class_def_key dex 0) := by
  constructor
  · intro r h
    obtain ⟨hflag, hkeys⟩ := parse_class_defs_keys dex visibility r h
    refine ⟨hflag, ?_, ?_⟩
    · have := congrArg List.length hkeys
      simpa using this
    · intro i hi hidx
      rw [hkeys, List.getElem?_map, List.getElem?_range hi]
      simp only [Option.map_some', class_def_key, Option.some.injEq, Prod.mk.injEq, true_and]
      rw [if_neg (by omega)]
  · intro hsize h12 h20 h24 h28
    have hdef : ∃ c, parse_class_def dex 0 = some c := by
      simp [parse_class_def, h12, h20, h24, h28]
    obtain ⟨c, hc⟩ := hdef
    refine ⟨c, ?_, parse_class_def_key dex 0 c hc⟩
    simp [parse_class_defs, hsize, parse_class_defs_loop, hc, add_member_classes_annotations,
      add_member_classes_annotation_single]

/-- Witness of C16: the file state after the pools of `bad_class_idx_bytes` are read has one
class def, with class_idx 7 outside its type pool of one type; parse_class_defs returns true
with one class of the empty name. -/
theorem C16_parse_class_defs_never_reports_a_bad_class_idx_witness :
    (DexFile.open (image bad_class_idx_bytes) 0x9c (fun _ => 0)).map
      (Option.map (fun r => (r.1.strings_, r.1.type_names_))) =
      some (some (bad_class_idx_state.strings_, bad_class_idx_state.type_names_)) ∧
    bad_class_idx_state.header_.class_defs_size = 1 ∧
    bad_class_idx_state.type_names_.length ≤
      read_u32 bad_class_idx_state.file_data_ (bad_class_idx_state.header_.class_defs_off + 0 * 32) ∧
    (parse_class_defs bad_class_idx_state (fun _ => 0) []).map
      (fun r => (r.1, r.2.map class_key)) = some (true, [(7, [])]) ∧
    (∃ c, parse_class_defs bad_class_idx_state (fun _ => 0) [] = some (true, [c]) ∧
      class_key c = class_def_key bad_class_idx_state 0) ∧
    (∀ r, parse_class_defs bad_class_idx_state (fun _ => 0) [] = some r → r.1 = true) :=
  ⟨by decide, by decide, by decide, by decide,
    (C16_parse_class_defs_never_reports_a_bad_class_idx bad_class_idx_state (fun _ => 0)).2
      (by decide) (by decide) (by decide) (by decide) (by decide),
    fun r h =>
      ((C16_parse_class_defs_never_reports_a_bad_class_idx bad_class_idx_state
        (fun _ => 0)).1 r h).1⟩

/-! Output file names (baksmali.cpp) -/

theorem int32_u32_of_range (x : Int) (h0 : -2147483648 ≤ x) (h1 : x < 2147483648) :
    int32 (u32 x) = x := by
  unfold int32 u32
  have hnn : (0 : Int) ≤ x % 4294967296 := Int.emod_nonneg _ (by decide)
  have hlt : x % 4294967296 < 4294967296 := Int.emod_lt_of_pos _ (by decide)
  have hcast : (((x % 4294967296).toNat : Nat) : Int) = x % 4294967296 := Int.toNat_of_nonneg hnn
  have hmod : (x % 4294967296).toNat % 4294967296 = (x % 4294967296).toNat := by
    apply Nat.mod_eq_of_lt
    omega
  rw [hmod]
  split_ifs with h <;> omega

theorem to_string_int_natCast (n : Nat) : to_string_int (n : Int) = Nat.toDigits 10 n := by
  unfold to_string_int
  rw [if_neg (by omega)]
  simp

/-- The calls of get_unique_output_filename after the descriptors `seen`, when the map holds
for every key the number of seen descriptors with that key, less one. -/
theorem unique_output_filenames_spec :
    ∀ (ds seen : List Str) (counters : Str → Option Int),
      (∀ key, counters key =
        if seen.countP (fun e => (get_output_filename e).map tolower == key) = 0 then none
        else some (((seen.countP (fun e => (get_output_filename e).map tolower == key) : Nat) : Int)
          - 1)) →
      seen.length + ds.length < 2147483648 →
      ∀ i, i < ds.length →
        (unique_output_filenames counters ds)[i]? =
          some (if spec_earlier_collisions (seen ++ ds.take i) (ds.getD i []) = 0 then
              get_output_filename (ds.getD i [])
            else spec_suffixed_name (get_output_filename (ds.getD i []))
              (spec_earlier_collisions (seen ++ ds.take i) (ds.getD i []))) := by
  intro ds
  induction ds with
  | nil => intro seen counters _ _ i hi; simp at hi
  | cons d ds ih =>
    intro seen counters hinv hlen i hi
    have hcount_le := @List.countP_le_length _
      (fun e => (get_output_filename e).map tolower == (get_output_filename d).map tolower) seen
    simp only [List.length_cons] at hlen
    cases i with
    | zero =>
      simp only [unique_output_filenames, List.getElem?_cons_zero, List.take_zero,
        List.append_nil, List.getD_cons_zero, spec_earlier_collisions, Option.some.injEq]
      have hkey := hinv ((get_output_filename d).map tolower)
      by_cases hc : seen.countP
        (fun e => (get_output_filename e).map tolower == (get_output_filename d).map tolower) = 0
      · rw [if_pos hc] at hkey
        simp only [get_unique_output_filename, hkey, hc, if_true]
      · rw [if_neg hc] at hkey
        simp only [get_unique_output_filename, hkey, hc, if_false, spec_suffixed_name]
        rw [show ((seen.countP (fun e => (get_output_filename e).map tolower ==
            (get_output_filename d).map tolower) : Nat) : Int) - 1 + 1 =
          ((seen.countP (fun e => (get_output_filename e).map tolower ==
            (get_output_filename d).map tolower) : Nat) : Int) by omega,
          int32_u32_of_range _ (by omega) (by omega), to_string_int_natCast]
        rfl
    | succ j =>
      simp only [List.length_cons] at hi
      have hstep := ih (seen ++ [d]) (get_unique_output_filename counters d).2 ?_
        (by simp only [List.length_append, List.length_cons, List.length_nil]; omega) j (by omega)
      · simp only [unique_output_filenames, List.getElem?_cons_succ, List.take_succ_cons,
          List.getD_cons_succ]
        rw [hstep]
        simp only [List.append_assoc, List.singleton_append]
      · intro key
        have hkey := hinv key
        have hd := hinv ((get_output_filename d).map tolower)
        simp only [List.countP_append, List.countP_cons, List.countP_nil, Nat.zero_add]
        by_cases hk : key = (get_output_filename d).map tolower
        · subst hk
          simp only [beq_self_eq_true, if_true]
          by_cases hc : seen.countP (fun e => (get_output_filename e).map tolower ==
              (get_output_filename d).map tolower) = 0
          · rw [if_pos hc] at hd
            simp [get_unique_output_filename, hd, hc]
          · rw [if_neg hc] at hd
            simp only [get_unique_output_filename, hd, if_true]
            rw [if_neg (by omega)]
            rw [show ((seen.countP (fun e => (get_output_filename e).map tolower ==
                (get_output_filename d).map tolower) : Nat) : Int) - 1 + 1 =
              ((seen.countP (fun e => (get_output_filename e).map tolower ==
                (get_output_filename d).map tolower) : Nat) : Int) by omega,
              int32_u32_of_range _ (by omega) (by omega)]
            congr 1
            push_cast
            omega
        · have hne : ((get_output_filename d).map tolower == key) = false := by
            simp only [beq_eq_false_iff_ne, ne_eq]
            exact fun h => hk h.symm
          simp only [hne, Bool.false_eq_true, if_false, Nat.add_zero]
          rw [← hkey]
          unfold get_unique_output_filename
          simp only
          split <;> simp [hk]

theorem get_output_filename_of_descriptor (body : Str) (h : body ≠ []) :
    get_output_filename ('L' :: (body ++ [';'])) = body ++ ".smali".toList := by
  unfold get_output_filename
  have hlen : ('L' :: (body ++ [';'])).length > 2 := by
    cases body with
    | nil => exact absurd rfl h
    | cons c cs => simp
  have hlast : ('L' :: (body ++ [';'])).getLast? = some ';' := by
    rw [show 'L' :: (body ++ [';']) = ('L' :: body) ++ [';'] by simp]
    exact List.getLast?_concat _
  have htake : (('L' :: (body ++ [';'])).drop 1).take (('L' :: (body ++ [';'])).length - 2) =
      body := by
    simp only [List.drop_succ_cons, List.drop_zero, List.length_cons, List.length_append,
      List.length_nil]
    rw [show body.length + (0 + 1) + 1 - 2 = body.length by omega, List.take_left']
    rfl
  have hmap : ∀ l : Str, l.map (fun c => if c = '/' then preferred_separator else c) = l := by
    intro l
    induction l with
    | nil => rfl
    | cons c cs ih =>
      rw [List.map_cons, ih]
      by_cases hc : c = '/'
      · simp [hc, preferred_separator]
      · simp [hc]
  simp only
  rw [if_pos ⟨hlen, rfl, hlast⟩, htake, hmap]

/-- C30: the i-th call of get_unique_output_filename, counted from the empty map, returns the
base name of its descriptor when no earlier descriptor has the same lower-cased file name, and
otherwise the base name with `.k` before `.smali`, where k is the number of earlier
descriptors with the same lower-cased file name.  A call leaves the counter of every other
lower-cased name as it was, and the base name of `L` body `;` is the body with `.smali`. -/
theorem C30_collisions_are_numbered_in_call_order (class_descriptors : List Str)
    (hlen : class_descriptors.length < 2147483648) (i : Nat) (hi : i < class_descriptors.length) :
    (unique_output_filenames (fun _ => none) class_descriptors)[i]? =
      some (if spec_earlier_collisions (class_descriptors.take i) (class_descriptors.getD i []) = 0
        then get_output_filename (class_descriptors.getD i [])
        else spec_suffixed_name (get_output_filename (class_descriptors.getD i []))
          (spec_earlier_collisions (class_descriptors.take i) (class_descriptors.getD i []))) ∧
    (∀ (counters : Str → Option Int) (d key : Str),
      key ≠ (get_output_filename d).map tolower →
      (get_unique_output_filename counters d).2 key = counters key) ∧
    (∀ body : Str, body ≠ [] →
      get_output_filename ('L' :: (body ++ [';'])) = body ++ ".smali".toList) := by
  refine ⟨?_, ?_, get_output_filename_of_descriptor⟩
  · have h := unique_output_filenames_spec class_descriptors [] (fun _ => none)
      (fun key => by simp) (by simpa using hlen) i hi
    simpa using h
  · intro counters d key hk
    unfold get_unique_output_filename
    simp only
    split <;> simp [hk]

/-- Witness of C30: for Lpkg/Name;, Lpkg/name;, Lfoo;, Lpkg/NAME; the fourth call returns
`pkg/NAME.2.smali`. -/
theorem C30_collisions_are_numbered_in_call_order_witness :
    ["Lpkg/Name;".toList, "Lpkg/name;".toList, "Lfoo;".toList, "Lpkg/NAME;".toList].length
      < 2147483648 ∧
    3 < ["Lpkg/Name;".toList, "Lpkg/name;".toList, "Lfoo;".toList, "Lpkg/NAME;".toList].length ∧
    unique_output_filenames (fun _ => none)
      ["Lpkg/Name;".toList, "Lpkg/name;".toList, "Lfoo;".toList, "Lpkg/NAME;".toList] =
      ["pkg/Name.smali".toList, "pkg/name.1.smali".toList, "foo.smali".toList,
        "pkg/NAME.2.smali".toList] ∧
    (unique_output_filenames (fun _ => none)
      ["Lpkg/Name;".toList, "Lpkg/name;".toList, "Lfoo;".toList, "Lpkg/NAME;".toList])[3]? =
      some (if spec_earlier_collisions
          (["Lpkg/Name;".toList, "Lpkg/name;".toList, "Lfoo;".toList, "Lpkg/NAME;".toList].take 3)
          (["Lpkg/Name;".toList, "Lpkg/name;".toList, "Lfoo;".toList,
            "Lpkg/NAME;".toList].getD 3 []) = 0
        then get_output_filename (["Lpkg/Name;".toList, "Lpkg/name;".toList, "Lfoo;".toList,
            "Lpkg/NAME;".toList].getD 3 [])
        else spec_suffixed_name (get_output_filename (["Lpkg/Name;".toList, "Lpkg/name;".toList,
            "Lfoo;".toList, "Lpkg/NAME;".toList].getD 3 []))
          (spec_earlier_collisions
            (["Lpkg/Name;".toList, "Lpkg/name;".toList, "Lfoo;".toList,
              "Lpkg/NAME;".toList].take 3)
            (["Lpkg/Name;".toList, "Lpkg/name;".toList, "Lfoo;".toList,
              "Lpkg/NAME;".toList].getD 3 []))) :=
  ⟨by decide, by decide, by decide,
    (C30_collisions_are_numbered_in_call_order
      ["Lpkg/Name;".toList, "Lpkg/name;".toList, "Lfoo;".toList, "Lpkg/NAME;".toList]
      (by decide) 3 (by decide)).1⟩

/-! The sections of a class (class_definition.cpp) -/

/-- C29: write_to writes the class header and then the sections `# static fields`,
`# instance fields`, `# direct methods` and `# virtual methods` in this order, each exactly
when its member list is not empty.  For the public class Lempty/C; with the superclass
Ljava/lang/Object; and no members the text is the two header lines and holds none of the four
section headers. -/
theorem C29_sections_in_order_when_not_empty (debug_info : Bool) (class_def : DexClass) :
    write_to debug_info class_def =
      write_class_header class_def ++
      spec_section "# static fields" class_def.static_fields (write_static_fields class_def) ++
      spec_section "# instance fields" class_def.instance_fields
        (write_instance_fields class_def) ++
      spec_section "# direct methods" class_def.direct_methods
        (write_direct_methods debug_info class_def) ++
      spec_section "# virtual methods" class_def.virtual_methods
        (write_virtual_methods debug_info class_def) ∧
    write_to debug_info empty_class =
      ".class public Lempty/C;\n.super Ljava/lang/Object;\n".toList ∧
    ∀ header ∈
        ["# static fields", "# instance fields", "# direct methods", "# virtual methods"],
      str_find (write_to debug_info empty_class) header.toList 0 = none := by
  refine ⟨?_, ?_, ?_⟩
  · unfold write_to spec_section
    cases class_def.static_fields <;> cases class_def.instance_fields <;>
      cases class_def.direct_methods <;> cases class_def.virtual_methods <;>
      simp [List.isEmpty]
  · cases debug_info <;> decide
  · cases debug_info <;> decide

/-! The debug-info state machine (dex_file.cpp) -/

/-- C21: at a special opcode op (0x0a or more) the state machine adds (op - 0x0a) mod 15 - 4
to line and (op - 0x0a) div 15 to address, in the arithmetic of the int32_t line and the
uint32_t address, and appends a LineNumber item with the new address and line exactly when the
new line is at least 0 and below 65536.  The line difference lies between -4 and 10 and the
address difference between 0 and 16; sums inside the range of the variables are exact. -/
theorem C21_special_opcode_advances_line_and_address (dex : DexFile) (file_end fuel ptr : Nat)
    (address : Nat) (line : Int) (locals : List LocalState) (debug_items : List DebugItem)
    (hptr : ptr < file_end) (hop : 0x0a ≤ read_u8 dex.file_data_ ptr) :
    parse_debug_info_loop dex file_end (fuel + 1) ptr address line locals debug_items =
      parse_debug_info_loop dex file_end fuel (ptr + 1)
        ((address + (read_u8 dex.file_data_ ptr - 0x0a) / 15) % 4294967296)
        (int32 (u32 (line + (((read_u8 dex.file_data_ ptr - 0x0a) % 15 : Nat) - 4))))
        locals
        (if 0 ≤ int32 (u32 (line + (((read_u8 dex.file_data_ ptr - 0x0a) % 15 : Nat) - 4))) ∧
            int32 (u32 (line + (((read_u8 dex.file_data_ ptr - 0x0a) % 15 : Nat) - 4))) < 65536
          then debug_items ++
            [DebugItem.LineNumber
              ((address + (read_u8 dex.file_data_ ptr - 0x0a) / 15) % 4294967296)
              (int32 (u32 (line + (((read_u8 dex.file_data_ ptr - 0x0a) % 15 : Nat) - 4)))).toNat]
          else debug_items) ∧
    (-4 : Int) ≤ (((read_u8 dex.file_data_ ptr - 0x0a) % 15 : Nat) : Int) - 4 ∧
    (((read_u8 dex.file_data_ ptr - 0x0a) % 15 : Nat) : Int) - 4 ≤ 10 ∧
    (read_u8 dex.file_data_ ptr - 0x0a) / 15 ≤ 16 ∧
    (address + 16 < 4294967296 →
      (address + (read_u8 dex.file_data_ ptr - 0x0a) / 15) % 4294967296 =
        address + (read_u8 dex.file_data_ ptr - 0x0a) / 15) ∧
    (-2147483648 ≤ line - 4 → line + 10 < 2147483648 →
      int32 (u32 (line + (((read_u8 dex.file_data_ ptr - 0x0a) % 15 : Nat) - 4))) =
        line + ((((read_u8 dex.file_data_ ptr - 0x0a) % 15 : Nat) : Int) - 4)) := by
  have hlt : read_u8 dex.file_data_ ptr < 256 := Nat.mod_lt _ (by decide)
  refine ⟨?_, by omega, by omega, by omega, ?_, ?_⟩
  · have h0 : read_u8 dex.file_data_ ptr ≠ 0 := by omega
    have h1 : read_u8 dex.file_data_ ptr ≠ 1 := by omega
    have h2 : read_u8 dex.file_data_ ptr ≠ 2 := by omega
    have h3 : read_u8 dex.file_data_ ptr ≠ 3 := by omega
    have h4 : read_u8 dex.file_data_ ptr ≠ 4 := by omega
    have h5 : read_u8 dex.file_data_ ptr ≠ 5 := by omega
    have h6 : read_u8 dex.file_data_ ptr ≠ 6 := by omega
    have h7 : read_u8 dex.file_data_ ptr ≠ 7 := by omega
    have h8 : read_u8 dex.file_data_ ptr ≠ 8 := by omega
    have h9 : read_u8 dex.file_data_ ptr ≠ 9 := by omega
    simp only [parse_debug_info_loop, hptr, if_true, h0, h1, h2, h3, h4, h5, h6, h7, h8, h9,
      if_false]
  · intro h
    exact Nat.mod_eq_of_lt (by omega)
  · intro ha hb
    rw [int32_u32_of_range _ (by omega) (by omega)]

/-- Witness of C21: at address 5 and line 10 the special opcode 0x23 (adjusted 25) gives
address 6 and line 16 and a LineNumber item with them. -/
theorem C21_special_opcode_advances_line_and_address_witness :
    0 < 2 ∧ 0x0a ≤ read_u8 (debug_dex [0x23, 0x00]).file_data_ 0 ∧
    parse_debug_info_loop (debug_dex [0x23, 0x00]) 2 (1 + 1) 0 5 10 [] [] =
      some [DebugItem.LineNumber 6 16] :=
  ⟨by decide, by decide,
    (C21_special_opcode_advances_line_and_address (debug_dex [0x23, 0x00]) 2 1 0 5 10 [] []
      (by decide) (by decide)).1.trans (by decide)⟩

/-- C22, the failing input: with line_start 10, ADVANCE_LINE with the operand byte 7f (the
SLEB128 encoding of -1) and a special opcode that adds 0, the LineNumber item carries line
137 (10 + 127), not 9. -/
theorem C22_advance_line_7f_adds_127 :
    (parse_debug_info (debug_dex advance_line_stream) 1 (blank_code 1) none).map
      (fun code => code.debug_items) = some [DebugItem.LineNumber 0 137] := by
  decide

/-- C22, the claim fails: ADVANCE_LINE reads its operand with decode_uleb128 and adds the
value, converted to int32_t, to line.  An operand below 2^31, which every encoding of up to
four bytes gives, is added as a non-negative number; the single byte b below 0x80 adds b,
also when bit 0x40 of b, the sign bit of SLEB128, is set. -/
theorem C22_advance_line_adds_the_unsigned_operand (dex : DexFile) (file_end fuel ptr : Nat)
    (address : Nat) (line : Int) (locals : List LocalState) (debug_items : List DebugItem)
    (line_diff next : Nat) (hptr : ptr < file_end) (hop : read_u8 dex.file_data_ ptr = 0x02)
    (hdec : decode_uleb128 dex.file_data_ (ptr + 1) = some (line_diff, next)) :
    parse_debug_info_loop dex file_end (fuel + 1) ptr address line locals debug_items =
      parse_debug_info_loop dex file_end fuel next address
        (int32 (u32 (line + int32 line_diff))) locals debug_items ∧
    (line_diff < 2147483648 → int32 line_diff = (line_diff : Int)) ∧
    (read_u8 dex.file_data_ (ptr + 1) < 0x80 →
      line_diff = read_u8 dex.file_data_ (ptr + 1) ∧ next = ptr + 2) := by
  refine ⟨?_, ?_, ?_⟩
  · simp only [parse_debug_info_loop, hptr, if_true, hop, hdec, Option.some_bind]
    rfl
  · intro h
    unfold int32
    rw [Nat.mod_eq_of_lt (by omega), if_pos h]
  · intro hb
    have hend : read_u8 dex.file_data_ (ptr + 1 + 0) &&& 0x80 = 0 := by
      have hsmall : ∀ b < 128, b &&& 0x80 = 0 := by decide
      simpa using hsmall _ hb
    have h : decode_uleb128 dex.file_data_ (ptr + 1) = _ :=
      decode_uleb128_loop_value dex.file_data_ 0 18446744073709551616 (ptr + 1) 0 0
        (by omega) (by simp) (by omega) (by intro i hi; omega) hend
    have hmask : ∀ b < 128, b &&& 0x7F = b := by decide
    rw [hdec] at h
    simp only [List.range_succ, List.range_zero, List.nil_append, List.map_cons, List.map_nil,
      List.sum_cons, List.sum_nil, Nat.add_zero, Nat.mul_zero, Nat.pow_zero, Nat.mul_one,
      Nat.zero_add, hmask _ hb, Option.some.injEq, Prod.mk.injEq] at h
    obtain ⟨h1, h2⟩ := h
    rw [Nat.mod_eq_of_lt (by omega)] at h1
    exact ⟨h1, by omega⟩

/-- Witness of C22: at line 10 the operand byte 7f gives line 137. -/
theorem C22_advance_line_adds_the_unsigned_operand_witness :
    0 < 3 ∧ read_u8 (debug_dex [0x02, 0x7f, 0x0e]).file_data_ 0 = 0x02 ∧
    decode_uleb128 (debug_dex [0x02, 0x7f, 0x0e]).file_data_ (0 + 1) = some (127, 2) ∧
    parse_debug_info_loop (debug_dex [0x02, 0x7f, 0x0e]) 3 (2 + 1) 0 0 10 [] [] =
      some [DebugItem.LineNumber 0 137] :=
  ⟨by decide, by decide, by decide,
    (C22_advance_line_adds_the_unsigned_operand (debug_dex [0x02, 0x7f, 0x0e]) 3 2 0 0 10 [] []
      127 2 (by decide) (by decide) (by decide)).1.trans (by decide)⟩

/-- C23: END_LOCAL on a register of the table whose entry is not in the ended state appends
an EndLocal item with the name, type and signature of the entry and marks the entry ended,
keeping its name, type and signature; on an entry already ended it appends an EndLocal item
with empty name, type and signature and leaves the table as it is.  RESTART_LOCAL appends
a RestartLocal item with the name, type and signature that the entry holds, also after the
local was ended. -/
theorem C23_end_local_keeps_the_shadow_for_restart (dex : DexFile) (file_end fuel ptr : Nat)
    (address : Nat) (line : Int) (locals : List LocalState) (debug_items : List DebugItem)
    (register_num next : Nat) (hptr : ptr < file_end)
    (hdec : decode_uleb128 dex.file_data_ (ptr + 1) = some (register_num, next))
    (hreg : register_num < locals.length) :
    (read_u8 dex.file_data_ ptr = 0x05 →
      (locals.getD register_num empty_state).kind ≠ LocalKind.END →
      parse_debug_info_loop dex file_end (fuel + 1) ptr address line locals debug_items =
        parse_debug_info_loop dex file_end fuel next address line
          (locals.set register_num
            { name := (locals.getD register_num empty_state).name,
              type_descriptor := (locals.getD register_num empty_state).type_descriptor,
              signature := (locals.getD register_num empty_state).signature,
              kind := LocalKind.END })
          (debug_items ++ [DebugItem.EndLocal address register_num
            (locals.getD register_num empty_state).name
            (locals.getD register_num empty_state).type_descriptor
            (locals.getD register_num empty_state).signature])) ∧
    (read_u8 dex.file_data_ ptr = 0x05 →
      (locals.getD register_num empty_state).kind = LocalKind.END →
      parse_debug_info_loop dex file_end (fuel + 1) ptr address line locals debug_items =
        parse_debug_info_loop dex file_end fuel next address line locals
          (debug_items ++ [DebugItem.EndLocal address register_num [] [] []])) ∧
    (read_u8 dex.file_data_ ptr = 0x06 →
      parse_debug_info_loop dex file_end (fuel + 1) ptr address line locals debug_items =
        parse_debug_info_loop dex file_end fuel next address line
          (locals.set register_num
            { name := (locals.getD register_num empty_state).name,
              type_descriptor := (locals.getD register_num empty_state).type_descriptor,
              signature := (locals.getD register_num empty_state).signature,
              kind := LocalKind.RESTART })
          (debug_items ++ [DebugItem.RestartLocal address register_num
            (locals.getD register_num empty_state).name
            (locals.getD register_num empty_state).type_descriptor
            (locals.getD register_num empty_state).signature])) := by
  refine ⟨?_, ?_, ?_⟩
  · intro hop hkind
    simp only [parse_debug_info_loop, hptr, if_true, hop, hdec, Option.some_bind, hreg, hkind,
      ne_eq, not_false_eq_true, and_self]
    simp
  · intro hop hkind
    simp only [parse_debug_info_loop, hptr, if_true, hop, hdec, Option.some_bind, hreg, hkind,
      ne_eq, not_true_eq_false, and_false, false_and, if_false]
    simp [empty_state]
  · intro hop
    simp only [parse_debug_info_loop, hptr, if_true, hop, hdec, Option.some_bind, hreg]
    simp

/-- Witness of C23: the stream START_LOCAL v0 (x, I), END_LOCAL v0, END_LOCAL v0,
RESTART_LOCAL v0 gives an EndLocal item with x and I, an EndLocal item without them and a
RestartLocal item with x and I; the first END_LOCAL is the step at offset 7. -/
theorem C23_end_local_keeps_the_shadow_for_restart_witness :
    7 < 14 ∧ decode_uleb128 (debug_dex end_local_stream).file_data_ (7 + 1) = some (0, 9) ∧
    0 < [local_x].length ∧
    (parse_debug_info (debug_dex end_local_stream) 1 (blank_code 1) none).map
      (fun code => code.debug_items) =
      some [DebugItem.StartLocal 0 0 "x".toList "I".toList [],
        DebugItem.EndLocal 0 0 "x".toList "I".toList [], DebugItem.EndLocal 0 0 [] [] [],
        DebugItem.RestartLocal 0 0 "x".toList "I".toList []] ∧
    parse_debug_info_loop (debug_dex end_local_stream) 14 (6 + 1) 7 0 1 [local_x] [] =
      some [DebugItem.EndLocal 0 0 "x".toList "I".toList [], DebugItem.EndLocal 0 0 [] [] [],
        DebugItem.RestartLocal 0 0 "x".toList "I".toList []] :=
  ⟨by decide, by decide, by decide, by decide,
    ((C23_end_local_keeps_the_shadow_for_restart (debug_dex end_local_stream) 14 6 7 0 1
      [local_x] [] 0 9 (by decide) (by decide) (by decide)).1
      (by decide) (by decide)).trans (by decide)⟩

/-! Numeric encoded values (dex_file.cpp) -/

theorem read_u8_lt (m : Nat → Nat) (p : Nat) : read_u8 m p < 256 := Nat.mod_lt _ (by decide)

theorem spec_little_endian_concat (l : List Nat) (b : Nat) :
    spec_little_endian (l ++ [b]) = spec_little_endian l + b * 256 ^ l.length := by
  induction l with
  | nil => simp [spec_little_endian]
  | cons c cs ih =>
    rw [List.cons_append, spec_little_endian, ih, spec_little_endian, List.length_cons,
      Nat.pow_succ]
    ring

theorem spec_little_endian_lt (l : List Nat) (h : ∀ b ∈ l, b < 256) :
    spec_little_endian l < 256 ^ l.length := by
  induction l with
  | nil => simp [spec_little_endian]
  | cons c cs ih =>
    have hc := h c (List.mem_cons_self _ _)
    have hcs := ih (fun b hb => h b (List.mem_cons_of_mem _ hb))
    simp only [spec_little_endian, List.length_cons, Nat.pow_succ]
    omega

/-- The byte loop of parse_encoded_value spells the little-endian number of the bytes, as long
as the bytes fit the variable. -/
theorem read_value_bytes_fold (m : Nat → Nat) (ptr modulus : Nat) :
    ∀ n, 256 ^ n ≤ modulus →
      (List.range n).foldl
        (fun value i => (value ||| (id (read_u8 m (ptr + i)) <<< (i * 8))) % modulus) 0 =
      spec_little_endian ((List.range n).map (fun i => read_u8 m (ptr + i))) := by
  intro n
  induction n with
  | zero => intro _; rfl
  | succ n ih =>
    intro hM
    have hpow : (256 : Nat) ^ (n + 1) = 256 ^ n * 256 := Nat.pow_succ _ _
    have hpos : 0 < (256 : Nat) ^ n := Nat.pow_pos (by decide)
    rw [List.range_succ, List.foldl_append, List.map_append, ih (by omega)]
    simp only [List.foldl_cons, List.foldl_nil, List.map_cons, List.map_nil, id_eq]
    rw [spec_little_endian_concat]
    have hlt := spec_little_endian_lt ((List.range n).map (fun i => read_u8 m (ptr + i)))
      (by
        intro b hb
        simp only [List.mem_map] at hb
        obtain ⟨i, _, rfl⟩ := hb
        exact read_u8_lt _ _)
    simp only [List.length_map, List.length_range] at hlt ⊢
    have hb := read_u8_lt m (ptr + n)
    have h256 : (256 : Nat) ^ n = 2 ^ (n * 8) := by
      rw [show (256 : Nat) = 2 ^ 8 by norm_num, ← Nat.pow_mul, Nat.mul_comm]
    rw [Nat.shiftLeft_eq, Nat.lor_comm, Nat.mul_comm (read_u8 m (ptr + n)),
      or_eq_add (n * 8) (read_u8 m (ptr + n)) _ (by rw [← h256]; exact hlt), ← h256]
    have hmul : 256 ^ n * read_u8 m (ptr + n) ≤ 256 ^ n * 255 :=
      Nat.mul_le_mul_left _ (by omega)
    rw [Nat.mod_eq_of_lt (by omega), Nat.mul_comm (read_u8 m (ptr + n))]
    omega

theorem read_value_bytes_eq (m : Nat → Nat) (ptr value_arg modulus : Nat)
    (h : 256 ^ (value_arg + 1) ≤ modulus) :
    read_value_bytes m ptr value_arg id modulus =
      spec_little_endian ((List.range (value_arg + 1)).map (fun i => read_u8 m (ptr + i))) :=
  read_value_bytes_fold m ptr modulus (value_arg + 1) h

/-- The test of the top bit of a value below 2^(k+1). -/
theorem top_bit_test (v k : Nat) (h : v < 2 ^ (k + 1)) : v &&& (1 <<< k) ≠ 0 ↔ 2 ^ k ≤ v := by
  rw [Nat.shiftLeft_eq, Nat.one_mul]
  have htb : v.testBit k = decide (2 ^ k ≤ v) := by
    rw [Nat.testBit_to_div_mod]
    by_cases hk : 2 ^ k ≤ v
    · have hdiv : v / 2 ^ k = 1 := by
        apply Nat.div_eq_of_lt_le
        · simpa using hk
        · rw [Nat.pow_succ] at h; omega
      simp [hdiv, hk]
    · have hdiv : v / 2 ^ k = 0 := Nat.div_eq_of_lt (by omega)
      simp [hdiv, hk]
  rw [Nat.and_two_pow, htb]
  by_cases hk : 2 ^ k ≤ v
  · have hpos : 0 < 2 ^ k := Nat.two_pow_pos k
    simp [hk]
  · simp [hk]

/-- The sign extension `value |= ~((1 << k) - 1)` of a value below 2^k in a variable of
w bits. -/
theorem sign_extension_or (v k w : Nat) (hk : k ≤ w) (hv : v < 2 ^ k) :
    v ||| (2 ^ w - 2 ^ k) = v + (2 ^ w - 2 ^ k) := by
  have hsplit : 2 ^ w = 2 ^ k * 2 ^ (w - k) := by
    rw [← Nat.pow_add]; congr 1; omega
  have hq : 2 ^ w - 2 ^ k = 2 ^ k * (2 ^ (w - k) - 1) := by
    rw [Nat.mul_sub, Nat.mul_one, ← hsplit]
  rw [hq, Nat.lor_comm, or_eq_add k _ v hv]
  omega

/-- The sign-extension statement of parse_encoded_value on a value of value_arg + 1 bytes, in
a variable of w bits. -/
theorem sign_extend_value_eq (value value_arg limit modulus w : Nat) (hmod : modulus = 2 ^ w)
    (hv : value < 2 ^ (8 + value_arg * 8)) (hw : 8 + value_arg * 8 ≤ w) :
    sign_extend_value value value_arg limit modulus =
      if value_arg < limit ∧ 2 ^ (7 + value_arg * 8) ≤ value then
        value + (modulus - 2 ^ (8 + value_arg * 8))
      else value := by
  unfold sign_extend_value
  have htest := top_bit_test value (7 + value_arg * 8)
    (by rw [show 7 + value_arg * 8 + 1 = 8 + value_arg * 8 by omega]; exact hv)
  by_cases h : value_arg < limit ∧ 2 ^ (7 + value_arg * 8) ≤ value
  · rw [if_pos ⟨h.1, htest.mpr h.2⟩, if_pos h, hmod, sign_extension_or _ _ _ hw hv]
  · rw [if_neg (fun hh => h ⟨hh.1, htest.mp hh.2⟩), if_neg h]

theorem payload_lt (m : Nat → Nat) (ptr n : Nat) :
    spec_little_endian ((List.range n).map (fun i => read_u8 m (ptr + i))) < 2 ^ (n * 8) := by
  have h := spec_little_endian_lt ((List.range n).map (fun i => read_u8 m (ptr + i)))
    (by
      intro b hb
      simp only [List.mem_map] at hb
      obtain ⟨i, _, rfl⟩ := hb
      exact read_u8_lt _ _)
  simp only [List.length_map, List.length_range] at h
  rwa [show (256 : Nat) = 2 ^ 8 by norm_num, ← Nat.pow_mul, Nat.mul_comm] at h

theorem encoded_int_text (dex : DexFile) (m : Nat → Nat) (fuel ptr : Nat)
    (ht : read_u8 m ptr &&& 0x1f = 0x04) (ha : (read_u8 m ptr &&& 0xe0) >>> 5 ≤ 3) :
    parse_encoded_value dex m (fuel + 1) ptr =
      some ("0x".toList ++ Nat.toDigits 16
        ((spec_sign_extended ((List.range ((read_u8 m ptr &&& 0xe0) >>> 5 + 1)).map
          (fun i => read_u8 m (ptr + 1 + i))) % 4294967296).toNat),
        ptr + (read_u8 m ptr &&& 0xe0) >>> 5 + 2) := by
  generalize hva : (read_u8 m ptr &&& 0xe0) >>> 5 = a at ha ⊢
  have hU := payload_lt m (ptr + 1) (a + 1)
  have hb0 := read_u8_lt m (ptr + 1)
  have hb1 := read_u8_lt m (ptr + 1 + 1)
  have hb2 := read_u8_lt m (ptr + 1 + 2)
  have hb3 := read_u8_lt m (ptr + 1 + 3)
  have hread := read_value_bytes_eq m (ptr + 1) a 4294967296
    (by interval_cases a <;> norm_num)
  have hext := sign_extend_value_eq
    (spec_little_endian ((List.range (a + 1)).map (fun i => read_u8 m (ptr + 1 + i)))) a 3
    4294967296 32 (by norm_num) (by rw [show 8 + a * 8 = (a + 1) * 8 by omega]; exact hU)
    (by omega)
  simp only [parse_encoded_value, ht, hva, hread, hext, hex]
  norm_num
  refine ⟨?_, by omega⟩
  congr 1
  interval_cases a <;>
    simp only [List.range_succ, List.range_zero, List.nil_append, List.cons_append,
      List.map_cons, List.map_nil, spec_little_endian, spec_sign_extended, List.getLast?_cons_cons,
      List.getLast?_singleton, Option.getD_some, List.length_cons, List.length_nil] at hU ⊢ <;>
    norm_num at hU ⊢ <;>
    split_ifs <;> omega

theorem encoded_short_text (dex : DexFile) (m : Nat → Nat) (fuel ptr : Nat)
    (ht : read_u8 m ptr &&& 0x1f = 0x02) (ha : (read_u8 m ptr &&& 0xe0) >>> 5 ≤ 1) :
    parse_encoded_value dex m (fuel + 1) ptr =
      some (to_string_int (spec_sign_extended
        ((List.range ((read_u8 m ptr &&& 0xe0) >>> 5 + 1)).map
          (fun i => read_u8 m (ptr + 1 + i)))) ++ "s".toList,
        ptr + (read_u8 m ptr &&& 0xe0) >>> 5 + 2) := by
  generalize hva : (read_u8 m ptr &&& 0xe0) >>> 5 = a at ha ⊢
  have hU := payload_lt m (ptr + 1) (a + 1)
  have hb0 := read_u8_lt m (ptr + 1)
  have hb1 := read_u8_lt m (ptr + 1 + 1)
  have hread := read_value_bytes_eq m (ptr + 1) a 65536 (by interval_cases a <;> norm_num)
  have hext := sign_extend_value_eq
    (spec_little_endian ((List.range (a + 1)).map (fun i => read_u8 m (ptr + 1 + i)))) a 1
    4294967296 32 (by norm_num) (by rw [show 8 + a * 8 = (a + 1) * 8 by omega]; exact hU)
    (by omega)
  simp only [parse_encoded_value, ht, hva, hread, hext]
  norm_num
  refine ⟨?_, by omega⟩
  congr 1
  unfold int16
  interval_cases a <;>
    simp only [List.range_succ, List.range_zero, List.nil_append, List.cons_append,
      List.map_cons, List.map_nil, spec_little_endian, spec_sign_extended, List.getLast?_cons_cons,
      List.getLast?_singleton, Option.getD_some, List.length_cons, List.length_nil] at hU ⊢ <;>
    norm_num at hU ⊢ <;>
    split_ifs <;> omega

theorem encoded_long_text (dex : DexFile) (m : Nat → Nat) (fuel ptr : Nat)
    (ht : read_u8 m ptr &&& 0x1f = 0x06) (ha : (read_u8 m ptr &&& 0xe0) >>> 5 ≤ 7) :
    parse_encoded_value dex m (fuel + 1) ptr =
      some (to_string_int (spec_sign_extended
        ((List.range ((read_u8 m ptr &&& 0xe0) >>> 5 + 1)).map
          (fun i => read_u8 m (ptr + 1 + i)))) ++ "L".toList,
        ptr + (read_u8 m ptr &&& 0xe0) >>> 5 + 2) := by
  generalize hva : (read_u8 m ptr &&& 0xe0) >>> 5 = a at ha ⊢
  have hU := payload_lt m (ptr + 1) (a + 1)
  have hb0 := read_u8_lt m (ptr + 1)
  have hb1 := read_u8_lt m (ptr + 1 + 1)
  have hb2 := read_u8_lt m (ptr + 1 + 2)
  have hb3 := read_u8_lt m (ptr + 1 + 3)
  have hb4 := read_u8_lt m (ptr + 1 + 4)
  have hb5 := read_u8_lt m (ptr + 1 + 5)
  have hb6 := read_u8_lt m (ptr + 1 + 6)
  have hb7 := read_u8_lt m (ptr + 1 + 7)
  have hread := read_value_bytes_eq m (ptr + 1) a 18446744073709551616
    (by interval_cases a <;> norm_num)
  have hext := sign_extend_value_eq
    (spec_little_endian ((List.range (a + 1)).map (fun i => read_u8 m (ptr + 1 + i)))) a 7
    18446744073709551616 64 (by norm_num)
    (by rw [show 8 + a * 8 = (a + 1) * 8 by omega]; exact hU) (by omega)
  simp only [parse_encoded_value, ht, hva, hread, hext]
  norm_num
  refine ⟨?_, by omega⟩
  congr 1
  unfold int64
  interval_cases a <;>
    simp only [List.range_succ, List.range_zero, List.nil_append, List.cons_append,
      List.map_cons, List.map_nil, spec_little_endian, spec_sign_extended, List.getLast?_cons_cons,
      List.getLast?_singleton, Option.getD_some, List.length_cons, List.length_nil] at hU ⊢ <;>
    norm_num at hU ⊢ <;>
    split_ifs <;> omega

theorem encoded_byte_text (dex : DexFile) (m : Nat → Nat) (fuel ptr : Nat)
    (ht : read_u8 m ptr &&& 0x1f = 0x00) (ha : (read_u8 m ptr &&& 0xe0) >>> 5 ≤ 0) :
    parse_encoded_value dex m (fuel + 1) ptr =
      some (to_string_int (spec_sign_extended
        ((List.range ((read_u8 m ptr &&& 0xe0) >>> 5 + 1)).map
          (fun i => read_u8 m (ptr + 1 + i)))) ++ "t".toList,
        ptr + (read_u8 m ptr &&& 0xe0) >>> 5 + 2) := by
  have hva : (read_u8 m ptr &&& 0xe0) >>> 5 = 0 := by omega
  have hb0 := read_u8_lt m (ptr + 1)
  simp only [parse_encoded_value, ht, hva, read_value_bytes]
  norm_num
  congr 1
  simp only [List.range_succ, List.range_zero, List.nil_append, List.map_cons, List.map_nil,
    List.foldl_cons, List.foldl_nil, spec_little_endian, spec_sign_extended,
    List.getLast?_singleton, Option.getD_some, List.length_cons, List.length_nil,
    Nat.zero_mul, Nat.shiftLeft_zero, Nat.zero_or, Nat.add_zero]
  unfold int8 u32
  norm_num
  split_ifs <;> omega

/-- C24: for the value types BYTE, SHORT, INT and LONG with a payload of value_arg + 1 bytes
that fits the width of the type, parse_encoded_value returns (with any fuel of at least one)
the little-endian payload, sign-extended from the top bit of its last byte, as the decimal
number with t, s or L, and for INT as `0x` with the hexadecimal digits of the 32-bit pattern;
the pointer advances by value_arg + 2. -/
theorem C24_numeric_values_are_sign_extended (dex : DexFile) (m : Nat → Nat) (fuel ptr : Nat)
    (ht : read_u8 m ptr &&& 0x1f ∈ [0x00, 0x02, 0x04, 0x06])
    (hw : (read_u8 m ptr &&& 0xe0) >>> 5 + 1 ≤ spec_width (read_u8 m ptr &&& 0x1f)) :
    parse_encoded_value dex m (fuel + 1) ptr =
      some (spec_numeric_text (read_u8 m ptr &&& 0x1f)
        ((List.range ((read_u8 m ptr &&& 0xe0) >>> 5 + 1)).map
          (fun i => read_u8 m (ptr + 1 + i))),
        ptr + (read_u8 m ptr &&& 0xe0) >>> 5 + 2) := by
  simp only [List.mem_cons, List.mem_nil_iff, or_false] at ht
  rcases ht with h | h | h | h
  · rw [h] at hw ⊢
    rw [encoded_byte_text dex m fuel ptr h (by simp [spec_width] at hw; omega)]
    rfl
  · rw [h] at hw ⊢
    rw [encoded_short_text dex m fuel ptr h (by simp [spec_width] at hw; omega)]
    rfl
  · rw [h] at hw ⊢
    rw [encoded_int_text dex m fuel ptr h (by simp [spec_width] at hw; omega)]
    rfl
  · rw [h] at hw ⊢
    rw [encoded_long_text dex m fuel ptr h (by simp [spec_width] at hw; omega)]
    rfl

/-- Witness of C24: the bytes 24 34 f2 (INT with two payload bytes) are rendered
`0xfffff234`, and 00 80 (BYTE) is rendered `-128t`. -/
theorem C24_numeric_values_are_sign_extended_witness :
    read_u8 (image [0x24, 0x34, 0xf2]) 0 &&& 0x1f ∈ [0x00, 0x02, 0x04, 0x06] ∧
    (read_u8 (image [0x24, 0x34, 0xf2]) 0 &&& 0xe0) >>> 5 + 1 ≤
      spec_width (read_u8 (image [0x24, 0x34, 0xf2]) 0 &&& 0x1f) ∧
    spec_numeric_text (read_u8 (image [0x24, 0x34, 0xf2]) 0 &&& 0x1f)
      ((List.range ((read_u8 (image [0x24, 0x34, 0xf2]) 0 &&& 0xe0) >>> 5 + 1)).map
        (fun i => read_u8 (image [0x24, 0x34, 0xf2]) (0 + 1 + i))) = "0xfffff234".toList ∧
    parse_encoded_value (dex_with_strings []) (image [0x00, 0x80]) 1 0 =
      some ("-128t".toList, 2) ∧
    parse_encoded_value (dex_with_strings []) (image [0x24, 0x34, 0xf2]) (0 + 1) 0 =
      some (spec_numeric_text (read_u8 (image [0x24, 0x34, 0xf2]) 0 &&& 0x1f)
        ((List.range ((read_u8 (image [0x24, 0x34, 0xf2]) 0 &&& 0xe0) >>> 5 + 1)).map
          (fun i => read_u8 (image [0x24, 0x34, 0xf2]) (0 + 1 + i))),
        0 + (read_u8 (image [0x24, 0x34, 0xf2]) 0 &&& 0xe0) >>> 5 + 2) :=
  ⟨by decide, by decide, by decide, by decide,
    C24_numeric_values_are_sign_extended (dex_with_strings []) (image [0x24, 0x34, 0xf2]) 0 0
      (by decide) (by decide)⟩

/-! Arrays of encoded values (dex_file.cpp) -/

/-- The array case of parse_encoded_value. -/
theorem parse_encoded_value_array (dex : DexFile) (m : Nat → Nat) (fuel ptr : Nat)
    (ht : read_u8 m ptr &&& 0x1f = 0x1c) :
    parse_encoded_value dex m (fuel + 1) ptr =
      match decode_uleb128 m (ptr + 1) with
      | none => none
      | some (size, ptr) =>
        if size = 0 then some ("\x7b\x7d".toList, ptr)
        else
          match parse_encoded_array_items dex m fuel size 0 ptr with
          | none => none
          | some (items, ptr) => some ("\x7b\n".toList ++ items ++ "    \x7d".toList, ptr) := by
  simp only [parse_encoded_value, ht]
  norm_num

/-- Every other case of parse_encoded_value makes no use of the fuel. -/
theorem parse_encoded_value_other (dex : DexFile) (m : Nat → Nat) (fuel more ptr : Nat)
    (ht : read_u8 m ptr &&& 0x1f ≠ 0x1c) :
    parse_encoded_value dex m (fuel + 1) ptr = parse_encoded_value dex m (more + 1) ptr := by
  simp only [parse_encoded_value, ht, if_false]

/-- More fuel does not change a result of parse_encoded_value or of its array loop. -/
theorem parse_encoded_value_fuel (dex : DexFile) (m : Nat → Nat) :
    ∀ fuel,
      (∀ ptr r, parse_encoded_value dex m fuel ptr = some r →
        ∀ more, fuel ≤ more → parse_encoded_value dex m more ptr = some r) ∧
      (∀ size i ptr r, parse_encoded_array_items dex m fuel size i ptr = some r →
        ∀ more, fuel ≤ more → parse_encoded_array_items dex m more size i ptr = some r) := by
  intro fuel
  induction fuel with
  | zero =>
    constructor
    · intro ptr r h; simp [parse_encoded_value] at h
    · intro size i ptr r h; simp [parse_encoded_array_items] at h
  | succ fuel ih =>
    obtain ⟨ihv, iha⟩ := ih
    constructor
    · intro ptr r h more hmore
      obtain ⟨more, rfl⟩ : ∃ k, more = k + 1 := ⟨more - 1, by omega⟩
      have hle : fuel ≤ more := by omega
      by_cases ht : read_u8 m ptr &&& 0x1f = 0x1c
      · rw [parse_encoded_value_array dex m _ ptr ht] at h ⊢
        cases hdec : decode_uleb128 m (ptr + 1) with
        | none => simp [hdec] at h
        | some sp =>
          obtain ⟨size, p⟩ := sp
          simp only [hdec] at h ⊢
          split_ifs at h ⊢
          · exact h
          · cases hitems : parse_encoded_array_items dex m fuel size 0 p with
            | none => simp [hitems] at h
            | some it =>
              simp only [hitems] at h
              simp only [iha _ _ _ _ hitems more hle]
              exact h
      · rw [← parse_encoded_value_other dex m fuel more ptr ht]
        exact h
    · intro size i ptr r h more hmore
      obtain ⟨more, rfl⟩ : ∃ k, more = k + 1 := ⟨more - 1, by omega⟩
      have hle : fuel ≤ more := by omega
      by_cases hi : i < size
      · simp only [parse_encoded_array_items, hi, if_true] at h ⊢
        cases hval : parse_encoded_value dex m fuel ptr with
        | none => simp [hval] at h
        | some v =>
          obtain ⟨value, p⟩ := v
          rw [hval] at h
          rw [ihv _ _ hval more hle]
          simp only at h ⊢
          cases hitems : parse_encoded_array_items dex m fuel size (i + 1) p with
          | none => simp [hitems] at h
          | some it =>
            rw [hitems] at h
            rw [iha _ _ _ _ hitems more hle]
            exact h
      · simp only [parse_encoded_array_items, hi, if_false] at h ⊢
        exact h

theorem spec_render_values_length (dex : DexFile) (m : Nat → Nat) (fuel : Nat) :
    ∀ (n ptr : Nat) (r : List Str × Nat),
      spec_render_values dex m fuel n ptr = some r → r.1.length = n := by
  intro n
  induction n with
  | zero =>
    intro ptr r h
    simp only [spec_render_values, Option.some.injEq] at h
    rw [← h]; rfl
  | succ k ih =>
    intro ptr r h
    simp only [spec_render_values, Option.bind_eq_some, Option.map_eq_some'] at h
    obtain ⟨v, _, r2, hr2, hp⟩ := h
    rw [← hp]
    simp only [List.length_cons]
    rw [ih _ r2 hr2]

/-- The array loop of parse_encoded_value on `n` values that are left, when each of them is
rendered with `fuel`: the lines of the values. -/
theorem parse_encoded_array_items_lines (dex : DexFile) (m : Nat → Nat) (fuel : Nat)
    (hfuel : 1 ≤ fuel) :
    ∀ (n size i ptr : Nat) (elements : List Str) (next : Nat), i + n = size →
      spec_render_values dex m fuel n ptr = some (elements, next) →
      parse_encoded_array_items dex m (fuel + n) size i ptr =
        some (spec_array_lines elements, next) := by
  intro n
  induction n with
  | zero =>
    intro size i ptr elements next hsize h
    obtain ⟨f, rfl⟩ : ∃ k, fuel = k + 1 := ⟨fuel - 1, by omega⟩
    simp only [spec_render_values, Option.some.injEq, Prod.mk.injEq] at h
    obtain ⟨rfl, rfl⟩ := h
    simp only [Nat.add_zero, parse_encoded_array_items]
    rw [if_neg (by omega)]
    rfl
  | succ n ih =>
    intro size i ptr elements next hsize h
    simp only [spec_render_values, Option.bind_eq_some, Option.map_eq_some'] at h
    obtain ⟨value, hvalue, rest, hrest, hpair⟩ := h
    simp only [Prod.mk.injEq] at hpair
    obtain ⟨rfl, rfl⟩ := hpair
    have hv := (parse_encoded_value_fuel dex m fuel).1 ptr value hvalue (fuel + n) (by omega)
    have hitems := ih size (i + 1) value.2 rest.1 rest.2 (by omega) (by rw [hrest])
    rw [show fuel + (n + 1) = fuel + n + 1 by omega]
    simp only [parse_encoded_array_items]
    rw [if_pos (by omega), hv]
    simp only [hitems]
    have hlen : rest.1.length = n := spec_render_values_length dex m fuel n _ rest hrest
    cases hr : rest.1 with
    | nil =>
      rw [hr] at hlen
      simp only [List.length_nil] at hlen
      rw [if_neg (by omega)]
      simp [spec_array_lines]
    | cons e es =>
      rw [hr] at hlen
      simp only [List.length_cons] at hlen
      rw [if_pos (by omega)]
      simp [spec_array_lines]

/-- C25: an encoded value of the type 0x1c whose size n is at least 1 and whose n elements
are rendered one after the other is rendered (with enough fuel for the elements and the
array) as an opening brace and a newline, for each element in order eight blanks, its
rendering, a comma unless it is the last one, and a newline, then four blanks and the closing
brace; the pointer ends after the last element. -/
theorem C25_array_is_rendered_one_element_per_line (dex : DexFile) (m : Nat → Nat)
    (fuel more ptr size values_ptr : Nat) (elements : List Str) (next : Nat)
    (ht : read_u8 m ptr &&& 0x1f = 0x1c)
    (hsize : decode_uleb128 m (ptr + 1) = some (size, values_ptr)) (hn : 1 ≤ size)
    (helems : spec_render_values dex m fuel size values_ptr = some (elements, next))
    (hmore : fuel + size + 1 ≤ more) :
    parse_encoded_value dex m more ptr = some (spec_array_text elements, next) ∧
    elements.length = size := by
  have hfuel : 1 ≤ fuel := by
    by_contra hf
    have h0 : fuel = 0 := by omega
    obtain ⟨k, rfl⟩ : ∃ k, size = k + 1 := ⟨size - 1, by omega⟩
    rw [h0] at helems
    simp [spec_render_values, parse_encoded_value] at helems
  refine ⟨?_, spec_render_values_length dex m fuel size values_ptr _ helems⟩
  apply (parse_encoded_value_fuel dex m (fuel + size + 1)).1 ptr _ _ more hmore
  rw [parse_encoded_value_array dex m _ ptr ht, hsize]
  simp only
  rw [if_neg (by omega),
    parse_encoded_array_items_lines dex m fuel hfuel size size 0 values_ptr elements next
      (by omega) helems]
  rfl

/-- Witness of C25: the bytes 1c 02 00 05 3f (an array of the BYTE 5 and the BOOLEAN true)
are rendered as the four lines of the brace, `5t,`, `true` and the closing brace. -/
theorem C25_array_is_rendered_one_element_per_line_witness :
    read_u8 (image [0x1c, 0x02, 0x00, 0x05, 0x3f]) 0 &&& 0x1f = 0x1c ∧
    decode_uleb128 (image [0x1c, 0x02, 0x00, 0x05, 0x3f]) (0 + 1) = some (2, 2) ∧ 1 ≤ 2 ∧
    spec_render_values (dex_with_strings []) (image [0x1c, 0x02, 0x00, 0x05, 0x3f]) 1 2 2 =
      some (["5t".toList, "true".toList], 5) ∧
    1 + 2 + 1 ≤ 18446744073709551616 ∧
    spec_array_text ["5t".toList, "true".toList] =
      "\x7b\n        5t,\n        true\n    \x7d".toList ∧
    parse_encoded_value (dex_with_strings []) (image [0x1c, 0x02, 0x00, 0x05, 0x3f])
      18446744073709551616 0 = some (spec_array_text ["5t".toList, "true".toList], 5) :=
  ⟨by decide, by decide, by decide, by decide, by decide, by decide,
    (C25_array_is_rendered_one_element_per_line (dex_with_strings [])
      (image [0x1c, 0x02, 0x00, 0x05, 0x3f]) 1 18446744073709551616 0 2 2
      ["5t".toList, "true".toList] 5 (by decide) (by decide) (by decide) (by decide)
      (by decide)).1⟩

/-! Static values (dex_file.cpp) -/

/-- The loop of parse_static_values, when the values that it reads are rendered: every field
is as spec_static_field says. -/
theorem parse_static_values_loop_spec (dex : DexFile) :
    ∀ (fields : List DexField) (n ptr : Nat) (values : List Str) (next : Nat),
      spec_render_values dex dex.file_data_ 18446744073709551616 (min n fields.length) ptr =
        some (values, next) →
      ∃ out, parse_static_values_loop dex n ptr fields = some out ∧
        out.length = fields.length ∧
        ∀ i field, fields[i]? = some field →
          out[i]? = some (spec_static_field n values i field) := by
  intro fields
  induction fields with
  | nil =>
    intro n ptr values next _
    refine ⟨[], ?_, rfl, ?_⟩
    · cases n <;> rfl
    · intro i field h; simp at h
  | cons field rest ih =>
    intro n ptr values next h
    cases n with
    | zero =>
      refine ⟨field :: rest, rfl, rfl, ?_⟩
      intro i f hf
      rw [hf]
      simp [spec_static_field]
    | succ n =>
      rw [List.length_cons, Nat.succ_min_succ] at h
      simp only [spec_render_values, Option.bind_eq_some, Option.map_eq_some'] at h
      obtain ⟨value, hvalue, r, hr, hpair⟩ := h
      simp only [Prod.mk.injEq] at hpair
      obtain ⟨rfl, rfl⟩ := hpair
      obtain ⟨out, hout, hlen, hget⟩ := ih n value.2 r.1 r.2 (by rw [hr])
      refine ⟨(if field.access_flags &&& ACC_STATIC ≠ 0 then
          { field with initial_value := value.1 } else field) :: out, ?_, ?_, ?_⟩
      · simp only [parse_static_values_loop, hvalue, Option.some_bind, hout, Option.map_some']
      · simp only [List.length_cons, hlen]
      · intro i f hf
        cases i with
        | zero =>
          simp only [List.getElem?_cons_zero, Option.some.injEq] at hf ⊢
          subst hf
          simp [spec_static_field]
        | succ i =>
          simp only [List.getElem?_cons_succ] at hf ⊢
          rw [hget i f hf]
          simp [spec_static_field]

/-- C26, the claim fails: the array at offset 1 holds the single value BYTE 5, rendered `5t`.
A field of the static field list whose access flags are 0x1, without ACC_STATIC, keeps its
empty initial value; with the flags 0x9 it gets `5t`. -/
theorem C26_field_without_the_static_flag_keeps_its_value :
    spec_render_values (debug_dex one_byte_array) (debug_dex one_byte_array).file_data_
      18446744073709551616 1 2 = some (["5t".toList], 4) ∧
    (parse_static_values (debug_dex one_byte_array) 1
      (class_with_static_fields [field_with_flags 0x1])).map
      (fun r => (r.1, r.2.static_fields.map (fun field => field.initial_value))) =
      some (true, [[]]) ∧
    (parse_static_values (debug_dex one_byte_array) 1
      (class_with_static_fields [field_with_flags 0x9])).map
      (fun r => (r.1, r.2.static_fields.map (fun field => field.initial_value))) =
      some (true, ["5t".toList]) := by
  refine ⟨?_, ?_, ?_⟩ <;> decide

/-- C26 as the code has it: for an offset inside the file, when the values of the array that
have a field are rendered one after the other, parse_static_values returns true, keeps the
number of static fields, and gives every static field at an index below the size of the array
whose access flags contain ACC_STATIC the rendering of the value at its index; every other
static field, and every other part of the class, is as it was. -/
theorem C26_static_values_go_to_the_fields_with_the_static_flag (dex : DexFile)
    (static_values_off : Nat) (dex_class : DexClass) (size values_ptr : Nat)
    (values : List Str) (next : Nat) (hoff : static_values_off < dex.file_data_size)
    (hsize : decode_uleb128 dex.file_data_ static_values_off = some (size, values_ptr))
    (hvalues : spec_render_values dex dex.file_data_ 18446744073709551616
      (min size dex_class.static_fields.length) values_ptr = some (values, next)) :
    ∃ fields,
      parse_static_values dex static_values_off dex_class =
        some (true, { dex_class with static_fields := fields }) ∧
      fields.length = dex_class.static_fields.length ∧
      ∀ i field, dex_class.static_fields[i]? = some field →
        fields[i]? = some (spec_static_field size values i field) := by
  obtain ⟨out, hout, hlen, hget⟩ :=
    parse_static_values_loop_spec dex dex_class.static_fields size values_ptr values next hvalues
  refine ⟨out, ?_, hlen, hget⟩
  unfold parse_static_values
  rw [if_neg (by omega), hsize]
  simp only [Option.some_bind, hout, Option.map_some']

/-- Witness of C26: the field with the flags 0x9 gets the rendering `5t` of the value at its
index. -/
theorem C26_static_values_go_to_the_fields_with_the_static_flag_witness :
    1 < (debug_dex one_byte_array).file_data_size ∧
    decode_uleb128 (debug_dex one_byte_array).file_data_ 1 = some (1, 2) ∧
    spec_render_values (debug_dex one_byte_array) (debug_dex one_byte_array).file_data_
      18446744073709551616
      (min 1 (class_with_static_fields [field_with_flags 0x9]).static_fields.length) 2 =
      some (["5t".toList], 4) ∧
    (spec_static_field 1 ["5t".toList] 0 (field_with_flags 0x9)).initial_value = "5t".toList ∧
    ∃ fields,
      parse_static_values (debug_dex one_byte_array) 1
        (class_with_static_fields [field_with_flags 0x9]) =
        some (true,
          { class_with_static_fields [field_with_flags 0x9] with static_fields := fields }) ∧
      fields.length = (class_with_static_fields [field_with_flags 0x9]).static_fields.length ∧
      ∀ i field,
        (class_with_static_fields [field_with_flags 0x9]).static_fields[i]? = some field →
        fields[i]? = some (spec_static_field 1 ["5t".toList] i field) :=
  ⟨by decide, by decide, by decide, by decide,
    C26_static_values_go_to_the_fields_with_the_static_flag (debug_dex one_byte_array) 1
      (class_with_static_fields [field_with_flags 0x9]) 1 2 ["5t".toList] 4 (by decide)
      (by decide) (by decide)⟩

/-! The indices of encoded fields and methods (dex_file.cpp) -/

theorem running_indices_step (s d : Nat) (diffs : List Nat) (n : Nat) :
    [(s + d) % 4294967296] ++
      (List.range n).map (fun k => ((s + d) % 4294967296 + (diffs.take (k + 1)).sum) % 4294967296) =
    (List.range (n + 1)).map (fun k => (s + ((d :: diffs).take (k + 1)).sum) % 4294967296) := by
  rw [List.range_succ_eq_map, List.map_cons, List.map_map]
  simp only [List.take_succ_cons, List.take_zero, List.sum_cons, List.sum_nil, Nat.add_zero,
    List.singleton_append, List.cons.injEq, true_and]
  apply List.map_congr_left
  intro k _
  simp only [Function.comp, Nat.succ_eq_add_one, List.take_succ_cons, List.sum_cons]
  omega

/-- The loop of parse_encoded_fields keeps a running sum of the index differences. -/
theorem parse_encoded_fields_loop_indices (dex : DexFile) :
    ∀ (n ptr s : Nat) (fields : List DexField) (r : List DexField × Nat),
      parse_encoded_fields_loop dex n ptr s fields = some r →
      ∃ diffs, spec_index_diffs dex.file_data_ 1 n ptr = some (diffs, r.2) ∧
        diffs.length = n ∧
        r.1.map (fun field => field.field_idx) =
          fields.map (fun field => field.field_idx) ++
            (List.range n).map (fun k => (s + (diffs.take (k + 1)).sum) % 4294967296) := by
  intro n
  induction n with
  | zero =>
    intro ptr s fields r h
    simp only [parse_encoded_fields_loop, Option.some.injEq] at h
    subst h
    exact ⟨[], rfl, rfl, by simp⟩
  | succ n ih =>
    intro ptr s fields r h
    simp only [parse_encoded_fields_loop, Option.bind_eq_some] at h
    obtain ⟨diff, hdiff, flags, hflags, h⟩ := h
    obtain ⟨diffs, hspec, hlen, hidx⟩ := ih _ _ _ r h
    refine ⟨diff.1 :: diffs, ?_, by simp [hlen], ?_⟩
    · simp only [spec_index_diffs, hdiff, Option.some_bind, spec_skip_uleb128, hflags, hspec,
        Option.map_some']
    · rw [hidx, List.map_append, List.map_cons, List.map_nil, List.append_assoc,
        running_indices_step]

/-- The loop of parse_encoded_methods keeps a running sum of the index differences. -/
theorem parse_encoded_methods_loop_indices (dex : DexFile) :
    ∀ (n ptr s : Nat) (methods : List DexMethod) (r : List DexMethod × Nat),
      parse_encoded_methods_loop dex n ptr s methods = some r →
      ∃ diffs, spec_index_diffs dex.file_data_ 2 n ptr = some (diffs, r.2) ∧
        diffs.length = n ∧
        r.1.map (fun method => method.method_idx) =
          methods.map (fun method => method.method_idx) ++
            (List.range n).map (fun k => (s + (diffs.take (k + 1)).sum) % 4294967296) := by
  intro n
  induction n with
  | zero =>
    intro ptr s methods r h
    simp only [parse_encoded_methods_loop, Option.some.injEq] at h
    subst h
    exact ⟨[], rfl, rfl, by simp⟩
  | succ n ih =>
    intro ptr s methods r h
    simp only [parse_encoded_methods_loop, Option.bind_eq_some] at h
    obtain ⟨diff, hdiff, flags, hflags, code_off, hcode_off, code, _, h⟩ := h
    obtain ⟨diffs, hspec, hlen, hidx⟩ := ih _ _ _ r h
    refine ⟨diff.1 :: diffs, ?_, by simp [hlen], ?_⟩
    · simp only [spec_index_diffs, hdiff, Option.some_bind, spec_skip_uleb128, hflags,
        hcode_off, hspec, Option.map_some']
    · rw [hidx, List.map_append, List.map_cons, List.map_nil, List.append_assoc,
        running_indices_step]

theorem running_indices_from_zero (diffs : List Nat) (n : Nat) (h : diffs.length = n) :
    (List.range n).map (fun k => (0 + (diffs.take (k + 1)).sum) % 4294967296) =
      spec_running_indices diffs := by
  simp only [spec_running_indices, h, Nat.zero_add]

/-- An optional pair whose first component is known to be `true` is that pair. -/
theorem option_pair_of_fst_true {α : Type} (o : Option (Bool × α)) (d : Bool × α)
    (h : o.map Prod.fst = some true) : o = some (true, (o.getD d).2) := by
  cases o with
  | none => simp at h
  | some p =>
    obtain ⟨b, a⟩ := p
    simp only [Option.map_some', Option.some.injEq] at h
    simp [h]

/-- C27: when parse_class_data returns true, the field and method indices of the records that
it appends to each of the four lists are the running sums of the ULEB128 index differences of
that list in the class_data_item, held in a uint32_t: record k has the sum of the first k + 1
differences of its own list, so every list starts again from 0 and its first difference is the
index itself. -/
theorem C27_indices_are_running_sums_of_the_differences (dex : DexFile) (class_data_off : Nat)
    (dex_class result : DexClass)
    (h : parse_class_data dex class_data_off dex_class = some (true, result)) :
    ∃ static_diffs instance_diffs direct_diffs virtual_diffs,
      spec_class_data_diffs dex.file_data_ class_data_off =
        some (static_diffs, instance_diffs, direct_diffs, virtual_diffs) ∧
      result.static_fields.map (fun field => field.field_idx) =
        dex_class.static_fields.map (fun field => field.field_idx) ++
          spec_running_indices static_diffs ∧
      result.instance_fields.map (fun field => field.field_idx) =
        dex_class.instance_fields.map (fun field => field.field_idx) ++
          spec_running_indices instance_diffs ∧
      result.direct_methods.map (fun method => method.method_idx) =
        dex_class.direct_methods.map (fun method => method.method_idx) ++
          spec_running_indices direct_diffs ∧
      result.virtual_methods.map (fun method => method.method_idx) =
        dex_class.virtual_methods.map (fun method => method.method_idx) ++
          spec_running_indices virtual_diffs := by
  unfold parse_class_data at h
  split_ifs at h
  · simp at h
  · simp only [Option.bind_eq_some, parse_encoded_fields, parse_encoded_methods] at h
    obtain ⟨n1, h1, n2, h2, n3, h3, n4, h4, sf, hsf, inf, hinf, dm, hdm, vm, hvm, h⟩ := h
    simp only [Option.some.injEq, Prod.mk.injEq, true_and] at h
    subst h
    obtain ⟨d1, hs1, hl1, hi1⟩ := parse_encoded_fields_loop_indices dex _ _ _ _ _ hsf
    obtain ⟨d2, hs2, hl2, hi2⟩ := parse_encoded_fields_loop_indices dex _ _ _ _ _ hinf
    obtain ⟨d3, hs3, hl3, hi3⟩ := parse_encoded_methods_loop_indices dex _ _ _ _ _ hdm
    obtain ⟨d4, hs4, hl4, hi4⟩ := parse_encoded_methods_loop_indices dex _ _ _ _ _ hvm
    refine ⟨d1, d2, d3, d4, ?_, ?_, ?_, ?_, ?_⟩
    · simp only [spec_class_data_diffs, h1, h2, h3, h4, Option.some_bind, hs1, hs2, hs3, hs4]
    · rw [← running_indices_from_zero d1 _ hl1]; exact hi1
    · rw [← running_indices_from_zero d2 _ hl2]; exact hi2
    · rw [← running_indices_from_zero d3 _ hl3]; exact hi3
    · rw [← running_indices_from_zero d4 _ hl4]; exact hi4

/-- Witness of C27: the class_data_item `class_data_bytes` has the differences 3, 2 / 1 / 4 /
1, 6 and gives the indices 3, 5 / 1 / 4 / 1, 7. -/
theorem C27_indices_are_running_sums_of_the_differences_witness :
    parse_class_data (debug_dex class_data_bytes) 1 (bare_class [] 0) =
      some (true,
        ((parse_class_data (debug_dex class_data_bytes) 1 (bare_class [] 0)).getD
          (false, bare_class [] 0)).2) ∧
    spec_class_data_diffs (debug_dex class_data_bytes).file_data_ 1 =
      some ([3, 2], [1], [4], [1, 6]) ∧
    spec_running_indices [3, 2] = [3, 5] ∧ spec_running_indices [1, 6] = [1, 7] ∧
    (parse_class_data (debug_dex class_data_bytes) 1 (bare_class [] 0)).map
      (fun r => (r.1, r.2.static_fields.map (fun field => field.field_idx),
        r.2.instance_fields.map (fun field => field.field_idx),
        r.2.direct_methods.map (fun method => method.method_idx),
        r.2.virtual_methods.map (fun method => method.method_idx))) =
      some (true, [3, 5], [1], [4], [1, 7]) ∧
    ∃ static_diffs instance_diffs direct_diffs virtual_diffs,
      spec_class_data_diffs (debug_dex class_data_bytes).file_data_ 1 =
        some (static_diffs, instance_diffs, direct_diffs, virtual_diffs) ∧
      ((parse_class_data (debug_dex class_data_bytes) 1 (bare_class [] 0)).getD
        (false, bare_class [] 0)).2.static_fields.map (fun field => field.field_idx) =
        (bare_class [] 0).static_fields.map (fun field => field.field_idx) ++
          spec_running_indices static_diffs ∧
      ((parse_class_data (debug_dex class_data_bytes) 1 (bare_class [] 0)).getD
        (false, bare_class [] 0)).2.instance_fields.map (fun field => field.field_idx) =
        (bare_class [] 0).instance_fields.map (fun field => field.field_idx) ++
          spec_running_indices instance_diffs ∧
      ((parse_class_data (debug_dex class_data_bytes) 1 (bare_class [] 0)).getD
        (false, bare_class [] 0)).2.direct_methods.map (fun method => method.method_idx) =
        (bare_class [] 0).direct_methods.map (fun method => method.method_idx) ++
          spec_running_indices direct_diffs ∧
      ((parse_class_data (debug_dex class_data_bytes) 1 (bare_class [] 0)).getD
        (false, bare_class [] 0)).2.virtual_methods.map (fun method => method.method_idx) =
        (bare_class [] 0).virtual_methods.map (fun method => method.method_idx) ++
          spec_running_indices virtual_diffs :=
  ⟨option_pair_of_fst_true _ _ (by decide), by decide, by decide, by decide, by decide,
    C27_indices_are_running_sums_of_the_differences (debug_dex class_data_bytes) 1
      (bare_class [] 0) _ (option_pair_of_fst_true _ _ (by decide))⟩

/-! The order of member classes (dex_file.cpp) -/

/-- An insertion from the right keeps the elements and, for a comparison that is asymmetric
and negatively transitive, the order. -/
theorem unguarded_linear_insert_sorted {α : Type} (comp : α → α → Bool) (P : α → Prop)
    (hasym : ∀ a b, P a → P b → comp a b = true → comp b a = false)
    (hneg : ∀ a b c, P a → P b → P c → comp a b = false → comp b c = false →
      comp a c = false)
    (val : α) (hval : P val) :
    ∀ rl : List α, (∀ x ∈ rl, P x) → rl.Pairwise (fun a b => comp a b = false) →
      (unguarded_linear_insert comp val rl).Perm (val :: rl) ∧
      (unguarded_linear_insert comp val rl).Pairwise (fun a b => comp a b = false) := by
  intro rl
  induction rl with
  | nil => intro _ _; exact ⟨List.Perm.refl _, List.pairwise_singleton _ _⟩
  | cons next before ih =>
    intro hP hsorted
    have hnext := hP next (List.mem_cons_self _ _)
    have hbefore : ∀ x ∈ before, P x := fun x hx => hP x (List.mem_cons_of_mem _ hx)
    rw [List.pairwise_cons] at hsorted
    obtain ⟨hhead, htail⟩ := hsorted
    obtain ⟨hperm, hpair⟩ := ih hbefore htail
    unfold unguarded_linear_insert
    by_cases hc : comp val next = true
    · rw [if_pos hc]
      refine ⟨?_, ?_⟩
      · exact (List.Perm.cons next hperm).trans (List.Perm.swap val next before)
      · rw [List.pairwise_cons]
        refine ⟨?_, hpair⟩
        intro x hx
        have hx' := hperm.mem_iff.mp hx
        rcases List.mem_cons.mp hx' with rfl | hxb
        · exact hasym _ _ hval hnext hc
        · exact hhead x hxb
    · rw [if_neg hc]
      have hc' : comp val next = false := by simpa using hc
      refine ⟨List.Perm.refl _, ?_⟩
      rw [List.pairwise_cons]
      refine ⟨?_, List.pairwise_cons.mpr ⟨hhead, htail⟩⟩
      intro x hx
      rcases List.mem_cons.mp hx with rfl | hxb
      · exact hc'
      · exact hneg _ _ _ hval hnext (hbefore x hxb) hc' (hhead x hxb)

/-- One step of the insertion sort keeps the elements and the order. -/
theorem insertion_step_sorted {α : Type} (comp : α → α → Bool) (P : α → Prop)
    (hasym : ∀ a b, P a → P b → comp a b = true → comp b a = false)
    (hneg : ∀ a b c, P a → P b → P c → comp a b = false → comp b c = false →
      comp a c = false)
    (sorted : List α) (val : α) (hval : P val) (hP : ∀ x ∈ sorted, P x)
    (hsorted : sorted.Pairwise (fun a b => comp b a = false)) :
    (insertion_step comp sorted val).Perm (sorted ++ [val]) ∧
    (insertion_step comp sorted val).Pairwise (fun a b => comp b a = false) := by
  cases sorted with
  | nil => exact ⟨List.Perm.refl _, List.pairwise_singleton _ _⟩
  | cons first rest =>
    have hfirst := hP first (List.mem_cons_self _ _)
    simp only [insertion_step]
    by_cases hc : comp val first = true
    · rw [if_pos hc]
      refine ⟨?_, ?_⟩
      · exact (List.perm_append_singleton val (first :: rest)).symm
      · rw [List.pairwise_cons]
        refine ⟨?_, hsorted⟩
        intro x hx
        rcases List.mem_cons.mp hx with rfl | hxr
        · exact hasym _ _ hval hfirst hc
        · have hfx : comp x first = false := (List.pairwise_cons.mp hsorted).1 x hxr
          have hx_P := hP x hx
          by_contra hxv
          have hxv' : comp x val = true := by simpa using hxv
          have hvx : comp val x = false := hasym _ _ hx_P hval hxv'
          have hfv : comp first val = false := hasym _ _ hval hfirst hc
          have := hneg val x first hval hx_P hfirst hvx
            (by
              by_contra hxf
              have hxf' : comp x first = true := by simpa using hxf
              rw [hfx] at hxf'
              exact Bool.noConfusion hxf')
          rw [hc] at this
          exact Bool.noConfusion this
    · rw [if_neg hc]
      have hrev : (first :: rest).reverse.Pairwise (fun a b => comp a b = false) :=
        List.pairwise_reverse.mpr hsorted
      obtain ⟨hperm, hpair⟩ := unguarded_linear_insert_sorted comp P hasym hneg val hval
        (first :: rest).reverse (fun x hx => hP x (List.mem_reverse.mp hx)) hrev
      refine ⟨?_, List.pairwise_reverse.mp (by simpa using hpair)⟩
      have h1 := (List.reverse_perm (unguarded_linear_insert comp val (first :: rest).reverse))
      have h2 : (val :: (first :: rest).reverse).Perm ((first :: rest) ++ [val]) :=
        (List.Perm.cons val (List.reverse_perm _)).trans
          (List.perm_append_singleton val (first :: rest)).symm
      exact h1.trans (hperm.trans h2)

/-- The insertion sort that stands for std::sort keeps the elements and sorts them, for a
comparison that is asymmetric and negatively transitive on the elements. -/
theorem std_sort_sorted {α : Type} (comp : α → α → Bool) (P : α → Prop)
    (hasym : ∀ a b, P a → P b → comp a b = true → comp b a = false)
    (hneg : ∀ a b c, P a → P b → P c → comp a b = false → comp b c = false →
      comp a c = false) :
    ∀ (l acc : List α), (∀ x ∈ l, P x) → (∀ x ∈ acc, P x) →
      acc.Pairwise (fun a b => comp b a = false) →
      (l.foldl (insertion_step comp) acc).Perm (acc ++ l) ∧
      (l.foldl (insertion_step comp) acc).Pairwise (fun a b => comp b a = false) := by
  intro l
  induction l with
  | nil => intro acc _ _ hs; simpa using hs
  | cons val rest ih =>
    intro acc hl hacc hs
    obtain ⟨hperm, hpair⟩ := insertion_step_sorted comp P hasym hneg acc val
      (hl val (List.mem_cons_self _ _)) hacc hs
    have hP' : ∀ x ∈ insertion_step comp acc val, P x := by
      intro x hx
      have := hperm.mem_iff.mp hx
      rcases List.mem_append.mp this with h | h
      · exact hacc x h
      · rw [List.mem_singleton] at h; rw [h]; exact hl val (List.mem_cons_self _ _)
    obtain ⟨hperm2, hpair2⟩ := ih (insertion_step comp acc val)
      (fun x hx => hl x (List.mem_cons_of_mem _ hx)) hP' hpair
    refine ⟨?_, hpair2⟩
    simp only [List.foldl_cons]
    exact hperm2.trans (by simpa using List.Perm.append_right rest hperm)

/-- The comparison of std::string is asymmetric. -/
theorem str_less_asymm : ∀ a b : Str, str_less a b = true → str_less b a = false := by
  intro a
  induction a with
  | nil => intro b _; cases b <;> simp [str_less]
  | cons x xs ih =>
    intro b h
    cases b with
    | nil => simp [str_less] at h
    | cons y ys =>
      simp only [str_less] at h ⊢
      by_cases h1 : x.toNat < y.toNat
      · have h2 : ¬ y.toNat < x.toNat := by omega
        simp [h1, h2]
      · by_cases h2 : y.toNat < x.toNat
        · simp [h1, h2] at h
        · simp only [h1, h2, if_false] at h ⊢
          exact ih ys h

/-- The comparison of std::string is negatively transitive. -/
theorem str_less_neg_trans : ∀ a b c : Str,
    str_less a b = false → str_less b c = false → str_less a c = false := by
  intro a
  induction a with
  | nil =>
    intro b c h1 h2
    cases b with
    | nil => exact h2
    | cons y ys => simp [str_less] at h1
  | cons x xs ih =>
    intro b c h1 h2
    cases c with
    | nil => simp [str_less]
    | cons z zs =>
      cases b with
      | nil => simp [str_less] at h2
      | cons y ys =>
        simp only [str_less] at h1 h2 ⊢
        by_cases hxy : x.toNat < y.toNat
        · simp [hxy] at h1
        · by_cases hyz : y.toNat < z.toNat
          · simp [hyz] at h2
          · by_cases hyx : y.toNat < x.toNat
            · have hxz : ¬ x.toNat < z.toNat := by omega
              have hzx : z.toNat < x.toNat := by omega
              simp [hxz, hzx]
            · by_cases hzy : z.toNat < y.toNat
              · have hxz : ¬ x.toNat < z.toNat := by omega
                have hzx : z.toNat < x.toNat := by omega
                simp [hxz, hzx]
              · have hxz : ¬ x.toNat < z.toNat := by omega
                have hzx : ¬ z.toNat < x.toNat := by omega
                simp only [hxy, hyx, hyz, hzy, hxz, hzx, if_false] at h1 h2 ⊢
                exact ih ys zs h1 h2

/-- The order of the member classes is asymmetric. -/
theorem spec_member_before_asymm (a b : Str) (h : spec_member_before a b = true) :
    spec_member_before b a = false := by
  unfold spec_member_before at h ⊢
  by_cases ha : spec_is_numeric (spec_suffix a) = true <;>
    by_cases hb : spec_is_numeric (spec_suffix b) = true
  · simp only [ha, hb, if_true, decide_eq_true_eq, decide_eq_false_iff_not] at h ⊢
    omega
  · simp [ha, hb]
  · simp [ha, hb] at h
  · simp only [ha, hb, if_false] at h ⊢
    exact str_less_asymm _ _ h

/-- The order of the member classes is negatively transitive. -/
theorem spec_member_before_neg_trans (a b c : Str) (h1 : spec_member_before a b = false)
    (h2 : spec_member_before b c = false) : spec_member_before a c = false := by
  unfold spec_member_before at h1 h2 ⊢
  by_cases ha : spec_is_numeric (spec_suffix a) = true <;>
    by_cases hb : spec_is_numeric (spec_suffix b) = true <;>
    by_cases hc : spec_is_numeric (spec_suffix c) = true <;>
    simp only [ha, hb, hc, if_true, if_false, decide_eq_false_iff_not, Bool.false_eq_true,
      Bool.true_eq_false, not_false_eq_true] at h1 h2 ⊢
  · omega
  · exact str_less_neg_trans _ _ _ h1 h2

/-- A search from the right finds the last index that satisfies the test. -/
theorem find_last_in_range (p : Nat → Bool) (k : Nat) (hk : p k = true) :
    ∀ n, k < n → (∀ j, k < j → j < n → p j = false) →
      (List.range n).reverse.find? p = some k := by
  intro n
  induction n with
  | zero => intro h; omega
  | succ n ih =>
    intro hlt hlast
    rw [List.range_succ, List.reverse_append, List.reverse_singleton, List.singleton_append,
      List.find?_cons]
    by_cases hn : k = n
    · subst hn; rw [hk]
    · rw [hlast n (by omega) (by omega)]
      exact ih (by omega) (fun j h1 h2 => hlast j h1 (by omega))

/-- The function rfind gives the position of a character that does not occur after it. -/
theorem str_rfind_append (before after : Str) (c : Char) (h : c ∉ after) :
    str_rfind (before ++ c :: after) c = some before.length := by
  unfold str_rfind
  apply find_last_in_range
  · rw [List.getElem?_append_right (le_refl _)]
    simp
  · simp
  · intro j h1 _
    rw [List.getElem?_append_right (by omega)]
    obtain ⟨d, hd⟩ : ∃ d, j - before.length = d + 1 := ⟨j - before.length - 1, by omega⟩
    rw [hd, List.getElem?_cons_succ]
    cases hget : after[d]? with
    | none => simp
    | some x =>
      have hx : x ∈ after := List.mem_iff_getElem?.mpr ⟨d, hget⟩
      have : x ≠ c := fun hxc => h (hxc ▸ hx)
      simp [this]

/-- A text that holds `$` is cut at its last `$`. -/
theorem split_at_last_dollar (a : Str) (h : '$' ∈ a) :
    ∃ before after, a = before ++ '$' :: after ∧
      after = (a.reverse.takeWhile (fun c => c != '$')).reverse ∧ '$' ∉ after := by
  have hsplit := List.takeWhile_append_dropWhile (fun c => c != '$') a.reverse
  have hnot : '$' ∉ (a.reverse.takeWhile (fun c => c != '$')).reverse := by
    intro hmem
    have := List.mem_takeWhile_imp (List.mem_reverse.mp hmem)
    simp at this
  cases hdrop : a.reverse.dropWhile (fun c => c != '$') with
  | nil =>
    rw [hdrop, List.append_nil] at hsplit
    have hmem : '$' ∈ a.reverse := List.mem_reverse.mpr h
    rw [← hsplit] at hmem
    exact absurd (List.mem_reverse.mpr hmem) hnot
  | cons x rest =>
    have hx : x = '$' := by
      have := List.head_dropWhile_not (fun c => c != '$') a.reverse
        (by rw [hdrop]; exact List.cons_ne_nil _ _)
      simp only [hdrop, List.head_cons] at this
      simpa using this
    subst hx
    refine ⟨rest.reverse, _, ?_, rfl, hnot⟩
    rw [hdrop] at hsplit
    have := congrArg List.reverse hsplit
    rw [List.reverse_reverse, List.reverse_append, List.reverse_cons, List.append_assoc,
      List.singleton_append] at this
    exact this.symm

/-- The suffix that the comparison lambda extracts is the text after the last `$`, without a
semicolon at the end. -/
theorem member_suffix_eq_spec_suffix (a : Str) (h : '$' ∈ a) :
    ∃ pos, str_rfind a '$' = some pos ∧ member_suffix a pos = spec_suffix a := by
  obtain ⟨before, after, heq, hafter, hnot⟩ := split_at_last_dollar a h
  refine ⟨before.length, ?_, ?_⟩
  · rw [heq]
    exact str_rfind_append _ _ _ hnot
  · have hdrop : a.drop (before.length + 1) = after := by
      rw [heq]
      simp
    simp only [member_suffix, spec_suffix, hdrop, ← hafter]

/-- The test for a numeric suffix of the comparison lambda. -/
theorem spec_is_numeric_iff (suffix : Str) :
    (suffix.isEmpty = false ∧ suffix.all Char.isDigit = true) ↔
      spec_is_numeric suffix = true := by
  simp [spec_is_numeric]

/-- The function stoi gives the number of a text of digits that fits an int. -/
theorem stoi_eq_spec_value (suffix : Str) (h : spec_value suffix ≤ 2147483647) :
    stoi suffix = some (spec_value suffix : Int) := by
  have hfold : suffix.foldl (fun acc c => acc * 10 + (c.toNat - 48)) 0 = spec_value suffix := by
    unfold spec_value
    congr 1
    funext value c
    have : '0'.toNat = 48 := by decide
    rw [this, Nat.mul_comm]
  simp only [stoi, hfold]
  rw [if_neg (by omega)]

/-- The comparison lambda is the order of the member classes, for names that hold `$` and
whose numeric suffixes fit an int. -/
theorem member_class_less_eq (a b : Str) (ha : '$' ∈ a) (hb : '$' ∈ b)
    (hfa : spec_is_numeric (spec_suffix a) = true → spec_value (spec_suffix a) ≤ 2147483647)
    (hfb : spec_is_numeric (spec_suffix b) = true → spec_value (spec_suffix b) ≤ 2147483647) :
    member_class_less a b = some (spec_member_before a b) := by
  obtain ⟨pa, hpa, hsa⟩ := member_suffix_eq_spec_suffix a ha
  obtain ⟨pb, hpb, hsb⟩ := member_suffix_eq_spec_suffix b hb
  unfold member_class_less spec_member_before
  rw [hpa, hpb]
  simp only [hsa, hsb, spec_is_numeric_iff]
  by_cases hna : spec_is_numeric (spec_suffix a) = true <;>
    by_cases hnb : spec_is_numeric (spec_suffix b) = true
  · simp [hna, hnb, stoi_eq_spec_value _ (hfa hna), stoi_eq_spec_value _ (hfb hnb)]
  · simp [hna, hnb]
  · simp [hna, hnb]
  · simp [hna, hnb]

/-- The function find gives 0 exactly for a text that begins with the pattern. -/
theorem str_find_zero_iff (s pattern : Str) :
    str_find s pattern 0 = some 0 ↔ pattern.isPrefixOf s = true := by
  have hpred : (decide (0 + pattern.length ≤ s.length) &&
      (s.drop 0).take pattern.length == pattern) = pattern.isPrefixOf s := by
    rw [Bool.eq_iff_iff]
    simp only [Bool.and_eq_true, decide_eq_true_eq, beq_iff_eq, List.drop_zero, Nat.zero_add,
      List.isPrefixOf_iff_prefix, List.prefix_iff_eq_take]
    constructor
    · intro h; exact h.2.symm
    · intro h
      refine ⟨?_, h.symm⟩
      have := congrArg List.length h
      rw [List.length_take] at this
      omega
  unfold str_find
  rw [Nat.sub_zero, List.range_succ_eq_map, List.map_cons, List.find?_cons, Nat.add_zero, hpred]
  cases hp : pattern.isPrefixOf s with
  | true => simp
  | false =>
    simp only [Bool.false_eq_true, iff_false]
    intro hfind
    have := List.find?_some hfind
    rw [hpred, hp] at this
    exact Bool.noConfusion this

/-- The test of the loop that collects the member classes. -/
theorem member_test_iff (other_name base_name : Str) :
    (str_find other_name (base_name ++ ['$']) 0 = some 0 ∧ other_name ≠ base_name) ↔
      (base_name ++ ['$']).isPrefixOf other_name = true := by
  rw [str_find_zero_iff]
  constructor
  · intro h; exact h.1
  · intro h
    refine ⟨h, ?_⟩
    intro heq
    rw [List.isPrefixOf_iff_prefix] at h
    have := h.length_le
    rw [heq] at this
    simp at this

/-- The loop of add_member_classes_annotation collects the member classes. -/
theorem member_classes_eq_spec (classes_ : List DexClass) (dex_class : DexClass) :
    classes_.filterMap (fun other_class =>
      if str_find (strip_descriptor other_class.class_name)
          (strip_descriptor dex_class.class_name ++ ['$']) 0 = some 0 ∧
          strip_descriptor other_class.class_name ≠ strip_descriptor dex_class.class_name then
        some ("L".toList ++ strip_descriptor other_class.class_name ++ ";".toList)
      else none) = spec_member_classes classes_ dex_class := by
  unfold spec_member_classes
  induction classes_ with
  | nil => rfl
  | cons first rest ih =>
    rw [List.filterMap_cons, List.map_cons, List.filter_cons]
    by_cases h : (strip_descriptor dex_class.class_name ++ ['$']).isPrefixOf
        (strip_descriptor first.class_name) = true
    · rw [if_pos ((member_test_iff _ _).mpr h), if_pos h, List.map_cons, ih]
    · rw [if_neg (fun hc => h ((member_test_iff _ _).mp hc)), if_neg h, ih]

/-- Every member class holds `$`. -/
theorem spec_member_classes_dollar (classes_ : List DexClass) (dex_class : DexClass) :
    ∀ name ∈ spec_member_classes classes_ dex_class, '$' ∈ name := by
  intro name hname
  unfold spec_member_classes at hname
  rw [List.mem_map] at hname
  obtain ⟨other_name, hother, rfl⟩ := hname
  have hprefix := (List.mem_filter.mp hother).2
  rw [List.isPrefixOf_iff_prefix] at hprefix
  have : '$' ∈ other_name := hprefix.subset (by simp)
  simp [this]

/-- One insertion with a comparison that does not throw. -/
theorem unguarded_linear_insert_throwing_eq {α : Type} (comp : α → α → Option Bool)
    (less : α → α → Bool) (P : α → Prop)
    (hcomp : ∀ a b, P a → P b → comp a b = some (less a b)) (val : α) (hval : P val) :
    ∀ rl : List α, (∀ x ∈ rl, P x) →
      unguarded_linear_insert_throwing comp val rl =
        some (unguarded_linear_insert less val rl) := by
  intro rl
  induction rl with
  | nil => intro _; rfl
  | cons next before ih =>
    intro hP
    simp only [unguarded_linear_insert_throwing, unguarded_linear_insert,
      hcomp val next hval (hP next (List.mem_cons_self _ _)), Option.some_bind,
      ih (fun x hx => hP x (List.mem_cons_of_mem _ hx)), Option.map_some']
    split_ifs <;> rfl

/-- One step of the insertion sort with a comparison that does not throw. -/
theorem insertion_step_throwing_eq {α : Type} (comp : α → α → Option Bool)
    (less : α → α → Bool) (P : α → Prop)
    (hcomp : ∀ a b, P a → P b → comp a b = some (less a b)) (sorted : List α) (val : α)
    (hval : P val) (hP : ∀ x ∈ sorted, P x) :
    insertion_step_throwing comp sorted val = some (insertion_step less sorted val) := by
  cases sorted with
  | nil => rfl
  | cons first rest =>
    simp only [insertion_step_throwing, insertion_step,
      hcomp val first hval (hP first (List.mem_cons_self _ _)), Option.some_bind,
      unguarded_linear_insert_throwing_eq comp less P hcomp val hval (first :: rest).reverse
        (fun x hx => hP x (List.mem_reverse.mp hx)), Option.map_some']
    split_ifs <;> rfl

/-- The sort with a comparison that does not throw on the elements is the sort with the plain
comparison. -/
theorem std_sort_throwing_eq {α : Type} (comp : α → α → Option Bool)
    (less : α → α → Bool) (P : α → Prop)
    (hcomp : ∀ a b, P a → P b → comp a b = some (less a b))
    (hasym : ∀ a b, P a → P b → less a b = true → less b a = false)
    (hneg : ∀ a b c, P a → P b → P c → less a b = false → less b c = false →
      less a c = false) :
    ∀ (l acc : List α), (∀ x ∈ l, P x) → (∀ x ∈ acc, P x) →
      acc.Pairwise (fun a b => less b a = false) →
      l.foldl (fun sorted val => sorted.bind fun s => insertion_step_throwing comp s val)
        (some acc) = some (l.foldl (insertion_step less) acc) := by
  intro l
  induction l with
  | nil => intro acc _ _ _; rfl
  | cons val rest ih =>
    intro acc hl hacc hs
    have hval := hl val (List.mem_cons_self _ _)
    obtain ⟨hperm, hpair⟩ := insertion_step_sorted less P hasym hneg acc val hval hacc hs
    have hP' : ∀ x ∈ insertion_step less acc val, P x := by
      intro x hx
      have := hperm.mem_iff.mp hx
      rcases List.mem_append.mp this with h | h
      · exact hacc x h
      · rw [List.mem_singleton] at h; rw [h]; exact hval
    simp only [List.foldl_cons, Option.some_bind,
      insertion_step_throwing_eq comp less P hcomp acc val hval hacc]
    exact ih _ (fun x hx => hl x (List.mem_cons_of_mem _ hx)) hP' hpair

/-- The sort of the member classes does not throw when the numeric suffixes fit an int, and
gives the member classes in the order `spec_member_before`. -/
theorem sort_member_classes (members : List Str) (hdollar : ∀ name ∈ members, '$' ∈ name)
    (hfit : ∀ name ∈ members, spec_is_numeric (spec_suffix name) = true →
      spec_value (spec_suffix name) ≤ 2147483647) :
    std_sort_throwing member_class_less members = some (std_sort spec_member_before members) ∧
    (std_sort spec_member_before members).Perm members ∧
    (std_sort spec_member_before members).Pairwise
      (fun a b => spec_member_before b a = false) := by
  have hasym : ∀ a b : Str, a ∈ members → b ∈ members → spec_member_before a b = true →
      spec_member_before b a = false := fun a b _ _ h => spec_member_before_asymm a b h
  have hneg : ∀ a b c : Str, a ∈ members → b ∈ members → c ∈ members →
      spec_member_before a b = false → spec_member_before b c = false →
      spec_member_before a c = false :=
    fun a b c _ _ _ h1 h2 => spec_member_before_neg_trans a b c h1 h2
  have hcomp : ∀ a b : Str, a ∈ members → b ∈ members →
      member_class_less a b = some (spec_member_before a b) :=
    fun a b ha hb => member_class_less_eq a b (hdollar a ha) (hdollar b hb) (hfit a ha)
      (hfit b hb)
  refine ⟨?_, ?_⟩
  · exact std_sort_throwing_eq member_class_less spec_member_before (fun x => x ∈ members)
      hcomp hasym hneg members [] (fun _ h => h) (fun _ h => absurd h (List.not_mem_nil _))
      List.Pairwise.nil
  · have := std_sort_sorted spec_member_before (fun x => x ∈ members) hasym hneg members []
      (fun _ h => h) (fun _ h => absurd h (List.not_mem_nil _)) List.Pairwise.nil
    simpa [std_sort] using this

/-- Counterexample to C28 as stated: for the classes `LA;`, `LA$b;` and `LA$a1;` the
annotation of `LA;` lists `LA$a1;`, whose suffix is mixed, before `LA$b;`, whose suffix is
alphabetic. -/
theorem C28_mixed_suffix_is_listed_before_an_alphabetic_one :
    ( add_member_classes_annotation mixed_example 0 (bare_class "LA;".toList 0)).bind
      last_annotation_values =
      some ("Ldalvik/annotation/MemberClasses;".toList, ["LA$a1;".toList, "LA$b;".toList]) ∧
    spec_suffix_kind (spec_suffix "LA$a1;".toList) = 2 ∧
    spec_suffix_kind (spec_suffix "LA$b;".toList) = 1 := by
  decide

/-- C28 (amended): when every numeric suffix fits an int, add_member_classes_annotation leaves
a class without member classes as it is, and gives a class with member classes one more
annotation, `Ldalvik/annotation/MemberClasses;`, that lists the member classes in the order
`spec_member_before`: numeric suffixes first in the order of their numbers, then all other
suffixes, alphabetic and mixed alike, in lexicographic order. -/
theorem C28_member_classes_are_listed_numeric_first_then_lexicographic
    (classes_ : List DexClass) (visibility : Nat) (dex_class : DexClass)
    (hfit : ∀ name ∈ spec_member_classes classes_ dex_class,
      spec_is_numeric (spec_suffix name) = true → spec_value (spec_suffix name) ≤ 2147483647) :
    (spec_member_classes classes_ dex_class = [] →
      add_member_classes_annotation classes_ visibility dex_class = some dex_class) ∧
    (spec_member_classes classes_ dex_class ≠ [] →
      ∃ sorted : List Str, sorted.Perm (spec_member_classes classes_ dex_class) ∧
        sorted.Pairwise (fun a b => spec_member_before b a = false) ∧
        add_member_classes_annotation classes_ visibility dex_class = some
          { dex_class with
            annotations := dex_class.annotations ++
              [{ type := "Ldalvik/annotation/MemberClasses;".toList, visibility := visibility,
                 elements := sorted.map (fun member => ([], member)) }] }) := by
  obtain ⟨hsort, hperm, hpair⟩ := sort_member_classes (spec_member_classes classes_ dex_class)
    (spec_member_classes_dollar classes_ dex_class) hfit
  simp only [ add_member_classes_annotation, member_classes_eq_spec]
  refine ⟨?_, ?_⟩
  · intro hnil
    rw [hnil]
    rfl
  · intro hne
    refine ⟨_, hperm, hpair, ?_⟩
    have hempty : (spec_member_classes classes_ dex_class).isEmpty = false := by
      cases hm : spec_member_classes classes_ dex_class with
      | nil => exact absurd hm hne
      | cons _ _ => rfl
    rw [if_pos hempty, hsort]
    rfl

/-- Witness of C28 (amended): the classes of the example of the specification, given in
another order, are listed as `Lpkg/A$1;`, `Lpkg/A$2;`, `Lpkg/A$Inner;`, and so they are when
they are given in the order of the example. -/
theorem C28_member_classes_are_listed_numeric_first_then_lexicographic_witness :
    (∀ name ∈ spec_member_classes member_example (bare_class "Lpkg/A;".toList 0),
      spec_is_numeric (spec_suffix name) = true →
        spec_value (spec_suffix name) ≤ 2147483647) ∧
    spec_member_classes member_example (bare_class "Lpkg/A;".toList 0) =
      ["Lpkg/A$Inner;".toList, "Lpkg/A$2;".toList, "Lpkg/A$1;".toList] ∧
    ( add_member_classes_annotation member_example 0 (bare_class "Lpkg/A;".toList 0)).bind
      last_annotation_values =
      some ("Ldalvik/annotation/MemberClasses;".toList,
        ["Lpkg/A$1;".toList, "Lpkg/A$2;".toList, "Lpkg/A$Inner;".toList]) ∧
    ( add_member_classes_annotation member_example_in_order 0
      (bare_class "Lpkg/A;".toList 0)).bind last_annotation_values =
      some ("Ldalvik/annotation/MemberClasses;".toList,
        ["Lpkg/A$1;".toList, "Lpkg/A$2;".toList, "Lpkg/A$Inner;".toList]) ∧
    ∃ sorted : List Str,
      sorted.Perm (spec_member_classes member_example (bare_class "Lpkg/A;".toList 0)) ∧
      sorted.Pairwise (fun a b => spec_member_before b a = false) ∧
      add_member_classes_annotation member_example 0 (bare_class "Lpkg/A;".toList 0) = some
        { bare_class "Lpkg/A;".toList 0 with
          annotations := (bare_class "Lpkg/A;".toList 0).annotations ++
            [{ type := "Ldalvik/annotation/MemberClasses;".toList, visibility := 0,
               elements := sorted.map (fun member => ([], member)) }] } :=
  ⟨by decide, by decide, by decide, by decide,
    (C28_member_classes_are_listed_numeric_first_then_lexicographic member_example 0
      (bare_class "Lpkg/A;".toList 0) (by decide)).2 (by decide)⟩

/-! The const-class case of format_instruction (dalvik_opcodes.cpp) -/

/-- C34, the claim fails: for every const-class instruction the text is `const-class`, the
register of the high byte of unit 0 and the fixed descriptor `Ljava/lang/Class;`, whatever
the type index in unit 1 and the type pool are. -/
theorem C34_const_class_prints_a_fixed_descriptor (dex : DexFile) (insn : Nat → Nat)
    (address : Nat) (h : (insn 0 % 65536) &&& 0xFF = OP_CONST_CLASS) :
    format_instruction dex insn address =
      "const-class v".toList ++ to_string (((insn 0 % 65536) >>> 8) &&& 0xFF) ++
        ", Ljava/lang/Class;".toList := by
  have hname : get_opcode_name OP_CONST_CLASS = "const-class".toList := by decide
  have hsplit : "const-class v".toList = "const-class".toList ++ " v".toList := by decide
  simp only [format_instruction, h, hname, hsplit, List.append_assoc,
    List.append_cancel_left_eq]
  repeat (refine ite_neg_eq (by decide) ?_)
  exact ite_pos_eq (by decide) rfl

/-- Witness of C34: with the type pool `Ljava/lang/String;`, `I` the instruction
`const-class v1, type@0` is written with `Ljava/lang/Class;`, while `new-instance v1, type@0`
on the same units is written with the type of the pool. -/
theorem C34_const_class_prints_a_fixed_descriptor_witness :
    (three_units 0x011c 0 0 0 % 65536) &&& 0xFF = OP_CONST_CLASS ∧
    get_type_name dex_with_field (three_units 0x011c 0 0 1 % 65536) =
      "Ljava/lang/String;".toList ∧
    format_instruction dex_with_field (three_units 0x0122 0 0) 0 =
      "new-instance v1, Ljava/lang/String;".toList ∧
    to_string (((three_units 0x011c 0 0 0 % 65536) >>> 8) &&& 0xFF) = "1".toList ∧
    format_instruction dex_with_field (three_units 0x011c 0 0) 0 =
      "const-class v".toList ++ to_string (((three_units 0x011c 0 0 0 % 65536) >>> 8) &&& 0xFF) ++
        ", Ljava/lang/Class;".toList :=
  ⟨by decide, by decide, by decide, by decide,
    C34_const_class_prints_a_fixed_descriptor dex_with_field (three_units 0x011c 0 0) 0
      (by decide)⟩

/-! The renaming of registers in instruction texts (dalvik_opcodes.cpp) -/

/-- C38, the claim fails: with two registers, the last of them incoming, the renaming turns
the field name of `sget v0, La;->v1:I` and the literal of `const-string v0, "v1"` into `p0`;
the same happens to the texts that format_instruction gives for a field named `v1` and for
the string `v1`, and so write_method_code prints them. -/
theorem C38_renaming_rewrites_member_names_and_literals :
    reformat_registers_for_method "sget v0, La;->v1:I".toList 2 1 =
      "sget v0, La;->p0:I".toList ∧
    reformat_registers_for_method
      ("const-string v0, ".toList ++ [ch_dquote] ++ "v1".toList ++ [ch_dquote]) 2 1 =
      "const-string v0, ".toList ++ [ch_dquote] ++ "p0".toList ++ [ch_dquote] ∧
    code_reading_v1.instructions.map (fun instruction => instruction.mnemonic) =
      ["sget v0, Ljava/lang/String;->v1:I".toList,
        "const-string v0, ".toList ++ [ch_dquote] ++ "v1".toList ++ [ch_dquote],
        "return-void".toList] ∧
    write_method_code false (method_with_code ACC_PUBLIC code_reading_v1) =
      "    .registers 2\n\n    sget v0, Ljava/lang/String;->p0:I\n\n    const-string v0, ".toList
        ++ [ch_dquote] ++ "p0".toList ++ [ch_dquote] ++ "\n\n    return-void\n".toList := by
  decide

/-! The comparison of member classes with long numeric suffixes (dex_file.cpp) -/

/-- The function stoi throws for a text of digits whose number does not fit an int. -/
theorem stoi_eq_none (suffix : Str) (h : 2147483647 < spec_value suffix) :
    stoi suffix = none := by
  have hfold : suffix.foldl (fun acc c => acc * 10 + (c.toNat - 48)) 0 = spec_value suffix := by
    unfold spec_value
    congr 1
    funext value c
    have : '0'.toNat = 48 := by decide
    rw [this, Nat.mul_comm]
  simp only [stoi, hfold]
  rw [if_pos h]

/-- C40, the claim fails: the comparison of two names with numeric suffixes throws when the
number of one of the suffixes is larger than 2147483647. -/
theorem C40_comparison_throws_on_a_long_digit_suffix (a b : Str) (ha : '$' ∈ a)
    (hb : '$' ∈ b) (hna : spec_is_numeric (spec_suffix a) = true)
    (hnb : spec_is_numeric (spec_suffix b) = true)
    (hlong : 2147483647 < spec_value (spec_suffix a) ∨
      2147483647 < spec_value (spec_suffix b)) :
    member_class_less a b = none := by
  obtain ⟨pa, hpa, hsa⟩ := member_suffix_eq_spec_suffix a ha
  obtain ⟨pb, hpb, hsb⟩ := member_suffix_eq_spec_suffix b hb
  unfold member_class_less
  rw [hpa, hpb]
  simp only [hsa, hsb, spec_is_numeric_iff, hna, hnb, and_self, if_true]
  rcases hlong with h | h
  · rw [stoi_eq_none _ h]; rfl
  · rw [stoi_eq_none _ h]
    cases stoi (spec_suffix a) <;> rfl

/-- Witness of C40: for the classes `LA;`, `LA$1;` and `LA$2147483648;` the comparison
throws, add_member_classes_annotation does not return for `LA;`, and neither does the loop
of parse_class_defs over the classes; with the suffix 2147483647 the call returns. -/
theorem C40_comparison_throws_on_a_long_digit_suffix_witness :
    '$' ∈ "LA$2147483648;".toList ∧ '$' ∈ "LA$1;".toList ∧
    spec_is_numeric (spec_suffix "LA$2147483648;".toList) = true ∧
    spec_is_numeric (spec_suffix "LA$1;".toList) = true ∧
    (2147483647 < spec_value (spec_suffix "LA$2147483648;".toList) ∨
      2147483647 < spec_value (spec_suffix "LA$1;".toList)) ∧
    ( add_member_classes_annotation long_suffix_example 0
      (bare_class "LA;".toList 0)).isNone = true ∧
    ( add_member_classes_annotations long_suffix_example (fun _ => 0) 0
      long_suffix_example).isNone = true ∧
    ( add_member_classes_annotation largest_suffix_example 0
      (bare_class "LA;".toList 0)).bind last_annotation_values =
      some ("Ldalvik/annotation/MemberClasses;".toList,
        ["LA$1;".toList, "LA$2147483647;".toList]) ∧
    member_class_less "LA$2147483648;".toList "LA$1;".toList = none :=
  ⟨by decide, by decide, by decide, by decide, by decide, by decide, by decide, by decide,
    C40_comparison_throws_on_a_long_digit_suffix "LA$2147483648;".toList "LA$1;".toList
      (by decide) (by decide) (by decide) (by decide) (by decide)⟩

/-! The flag words of a method header (class_definition.cpp) -/

/-- The flag text of a vocabulary, entry by entry. -/
theorem spec_flag_text_cons (word : String) (bit : Nat) (rest : List (String × Nat))
    (access_flags : Nat) :
    spec_flag_text ((word, bit) :: rest) access_flags =
      (if access_flags &&& bit ≠ 0 then word.toList ++ [' '] else []) ++
        spec_flag_text rest access_flags := by
  unfold spec_flag_text spec_written_words
  by_cases h : access_flags &&& bit ≠ 0
  · simp [List.filter_cons, h]
  · simp [List.filter_cons, h]

/-- The flag text of the empty vocabulary. -/
theorem spec_flag_text_nil (access_flags : Nat) : spec_flag_text [] access_flags = [] := rfl

/-- A word of a vocabulary without repeated words is written exactly when its bit is set. -/
theorem spec_written_words_iff (vocabulary : List (String × Nat)) (access_flags : Nat)
    (hnodup : (vocabulary.map (fun entry => entry.1)).Nodup) :
    ∀ entry ∈ vocabulary,
      (entry.1 ∈ spec_written_words vocabulary access_flags ↔
        access_flags &&& entry.2 ≠ 0) := by
  intro entry hentry
  unfold spec_written_words
  rw [List.mem_map]
  constructor
  · rintro ⟨other, hother, heq⟩
    rw [List.mem_filter] at hother
    have : other = entry := List.inj_on_of_nodup_map hnodup hother.1 hentry heq
    rw [← this]
    simpa using hother.2
  · intro hbit
    exact ⟨entry, List.mem_filter.mpr ⟨hentry, by simpa using hbit⟩, rfl⟩

/-- The words that are written are words of the vocabulary. -/
theorem spec_written_words_subset (vocabulary : List (String × Nat)) (access_flags : Nat)
    (word : String) (h : word ∈ spec_written_words vocabulary access_flags) :
    word ∈ vocabulary.map (fun entry => entry.1) := by
  unfold spec_written_words at h
  rw [List.mem_map] at h ⊢
  obtain ⟨entry, hentry, heq⟩ := h
  exact ⟨entry, (List.mem_filter.mp hentry).1, heq⟩

/-- The flag words of write_direct_methods are the words of its vocabulary. -/
theorem direct_method_access_flags_eq (access_flags : Nat) :
    direct_method_access_flags access_flags =
      spec_flag_text direct_method_vocabulary access_flags := by
  have hv : direct_method_vocabulary =
      [("public", 0x1), ("private", 0x2), ("protected", 0x4), ("static", 0x8), ("final", 0x10),
        ("synchronized", 0x20), ("bridge", 0x40), ("varargs", 0x80), ("native", 0x100),
        ("abstract", 0x400), ("strict", 0x800), ("synthetic", 0x1000),
        ("constructor", 0x10000)] := by decide
  rw [hv]
  simp only [spec_flag_text_cons, spec_flag_text_nil, List.append_nil]
  simp only [direct_method_access_flags, flag_word, List.append_assoc]
  rfl

/-- The flag words of write_virtual_methods are the words of its vocabulary. -/
theorem virtual_method_access_flags_eq (access_flags : Nat) :
    virtual_method_access_flags access_flags =
      spec_flag_text virtual_method_vocabulary access_flags := by
  have hv : virtual_method_vocabulary =
      [("public", 0x1), ("private", 0x2), ("protected", 0x4), ("final", 0x10),
        ("synchronized", 0x20), ("bridge", 0x40), ("varargs", 0x80), ("native", 0x100),
        ("abstract", 0x400), ("strict", 0x800), ("synthetic", 0x1000)] := by decide
  rw [hv]
  simp only [spec_flag_text_cons, spec_flag_text_nil, List.append_nil]
  simp only [virtual_method_access_flags, flag_word, List.append_assoc]
  rfl

/-- C37, the failing input: a direct method with the access flags 0x20001 has the header
`.method public run()V`, without `declared-synchronized` although bit 0x20000 is set; a
virtual method with the flags 0x10009 has the same header, without `static` and
`constructor`.  BaksmaliWriter::write_access_flags writes all these words for the same
flags. -/
theorem C37_declared_synchronized_is_not_written :
    0x20001 &&& ACC_DECLARED_SYNCHRONIZED ≠ 0 ∧
    write_direct_methods false
      (class_with_methods [method_with_code 0x20001 code_with_lines] []) =
      ".method public run()V\n    .registers 1\n\n    return-void\n.end method\n\n".toList ∧
    0x10009 &&& ACC_STATIC ≠ 0 ∧ 0x10009 &&& ACC_CONSTRUCTOR ≠ 0 ∧
    write_virtual_methods false
      (class_with_methods [] [method_with_code 0x10009 code_with_lines]) =
      ".method public run()V\n    .registers 1\n\n    return-void\n.end method\n\n".toList ∧
    write_access_flags 0x20001 = "public declared-synchronized ".toList ∧
    write_access_flags 0x10009 = "public static constructor ".toList := by
  decide

/-- C37, the claim fails: the header of a direct method is `.method `, the words of the
canonical vocabulary without `declared-synchronized` whose bit is set, each followed by a
blank, in the order of the vocabulary, then the name and the signature; the header of a
virtual method has the words of the vocabulary without `static`, `constructor` and
`declared-synchronized`.  So these two writers write a word of their own lists if and only if
its bit is set, and write `declared-synchronized` for no access flags, and the writer of
virtual methods writes `static` and `constructor` for none. -/
theorem C37_method_header_writes_the_flag_words_it_knows (debug_info : Bool)
    (class_def : DexClass) (access_flags : Nat) :
    write_direct_methods debug_info class_def =
      (class_def.direct_methods.map (fun method =>
        ".method ".toList ++ spec_flag_text direct_method_vocabulary method.access_flags ++
        method.name ++ method.signature ++ "\n".toList ++
        write_member_annotations method.annotations ++
        write_method_code debug_info method ++ ".end method\n\n".toList)).flatten ∧
    write_virtual_methods debug_info class_def =
      (class_def.virtual_methods.map (fun method =>
        ".method ".toList ++ spec_flag_text virtual_method_vocabulary method.access_flags ++
        method.name ++ method.signature ++ "\n".toList ++
        write_member_annotations method.annotations ++
        write_method_code debug_info method ++ ".end method\n\n".toList)).flatten ∧
    (∀ entry ∈ direct_method_vocabulary,
      (entry.1 ∈ spec_written_words direct_method_vocabulary access_flags ↔
        access_flags &&& entry.2 ≠ 0)) ∧
    (∀ entry ∈ virtual_method_vocabulary,
      (entry.1 ∈ spec_written_words virtual_method_vocabulary access_flags ↔
        access_flags &&& entry.2 ≠ 0)) ∧
    direct_method_vocabulary.map (fun entry => entry.1) =
      ["public", "private", "protected", "static", "final", "synchronized", "bridge",
        "varargs", "native", "abstract", "strict", "synthetic", "constructor"] ∧
    virtual_method_vocabulary.map (fun entry => entry.1) =
      ["public", "private", "protected", "final", "synchronized", "bridge", "varargs",
        "native", "abstract", "strict", "synthetic"] ∧
    "declared-synchronized" ∉ spec_written_words direct_method_vocabulary access_flags ∧
    "declared-synchronized" ∉ spec_written_words virtual_method_vocabulary access_flags ∧
    "static" ∉ spec_written_words virtual_method_vocabulary access_flags ∧
    "constructor" ∉ spec_written_words virtual_method_vocabulary access_flags := by
  refine ⟨?_, ?_, ?_, ?_, by decide, by decide, ?_, ?_, ?_, ?_⟩
  · simp only [write_direct_methods, direct_method_access_flags_eq]
  · simp only [write_virtual_methods, virtual_method_access_flags_eq]
  · exact spec_written_words_iff _ _ (by decide)
  · exact spec_written_words_iff _ _ (by decide)
  · exact fun h => absurd (spec_written_words_subset _ _ _ h) (by decide)
  · exact fun h => absurd (spec_written_words_subset _ _ _ h) (by decide)
  · exact fun h => absurd (spec_written_words_subset _ _ _ h) (by decide)
  · exact fun h => absurd (spec_written_words_subset _ _ _ h) (by decide)

/-! The characters of the string pool (dex_file.cpp) -/

/-- Every hexadecimal digit of the specification is a lowercase hexadecimal digit. -/
theorem spec_hex_digit_lower (d : Nat) : spec_is_lower_hex (spec_hex_digit d) = true := by
  by_cases h : d < 16
  · interval_cases d <;> decide
  · have : spec_hex_digit d = '0' := by
      unfold spec_hex_digit
      rw [List.getD_eq_default _ _ (by simpa using h)]
    rw [this]
    decide

/-- An escape of parse_string_ids is an escape of the specification. -/
theorem unicode_escape_is_escape (value : Nat) :
    spec_u_escape (unicode_escape (value &&& 0xFFFF)) = true := by
  have hlt : value &&& 0xFFFF < 65536 := Nat.lt_succ_of_le Nat.and_le_right
  rw [unicode_escape_digits _ hlt]
  simp only [spec_u_escape, spec_hex_digit_lower, beq_self_eq_true, Bool.and_self]

/-- The characters of a piece are below 0x80. -/
theorem spec_pool_piece_ascii (piece : Str) (h : spec_pool_piece piece = true) :
    ∀ c ∈ piece, c.toNat < 0x80 := by
  unfold spec_pool_piece at h
  rw [Bool.or_eq_true] at h
  rcases h with h | h
  · rw [Bool.and_eq_true] at h
    intro c hc
    simpa using (List.all_eq_true.mp h.2) c hc
  · match piece, h with
    | [b, u, d1, d2, d3, d4], h =>
      simp only [spec_u_escape, Bool.and_eq_true, beq_iff_eq] at h
      obtain ⟨⟨⟨⟨⟨hb, hu⟩, h1⟩, h2⟩, h3⟩, h4⟩ := h
      have hex : ∀ d, spec_is_lower_hex d = true → d.toNat < 0x80 := by
        intro d hd
        unfold spec_is_lower_hex at hd
        simp only [decide_eq_true_eq] at hd
        revert d
        decide
      intro c hc
      simp only [List.mem_cons, List.mem_nil_iff, or_false] at hc
      rcases hc with rfl | rfl | rfl | rfl | rfl | rfl
      · rw [hb]; decide
      · rw [hu]; decide
      · exact hex _ h1
      · exact hex _ h2
      · exact hex _ h3
      · exact hex _ h4

/-- A number below 0x80 is the code of its character. -/
theorem char_ofNat_toNat : ∀ n < 0x80, (Char.ofNat n).toNat = n := by
  decide

/-- The conversion loop of parse_string_ids builds its text from pieces. -/
theorem parse_string_ids_convert_loop_pieces :
    ∀ (fuel : Nat) (bytes : List Nat),
      ∃ pieces : List Str, parse_string_ids_convert_loop fuel bytes = pieces.flatten ∧
        ∀ piece ∈ pieces, spec_pool_piece piece = true := by
  intro fuel
  induction fuel with
  | zero => intro bytes; exact ⟨[], rfl, fun _ h => absurd h (List.not_mem_nil _)⟩
  | succ fuel ih =>
    intro bytes
    cases bytes with
    | nil => exact ⟨[], rfl, fun _ h => absurd h (List.not_mem_nil _)⟩
    | cons c0 rest =>
      have hescape : ∀ (value : Nat) (tail : List Nat),
          ∃ pieces : List Str,
            unicode_escape (value &&& 0xFFFF) ++ parse_string_ids_convert_loop fuel tail =
              pieces.flatten ∧ ∀ piece ∈ pieces, spec_pool_piece piece = true := by
        intro value tail
        obtain ⟨pieces, heq, hall⟩ := ih tail
        refine ⟨unicode_escape (value &&& 0xFFFF) :: pieces, ?_, ?_⟩
        · rw [List.flatten_cons, heq]
        · intro piece hpiece
          rcases List.mem_cons.mp hpiece with rfl | h
          · unfold spec_pool_piece
            rw [unicode_escape_is_escape, Bool.or_true]
          · exact hall piece h
      simp only [parse_string_ids_convert_loop]
      by_cases h1 : c0 % 256 < 0x80
      · rw [if_pos h1]
        obtain ⟨pieces, heq, hall⟩ := ih rest
        refine ⟨[Char.ofNat (c0 % 256)] :: pieces, ?_, ?_⟩
        · rw [List.flatten_cons, heq]; rfl
        · intro piece hpiece
          rcases List.mem_cons.mp hpiece with rfl | h
          · have hnat : (Char.ofNat (c0 % 256)).toNat = c0 % 256 :=
              char_ofNat_toNat _ h1
            simp [spec_pool_piece, hnat, h1]
          · exact hall piece h
      · rw [if_neg h1]
        split_ifs
        · exact hescape _ _
        · exact hescape _ _
        · exact hescape _ _
        · exact hescape _ _

/-- The strings that the loop of parse_string_ids appends are made of pieces. -/
theorem parse_string_ids_loop_pieces (dex : DexFile) :
    ∀ (n i : Nat) (strings : List Str) (r : Bool × List Str),
      parse_string_ids_loop dex n i strings = some r →
      ∃ added : List Str, r.2 = strings ++ added ∧
        ∀ s ∈ added, ∃ pieces : List Str, s = pieces.flatten ∧
          ∀ piece ∈ pieces, spec_pool_piece piece = true := by
  intro n
  induction n with
  | zero =>
    intro i strings r h
    simp only [parse_string_ids_loop, Option.some.injEq] at h
    subst h
    exact ⟨[], by simp, fun _ hs => absurd hs (List.not_mem_nil _)⟩
  | succ n ih =>
    intro i strings r h
    have hstop : ∀ r : Bool × List Str, some (false, strings) = some r →
        ∃ added : List Str, r.2 = strings ++ added ∧
          ∀ s ∈ added, ∃ pieces : List Str, s = pieces.flatten ∧
            ∀ piece ∈ pieces, spec_pool_piece piece = true := by
      intro r hr
      simp only [Option.some.injEq] at hr
      subst hr
      exact ⟨[], by simp, fun _ hs => absurd hs (List.not_mem_nil _)⟩
    simp only [parse_string_ids_loop] at h
    split_ifs at h with h1 h2
    · exact hstop r h
    · exact hstop r h
    · cases hdec : decode_uleb128 dex.file_data_
          (read_u32 dex.file_data_ (dex.header_.string_ids_off + i * 4)) with
      | none => rw [hdec] at h; simp at h
      | some p =>
        obtain ⟨size, str_start⟩ := p
        rw [hdec] at h
        simp only at h
        split_ifs at h with h3
        · exact hstop r h
        · obtain ⟨added, hadded, hall⟩ := ih _ _ _ h
          obtain ⟨pieces, hpieces, hok⟩ := parse_string_ids_convert_loop_pieces
            ((List.range (strnlen dex.file_data_ str_start
              ((dex.file_data_size + 18446744073709551616 - str_start) %
                18446744073709551616))).map
              (fun j => read_u8 dex.file_data_ (str_start + j))).length
            ((List.range (strnlen dex.file_data_ str_start
              ((dex.file_data_size + 18446744073709551616 - str_start) %
                18446744073709551616))).map
              (fun j => read_u8 dex.file_data_ (str_start + j)))
          refine ⟨parse_string_ids_convert
            ((List.range (strnlen dex.file_data_ str_start
              ((dex.file_data_size + 18446744073709551616 - str_start) %
                18446744073709551616))).map
              (fun j => read_u8 dex.file_data_ (str_start + j))) :: added, ?_, ?_⟩
          · rw [hadded, List.append_assoc, List.singleton_append]
          · intro s hs
            rcases List.mem_cons.mp hs with rfl | hs
            · exact ⟨pieces, hpieces, hok⟩
            · exact hall s hs

/-- C33: every string that parse_string_ids appends to the string pool is a sequence of
pieces, each of them one character below 0x80 or an escape of a backslash, `u` and four
lowercase hexadecimal digits; so all its characters are below 0x80, whatever the bytes of the
file are and whether the function returns true or false. -/
theorem C33_pool_strings_hold_bytes_below_0x80 (dex : DexFile) (flag : Bool)
    (result : DexFile) (h : parse_string_ids dex = some (flag, result)) :
    ∃ added : List Str, result.strings_ = dex.strings_ ++ added ∧
      ∀ s ∈ added, (∀ c ∈ s, c.toNat < 0x80) ∧
        ∃ pieces : List Str, s = pieces.flatten ∧
          ∀ piece ∈ pieces, spec_pool_piece piece = true := by
  unfold parse_string_ids at h
  split_ifs at h with h0
  · simp only [Option.some.injEq, Prod.mk.injEq] at h
    rw [← h.2]
    exact ⟨[], by simp, fun _ hs => absurd hs (List.not_mem_nil _)⟩
  · simp only [Option.map_eq_some'] at h
    obtain ⟨r, hr, heq⟩ := h
    simp only [Prod.mk.injEq] at heq
    obtain ⟨added, hadded, hall⟩ := parse_string_ids_loop_pieces dex _ _ _ _ hr
    refine ⟨added, ?_, ?_⟩
    · rw [← heq.2]; exact hadded
    · intro s hs
      obtain ⟨pieces, hpieces, hok⟩ := hall s hs
      refine ⟨?_, pieces, hpieces, hok⟩
      intro c hc
      rw [hpieces, List.mem_flatten] at hc
      obtain ⟨piece, hpiece, hcp⟩ := hc
      exact spec_pool_piece_ascii piece (hok piece hpiece) c hcp

/-- Witness of C33: the string data 41 80 c3 a9 is stored as `A`, the escape of 0080 and the
escape of 00e9. -/
theorem C33_pool_strings_hold_bytes_below_0x80_witness :
    parse_string_ids dex_with_raw_string =
      some (true,
        ((parse_string_ids dex_with_raw_string).getD (false, dex_with_raw_string)).2) ∧
    (parse_string_ids dex_with_raw_string).map (fun r => (r.1, r.2.strings_)) =
      some (true, ["A".toList ++ [ch_backslash] ++ "u0080".toList ++ [ch_backslash] ++
        "u00e9".toList]) ∧
    ∃ added : List Str,
      ((parse_string_ids dex_with_raw_string).getD (false, dex_with_raw_string)).2.strings_ =
        dex_with_raw_string.strings_ ++ added ∧
      ∀ s ∈ added, (∀ c ∈ s, c.toNat < 0x80) ∧
        ∃ pieces : List Str, s = pieces.flatten ∧
          ∀ piece ∈ pieces, spec_pool_piece piece = true :=
  ⟨option_pair_of_fst_true _ _ (by decide), by decide,
    C33_pool_strings_hold_bytes_below_0x80 dex_with_raw_string true _
      (option_pair_of_fst_true _ _ (by decide))⟩

/-! The end of the loop of parse_instructions (dex_file.cpp) -/

/-- A decoded list has at most one instruction for every code unit from the offset on, and
the addresses of its instructions are at least the offset and increase. -/
theorem decoded_length_and_order (insns_size : Nat) :
    ∀ (l : List DexInstruction) (offset : Nat), Decoded insns_size offset l →
      offset + l.length ≤ max offset insns_size ∧
      (∀ x ∈ l, offset ≤ x.address ∧ x.address < insns_size) ∧
      l.Pairwise (fun a b => a.address < b.address) := by
  intro l
  induction l with
  | nil =>
    intro offset _
    exact ⟨by simp, fun _ h => absurd h (List.not_mem_nil _), List.Pairwise.nil⟩
  | cons i rest ih =>
    intro offset h
    obtain ⟨hlt, haddr, _, hrest⟩ := h
    obtain ⟨hlen, hmem, hpair⟩ := ih _ hrest
    have hw := (get_instruction_width_bounds i.opcode).1
    have hwidth : 1 ≤ i.width := hw
    refine ⟨?_, ?_, ?_⟩
    · rw [List.length_cons]
      have : max (offset + i.width) insns_size ≤ max offset insns_size + i.width := by
        omega
      omega
    · intro x hx
      rcases List.mem_cons.mp hx with rfl | hx
      · omega
      · have := hmem x hx
        omega
    · rw [List.pairwise_cons]
      refine ⟨?_, hpair⟩
      intro x hx
      have := hmem x hx
      omega

/-- With code units that all hold the opcode 0x13, whose width is 2, and the odd size
4294967295 the loop of parse_instructions does not end from an even offset, whatever the
fuel. -/
theorem parse_instructions_loop_wraps (dex : DexFile) :
    ∀ (fuel offset : Nat), offset % 2 = 0 → offset < 4294967296 →
      parse_instructions_loop dex (fun _ => 0x0013) 4294967295 fuel offset = none := by
  intro fuel
  induction fuel with
  | zero =>
    intro offset heven hlt
    simp only [parse_instructions_loop]
    rw [if_pos (by omega)]
  | succ fuel ih =>
    intro offset heven hlt
    have hwidth : get_instruction_width ((0x0013 % 65536) &&& 0xFF) = 2 := by decide
    simp only [parse_instructions_loop]
    rw [if_pos (by omega), hwidth, ih _ (by omega) (Nat.mod_lt _ (by norm_num))]
    rfl

/-- Counterexample to C39 as stated: with 4294967295 code units that all hold `const/16`
(opcode 0x13, width 2) the 32-bit offset goes from 4294967294 back to 0 and
parse_instructions does not return. -/
theorem C39_offset_wraps_around_and_the_loop_goes_on :
    get_instruction_width ((0x0013 % 65536) &&& 0xFF) = 2 ∧
    (4294967294 + 2) % 4294967296 = 0 ∧
    parse_instructions (dex_with_strings []) (fun _ => 0x0013) 4294967295 = none :=
  ⟨by decide, by decide,
    parse_instructions_loop_wraps (dex_with_strings []) _ 0 (by decide) (by decide)⟩

/-- C39 (amended): for insns_size up to 4294967291 (2^32 - 5) parse_instructions returns for
every code-unit buffer; it yields at most insns_size instructions, each at an address below
insns_size, and the addresses increase from one instruction to the next, because every width
is at least 1 and at most 5. -/
theorem C39_parse_instructions_returns_below_the_wrap (dex : DexFile) (insns : Nat → Nat)
    (insns_size : Nat) (hsz : insns_size + 4 < 4294967296) :
    (∀ opcode, 1 ≤ get_instruction_width opcode ∧ get_instruction_width opcode ≤ 5) ∧
    ∃ l, parse_instructions dex insns insns_size = some l ∧
      l.length ≤ insns_size ∧
      (∀ x ∈ l, x.address < insns_size) ∧
      l.Pairwise (fun a b => a.address < b.address) := by
  refine ⟨get_instruction_width_bounds, ?_⟩
  obtain ⟨l, hl, hd⟩ := parse_instructions_decoded dex insns insns_size hsz
  obtain ⟨hlen, hmem, hpair⟩ := decoded_length_and_order insns_size l 0 hd
  refine ⟨l, hl, ?_, fun x hx => (hmem x hx).2, hpair⟩
  simpa using hlen

/-- Witness of C39 (amended): the three code units of `add_and_return` give two instructions,
at the addresses 0 and 2. -/
theorem C39_parse_instructions_returns_below_the_wrap_witness :
    3 + 4 < 4294967296 ∧
    (parse_instructions (dex_with_strings []) add_and_return 3).map
      (fun l => l.map (fun i => i.address)) = some [0, 2] ∧
    ∃ l, parse_instructions (dex_with_strings []) add_and_return 3 = some l ∧
      l.length ≤ 3 ∧
      (∀ x ∈ l, x.address < 3) ∧
      l.Pairwise (fun a b => a.address < b.address) :=
  ⟨by decide, by decide,
    (C39_parse_instructions_returns_below_the_wrap (dex_with_strings []) add_and_return 3
      (by decide)).2⟩

/-! The merged method body (class_definition.cpp) -/

/-- An insertion from the right keeps the elements, whatever the comparison is. -/
theorem unguarded_linear_insert_perm {α : Type} (comp : α → α → Bool) (val : α) :
    ∀ rl : List α, (unguarded_linear_insert comp val rl).Perm (val :: rl) := by
  intro rl
  induction rl with
  | nil => exact List.Perm.refl _
  | cons next before ih =>
    unfold unguarded_linear_insert
    by_cases hc : comp val next = true
    · rw [if_pos hc]
      exact (List.Perm.cons next ih).trans (List.Perm.swap val next before)
    · rw [if_neg hc]

/-- One step of the insertion sort keeps the elements, whatever the comparison is. -/
theorem insertion_step_perm {α : Type} (comp : α → α → Bool) (sorted : List α) (val : α) :
    (insertion_step comp sorted val).Perm (sorted ++ [val]) := by
  cases sorted with
  | nil => exact List.Perm.refl _
  | cons first rest =>
    simp only [insertion_step]
    by_cases hc : comp val first = true
    · rw [if_pos hc]
      exact (List.perm_append_singleton val (first :: rest)).symm
    · rw [if_neg hc]
      have h1 := List.reverse_perm (unguarded_linear_insert comp val (first :: rest).reverse)
      have h2 := unguarded_linear_insert_perm comp val (first :: rest).reverse
      have h3 : (val :: (first :: rest).reverse).Perm ((first :: rest) ++ [val]) :=
        (List.Perm.cons val (List.reverse_perm _)).trans
          (List.perm_append_singleton val (first :: rest)).symm
      exact h1.trans (h2.trans h3)

/-- The insertion sort that stands for std::sort keeps the elements, whatever the comparison
is. -/
theorem std_sort_perm {α : Type} (comp : α → α → Bool) (l : List α) :
    (std_sort comp l).Perm l := by
  have h : ∀ (l acc : List α), (l.foldl (insertion_step comp) acc).Perm (acc ++ l) := by
    intro l
    induction l with
    | nil => intro acc; simp
    | cons val rest ih =>
      intro acc
      simp only [List.foldl_cons]
      have hstep := List.Perm.append_right rest (insertion_step_perm comp acc val)
      exact (ih _).trans (by simpa using hstep)
  have := h l []
  simpa [std_sort] using this

/-- An insertion from the right keeps a list in the order `le`, for a comparison that says
`true` only for pairs in the order `le` and `false` only for pairs in the opposite order. -/
theorem unguarded_linear_insert_ordered {α : Type} (comp : α → α → Bool)
    (le : α → α → Prop) (htrans : ∀ a b c, le a b → le b c → le a c)
    (htrue : ∀ a b, comp a b = true → le a b) (hfalse : ∀ a b, comp a b = false → le b a)
    (val : α) :
    ∀ rl : List α, rl.Pairwise (fun a b => le b a) →
      (unguarded_linear_insert comp val rl).Pairwise (fun a b => le b a) := by
  intro rl
  induction rl with
  | nil => intro _; exact List.pairwise_singleton _ _
  | cons next before ih =>
    intro hsorted
    rw [List.pairwise_cons] at hsorted
    obtain ⟨hhead, htail⟩ := hsorted
    unfold unguarded_linear_insert
    by_cases hc : comp val next = true
    · rw [if_pos hc, List.pairwise_cons]
      refine ⟨?_, ih htail⟩
      intro x hx
      have hx' := (unguarded_linear_insert_perm comp val before).mem_iff.mp hx
      rcases List.mem_cons.mp hx' with rfl | hxb
      · exact htrue _ _ hc
      · exact hhead x hxb
    · rw [if_neg hc, List.pairwise_cons]
      have hc' : comp val next = false := by simpa using hc
      refine ⟨?_, List.pairwise_cons.mpr ⟨hhead, htail⟩⟩
      intro x hx
      rcases List.mem_cons.mp hx with rfl | hxb
      · exact hfalse _ _ hc'
      · exact htrans _ _ _ (hhead x hxb) (hfalse _ _ hc')

/-- The insertion sort that stands for std::sort gives a list in the order `le`, for a
comparison that says `true` only for pairs in the order `le` and `false` only for pairs in
the opposite order. -/
theorem std_sort_ordered {α : Type} (comp : α → α → Bool) (le : α → α → Prop)
    (htrans : ∀ a b c, le a b → le b c → le a c)
    (htrue : ∀ a b, comp a b = true → le a b) (hfalse : ∀ a b, comp a b = false → le b a)
    (l : List α) : (std_sort comp l).Pairwise le := by
  have hstep : ∀ (sorted : List α) (val : α), sorted.Pairwise le →
      (insertion_step comp sorted val).Pairwise le := by
    intro sorted val hs
    cases sorted with
    | nil => exact List.pairwise_singleton _ _
    | cons first rest =>
      simp only [insertion_step]
      by_cases hc : comp val first = true
      · rw [if_pos hc, List.pairwise_cons]
        refine ⟨?_, hs⟩
        intro x hx
        rcases List.mem_cons.mp hx with rfl | hxr
        · exact htrue _ _ hc
        · exact htrans _ _ _ (htrue _ _ hc) ((List.pairwise_cons.mp hs).1 x hxr)
      · rw [if_neg hc]
        have hrev : (first :: rest).reverse.Pairwise (fun a b => le b a) :=
          List.pairwise_reverse.mpr hs
        have := unguarded_linear_insert_ordered comp le htrans htrue hfalse val _ hrev
        exact List.pairwise_reverse.mp (by simpa using this)
  have h : ∀ (l acc : List α), acc.Pairwise le →
      (l.foldl (insertion_step comp) acc).Pairwise le := by
    intro l
    induction l with
    | nil => intro acc hacc; exact hacc
    | cons val rest ih =>
      intro acc hacc
      exact ih _ (hstep acc val hacc)
  exact h l [] List.Pairwise.nil

/-- The order of the merged body is transitive. -/
theorem spec_item_le_trans (a b c : MethodItem) (h1 : spec_item_le a b)
    (h2 : spec_item_le b c) : spec_item_le a c := by
  unfold spec_item_le at *
  omega

/-- The comparison of write_method_code says `true` only for pairs in the order of the merged
body. -/
theorem method_item_less_true (a b : MethodItem) (h : method_item_less a b = true) :
    spec_item_le a b := by
  unfold method_item_less at h
  unfold spec_item_le
  split_ifs at h with h1 h2 h3
  · simp only [decide_eq_true_eq] at h; omega
  · simp only [decide_eq_true_eq] at h
    have h1' : a.address = b.address := by simpa using h1
    omega
  · have h1' : a.address = b.address := by simpa using h1
    have h2' : a.sort_order = b.sort_order := by simpa using h2
    omega

/-- The comparison of write_method_code says `false` only for pairs in the opposite order. -/
theorem method_item_less_false (a b : MethodItem) (h : method_item_less a b = false) :
    spec_item_le b a := by
  unfold method_item_less at h
  unfold spec_item_le
  split_ifs at h with h1 h2 h3
  · simp only [decide_eq_false_iff_not] at h; omega
  · simp only [decide_eq_false_iff_not] at h
    have h1' : a.address = b.address := by simpa using h1
    omega
  · have h1' : a.address = b.address := by simpa using h1
    have h2' : a.sort_order = b.sort_order := by simpa using h2
    omega
  · have h1' : a.address = b.address := by simpa using h1
    have h2' : a.sort_order = b.sort_order := by simpa using h2
    omega

/-- The sorted items of write_method_code are the pushed items in the order of the merged
body. -/
theorem sorted_method_items_ordered (method : DexMethod) (code : DexCode) :
    (sorted_method_items method code).Perm
      (instruction_items code ++ code.debug_items.map (debug_method_item method)) ∧
    (sorted_method_items method code).Pairwise spec_item_le :=
  ⟨std_sort_perm _ _,
    std_sort_ordered _ _ spec_item_le_trans method_item_less_true method_item_less_false _⟩

/-- The address and the sort order of the item of a debug item. -/
theorem debug_method_item_key (method : DexMethod) (d : DebugItem) :
    (debug_method_item method d).address = d.address ∧
    (debug_method_item method d).sort_order = spec_sort_order d := by
  cases d <;> exact ⟨rfl, rfl⟩

/-- The items of the instructions, with the indices of the loop spelled out. -/
theorem instruction_items_from (code : DexCode) :
    ∀ (l : List DexInstruction) (start : Nat),
      ((List.range' start l.length).zip l).flatMap (fun p =>
        [spec_instruction_item code p.2] ++
        (if p.1 ≠ start + l.length - 1 then [spec_blank_item p.2] else [])) =
      spec_merged_instructions code l := by
  intro l
  induction l with
  | nil => intro _; rfl
  | cons i rest ih =>
    intro start
    cases rest with
    | nil =>
      simp [List.range', spec_merged_instructions]
    | cons j rest =>
      have hlen : (i :: j :: rest).length = (j :: rest).length + 1 := rfl
      have hne : start ≠ start + ((j :: rest).length + 1) - 1 := by
        simp only [List.length_cons]; omega
      have hsame : start + ((j :: rest).length + 1) - 1 = start + 1 + (j :: rest).length - 1 := by
        omega
      rw [hlen, List.range'_succ, List.zip_cons_cons, List.flatMap_cons]
      simp only [if_pos hne, spec_merged_instructions]
      rw [hsame, ih (start + 1)]
      rfl

/-- The items that write_method_code pushes for the instructions are the instructions in
their order, each except the last followed by its blank line. -/
theorem instruction_items_eq (code : DexCode) :
    instruction_items code = spec_merged_instructions code code.instructions := by
  have := instruction_items_from code code.instructions 0
  rw [← this]
  unfold instruction_items
  rw [List.range_eq_range']
  simp only [Nat.zero_add]
  rfl

/-- Every item of the merged instructions belongs to an instruction of the list. -/
theorem spec_merged_instructions_mem (code : DexCode) :
    ∀ (l : List DexInstruction) (x : MethodItem), x ∈ spec_merged_instructions code l →
      ∃ i ∈ l, x = spec_instruction_item code i ∨ x = spec_blank_item i := by
  intro l
  induction l with
  | nil => intro x hx; simp [spec_merged_instructions] at hx
  | cons i rest ih =>
    intro x hx
    cases rest with
    | nil =>
      simp only [spec_merged_instructions, List.mem_singleton] at hx
      exact ⟨i, List.mem_cons_self _ _, Or.inl hx⟩
    | cons j rest =>
      simp only [spec_merged_instructions, List.mem_cons] at hx
      rcases hx with hx | hx | hx
      · exact ⟨i, List.mem_cons_self _ _, Or.inl hx⟩
      · exact ⟨i, List.mem_cons_self _ _, Or.inr hx⟩
      · obtain ⟨k, hk, hxk⟩ := ih x (by simpa [List.mem_cons] using hx)
        exact ⟨k, List.mem_cons_of_mem _ hk, hxk⟩

/-- The merged instructions of a list with increasing addresses are strictly in the order of
the merged body. -/
theorem spec_merged_instructions_ordered (code : DexCode) :
    ∀ l : List DexInstruction, l.Pairwise (fun a b => a.address < b.address) →
      (spec_merged_instructions code l).Pairwise spec_item_before := by
  intro l
  induction l with
  | nil => intro _; exact List.Pairwise.nil
  | cons i rest ih =>
    intro hinc
    rw [List.pairwise_cons] at hinc
    cases rest with
    | nil => exact List.pairwise_singleton _ _
    | cons j rest =>
      have hafter : ∀ x ∈ spec_merged_instructions code (j :: rest),
          i.address < x.address := by
        intro x hx
        obtain ⟨k, hk, hxk⟩ := spec_merged_instructions_mem code _ x hx
        have := hinc.1 k hk
        rcases hxk with rfl | rfl
        · exact this
        · exact this
      simp only [spec_merged_instructions]
      refine List.pairwise_cons.mpr ⟨?_, List.pairwise_cons.mpr ⟨?_, ih hinc.2⟩⟩
      · intro x hx
        rcases List.mem_cons.mp hx with rfl | hx
        · exact Or.inr ⟨rfl, show (100 : Int) < 101 by decide⟩
        · exact Or.inl (hafter x hx)
      · intro x hx
        exact Or.inl (hafter x hx)

/-- Two consecutive instructions: the item of the first and its blank line are among the
merged instructions, and so is the item of the second. -/
theorem spec_merged_instructions_consecutive (code : DexCode) :
    ∀ (l : List DexInstruction) (k : Nat) (a b : DexInstruction),
      l[k]? = some a → l[k + 1]? = some b →
      spec_instruction_item code a ∈ spec_merged_instructions code l ∧
      spec_blank_item a ∈ spec_merged_instructions code l ∧
      spec_instruction_item code b ∈ spec_merged_instructions code l := by
  intro l
  induction l with
  | nil => intro k a b ha; simp at ha
  | cons i rest ih =>
    intro k a b ha hb
    cases rest with
    | nil => simp at hb
    | cons j rest =>
      cases k with
      | zero =>
        simp only [List.getElem?_cons_zero, Option.some.injEq] at ha
        simp only [List.getElem?_cons_succ, List.getElem?_cons_zero, Option.some.injEq] at hb
        subst ha hb
        have hj : spec_instruction_item code j ∈ spec_merged_instructions code (j :: rest) := by
          cases rest <;> simp [spec_merged_instructions]
        simp only [spec_merged_instructions, List.mem_cons, true_or, or_true, true_and]
        exact Or.inr (Or.inr hj)
      | succ k =>
        rw [List.getElem?_cons_succ] at ha hb
        obtain ⟨h1, h2, h3⟩ := ih k a b ha hb
        simp only [spec_merged_instructions, List.mem_cons]
        exact ⟨Or.inr (Or.inr h1), Or.inr (Or.inr h2), Or.inr (Or.inr h3)⟩

/-- The item of an instruction of the list is among the merged instructions. -/
theorem spec_instruction_item_mem (code : DexCode) :
    ∀ (l : List DexInstruction) (i : DexInstruction), i ∈ l →
      spec_instruction_item code i ∈ spec_merged_instructions code l := by
  intro l
  induction l with
  | nil => intro i hi; simp at hi
  | cons j rest ih =>
    intro i hi
    cases rest with
    | nil =>
      simp only [List.mem_singleton] at hi
      subst hi
      simp [spec_merged_instructions]
    | cons j2 rest =>
      rcases List.mem_cons.mp hi with rfl | hi
      · simp [spec_merged_instructions]
      · simp only [spec_merged_instructions, List.mem_cons]
        exact Or.inr (Or.inr (ih i hi))

/-- An item that lies strictly before another item of a list in the order of the merged body
stands in front of it, and not behind it. -/
theorem before_is_in_front (l A B : List MethodItem) (x y : MethodItem)
    (hpair : l.Pairwise spec_item_le) (hl : l = A ++ x :: B) (hy : y ∈ l)
    (hbefore : spec_item_before y x) : y ∈ A ∧ y ∉ B := by
  subst hl
  rw [List.pairwise_append, List.pairwise_cons] at hpair
  have hB : y ∉ B := by
    intro hyB
    have := hpair.2.1.1 y hyB
    unfold spec_item_le at this
    unfold spec_item_before at hbefore
    omega
  refine ⟨?_, hB⟩
  rcases List.mem_append.mp hy with h | h
  · exact h
  · rcases List.mem_cons.mp h with rfl | h
    · unfold spec_item_before at hbefore; omega
    · exact absurd h hB

/-- An item that lies strictly after another item of a list in the order of the merged body
stands behind it, and not in front of it. -/
theorem after_is_behind (l A B : List MethodItem) (x y : MethodItem)
    (hpair : l.Pairwise spec_item_le) (hl : l = A ++ x :: B) (hy : y ∈ l)
    (hafter : spec_item_before x y) : y ∈ B ∧ y ∉ A := by
  subst hl
  rw [List.pairwise_append, List.pairwise_cons] at hpair
  have hA : y ∉ A := by
    intro hyA
    have := hpair.2.2 y hyA x (List.mem_cons_self _ _)
    unfold spec_item_le at this
    unfold spec_item_before at hafter
    omega
  refine ⟨?_, hA⟩
  rcases List.mem_append.mp hy with h | h
  · exact absurd h hA
  · rcases List.mem_cons.mp h with rfl | h
    · unfold spec_item_before at hafter; omega
    · exact h

/-- Instructions with increasing addresses are told apart by their addresses. -/
theorem instruction_of_address (l : List DexInstruction)
    (hinc : l.Pairwise (fun a b => a.address < b.address)) (i j : DexInstruction)
    (hi : i ∈ l) (hj : j ∈ l) (h : i.address = j.address) : i = j := by
  by_contra hne
  have hsym : l.Pairwise (fun a b => a.address < b.address ∨ b.address < a.address) :=
    hinc.imp (fun h => Or.inl h)
  have := List.Pairwise.forall (fun a b h => Or.symm h) hsym hi hj hne
  omega

/-- The sort order of a debug item is negative. -/
theorem spec_sort_order_neg (d : DebugItem) : spec_sort_order d < 0 := by
  cases d <;> simp [spec_sort_order]

/-- The items with a sort order of at least 100 are the merged instructions: among the sorted
items of write_method_code the instructions keep their order, each except the last followed
by its blank line. -/
theorem sorted_method_items_instructions (method : DexMethod) (code : DexCode)
    (hinc : code.instructions.Pairwise (fun a b => a.address < b.address)) :
    (sorted_method_items method code).filter (fun item => decide (100 ≤ item.sort_order)) =
      spec_merged_instructions code code.instructions := by
  obtain ⟨hperm, hpair⟩ := sorted_method_items_ordered method code
  have hstrict := spec_merged_instructions_ordered code code.instructions hinc
  have hfilter : (instruction_items code ++
      code.debug_items.map (debug_method_item method)).filter
        (fun item => decide (100 ≤ item.sort_order)) =
      spec_merged_instructions code code.instructions := by
    rw [List.filter_append, instruction_items_eq]
    have h1 : (spec_merged_instructions code code.instructions).filter
        (fun item => decide (100 ≤ item.sort_order)) =
        spec_merged_instructions code code.instructions := by
      rw [List.filter_eq_self]
      intro x hx
      obtain ⟨i, _, hxi⟩ := spec_merged_instructions_mem code _ x hx
      rcases hxi with rfl | rfl <;> simp [spec_instruction_item, spec_blank_item]
    have h2 : (code.debug_items.map (debug_method_item method)).filter
        (fun item => decide (100 ≤ item.sort_order)) = [] := by
      rw [List.filter_eq_nil_iff]
      intro x hx
      obtain ⟨d, _, rfl⟩ := List.mem_map.mp hx
      have := spec_sort_order_neg d
      rw [(debug_method_item_key method d).2]
      simp only [decide_eq_true_eq]
      omega
    rw [h1, h2, List.append_nil]
  have hperm2 := (hperm.filter (fun item => decide (100 ≤ item.sort_order)))
  rw [hfilter] at hperm2
  refine List.Perm.eq_of_sorted ?_ (hpair.filter _) (hstrict.imp ?_) hperm2
  · intro a b ha hb hab hba
    have ha' : a ∈ spec_merged_instructions code code.instructions := hperm2.mem_iff.mp ha
    by_contra hne
    have hsym : (spec_merged_instructions code code.instructions).Pairwise
        (fun a b => spec_item_before a b ∨ spec_item_before b a) :=
      hstrict.imp (fun h => Or.inl h)
    have := List.Pairwise.forall (fun a b h => Or.symm h) hsym ha' hb hne
    unfold spec_item_le at hab hba
    unfold spec_item_before at this
    omega
  · intro a b h
    unfold spec_item_before at h
    unfold spec_item_le
    omega

/-- Among the sorted items of write_method_code the item of an instruction that is not the
last one is immediately followed by its blank line. -/
theorem sorted_method_items_blank_follows (method : DexMethod) (code : DexCode)
    (hinc : code.instructions.Pairwise (fun a b => a.address < b.address))
    (k : Nat) (a b : DexInstruction) (ha : code.instructions[k]? = some a)
    (hb : code.instructions[k + 1]? = some b) :
    ∃ A B, sorted_method_items method code =
      A ++ spec_instruction_item code a :: spec_blank_item a :: B := by
  obtain ⟨hperm, hpair⟩ := sorted_method_items_ordered method code
  have hfilter := sorted_method_items_instructions method code hinc
  have hstrict := spec_merged_instructions_ordered code code.instructions hinc
  obtain ⟨hia, hba, _⟩ := spec_merged_instructions_consecutive code _ k a b ha hb
  have hmem : ∀ x, x ∈ spec_merged_instructions code code.instructions →
      x ∈ sorted_method_items method code := by
    intro x hx
    rw [← hfilter] at hx
    exact (List.mem_filter.mp hx).1
  obtain ⟨A, R, hsplit⟩ := List.append_of_mem (hmem _ hia)
  have hbaR := (after_is_behind _ A R _ (spec_blank_item a) hpair hsplit (hmem _ hba)
    (Or.inr ⟨rfl, show (100 : Int) < 101 by decide⟩)).1
  cases R with
  | nil => simp at hbaR
  | cons y R' =>
    have hyeq : y = spec_blank_item a := by
      by_contra hy
      have hpair' := hpair
      rw [hsplit, List.pairwise_append, List.pairwise_cons, List.pairwise_cons] at hpair'
      have hle1 : spec_item_le (spec_instruction_item code a) y :=
        hpair'.2.1.1 y (List.mem_cons_self _ _)
      have hle2 : spec_item_le y (spec_blank_item a) := by
        rcases List.mem_cons.mp hbaR with h | h
        · exact absurd h.symm hy
        · exact hpair'.2.1.2.1 _ h
      have haddr : y.address = a.address ∧ 100 ≤ y.sort_order := by
        unfold spec_item_le at hle1 hle2
        simp only [spec_instruction_item, spec_blank_item] at hle1 hle2
        omega
      have hyall : y ∈ instruction_items code ++
          code.debug_items.map (debug_method_item method) :=
        hperm.mem_iff.mp (by rw [hsplit]; simp)
      rw [instruction_items_eq] at hyall
      rcases List.mem_append.mp hyall with h | h
      · obtain ⟨i, hi, hyi⟩ := spec_merged_instructions_mem code _ y h
        have hia' : i = a := by
          apply instruction_of_address _ hinc i a hi (List.mem_iff_getElem?.mpr ⟨k, ha⟩)
          rcases hyi with rfl | rfl
          · exact haddr.1
          · exact haddr.1
        subst hia'
        rcases hyi with rfl | rfl
        · have hnodup : (spec_merged_instructions code code.instructions).Nodup :=
            hstrict.imp (fun {x z} h => by
              intro hxz
              subst hxz
              unfold spec_item_before at h
              omega)
          rw [← hfilter, hsplit, List.filter_append,
            List.filter_cons_of_pos (by simp [spec_instruction_item]),
            List.filter_cons_of_pos (by simp [spec_instruction_item])] at hnodup
          have := (List.nodup_append.mp hnodup).2.1
          rw [List.nodup_cons] at this
          exact this.1 (List.mem_cons_self _ _)
        · exact hy rfl
      · obtain ⟨d, _, rfl⟩ := List.mem_map.mp h
        have := spec_sort_order_neg d
        rw [(debug_method_item_key method d).2] at haddr
        omega
    exact ⟨A, R', by rw [hsplit, hyeq]⟩

/-- C36: for instructions with increasing addresses the items that write_method_code writes
when it merges debug items are the pushed items, sorted by address and then by sort order,
where a debug item has the sort order of the specification (-4 for .prologue and .epilogue,
-3 for .source, -2 for .line, -1 for the three kinds of local items).  So a debug item at the
address of an instruction stands before that instruction and after the blank line of the
preceding instruction, debug items of one address stand in the order of their sort orders,
the instructions keep their order, and each instruction except the last is immediately
followed by its blank line. -/
theorem C36_debug_items_are_merged_before_their_instruction (method : DexMethod)
    (code : DexCode)
    (hinc : code.instructions.Pairwise (fun a b => a.address < b.address)) :
    (sorted_method_items method code).Perm
      (spec_merged_instructions code code.instructions ++
        code.debug_items.map (debug_method_item method)) ∧
    (sorted_method_items method code).Pairwise spec_item_le ∧
    (∀ d, (debug_method_item method d).address = d.address ∧
      (debug_method_item method d).sort_order = spec_sort_order d) ∧
    (∀ d ∈ code.debug_items, ∀ i ∈ code.instructions, d.address = i.address →
      ∀ A B, sorted_method_items method code = A ++ debug_method_item method d :: B →
        spec_instruction_item code i ∈ B ∧ spec_instruction_item code i ∉ A) ∧
    (∀ d ∈ code.debug_items, ∀ k a b, code.instructions[k]? = some a →
      code.instructions[k + 1]? = some b → d.address = b.address →
      ∀ A B, sorted_method_items method code = A ++ debug_method_item method d :: B →
        spec_blank_item a ∈ A ∧ spec_blank_item a ∉ B) ∧
    (∀ d1 ∈ code.debug_items, ∀ d2 ∈ code.debug_items, d1.address = d2.address →
      spec_sort_order d1 < spec_sort_order d2 →
      ∀ A B, sorted_method_items method code = A ++ debug_method_item method d2 :: B →
        debug_method_item method d1 ∈ A ∧ debug_method_item method d1 ∉ B) ∧
    (sorted_method_items method code).filter (fun item => decide (100 ≤ item.sort_order)) =
      spec_merged_instructions code code.instructions ∧
    (∀ k a b, code.instructions[k]? = some a → code.instructions[k + 1]? = some b →
      ∃ A B, sorted_method_items method code =
        A ++ spec_instruction_item code a :: spec_blank_item a :: B) := by
  obtain ⟨hperm, hpair⟩ := sorted_method_items_ordered method code
  rw [instruction_items_eq] at hperm
  have hdebug : ∀ d ∈ code.debug_items,
      debug_method_item method d ∈ sorted_method_items method code := by
    intro d hd
    exact hperm.mem_iff.mpr (List.mem_append_right _ (List.mem_map_of_mem _ hd))
  have hinstr : ∀ x ∈ spec_merged_instructions code code.instructions,
      x ∈ sorted_method_items method code := by
    intro x hx
    exact hperm.mem_iff.mpr (List.mem_append_left _ hx)
  refine ⟨hperm, hpair, debug_method_item_key method, ?_, ?_, ?_,
    sorted_method_items_instructions method code hinc,
    sorted_method_items_blank_follows method code hinc⟩
  · intro d _ i hi haddr A B hsplit
    refine after_is_behind _ A B _ _ hpair hsplit
      (hinstr _ (spec_instruction_item_mem code _ i hi)) ?_
    have hkey := debug_method_item_key method d
    have hneg := spec_sort_order_neg d
    unfold spec_item_before
    simp only [spec_instruction_item, hkey.1, hkey.2]
    omega
  · intro d _ k a b ha hb haddr A B hsplit
    have hmem := (spec_merged_instructions_consecutive code _ k a b ha hb).2.1
    refine before_is_in_front _ A B _ _ hpair hsplit (hinstr _ hmem) ?_
    have hkey := debug_method_item_key method d
    have hlt : a.address < b.address := by
      have := List.pairwise_iff_getElem.mp hinc k (k + 1)
        (by
          rcases List.getElem?_eq_some.mp ha with ⟨h, _⟩
          exact h)
        (by
          rcases List.getElem?_eq_some.mp hb with ⟨h, _⟩
          exact h) (by omega)
      rcases List.getElem?_eq_some.mp ha with ⟨h1, e1⟩
      rcases List.getElem?_eq_some.mp hb with ⟨h2, e2⟩
      rw [e1, e2] at this
      exact this
    unfold spec_item_before
    simp only [spec_blank_item, hkey.1]
    omega
  · intro d1 hd1 d2 _ haddr horder A B hsplit
    refine before_is_in_front _ A B _ _ hpair hsplit (hdebug d1 hd1) ?_
    have hkey1 := debug_method_item_key method d1
    have hkey2 := debug_method_item_key method d2
    unfold spec_item_before
    rw [hkey1.1, hkey1.2, hkey2.1, hkey2.2]
    omega

/-- Witness of C36: the method body of `code_with_debug_items`, whose debug items are given
in another order. -/
theorem C36_debug_items_are_merged_before_their_instruction_witness :
    code_with_debug_items.instructions.Pairwise (fun a b => a.address < b.address) ∧
    write_method_code true (method_with_code ACC_PUBLIC code_with_debug_items) =
      "    .registers 3\n\n    .line 7\n    add-int v0, v1, v2\n\n    .prologue\n".toList ++
      "    .source ".toList ++ [ch_dquote] ++ "A.java".toList ++ [ch_dquote] ++
      "\n    .line 1\n    .local v0, ".toList ++ [ch_dquote] ++ "i".toList ++ [ch_dquote] ++
      ":I\n    return v0\n".toList ∧
    (sorted_method_items (method_with_code ACC_PUBLIC code_with_debug_items)
      code_with_debug_items).Pairwise spec_item_le ∧
    (sorted_method_items (method_with_code ACC_PUBLIC code_with_debug_items)
      code_with_debug_items).filter (fun item => decide (100 ≤ item.sort_order)) =
      spec_merged_instructions code_with_debug_items code_with_debug_items.instructions :=
  ⟨by decide, by decide,
    (C36_debug_items_are_merged_before_their_instruction
      (method_with_code ACC_PUBLIC code_with_debug_items) code_with_debug_items
      (by decide)).2.1,
    (C36_debug_items_are_merged_before_their_instruction
      (method_with_code ACC_PUBLIC code_with_debug_items) code_with_debug_items
      (by decide)).2.2.2.2.2.2.1⟩

/-! The line directive (class_definition.cpp) -/

/-- C32: a LineNumber item with the raw line L among the debug items of a method is written
in the method body as the line `.line N`, where N is L when L is at most 10000 and
(L mod 1000) + 1 otherwise; N is never more than 10000. -/
theorem C32_line_directive_shows_a_normalised_number (method : DexMethod) (code : DexCode)
    (address line_number : Nat) (hcode : method.code = some code)
    (hmem : DebugItem.LineNumber address line_number ∈ code.debug_items) :
    (debug_method_item method (DebugItem.LineNumber address line_number)).text =
      "    .line ".toList ++ to_string (spec_shown_line line_number) ∧
    (∃ before after, write_method_code true method =
      before ++ "    .line ".toList ++ to_string (spec_shown_line line_number) ++
        "\n".toList ++ after) ∧
    spec_shown_line line_number ≤ 10000 ∧
    (line_number ≤ 10000 → spec_shown_line line_number = line_number) ∧
    (10000 < line_number → spec_shown_line line_number = line_number % 1000 + 1) := by
  have htext : (debug_method_item method (DebugItem.LineNumber address line_number)).text =
      "    .line ".toList ++ to_string (spec_shown_line line_number) := by
    simp only [debug_method_item, spec_shown_line]
    by_cases h : line_number ≤ 10000
    · rw [if_neg (by omega), if_pos h]
    · rw [if_pos (by omega), if_neg h]
  refine ⟨htext, ?_, ?_, ?_, ?_⟩
  · have hitem : debug_method_item method (DebugItem.LineNumber address line_number) ∈
        sorted_method_items method code :=
      (sorted_method_items_ordered method code).1.mem_iff.mpr
        (List.mem_append_right _ (List.mem_map_of_mem _ hmem))
    obtain ⟨A, B, hsplit⟩ := List.append_of_mem hitem
    have hne : code.debug_items.isEmpty = false := by
      cases hd : code.debug_items with
      | nil => rw [hd] at hmem; simp at hmem
      | cons _ _ => rfl
    refine ⟨"    .registers ".toList ++ to_string code.registers_size ++ "\n".toList ++
      "\n".toList ++ (A.map (fun item => item.text ++ "\n".toList)).flatten,
      (B.map (fun item => item.text ++ "\n".toList)).flatten, ?_⟩
    simp only [write_method_code, hcode, hne, and_self, if_true, hsplit, List.map_append,
      List.map_cons, List.flatten_append, List.flatten_cons, htext, List.append_assoc]
  · unfold spec_shown_line
    split_ifs <;> omega
  · intro h
    unfold spec_shown_line
    rw [if_pos h]
  · intro h
    unfold spec_shown_line
    rw [if_neg (by omega)]

/-- Witness of C32: the raw lines 12345 and 10000 are written as `.line 346` and
`.line 10000`. -/
theorem C32_line_directive_shows_a_normalised_number_witness :
    (method_with_code ACC_PUBLIC code_with_lines).code = some code_with_lines ∧
    DebugItem.LineNumber 0 12345 ∈ code_with_lines.debug_items ∧
    write_method_code true (method_with_code ACC_PUBLIC code_with_lines) =
      "    .registers 1\n\n    .line 346\n    .line 10000\n    return-void\n".toList ∧
    to_string (spec_shown_line 12345) = "346".toList ∧
    (debug_method_item (method_with_code ACC_PUBLIC code_with_lines)
      (DebugItem.LineNumber 0 12345)).text =
      "    .line ".toList ++ to_string (spec_shown_line 12345) :=
  ⟨rfl, by decide, by decide, by decide,
    (C32_line_directive_shows_a_normalised_number (method_with_code ACC_PUBLIC code_with_lines)
      code_with_lines 0 12345 rfl (by decide)).1⟩

/-! Distinct output file names (baksmali.cpp) -/

/-- The digit characters of the decimal digits. -/
theorem digitChar_decimal : ∀ m < 10, Nat.digitChar m ∈ "0123456789".toList ∧
    (Nat.digitChar m).toNat - '0'.toNat = m := by
  decide

/-- The decimal digits that toDigitsCore puts in front of the digits it was given: they are
digit characters and stand for the number. -/
theorem toDigitsCore_decimal :
    ∀ (fuel n : Nat) (ds : List Char), n < fuel →
      ∃ front : List Char, Nat.toDigitsCore 10 fuel n ds = front ++ ds ∧
        (∀ c ∈ front, c ∈ "0123456789".toList) ∧ spec_value front = n := by
  intro fuel
  induction fuel with
  | zero => intro n ds h; omega
  | succ fuel ih =>
    intro n ds hn
    obtain ⟨hmem, hval⟩ := digitChar_decimal (n % 10) (Nat.mod_lt _ (by decide))
    by_cases h0 : n / 10 = 0
    · refine ⟨[Nat.digitChar (n % 10)], ?_, ?_, ?_⟩
      · simp [Nat.toDigitsCore, h0]
      · intro c hc
        rw [List.mem_singleton] at hc
        rw [hc]
        exact hmem
      · simp only [spec_value, List.foldl_cons, List.foldl_nil]
        omega
    · obtain ⟨front, hfront, hall, hvalue⟩ :=
        ih (n / 10) (Nat.digitChar (n % 10) :: ds) (by omega)
      refine ⟨front ++ [Nat.digitChar (n % 10)], ?_, ?_, ?_⟩
      · simp [Nat.toDigitsCore, h0, hfront]
      · intro c hc
        rcases List.mem_append.mp hc with h | h
        · exact hall c h
        · rw [List.mem_singleton] at h
          rw [h]
          exact hmem
      · unfold spec_value at hvalue ⊢
        rw [List.foldl_append, hvalue]
        simp only [List.foldl_cons, List.foldl_nil]
        omega

/-- The decimal digits of a number are digit characters and stand for the number. -/
theorem toDigits_decimal (n : Nat) :
    (∀ c ∈ Nat.toDigits 10 n, c ∈ "0123456789".toList) ∧
      spec_value (Nat.toDigits 10 n) = n := by
  obtain ⟨front, hfront, hall, hvalue⟩ := toDigitsCore_decimal (n + 1) n [] (by omega)
  unfold Nat.toDigits
  rw [hfront, List.append_nil]
  exact ⟨hall, hvalue⟩

/-- The function tolower leaves the decimal digits and the characters of `.smali` as they
are. -/
theorem tolower_fixed : ∀ c ∈ "0123456789.smali".toList, tolower c = c := by
  decide

/-- The function tolower gives a dot for a dot only. -/
theorem tolower_dot (c : Char) (h : tolower c = '.') : c = '.' := by
  unfold tolower at h
  split_ifs at h with hc
  · exfalso
    have hrange : ∀ m < 123, 97 ≤ m → Char.ofNat m ≠ '.' := by decide
    have h1 : 'A'.toNat = 65 := by decide
    have h2 : 'Z'.toNat = 90 := by decide
    exact hrange (c.toNat + 32) (by omega) (by omega) h
  · exact h

/-- A text without a dot has no dot in lower case. -/
theorem lower_no_dot (s : Str) (h : '.' ∉ s) : '.' ∉ s.map tolower := by
  intro hmem
  obtain ⟨c, hc, hlow⟩ := List.mem_map.mp hmem
  rw [tolower_dot c hlow] at hc
  exact h hc

/-- Two texts that are cut at their first dot are equal part by part. -/
theorem first_dot_split : ∀ (a b x y : Str), '.' ∉ a → '.' ∉ b →
    a ++ '.' :: x = b ++ '.' :: y → a = b ∧ x = y := by
  intro a
  induction a with
  | nil =>
    intro b x y _ hb h
    cases b with
    | nil => simpa using h
    | cons c b =>
      simp only [List.nil_append, List.cons_append, List.cons.injEq] at h
      exact absurd (h.1 ▸ List.mem_cons_self _ _) hb
  | cons c a ih =>
    intro b x y ha hb h
    cases b with
    | nil =>
      simp only [List.nil_append, List.cons_append, List.cons.injEq] at h
      exact absurd (h.1 ▸ List.mem_cons_self _ _) ha
    | cons c2 b =>
      simp only [List.cons_append, List.cons.injEq] at h
      obtain ⟨hab, hxy⟩ := ih b x y (fun hm => ha (List.mem_cons_of_mem _ hm))
        (fun hm => hb (List.mem_cons_of_mem _ hm)) h.2
      exact ⟨by rw [h.1, hab], hxy⟩

/-- The base file name of a descriptor is a stem and `.smali`; the stem of a descriptor
without a dot has no dot. -/
theorem get_output_filename_stem (d : Str) :
    ∃ stem : Str, get_output_filename d = stem ++ ".smali".toList ∧
      ('.' ∉ d → '.' ∉ stem) := by
  have hmap : ∀ l : Str, l.map (fun c => if c = '/' then preferred_separator else c) = l := by
    intro l
    induction l with
    | nil => rfl
    | cons c cs ih =>
      rw [List.map_cons, ih]
      by_cases hc : c = '/'
      · simp [hc, preferred_separator]
      · simp [hc]
  unfold get_output_filename
  simp only [hmap]
  split_ifs with h
  · refine ⟨_, rfl, ?_⟩
    intro hd hmem
    exact hd (List.mem_of_mem_drop (List.mem_of_mem_take hmem))
  · exact ⟨d, rfl, fun hd => hd⟩

/-- The name with the number k of a base name with the stem `stem`. -/
theorem spec_suffixed_name_stem (stem : Str) (k : Nat) :
    spec_suffixed_name (stem ++ ".smali".toList) k =
      stem ++ '.' :: (Nat.toDigits 10 k ++ ".smali".toList) := by
  unfold spec_suffixed_name
  have hlen : (stem ++ ".smali".toList).length - ".smali".length = stem.length := by
    have h6 : ".smali".length = 6 := by decide
    have h6l : ".smali".toList.length = 6 := by decide
    rw [List.length_append, h6, h6l]
    omega
  rw [hlen, List.take_left' rfl]
  simp

/-- The function unique_output_filenames returns one name for every descriptor. -/
theorem unique_output_filenames_length :
    ∀ (ds : List Str) (counters : Str → Option Int),
      (unique_output_filenames counters ds).length = ds.length := by
  intro ds
  induction ds with
  | nil => intro _; rfl
  | cons d ds ih =>
    intro counters
    simp only [unique_output_filenames, List.length_cons, ih]

/-- A text of digits and characters of `.smali` is its own lower case. -/
theorem map_tolower_fixed (s : Str) (h : ∀ c ∈ s, c ∈ "0123456789.smali".toList) :
    s.map tolower = s := by
  induction s with
  | nil => rfl
  | cons c cs ih =>
    rw [List.map_cons, tolower_fixed c (h c (List.mem_cons_self _ _)),
      ih (fun x hx => h x (List.mem_cons_of_mem _ hx))]

/-- The decimal digits of a number, followed by `.smali`, are their own lower case. -/
theorem digits_smali_lower (k : Nat) :
    (Nat.toDigits 10 k ++ ".smali".toList).map tolower = Nat.toDigits 10 k ++ ".smali".toList := by
  apply map_tolower_fixed
  intro c hc
  have hdigit : ∀ x ∈ "0123456789".toList, x ∈ "0123456789.smali".toList := by decide
  have hsmali : ∀ x ∈ ".smali".toList, x ∈ "0123456789.smali".toList := by decide
  rcases List.mem_append.mp hc with h | h
  · exact hdigit c ((toDigits_decimal k).1 c h)
  · exact hsmali c h

/-- A longer beginning of a list has at least as many elements with a property, and one more
when the element after the shorter beginning has the property. -/
theorem countP_take_lt {α : Type} (p : α → Bool) (l : List α) (i j : Nat) (hij : i < j)
    (x : α) (hx : l[i]? = some x) (hp : p x = true) :
    (l.take i).countP p + 1 ≤ (l.take j).countP p := by
  have hsub : (l.take (i + 1)).Sublist (l.take j) := by
    have : l.take (i + 1) = (l.take j).take (i + 1) := by
      rw [List.take_take, Nat.min_eq_left (by omega)]
    rw [this]
    exact List.take_sublist _ _
  have hle := hsub.countP_le p
  have hsucc : l.take (i + 1) = l.take i ++ [x] := by
    rw [List.take_succ, hx]
    rfl
  rw [hsucc, List.countP_append, List.countP_cons_of_pos _ _ hp, List.countP_nil] at hle
  omega

/-- Counterexample to C31 as stated: for the descriptors `La;`, `La;` and `La.1;` the second
and the third call return the same file name `a.1.smali`. -/
theorem C31_numbered_name_meets_a_later_base_name :
    unique_output_filenames (fun _ => none) ["La;".toList, "La;".toList, "La.1;".toList] =
      ["a.smali".toList, "a.1.smali".toList, "a.1.smali".toList] := by
  decide

/-- C31 (amended): for fewer than 2^31 class descriptors none of which holds a dot, the file
names that successive calls of get_unique_output_filename return, starting from the empty
map, are pairwise distinct also when upper and lower case are not told apart. -/
theorem C31_names_of_descriptors_without_dots_are_distinct (class_descriptors : List Str)
    (hlen : class_descriptors.length < 2147483648)
    (hdot : ∀ d ∈ class_descriptors, '.' ∉ d) :
    (unique_output_filenames (fun _ => none) class_descriptors).Pairwise
      (fun a b => a.map tolower ≠ b.map tolower) := by
  have hspec := unique_output_filenames_spec class_descriptors [] (fun _ => none)
    (fun key => by simp) (by simpa using hlen)
  have hsmali : ".smali".toList = '.' :: "smali".toList := by decide
  have hdotlow : tolower '.' = '.' := by decide
  have hsmalilow : "smali".toList.map tolower = "smali".toList := by decide
  -- the name of call i, in lower case, cut at its first dot
  have hname : ∀ i (hi : i < class_descriptors.length),
      ∃ stem rest : Str, '.' ∉ stem.map tolower ∧
        ((unique_output_filenames (fun _ => none) class_descriptors)[i]?.map
          (fun name => name.map tolower)) = some (stem.map tolower ++ '.' :: rest) ∧
        (get_output_filename (class_descriptors.getD i [])).map tolower =
          stem.map tolower ++ ".smali".toList ∧
        ((spec_earlier_collisions (class_descriptors.take i) (class_descriptors.getD i []) = 0 ∧
            rest = "smali".toList) ∨
          (spec_earlier_collisions (class_descriptors.take i)
              (class_descriptors.getD i []) ≠ 0 ∧
            rest = Nat.toDigits 10 (spec_earlier_collisions (class_descriptors.take i)
              (class_descriptors.getD i [])) ++ ".smali".toList)) := by
    intro i hi
    have hmem : class_descriptors.getD i [] ∈ class_descriptors := by
      rw [List.getD_eq_getElem _ _ hi]
      exact List.getElem_mem _
    obtain ⟨stem, hstem, hnodot⟩ := get_output_filename_stem (class_descriptors.getD i [])
    have hkey : (get_output_filename (class_descriptors.getD i [])).map tolower =
        stem.map tolower ++ ".smali".toList := by
      rw [hstem, List.map_append]
      congr 1
    refine ⟨stem,
      (if spec_earlier_collisions (class_descriptors.take i)
          (class_descriptors.getD i []) = 0 then "smali".toList
        else Nat.toDigits 10 (spec_earlier_collisions (class_descriptors.take i)
          (class_descriptors.getD i [])) ++ ".smali".toList),
      lower_no_dot stem (hnodot (hdot _ hmem)), ?_, hkey, ?_⟩
    · rw [hspec i hi, List.nil_append, Option.map_some']
      congr 1
      by_cases hk : spec_earlier_collisions (class_descriptors.take i)
          (class_descriptors.getD i []) = 0
      · rw [if_pos hk, if_pos hk, hstem, hsmali, List.map_append, List.map_cons, hdotlow,
          hsmalilow]
      · rw [if_neg hk, if_neg hk, hstem, spec_suffixed_name_stem, List.map_append,
          List.map_cons, hdotlow, digits_smali_lower]
    · by_cases hk : spec_earlier_collisions (class_descriptors.take i)
          (class_descriptors.getD i []) = 0
      · exact Or.inl ⟨hk, by rw [if_pos hk]⟩
      · exact Or.inr ⟨hk, by rw [if_neg hk]⟩
  rw [List.pairwise_iff_getElem]
  intro i j hi hj hij heq
  have hi' : i < class_descriptors.length := by
    rwa [unique_output_filenames_length] at hi
  have hj' : j < class_descriptors.length := by
    rwa [unique_output_filenames_length] at hj
  obtain ⟨si, ri, hnoi, houti, hkeyi, hri⟩ := hname i hi'
  obtain ⟨sj, rj, hnoj, houtj, hkeyj, hrj⟩ := hname j hj'
  rw [List.getElem?_eq_getElem hi, Option.map_some', Option.some.injEq] at houti
  rw [List.getElem?_eq_getElem hj, Option.map_some', Option.some.injEq] at houtj
  rw [houti, houtj] at heq
  obtain ⟨hstems, hrests⟩ := first_dot_split _ _ _ _ hnoi hnoj heq
  have hkeys : (get_output_filename (class_descriptors.getD i [])).map tolower =
      (get_output_filename (class_descriptors.getD j [])).map tolower := by
    rw [hkeyi, hkeyj, hstems]
  have hcount : spec_earlier_collisions (class_descriptors.take i)
        (class_descriptors.getD i []) + 1 ≤
      spec_earlier_collisions (class_descriptors.take j) (class_descriptors.getD j []) := by
    unfold spec_earlier_collisions
    rw [hkeys]
    apply countP_take_lt _ _ i j hij (class_descriptors.getD i [])
    · rw [List.getD_eq_getElem _ _ hi', List.getElem?_eq_getElem hi']
    · rw [hkeys]
      exact beq_self_eq_true _
  have h5 : "smali".toList.length = 5 := by decide
  have h6 : ".smali".toList.length = 6 := by decide
  rcases hrj with ⟨hkj, _⟩ | ⟨hkj, hrj⟩
  · omega
  · rcases hri with ⟨hki, hri⟩ | ⟨hki, hri⟩
    · rw [hri, hrj] at hrests
      have := congrArg List.length hrests
      rw [List.length_append, h5, h6] at this
      omega
    · rw [hri, hrj] at hrests
      have hdigits := List.append_cancel_right hrests
      have := congrArg spec_value hdigits
      rw [(toDigits_decimal _).2, (toDigits_decimal _).2] at this
      omega

/-- Witness of C31 (amended): the descriptors Lpkg/Name;, Lpkg/name;, Lfoo; and Lpkg/NAME;
get four names that differ also in lower case. -/
theorem C31_names_of_descriptors_without_dots_are_distinct_witness :
    ["Lpkg/Name;".toList, "Lpkg/name;".toList, "Lfoo;".toList, "Lpkg/NAME;".toList].length
      < 2147483648 ∧
    (∀ d ∈ ["Lpkg/Name;".toList, "Lpkg/name;".toList, "Lfoo;".toList, "Lpkg/NAME;".toList],
      '.' ∉ d) ∧
    (unique_output_filenames (fun _ => none)
      ["Lpkg/Name;".toList, "Lpkg/name;".toList, "Lfoo;".toList, "Lpkg/NAME;".toList]).map
      (fun name => name.map tolower) =
      ["pkg/name.smali".toList, "pkg/name.1.smali".toList, "foo.smali".toList,
        "pkg/name.2.smali".toList] ∧
    (unique_output_filenames (fun _ => none)
      ["Lpkg/Name;".toList, "Lpkg/name;".toList, "Lfoo;".toList,
        "Lpkg/NAME;".toList]).Pairwise (fun a b => a.map tolower ≠ b.map tolower) :=
  ⟨by decide, by decide, by decide,
    C31_names_of_descriptors_without_dots_are_distinct
      ["Lpkg/Name;".toList, "Lpkg/name;".toList, "Lfoo;".toList, "Lpkg/NAME;".toList]
      (by decide) (by decide)⟩

/-! The seeding of the table of locals (dex_file.cpp) -/

/-- One iteration of the loop that moves the seeded entries. -/
theorem shift_parameters_loop_succ (rc m : Nat) (li : Int) (locals : List LocalState) :
    shift_parameters_loop rc (m + 1) li locals =
      if spec_is_wide (locals.getD m empty_state).type_descriptor = true then
        if li - 1 = (m : Int) then locals
        else
          shift_parameters_loop rc m (li - 1 - 1)
            ((if 0 ≤ li - 1 ∧ li - 1 < (rc : Int) then
                locals.set (li - 1).toNat (locals.getD m empty_state)
              else locals).set m empty_state)
      else
        shift_parameters_loop rc m (li - 1)
          ((if 0 ≤ li ∧ li < (rc : Int) then locals.set li.toNat (locals.getD m empty_state)
            else locals).set m empty_state) := by
  have hwide : spec_is_wide (locals.getD m empty_state).type_descriptor = true ↔
      ((locals.getD m empty_state).type_descriptor = "J".toList ∨
        (locals.getD m empty_state).type_descriptor = "D".toList) := by
    simp [spec_is_wide]
  by_cases h : spec_is_wide (locals.getD m empty_state).type_descriptor = true
  · have h' := hwide.mp h
    rw [if_pos h]
    by_cases hb : li - 1 = (m : Int)
    · rw [if_pos hb]
      simp only [shift_parameters_loop, h', if_true, true_and, hb]
    · rw [if_neg hb]
      simp only [shift_parameters_loop, h', if_true, true_and, hb, if_false]
  · have h' : ¬ ((locals.getD m empty_state).type_descriptor = "J".toList ∨
        (locals.getD m empty_state).type_descriptor = "D".toList) := fun hp => h (hwide.mpr hp)
    rw [if_neg h]
    simp only [shift_parameters_loop, h', if_false, false_and]

/-- The registers of the arguments are as many as the words of the entries. -/
theorem spec_register_blocks_length (entries : List LocalState) :
    (spec_register_blocks entries).length = (entries.map spec_entry_words).sum := by
  induction entries with
  | nil => rfl
  | cons e es ih =>
    have hw : 1 ≤ spec_entry_words e := by
      unfold spec_entry_words; split_ifs <;> omega
    simp only [spec_register_blocks, List.flatMap_cons, List.length_append, List.length_cons,
      List.length_replicate, List.map_cons, List.sum_cons] at ih ⊢
    rw [ih]
    omega

/-- The registers of the arguments, entry by entry. -/
theorem spec_register_blocks_cons (e : LocalState) (es : List LocalState) :
    spec_register_blocks (e :: es) =
      e :: (List.replicate (spec_entry_words e - 1) empty_state ++ spec_register_blocks es) := by
  simp [spec_register_blocks, List.flatMap_cons]

/-- The registers of the arguments of two lists of entries. -/
theorem spec_register_blocks_append (es fs : List LocalState) :
    spec_register_blocks (es ++ fs) = spec_register_blocks es ++ spec_register_blocks fs := by
  simp [spec_register_blocks, List.flatMap_append]

/-- Entries that have as many words as they are many are all narrow: their registers are the
entries themselves. -/
theorem spec_register_blocks_narrow (entries : List LocalState)
    (h : (entries.map spec_entry_words).sum ≤ entries.length) :
    spec_register_blocks entries = entries := by
  induction entries with
  | nil => rfl
  | cons e es ih =>
    have hw : 1 ≤ spec_entry_words e := by
      unfold spec_entry_words; split_ifs <;> omega
    have hlen : es.length ≤ (es.map spec_entry_words).sum := by
      clear ih h
      induction es with
      | nil => simp
      | cons f fs ihf =>
        have hf : 1 ≤ spec_entry_words f := by
          unfold spec_entry_words; split_ifs <;> omega
        simp only [List.map_cons, List.sum_cons, List.length_cons]
        omega
    simp only [List.map_cons, List.sum_cons, List.length_cons] at h
    have he : spec_entry_words e = 1 := by omega
    rw [spec_register_blocks_cons, he, ih (by omega)]
    rfl

/-- Every list of entries has at least as many words as entries. -/
theorem length_le_words (entries : List LocalState) :
    entries.length ≤ (entries.map spec_entry_words).sum := by
  induction entries with
  | nil => simp
  | cons f fs ihf =>
    have hf : 1 ≤ spec_entry_words f := by
      unfold spec_entry_words; split_ifs <;> omega
    simp only [List.map_cons, List.sum_cons, List.length_cons]
    omega

/-- Writing into a run of empty registers. -/
theorem replicate_set (x : LocalState) :
    ∀ (g i : Nat), i < g →
      (List.replicate g empty_state).set i x =
        List.replicate i empty_state ++ x :: List.replicate (g - i - 1) empty_state := by
  intro g
  induction g with
  | zero => intro i hi; omega
  | succ g ih =>
    intro i hi
    cases i with
    | zero => simp [List.replicate_succ]
    | succ i =>
      have hsub : g + 1 - (i + 1) - 1 = g - i - 1 := by omega
      rw [List.replicate_succ, List.set_cons_succ, ih i (by omega), List.replicate_succ, hsub]
      rfl

/-- Writing an entry into the gap after the seeded entries and clearing the place of the last
seeded entry. -/
theorem set_in_gap (front tail : List LocalState) (p x : LocalState) (g i : Nat)
    (hi : i < g) :
    ((front ++ p :: (List.replicate g empty_state ++ tail)).set (front.length + 1 + i) x).set
        front.length empty_state =
      front ++ List.replicate (i + 1) empty_state ++
        x :: (List.replicate (g - i - 1) empty_state ++ tail) := by
  have h1 : (front ++ p :: (List.replicate g empty_state ++ tail)).set
      (front.length + 1 + i) x =
      front ++ p :: (List.replicate i empty_state ++
        x :: List.replicate (g - i - 1) empty_state ++ tail) := by
    have hsub : front.length + 1 + i - front.length = i + 1 := by omega
    rw [List.set_append_right _ _ (by omega), hsub, List.set_cons_succ,
      List.set_append_left _ _ (by rw [List.length_replicate]; exact hi),
      replicate_set x g i hi]
  rw [h1, List.set_append_right _ _ (le_refl _), Nat.sub_self, List.set_cons_zero,
    List.replicate_succ]
  simp only [List.append_assoc, List.cons_append]

/-- The loop that moves the seeded entries: from the entries `front` at the first registers,
a gap of g empty registers and the registers of the entries `back` at the end it comes to the
registers of all entries at the end of the table, when the words of all entries fit the
table. -/
theorem shift_parameters_loop_spec (rc : Nat) :
    ∀ (front back : List LocalState) (g : Nat), 1 ≤ g →
      rc = front.length + g + (back.map spec_entry_words).sum →
      ((front ++ back).map spec_entry_words).sum ≤ rc →
      shift_parameters_loop rc front.length (((front.length + g : Nat) : Int) - 1)
        (front ++ (List.replicate g empty_state ++ spec_register_blocks back)) =
      List.replicate (rc - ((front ++ back).map spec_entry_words).sum) empty_state ++
        spec_register_blocks (front ++ back) := by
  intro front
  induction front using List.reverseRecOn with
  | nil =>
    intro back g _ hrc _
    have hg : rc - (back.map spec_entry_words).sum = g := by
      simp only [List.length_nil, Nat.zero_add] at hrc
      omega
    simp only [List.length_nil, shift_parameters_loop, List.nil_append, hg]
  | append_singleton front p ih =>
    intro back g hg hrc hfit
    have hlen : (front ++ [p]).length = front.length + 1 := by simp
    have hlocals : front ++ [p] ++ (List.replicate g empty_state ++ spec_register_blocks back) =
        front ++ p :: (List.replicate g empty_state ++ spec_register_blocks back) := by simp
    have hcurrent : (front ++ p :: (List.replicate g empty_state ++
        spec_register_blocks back)).getD front.length empty_state = p := by
      rw [List.getD_eq_getElem?_getD, List.getElem?_append_right (le_refl _), Nat.sub_self]
      simp
    have hsum : ((front ++ [p] ++ back).map spec_entry_words).sum =
        (front.map spec_entry_words).sum + spec_entry_words p +
          (back.map spec_entry_words).sum := by
      simp only [List.map_append, List.sum_append, List.map_cons, List.map_nil, List.sum_cons,
        List.sum_nil]
      omega
    have hassoc : front ++ [p] ++ back = front ++ p :: back := by simp
    rw [hlen] at hrc ⊢
    rw [hlocals, shift_parameters_loop_succ, hcurrent]
    by_cases hw : spec_is_wide p.type_descriptor = true
    · have hwords : spec_entry_words p = 2 := by
        unfold spec_entry_words; rw [if_pos hw]
      rw [if_pos hw]
      by_cases hg1 : g = 1
      · subst hg1
        rw [if_pos (by push_cast; omega)]
        have hfront := length_le_words front
        rw [hsum, hwords] at hfit
        have hnarrow := spec_register_blocks_narrow front (by omega)
        have hzero : rc - ((front ++ [p] ++ back).map spec_entry_words).sum = 0 := by
          rw [hsum, hwords]; omega
        rw [hzero, spec_register_blocks_append, spec_register_blocks_append, hnarrow,
          spec_register_blocks_cons, hwords]
        simp [spec_register_blocks]
      · rw [if_neg (by push_cast; omega), if_pos (by constructor <;> (push_cast; omega))]
        have htoNat : (((front.length + 1 + g : Nat) : Int) - 1 - 1).toNat =
            front.length + 1 + (g - 2) := by omega
        rw [htoNat, set_in_gap front (spec_register_blocks back) p p g (g - 2) (by omega)]
        have hindex : ((front.length + 1 + g : Nat) : Int) - 1 - 1 - 1 =
            ((front.length + (g - 1) : Nat) : Int) - 1 := by omega
        have hgap : g - (g - 2) - 1 = 1 := by omega
        have hgap2 : g - 2 + 1 = g - 1 := by omega
        have hblocks : front ++ List.replicate (g - 1) empty_state ++
            p :: (List.replicate 1 empty_state ++ spec_register_blocks back) =
            front ++ (List.replicate (g - 1) empty_state ++ spec_register_blocks (p :: back)) := by
          rw [spec_register_blocks_cons, hwords, List.append_assoc]
        rw [hindex, hgap, hgap2, hblocks, hassoc]
        apply ih (p :: back) (g - 1) (by omega)
        · simp only [List.map_cons, List.sum_cons, hwords]
          omega
        · rw [← hassoc]; exact hfit
    · have hwords : spec_entry_words p = 1 := by
        unfold spec_entry_words; rw [if_neg hw]
      rw [if_neg hw, if_pos (by constructor <;> (push_cast; omega))]
      have htoNat : (((front.length + 1 + g : Nat) : Int) - 1).toNat =
          front.length + 1 + (g - 1) := by omega
      rw [htoNat, set_in_gap front (spec_register_blocks back) p p g (g - 1) (by omega)]
      have hindex : ((front.length + 1 + g : Nat) : Int) - 1 - 1 =
          ((front.length + g : Nat) : Int) - 1 := by omega
      have hgap : g - (g - 1) - 1 = 0 := by omega
      have hgap2 : g - 1 + 1 = g := by omega
      have hblocks : front ++ List.replicate g empty_state ++
          p :: (List.replicate 0 empty_state ++ spec_register_blocks back) =
          front ++ (List.replicate g empty_state ++ spec_register_blocks (p :: back)) := by
        rw [spec_register_blocks_cons, hwords, List.append_assoc]
      rw [hindex, hgap, hgap2, hblocks, hassoc]
      apply ih (p :: back) g hg
      · simp only [List.map_cons, List.sum_cons, hwords]
        omega
      · rw [← hassoc]; exact hfit

/-- The loop that seeds the parameters appends their entries to the seeded entries. -/
theorem seed_parameters_spec (rc : Nat) (parameter_names : List Str) :
    ∀ (types : List Str) (seeded : List LocalState) (g param_name_index : Nat),
      rc = seeded.length + g → types.length ≤ g →
      seed_parameters rc parameter_names types
        (seeded ++ List.replicate g empty_state, seeded.length, param_name_index) =
      (seeded ++ spec_named_entries parameter_names param_name_index types ++
          List.replicate (g - types.length) empty_state,
        seeded.length + types.length, param_name_index + types.length) := by
  intro types
  induction types with
  | nil =>
    intro seeded g pni _ _
    simp [seed_parameters, spec_named_entries]
  | cons t ts ih =>
    intro seeded g pni hrc hlen
    simp only [List.length_cons] at hlen
    have hname : (if pni < parameter_names.length then parameter_names.getD pni [] else []) =
        parameter_names.getD pni [] := by
      by_cases h : pni < parameter_names.length
      · rw [if_pos h]
      · rw [if_neg h, List.getD_eq_default _ _ (by omega)]
    have hset : (seeded ++ List.replicate g empty_state).set seeded.length
        (spec_started (parameter_names.getD pni []) t) =
        (seeded ++ [spec_started (parameter_names.getD pni []) t]) ++
          List.replicate (g - 1) empty_state := by
      obtain ⟨g', rfl⟩ : ∃ g', g = g' + 1 := ⟨g - 1, by omega⟩
      rw [List.set_append_right _ _ (le_refl _), Nat.sub_self, List.replicate_succ,
        List.set_cons_zero]
      simp
    have hstep := ih (seeded ++ [spec_started (parameter_names.getD pni []) t]) (g - 1)
      (pni + 1) (by simp only [List.length_append, List.length_cons, List.length_nil]; omega)
      (by omega)
    simp only [seed_parameters, hname]
    rw [if_pos (by omega)]
    show seed_parameters rc parameter_names ts
        ((seeded ++ List.replicate g empty_state).set seeded.length
          (spec_started (parameter_names.getD pni []) t), seeded.length + 1, pni + 1) = _
    rw [hset]
    have hlen1 : seeded.length + 1 =
        (seeded ++ [spec_started (parameter_names.getD pni []) t]).length := by simp
    rw [hlen1, hstep]
    have hsub : g - 1 - ts.length = g - (t :: ts).length := by
      simp only [List.length_cons]; omega
    have h2 : (seeded ++ [spec_started (parameter_names.getD pni []) t]).length + ts.length =
        seeded.length + (t :: ts).length := by
      simp only [List.length_append, List.length_cons, List.length_nil]; omega
    have h3 : pni + 1 + ts.length = pni + (t :: ts).length := by
      simp only [List.length_cons]; omega
    rw [hsub, h2, h3]
    simp only [spec_named_entries, List.append_assoc, List.singleton_append]

/-- The entries of the parameters: their number and their words. -/
theorem spec_named_entries_words (parameter_names : List Str) :
    ∀ (types : List Str) (start : Nat),
      (spec_named_entries parameter_names start types).length = types.length ∧
      ((spec_named_entries parameter_names start types).map spec_entry_words).sum =
        (types.map (fun type => if spec_is_wide type then 2 else 1)).sum := by
  intro types
  induction types with
  | nil => intro _; exact ⟨rfl, rfl⟩
  | cons t ts ih =>
    intro start
    obtain ⟨h1, h2⟩ := ih (start + 1)
    simp only [spec_named_entries, List.length_cons, h1, List.map_cons, List.sum_cons, h2,
      true_and]
    rfl

/-- An entry stands in the registers of the arguments after the words of the entries before
it. -/
theorem spec_register_blocks_entry :
    ∀ (entries : List LocalState) (k : Nat) (entry : LocalState),
      entries[k]? = some entry →
      (spec_register_blocks entries)[spec_words_before entries k]? = some entry := by
  intro entries
  induction entries with
  | nil => intro k entry h; simp at h
  | cons a rest ih =>
    intro k entry h
    have hw : 1 ≤ spec_entry_words a := by
      unfold spec_entry_words; split_ifs <;> omega
    cases k with
    | zero =>
      simp only [List.getElem?_cons_zero, Option.some.injEq] at h
      subst h
      simp [spec_register_blocks_cons, spec_words_before]
    | succ k =>
      rw [List.getElem?_cons_succ] at h
      have hbefore : spec_words_before (a :: rest) (k + 1) =
          spec_entry_words a + spec_words_before rest k := by
        simp [spec_words_before]
      have hsplit : spec_register_blocks (a :: rest) =
          (a :: List.replicate (spec_entry_words a - 1) empty_state) ++
            spec_register_blocks rest := by
        rw [spec_register_blocks_cons]; rfl
      have hlen : (a :: List.replicate (spec_entry_words a - 1) empty_state).length =
          spec_entry_words a := by
        simp only [List.length_cons, List.length_replicate]; omega
      rw [hbefore, hsplit, List.getElem?_append_right (by omega), hlen,
        Nat.add_sub_cancel_left]
      exact ih k entry h

/-- A register of the arguments that is not the first register of an entry is empty. -/
theorem spec_register_blocks_other :
    ∀ (entries : List LocalState) (r : Nat), r < (spec_register_blocks entries).length →
      (∀ k, k < entries.length → r ≠ spec_words_before entries k) →
      (spec_register_blocks entries)[r]? = some empty_state := by
  intro entries
  induction entries with
  | nil => intro r h; simp [spec_register_blocks] at h
  | cons a rest ih =>
    intro r hr hne
    have hw : 1 ≤ spec_entry_words a := by
      unfold spec_entry_words; split_ifs <;> omega
    have hsplit : spec_register_blocks (a :: rest) =
        (a :: List.replicate (spec_entry_words a - 1) empty_state) ++
          spec_register_blocks rest := by
      rw [spec_register_blocks_cons]; rfl
    have hlen : (a :: List.replicate (spec_entry_words a - 1) empty_state).length =
        spec_entry_words a := by
      simp only [List.length_cons, List.length_replicate]; omega
    have h0 : r ≠ 0 := by
      have := hne 0 (by simp)
      simpa [spec_words_before] using this
    rw [hsplit] at hr ⊢
    by_cases hlt : r < spec_entry_words a
    · rw [List.getElem?_append_left (by omega)]
      obtain ⟨r', rfl⟩ : ∃ r', r = r' + 1 := ⟨r - 1, by omega⟩
      rw [List.getElem?_cons_succ, List.getElem?_replicate, if_pos (by omega)]
    · rw [List.getElem?_append_right (by omega), hlen]
      apply ih
      · rw [List.length_append, hlen] at hr
        omega
      · intro k hk hk2
        have := hne (k + 1) (by simp; omega)
        apply this
        simp only [spec_words_before, List.take_succ_cons, List.map_cons, List.sum_cons]
        simp only [spec_words_before] at hk2
        omega

/-- The table after the seeding of the parameters and the move to the last registers, from
a table that holds the entries `first` and empty registers. -/
theorem seeded_table_spec (registers_size ins_size : Nat) (parameter_names types : List Str)
    (first : List LocalState) (hsize : ins_size ≤ registers_size)
    (hwords : ((first ++ spec_named_entries parameter_names 0 types).map
      spec_entry_words).sum = ins_size) :
    (if (seed_parameters registers_size parameter_names types
          (first ++ List.replicate (registers_size - first.length) empty_state,
            first.length, 0)).2.1 < registers_size then
        shift_parameters_loop registers_size
          (seed_parameters registers_size parameter_names types
            (first ++ List.replicate (registers_size - first.length) empty_state,
              first.length, 0)).2.1 ((registers_size : Int) - 1)
          (seed_parameters registers_size parameter_names types
            (first ++ List.replicate (registers_size - first.length) empty_state,
              first.length, 0)).1
      else
        (seed_parameters registers_size parameter_names types
          (first ++ List.replicate (registers_size - first.length) empty_state,
            first.length, 0)).1) =
      List.replicate (registers_size - ins_size) empty_state ++
        spec_register_blocks (first ++ spec_named_entries parameter_names 0 types) := by
  have hlen := length_le_words (first ++ spec_named_entries parameter_names 0 types)
  have hnamed := (spec_named_entries_words parameter_names types 0).1
  have hcount : (first ++ spec_named_entries parameter_names 0 types).length =
      first.length + types.length := by
    rw [List.length_append, hnamed]
  have hparams := seed_parameters_spec registers_size parameter_names types first
    (registers_size - first.length) 0 (by omega) (by omega)
  have hgap : registers_size - first.length - types.length =
      registers_size - (first ++ spec_named_entries parameter_names 0 types).length := by
    omega
  rw [hparams, hgap, ← hcount]
  simp only
  by_cases hlt : (first ++ spec_named_entries parameter_names 0 types).length < registers_size
  · rw [if_pos hlt]
    have hshift := shift_parameters_loop_spec registers_size
      (first ++ spec_named_entries parameter_names 0 types) []
      (registers_size - (first ++ spec_named_entries parameter_names 0 types).length)
      (by omega) (by simp only [List.map_nil, List.sum_nil]; omega)
      (by rw [List.append_nil, hwords]; exact hsize)
    have hindex : (((first ++ spec_named_entries parameter_names 0 types).length +
        (registers_size - (first ++ spec_named_entries parameter_names 0 types).length) : Nat)
          : Int) - 1 = (registers_size : Int) - 1 := by omega
    have hnil : spec_register_blocks [] = [] := rfl
    rw [hindex, hnil, List.append_nil, List.append_nil, hwords] at hshift
    exact hshift
  · rw [if_neg hlt]
    have hnarrow := spec_register_blocks_narrow
      (first ++ spec_named_entries parameter_names 0 types) (by omega)
    have h0 : registers_size - (first ++ spec_named_entries parameter_names 0 types).length =
        0 := by omega
    have h1 : registers_size - ins_size = 0 := by omega
    rw [hnarrow, h0, h1]
    simp

/-- The table of locals when the main loop of parse_debug_info starts, for a method whose
entries have as many words as the method has incoming registers: empty registers, then the
registers of the arguments. -/
theorem initial_locals_spec (method : DexMethod) (registers_size ins_size : Nat)
    (parameter_names : List Str) (hsize : ins_size ≤ registers_size)
    (hwords : ((spec_parameter_entries method parameter_names).map spec_entry_words).sum =
      ins_size) :
    initial_locals registers_size (some method) parameter_names =
      List.replicate (registers_size - ins_size) empty_state ++
        spec_register_blocks (spec_parameter_entries method parameter_names) := by
  have hlen := length_le_words (spec_parameter_entries method parameter_names)
  by_cases hs : method.access_flags &&& ACC_STATIC = 0
  · have hentries : spec_parameter_entries method parameter_names =
        [spec_started "this".toList method.class_name] ++
          spec_named_entries parameter_names 0 (parse_parameter_types method.signature) := by
      unfold spec_parameter_entries
      rw [if_pos hs]
    rw [hentries] at hwords hlen ⊢
    have hpos : 0 < registers_size := by
      simp only [List.length_append, List.length_cons, List.length_nil] at hlen
      omega
    have hseed : seed_this registers_size (some method)
        (List.replicate registers_size empty_state) =
        ([spec_started "this".toList method.class_name] ++
          List.replicate (registers_size -
            [spec_started "this".toList method.class_name].length) empty_state,
          [spec_started "this".toList method.class_name].length) := by
      obtain ⟨r, rfl⟩ : ∃ r, registers_size = r + 1 := ⟨registers_size - 1, by omega⟩
      simp only [seed_this, hs, if_true, List.replicate_succ, List.set_cons_zero,
        Nat.zero_lt_succ, List.length_cons, List.length_nil, Nat.zero_add, Nat.add_sub_cancel,
        List.singleton_append]
      rfl
    unfold initial_locals
    simp only [hseed]
    exact seeded_table_spec registers_size ins_size parameter_names _ _ hsize hwords
  · have hentries : spec_parameter_entries method parameter_names =
        [] ++ spec_named_entries parameter_names 0 (parse_parameter_types method.signature) := by
      unfold spec_parameter_entries
      rw [if_neg hs]
    rw [hentries] at hwords ⊢
    have hseed : seed_this registers_size (some method)
        (List.replicate registers_size empty_state) =
        ([] ++ List.replicate (registers_size - ([] : List LocalState).length) empty_state,
          ([] : List LocalState).length) := by
      simp only [seed_this, hs, if_false, List.nil_append, List.length_nil, Nat.sub_zero]
    unfold initial_locals
    simp only [hseed]
    exact seeded_table_spec registers_size ins_size parameter_names _ _ hsize hwords

/-- The words of the entries of a method are its argument words, when the class of a method
that is not static is not one of the wide types. -/
theorem spec_parameter_entries_words (method : DexMethod) (parameter_names : List Str)
    (hclass : method.access_flags &&& ACC_STATIC = 0 → spec_is_wide method.class_name = false) :
    ((spec_parameter_entries method parameter_names).map spec_entry_words).sum =
      spec_argument_words method := by
  unfold spec_parameter_entries spec_argument_words
  rw [List.map_append, List.sum_append, (spec_named_entries_words _ _ _).2]
  by_cases hs : method.access_flags &&& ACC_STATIC = 0
  · simp [hs, spec_entry_words, spec_started, hclass hs]
  · simp [hs]

/-- Counterexample to C35 as stated: a method that is not static, has no parameters and
belongs to a class with the name `J` has one argument word; with three registers, one of them
incoming, `this` is put into register 1, not into register 2. -/
theorem C35_this_of_a_class_named_J_takes_two_registers :
    spec_argument_words (method_of_class "J".toList 0 "()V") = 1 ∧
    spec_words_before (spec_parameter_entries (method_of_class "J".toList 0 "()V") []) 0 = 0 ∧
    initial_locals 3 (some (method_of_class "J".toList 0 "()V")) [] =
      [empty_state, spec_started "this".toList "J".toList, empty_state] ∧
    (initial_locals 3 (some (method_of_class "J".toList 0 "()V")) [])[3 - 1 + 0]? =
      some empty_state := by
  decide

/-- C35 (amended): for a method with ins_size at most registers_size whose ins_size is its
number of argument words, and whose class, when the method is not static, is not named `J` or
`D`, the table of locals with which the main loop of parse_debug_info starts has
registers_size entries: `this` and each parameter at register registers_size - ins_size plus
the number of argument words before it, and an empty entry at every other register. -/
theorem C35_parameters_are_seeded_at_the_last_registers (method : DexMethod)
    (registers_size ins_size : Nat) (parameter_names : List Str)
    (hsize : ins_size ≤ registers_size) (hwords : ins_size = spec_argument_words method)
    (hclass : method.access_flags &&& ACC_STATIC = 0 → spec_is_wide method.class_name = false) :
    initial_locals registers_size (some method) parameter_names =
      List.replicate (registers_size - ins_size) empty_state ++
        spec_register_blocks (spec_parameter_entries method parameter_names) ∧
    (initial_locals registers_size (some method) parameter_names).length = registers_size ∧
    (∀ k entry, (spec_parameter_entries method parameter_names)[k]? = some entry →
      (initial_locals registers_size (some method) parameter_names)[registers_size - ins_size +
        spec_words_before (spec_parameter_entries method parameter_names) k]? = some entry) ∧
    (∀ r, r < registers_size →
      (∀ k, k < (spec_parameter_entries method parameter_names).length →
        r ≠ registers_size - ins_size +
          spec_words_before (spec_parameter_entries method parameter_names) k) →
      (initial_locals registers_size (some method) parameter_names)[r]? = some empty_state) := by
  have hsum := spec_parameter_entries_words method parameter_names hclass
  have htable := initial_locals_spec method registers_size ins_size parameter_names hsize
    (by rw [hsum, hwords])
  have hblocks := spec_register_blocks_length (spec_parameter_entries method parameter_names)
  rw [hsum, ← hwords] at hblocks
  refine ⟨htable, ?_, ?_, ?_⟩
  · rw [htable, List.length_append, List.length_replicate, hblocks]
    omega
  · intro k entry hk
    rw [htable, List.getElem?_append_right (by rw [List.length_replicate]; omega),
      List.length_replicate, Nat.add_sub_cancel_left]
    exact spec_register_blocks_entry _ k entry hk
  · intro r hr hne
    rw [htable]
    by_cases hlt : r < registers_size - ins_size
    · rw [List.getElem?_append_left (by rw [List.length_replicate]; exact hlt),
        List.getElem?_replicate, if_pos hlt]
    · rw [List.getElem?_append_right (by rw [List.length_replicate]; omega),
        List.length_replicate]
      apply spec_register_blocks_other
      · rw [hblocks]; omega
      · intro k hk hk2
        exact hne k hk (by omega)

/-- Witness of C35 (amended): a method of the class `Lfoo;` that is not static, with the
parameters J, I, Ljava/lang/String; and D, the names `a` and `b`, nine registers and seven
argument words. -/
theorem C35_parameters_are_seeded_at_the_last_registers_witness :
    7 ≤ 9 ∧
    parse_parameter_types "(JILjava/lang/String;D)V".toList =
      ["J".toList, "I".toList, "Ljava/lang/String;".toList, "D".toList] ∧
    7 = spec_argument_words (method_of_class "Lfoo;".toList 0 "(JILjava/lang/String;D)V") ∧
    spec_is_wide (method_of_class "Lfoo;".toList 0 "(JILjava/lang/String;D)V").class_name =
      false ∧
    initial_locals 9 (some (method_of_class "Lfoo;".toList 0 "(JILjava/lang/String;D)V"))
      ["a".toList, "b".toList] =
      [empty_state, empty_state, spec_started "this".toList "Lfoo;".toList,
        spec_started "a".toList "J".toList, empty_state, spec_started "b".toList "I".toList,
        spec_started [] "Ljava/lang/String;".toList, spec_started [] "D".toList,
        empty_state] ∧
    initial_locals 9 (some (method_of_class "Lfoo;".toList 0 "(JILjava/lang/String;D)V"))
      ["a".toList, "b".toList] =
      List.replicate (9 - 7) empty_state ++
        spec_register_blocks (spec_parameter_entries
          (method_of_class "Lfoo;".toList 0 "(JILjava/lang/String;D)V")
          ["a".toList, "b".toList]) :=
  ⟨by decide, by decide, by decide, by decide, by decide,
    (C35_parameters_are_seeded_at_the_last_registers
      (method_of_class "Lfoo;".toList 0 "(JILjava/lang/String;D)V") 9 7
      ["a".toList, "b".toList] (by decide) (by decide) (fun _ => by decide)).1⟩

end Baksmali
